import Mathlib

/-!
BansheeSBGen, the interop binding generator (`Source/generator.cpp`).

A shallow embedding of the type classifier (`getInteropCppVarType`,
`getAsManagedToCppArgument`, `getAsCppToManagedArgument`), of the passes of
`postProcessFileInfos`, and of the generators of the native glue
(`generateMethodBodyBlockForParam`, `generateFieldConvertBlock`, `generateCppMethodBody`,
`generateCppHeaderOutput`, `generateCppSourceOutput`) and of the managed constructors,
followed by the properties proved about them.

Conventions of the embedding:
* `std::string` is `String`, `std::vector` / `SmallVector` is `List`,
  `int` flag words are `Nat` bit masks; where the code measures or cuts a string
  (`wordWrap`), the string is the list of its bytes, and an `int` result is taken
  modulo 2^32 (`wrapInt32`);
* a failed `assert` and an out-of-range `operator[]` are `none`;
* text written to `outs()` (diagnostics) is not part of the state.
-/

namespace BansheeSBGen

/-! ## Declarations of `common.h` used by `generator.cpp` -/

/-- Modelled from the spec: `enum class ParsedType` of `common.h` (absent from the
sources), the closed set of type categories; the constructors are the ten names
`generator.cpp` switches over. -/
inductive ParsedType where
  | Component
  | SceneObject
  | Resource
  | Class
  | Struct
  | Enum
  | Builtin
  | String
  | WString
  | ScriptObject
  deriving DecidableEq, Repr

/-- Modelled from the spec: `enum class TypeFlags` of `common.h` (absent from the
sources), "orthogonal bits", one bit per flag. -/
def TypeFlags.Builtin : Nat := 1

/-- Modelled from the spec: `TypeFlags::Output` of `common.h`, the IsOutput bit. -/
def TypeFlags.Output : Nat := 2

/-- Modelled from the spec: `TypeFlags::Array` of `common.h`, the IsArray bit. -/
def TypeFlags.Array : Nat := 4

/-- Modelled from the spec: `TypeFlags::SrcPtr` of `common.h`, ownership by raw pointer. -/
def TypeFlags.SrcPtr : Nat := 8

/-- Modelled from the spec: `TypeFlags::SrcSPtr` of `common.h`, ownership by shared pointer. -/
def TypeFlags.SrcSPtr : Nat := 16

/-- Modelled from the spec: `TypeFlags::SrcRef` of `common.h`, ownership by reference. -/
def TypeFlags.SrcRef : Nat := 32

/-- Modelled from the spec: `TypeFlags::SrcRHandle` of `common.h`, ownership by resource handle. -/
def TypeFlags.SrcRHandle : Nat := 64

/-- Modelled from the spec: `TypeFlags::SrcGHandle` of `common.h`, ownership by game-object
handle. -/
def TypeFlags.SrcGHandle : Nat := 128

/-- Modelled from the spec: `TypeFlags::ComplexStruct` of `common.h`, the derived marking set
by the struct interop planner. -/
def TypeFlags.ComplexStruct : Nat := 2048

/-- Modelled from the spec: `isArray` of `common.h`, the IsArray bit test. -/
def isArray (flags : Nat) : Bool := (flags &&& TypeFlags.Array) != 0

/-- Modelled from the spec: `isOutput` of `common.h`, the IsOutput bit test. -/
def isOutput (flags : Nat) : Bool := (flags &&& TypeFlags.Output) != 0

/-- Modelled from the spec: `isComplexStruct` of `common.h`, the ComplexStruct bit test. -/
def isComplexStruct (flags : Nat) : Bool := (flags &&& TypeFlags.ComplexStruct) != 0

/-- Modelled from the spec: `isSrcPointer` of `common.h`, the raw-pointer ownership test. -/
def isSrcPointer (flags : Nat) : Bool := (flags &&& TypeFlags.SrcPtr) != 0

/-- Modelled from the spec: `isSrcReference` of `common.h`, the reference ownership test. -/
def isSrcReference (flags : Nat) : Bool := (flags &&& TypeFlags.SrcRef) != 0

/-- Modelled from the spec: `isSrcSPtr` of `common.h`, the shared-pointer ownership test. -/
def isSrcSPtr (flags : Nat) : Bool := (flags &&& TypeFlags.SrcSPtr) != 0

/-- Modelled from the spec: `isSrcRHandle` of `common.h`, the resource-handle ownership test. -/
def isSrcRHandle (flags : Nat) : Bool := (flags &&& TypeFlags.SrcRHandle) != 0

/-- Modelled from the spec: `isSrcGHandle` of `common.h`, the game-object-handle ownership
test. -/
def isSrcGHandle (flags : Nat) : Bool := (flags &&& TypeFlags.SrcGHandle) != 0

/-- Modelled from the spec: `isSrcValue` of `common.h`: the value is owned by value when no
other ownership bit is set. -/
def isSrcValue (flags : Nat) : Bool :=
  (flags &&& (TypeFlags.SrcPtr ||| TypeFlags.SrcRef ||| TypeFlags.SrcSPtr |||
    TypeFlags.SrcRHandle ||| TypeFlags.SrcGHandle)) == 0

/-- The native ownership kinds of the data model (spec, section 3). -/
inductive Ownership where
  | RawPointer
  | ReferenceOrValue
  | SharedPointer
  | ResourceHandle
  | GameObjectHandle
  deriving DecidableEq, Repr

/-- Whether a flag word carries the given ownership kind, read through the predicates the
generator itself uses (`isSrcReference(flags) || isSrcValue(flags)` for reference/value). -/
def hasOwnership (flags : Nat) : Ownership → Bool
  | .RawPointer => isSrcPointer flags
  | .ReferenceOrValue => isSrcReference flags || isSrcValue flags
  | .SharedPointer => isSrcSPtr flags
  | .ResourceHandle => isSrcRHandle flags
  | .GameObjectHandle => isSrcGHandle flags

/-- The flag word carries exactly one ownership kind, namely `k`. -/
def ownedExactlyBy (flags : Nat) (k : Ownership) : Bool :=
  [Ownership.RawPointer, Ownership.ReferenceOrValue, Ownership.SharedPointer,
    Ownership.ResourceHandle, Ownership.GameObjectHandle].all
    (fun k' => hasOwnership flags k' == decide (k' = k))

/-! ## Type classifier -/

/-- The function `getStructInteropType` (generator.cpp:4). -/
def getStructInteropType (name : String) : String :=
  "__" ++ name ++ "Interop"

/-- The function `getInteropCppVarType` (generator.cpp:9); `forStruct` defaults to `false`
in the source and is passed explicitly here. -/
def getInteropCppVarType (typeName : String) (type : ParsedType) (flags : Nat)
    (forStruct : Bool) : String :=
  if isArray flags then
    if isOutput flags && !forStruct then "MonoArray**" else "MonoArray*"
  else
    match type with
    | .Builtin | .Enum =>
      if isOutput flags && !forStruct then typeName ++ "*" else typeName
    | .Struct =>
      if isComplexStruct flags then
        if forStruct then getStructInteropType typeName
        else getStructInteropType typeName ++ "*"
      else
        if forStruct then typeName else typeName ++ "*"
    | .String | .WString =>
      if isOutput flags && !forStruct then "MonoString**" else "MonoString*"
    | _ =>
      if isOutput flags && !forStruct then "MonoObject**" else "MonoObject*"

/-- The lambda `getArgumentPlain` of `getAsManagedToCppArgument` (generator.cpp:93); the
`assert` on the handle and shared-pointer kinds is the `none` result. -/
def getArgumentPlain (name : String) (flags : Nat) (isPtr : Bool) : Option String :=
  if !(!isSrcRHandle flags && !isSrcGHandle flags && !isSrcSPtr flags) then none
  else if isSrcPointer flags then some ((if isPtr then "" else "&") ++ name)
  else if isSrcReference flags || isSrcValue flags then some ((if isPtr then "*" else "") ++ name)
  else some name

/-- The function `getAsManagedToCppArgument` (generator.cpp:91). `methodName` only feeds the
diagnostic and is dropped; `none` is a failed `assert`. -/
def getAsManagedToCppArgument (name : String) (type : ParsedType) (flags : Nat) :
    Option String :=
  match type with
  | .Builtin | .Enum => getArgumentPlain name flags (isOutput flags)
  | .Struct => getArgumentPlain name flags true
  | .ScriptObject => if isOutput flags then some ("&" ++ name) else some name
  | .String | .WString => getArgumentPlain name flags false
  | .Component | .SceneObject | .Resource =>
    if isSrcRHandle flags || isSrcGHandle flags then some name
    else if isSrcSPtr flags then some (name ++ ".getInternalPtr()")
    else if isSrcPointer flags then some (name ++ ".get()")
    else if isSrcReference flags || isSrcValue flags then some ("*" ++ name)
    else some name
  | .Class =>
    if !(!isSrcRHandle flags && !isSrcGHandle flags) then none
    else if isSrcPointer flags then some (name ++ ".get()")
    else if isSrcSPtr flags then some name
    else if isSrcReference flags || isSrcValue flags then some ("*" ++ name)
    else some name

/-- The function `getAsCppToManagedArgument` (generator.cpp:166). `methodName` only feeds the
diagnostic and is dropped. -/
def getAsCppToManagedArgument (name : String) (type : ParsedType) (flags : Nat) : String :=
  match type with
  | .Builtin | .Enum =>
    if isSrcPointer flags then "*" ++ name
    else if isSrcReference flags || isSrcValue flags then name
    else name
  | .Struct =>
    if isSrcPointer flags then name
    else if isSrcReference flags || isSrcValue flags then "&" ++ name
    else name
  | .ScriptObject | .String | .WString | .Component | .SceneObject | .Resource | .Class =>
    name

/-! ## Data model -/

/-- Modelled from the spec: `enum class MethodFlags` of `common.h` (absent from the sources),
one bit per member of the flag set {Static, Constructor, PropertyGetter, PropertySetter,
External, InteropOnly}. -/
def MethodFlags.Static : Nat := 1

/-- Modelled from the spec: `MethodFlags::Constructor` of `common.h`. -/
def MethodFlags.Constructor : Nat := 2

/-- Modelled from the spec: `MethodFlags::PropertyGetter` of `common.h`. -/
def MethodFlags.PropertyGetter : Nat := 4

/-- Modelled from the spec: `MethodFlags::PropertySetter` of `common.h`. -/
def MethodFlags.PropertySetter : Nat := 8

/-- Modelled from the spec: `MethodFlags::External` of `common.h`. -/
def MethodFlags.External : Nat := 16

/-- Modelled from the spec: `MethodFlags::InteropOnly` of `common.h`. -/
def MethodFlags.InteropOnly : Nat := 32

/-- Modelled from the spec: `enum class CSVisibility` of `common.h`, the visibility of a
managed declaration. -/
inductive CSVisibility where
  | Public
  | Internal
  | Private
  deriving DecidableEq, Repr

/-- Modelled from the spec: `struct UserTypeInfo` of `common.h`, the entry of the
name-to-category lookup; the fields are the ones `generator.cpp` reads. -/
structure UserTypeInfo where
  scriptName : String
  type : ParsedType
  declFile : String
  destFile : String
  deriving DecidableEq, Repr

/-- Modelled from the spec: a parameter comment of `CommentEntry` (`common.h`): the parameter
name and its paragraphs. -/
structure CommentParamEntry where
  name : String
  comments : List String
  deriving DecidableEq, Repr

/-- Modelled from the spec: `struct CommentEntry` of `common.h`: brief text, parameter
comments and return comments. -/
structure CommentEntry where
  brief : List String
  params : List CommentParamEntry
  returns : List String
  deriving DecidableEq, Repr

/-- Modelled from the spec: `struct VarInfo` of `common.h`: a parameter or a struct field. -/
structure VarInfo where
  name : String
  type : String
  defaultValue : String
  flags : Nat
  deriving DecidableEq, Repr

/-- Modelled from the spec: `struct MethodInfo` of `common.h`, with the fields `generator.cpp`
reads and writes. -/
structure MethodInfo where
  sourceName : String
  interopName : String
  scriptName : String
  visibility : CSVisibility
  returnInfo : VarInfo
  paramInfos : List VarInfo
  documentation : CommentEntry
  externalClass : String
  flags : Nat
  deriving DecidableEq, Repr

/-- Modelled from the spec: `struct PropertyInfo` of `common.h`, derived from matched
getter/setter methods. -/
structure PropertyInfo where
  name : String
  type : String
  getter : String
  setter : String
  typeFlags : Nat
  isStatic : Bool
  visibility : CSVisibility
  documentation : CommentEntry
  deriving DecidableEq, Repr

/-- Modelled from the spec: `struct ClassInfo` of `common.h`, with the fields `generator.cpp`
reads and writes. -/
structure ClassInfo where
  name : String
  visibility : CSVisibility
  flags : Nat
  ns : List String
  baseClass : String
  ctorInfos : List MethodInfo
  propertyInfos : List PropertyInfo
  methodInfos : List MethodInfo
  eventInfos : List MethodInfo
  documentation : CommentEntry
  deriving DecidableEq, Repr

/-- Modelled from the spec: a struct constructor of `common.h`: its parameters, the map
from field name to source parameter name, and its documentation. -/
structure SimpleConstructorInfo where
  params : List VarInfo
  fieldAssignments : List (String × String)
  documentation : CommentEntry
  deriving DecidableEq, Repr

/-- Modelled from the spec: `struct StructInfo` of `common.h`, with the fields
`generator.cpp` reads and writes. -/
structure StructInfo where
  name : String
  interopName : String
  visibility : CSVisibility
  ctors : List SimpleConstructorInfo
  fields : List VarInfo
  requiresInterop : Bool
  documentation : CommentEntry
  ns : List String
  deriving DecidableEq, Repr

/-! ## `postProcessFileInfos`: unique interop names (generator.cpp:785-820) -/

/-- The library function `std::to_string` on the non-negative `int counter`: its decimal
numeral. -/
def to_string (counter : Nat) : String := Nat.repr counter

/-- The `while (true)` loop of the lambda `generateInteropName` (generator.cpp:797-805), with
the loop state `(counter, interopName)`; `usedNames` is the `std::unordered_set`, read only
through membership. The loop has no bound in the source: `fuel` counts the iterations allowed
and `none` means they ran out. `counter` never exceeds the number of used names, so the `int`
is an unbounded `Nat` here. -/
def generateInteropNameLoop (usedNames : List String) (sourceName : String) :
    Nat → Nat → String → Option String
  | 0, _, _ => none
  | fuel + 1, counter, interopName =>
    if interopName ∈ usedNames then
      generateInteropNameLoop usedNames sourceName fuel (counter + 1)
        (sourceName ++ to_string counter)
    else some interopName

/-- The lambda `generateInteropName` (generator.cpp:793-809): the name found by the loop is
inserted into `usedNames` and stored in the method. The loop is given
`usedNames.length + 2` iterations, which always suffice (`generateInteropName_isSome`). -/
def generateInteropName (usedNames : List String) (methodInfo : MethodInfo) :
    Option (List String × MethodInfo) :=
  match generateInteropNameLoop usedNames methodInfo.sourceName (usedNames.length + 2) 0
      methodInfo.sourceName with
  | none => none
  | some interopName =>
    some (interopName :: usedNames, { methodInfo with interopName := interopName })

/-- One of the three `for` loops over a method list (generator.cpp:811-818), threading
`usedNames`. -/
def generateInteropNames (usedNames : List String) :
    List MethodInfo → Option (List String × List MethodInfo)
  | [] => some (usedNames, [])
  | methodInfo :: rest =>
    match generateInteropName usedNames methodInfo with
    | none => none
    | some (usedNames1, methodInfo1) =>
      match generateInteropNames usedNames1 rest with
      | none => none
      | some (usedNames2, rest1) => some (usedNames2, methodInfo1 :: rest1)

/-- The body of the per-class loop of the interop-name pass (generator.cpp:789-819):
`usedNames.clear()`, then methods, constructors and events in this order. -/
def assignInteropNames (classInfo : ClassInfo) : Option ClassInfo :=
  match generateInteropNames [] classInfo.methodInfos with
  | none => none
  | some (used1, methodInfos) =>
    match generateInteropNames used1 classInfo.ctorInfos with
    | none => none
    | some (used2, ctorInfos) =>
      match generateInteropNames used2 classInfo.eventInfos with
      | none => none
      | some (_, eventInfos) =>
        some { classInfo with
          methodInfos := methodInfos, ctorInfos := ctorInfos, eventInfos := eventInfos }

/-- All interop names of a class: methods, constructors and events taken together. -/
def ClassInfo.interopNames (classInfo : ClassInfo) : List String :=
  (classInfo.methodInfos ++ classInfo.ctorInfos ++ classInfo.eventInfos).map
    (fun m => m.interopName)

/-! ## `postProcessFileInfos`: property synthesis (generator.cpp:822-889) -/

/-- The local `isGetter` of the property loop (generator.cpp:829). -/
def isGetter (methodInfo : MethodInfo) : Bool :=
  (methodInfo.flags &&& MethodFlags.PropertyGetter) != 0

/-- The local `isSetter` of the property loop (generator.cpp:830). -/
def isSetter (methodInfo : MethodInfo) : Bool :=
  (methodInfo.flags &&& MethodFlags.PropertySetter) != 0

/-- The value stored in `propertyInfo.isStatic` (generator.cpp:838): the Static bit of the
method flags converted to `bool`. -/
def isStatic (methodInfo : MethodInfo) : Bool :=
  (methodInfo.flags &&& MethodFlags.Static) != 0

/-- The local `propertyInfo` built from an accessor (generator.cpp:835-852). A setter reads
`paramInfos[0]`; on an empty parameter list that read is out of range, the `none` result. -/
def makePropertyInfo (methodInfo : MethodInfo) : Option PropertyInfo :=
  let isStatic : Bool := isStatic methodInfo
  if isGetter methodInfo then
    some { name := methodInfo.scriptName, type := methodInfo.returnInfo.type,
           getter := methodInfo.interopName, setter := "",
           typeFlags := methodInfo.returnInfo.flags, isStatic := isStatic,
           visibility := methodInfo.visibility, documentation := methodInfo.documentation }
  else
    match methodInfo.paramInfos with
    | [] => none
    | param0 :: _ =>
      some { name := methodInfo.scriptName, type := param0.type,
             getter := "", setter := methodInfo.interopName,
             typeFlags := param0.flags, isStatic := isStatic,
             visibility := methodInfo.visibility, documentation := methodInfo.documentation }

/-- The `else` branch taken when a property of the same name exists (generator.cpp:863-886):
on a type or static-ness mismatch the existing property is left alone (`continue`),
otherwise the accessor is merged into it. -/
def mergeProperty (existingInfo propertyInfo : PropertyInfo) : PropertyInfo :=
  if existingInfo.type ≠ propertyInfo.type ∨ existingInfo.isStatic ≠ propertyInfo.isStatic then
    existingInfo
  else if !propertyInfo.getter.isEmpty then
    { existingInfo with
      getter := propertyInfo.getter
      documentation :=
        if existingInfo.documentation.brief.isEmpty then propertyInfo.documentation
        else existingInfo.documentation }
  else
    { existingInfo with
      setter := propertyInfo.setter
      documentation :=
        if !propertyInfo.documentation.brief.isEmpty then propertyInfo.documentation
        else existingInfo.documentation }

/-- The `std::find_if` by name over `propertyInfos` and what follows it
(generator.cpp:854-886): the first property of that name is merged in place, and when there is
none the new property is pushed at the back. -/
def recordProperty (propertyInfo : PropertyInfo) : List PropertyInfo → List PropertyInfo
  | [] => [propertyInfo]
  | info :: rest =>
    if propertyInfo.name = info.name then mergeProperty info propertyInfo :: rest
    else info :: recordProperty propertyInfo rest

/-- One iteration of the loop over `methodInfos` (generator.cpp:827-887) on the property list
of the class. -/
def propertyStep (propertyInfos : List PropertyInfo) (methodInfo : MethodInfo) :
    Option (List PropertyInfo) :=
  if !isGetter methodInfo && !isSetter methodInfo then some propertyInfos
  else
    match makePropertyInfo methodInfo with
    | none => none
    | some propertyInfo => some (recordProperty propertyInfo propertyInfos)

/-- The loop over `methodInfos` of the property pass (generator.cpp:827-887). -/
def generatePropertyInfos :
    List PropertyInfo → List MethodInfo → Option (List PropertyInfo)
  | propertyInfos, [] => some propertyInfos
  | propertyInfos, methodInfo :: rest =>
    match propertyStep propertyInfos methodInfo with
    | none => none
    | some propertyInfos1 => generatePropertyInfos propertyInfos1 rest

/-- The body of the per-class loop of the property pass (generator.cpp:825-888). -/
def synthesizeProperties (classInfo : ClassInfo) : Option ClassInfo :=
  match generatePropertyInfos classInfo.propertyInfos classInfo.methodInfos with
  | none => none
  | some propertyInfos => some { classInfo with propertyInfos := propertyInfos }

/-- The type name an accessor gives its property (generator.cpp:844 and 850): the return
type of a getter, the type of the first parameter of a setter. -/
def accessorType (methodInfo : MethodInfo) : Option String :=
  if isGetter methodInfo then some methodInfo.returnInfo.type
  else methodInfo.paramInfos.head?.map (fun param0 => param0.type)

/-- Every accessor in `methodInfos` belongs to a property other than `name`, and those that
are setters only have a first parameter to read. It holds in particular when `methodInfos`
has no getter- or setter-flagged method at all. -/
def OtherAccessorsApart (name : String) (methodInfos : List MethodInfo) : Prop :=
  ∀ m ∈ methodInfos, (isGetter m || isSetter m) = true →
    m.scriptName ≠ name ∧ (isGetter m = false → m.paramInfos ≠ [])

/-- The properties called `name` in a property list, in order. -/
def propertiesNamed (name : String) (propertyInfos : List PropertyInfo) : List PropertyInfo :=
  propertyInfos.filter (fun p => decide (p.name = name))

/-! ## `postProcessFileInfos`: structs requiring special conversion (generator.cpp:1064-1123) -/

/-- The test of the field loop (generator.cpp:1073-1074, again 1111-1112); `getTypeInfo` is
the name-to-category lookup of `common.h`, taken as a parameter: the lookup as it stands when
the loops run. -/
def fieldRequiresInterop (getTypeInfo : String → Nat → UserTypeInfo) (fieldInfo : VarInfo) :
    Bool :=
  let typeInfo := getTypeInfo fieldInfo.type fieldInfo.flags
  isArray fieldInfo.flags || typeInfo.type == ParsedType.Builtin ||
    typeInfo.type == ParsedType.Enum || typeInfo.type == ParsedType.Struct

/-- The field loop with its `break` (generator.cpp:1069-1079): `requiresInterop` is set at the
first field that passes the test and is otherwise left as it was. -/
def scanFields (getTypeInfo : String → Nat → UserTypeInfo) (requiresInterop : Bool) :
    List VarInfo → Bool
  | [] => requiresInterop
  | fieldInfo :: rest =>
    if fieldRequiresInterop getTypeInfo fieldInfo then true
    else scanFields getTypeInfo requiresInterop rest

/-- The body of the first struct loop (generator.cpp:1067-1085). -/
def findStructRequiringInterop (getTypeInfo : String → Nat → UserTypeInfo)
    (structInfo : StructInfo) : StructInfo :=
  let requiresInterop := scanFields getTypeInfo structInfo.requiresInterop structInfo.fields
  { structInfo with
    requiresInterop := requiresInterop
    interopName :=
      if requiresInterop then getStructInteropType structInfo.name else structInfo.name }

/-- The body of the second struct loop (generator.cpp:1105-1123), which repeats the first
with the interop name spelled out. -/
def markStructRequiringInterop (getTypeInfo : String → Nat → UserTypeInfo)
    (structInfo : StructInfo) : StructInfo :=
  let requiresInterop := scanFields getTypeInfo structInfo.requiresInterop structInfo.fields
  { structInfo with
    requiresInterop := requiresInterop
    interopName :=
      if requiresInterop then "__" ++ structInfo.name ++ "Interop" else structInfo.name }

/-- What `postProcessFileInfos` does to the flattening plan of one struct: the two struct
loops in sequence. The passes before them write only the documentation of a struct and the
`defaultValue` of its fields, neither of which the loops read. -/
def planStructInterop (getTypeInfo : String → Nat → UserTypeInfo)
    (structInfo : StructInfo) : StructInfo :=
  markStructRequiringInterop getTypeInfo (findStructRequiringInterop getTypeInfo structInfo)

/-- The name the spec gives an entry whose source name is `sourceName`, when `taken` tells
which strings were assigned earlier in the class: the source name itself when it is free,
and otherwise the source name followed by the decimal numeral of the least `c` for which
that string is free. -/
def IsLeastFreeName (taken : String → Prop) (sourceName name : String) : Prop :=
  (¬ taken sourceName → name = sourceName) ∧
  (taken sourceName →
    ∃ c : Nat, name = sourceName ++ to_string c ∧ ¬ taken name ∧
      ∀ j, j < c → taken (sourceName ++ to_string j))

/-! ## `findUnusedCtorSignature` (generator.cpp:251-302) -/

/-- The value of `isSignatureValid` after the loop over `ctorInfos` (generator.cpp:256-277):
no constructor has exactly `numBools` parameters that are all of type `bool`. -/
def isSignatureValid (ctorInfos : List MethodInfo) (numBools : Nat) : Bool :=
  ctorInfos.all (fun entry =>
    entry.paramInfos.length != numBools ||
      entry.paramInfos.any (fun paramInfo => paramInfo.type != "bool"))

/-- The `while (true)` loop of `findUnusedCtorSignature` (generator.cpp:254-283) with the loop
state `numBools`; `fuel` counts the iterations allowed and `none` means they ran out. -/
def findNumBools (ctorInfos : List MethodInfo) : Nat → Nat → Option Nat
  | 0, _ => none
  | fuel + 1, numBools =>
    if isSignatureValid ctorInfos numBools then some numBools
    else findNumBools ctorInfos fuel (numBools + 1)

/-- The parameter pushed in iteration `i` of the last loop (generator.cpp:293-298). -/
def dummyParam (i : Nat) : VarInfo :=
  { name := "__dummy" ++ to_string i, type := "bool", defaultValue := "",
    flags := TypeFlags.Builtin }

/-- The function `findUnusedCtorSignature` (generator.cpp:251). The search starts at
`numBools = 1` and is given `ctorInfos.length + 1` iterations, which always suffice
(`findNumBools_spec`). The fields the source leaves default-constructed are empty. -/
def findUnusedCtorSignature (classInfo : ClassInfo) : Option MethodInfo :=
  match findNumBools classInfo.ctorInfos (classInfo.ctorInfos.length + 1) 1 with
  | none => none
  | some numBools =>
    some { sourceName := classInfo.name, interopName := "", scriptName := classInfo.name,
           visibility := .Private,
           returnInfo := { name := "", type := "", defaultValue := "", flags := 0 },
           paramInfos := (List.range numBools).map dummyParam,
           documentation := { brief := [], params := [], returns := [] },
           externalClass := "", flags := MethodFlags.Constructor }

/-- A constructor all of whose parameters are of type `bool`, with `arity` parameters. -/
def isBoolCtor (arity : Nat) (ctorInfo : MethodInfo) : Prop :=
  ctorInfo.paramInfos.length = arity ∧ ∀ p ∈ ctorInfo.paramInfos, p.type = "bool"

/-! ## `generateCppMethodSignature` (generator.cpp:1159-1225) -/

/-- The local `isCtor` of the signature and body builders (generator.cpp:1162): the
Constructor bit of the method flags. -/
def isCtor (methodInfo : MethodInfo) : Bool :=
  (methodInfo.flags &&& MethodFlags.Constructor) != 0

/-- The text one declared parameter contributes (generator.cpp:1209): its boundary type, a
blank and its name. -/
def cppParamDecl (getTypeInfo : String → Nat → UserTypeInfo) (paramInfo : VarInfo) : String :=
  getInteropCppVarType paramInfo.type (getTypeInfo paramInfo.type paramInfo.flags).type
    paramInfo.flags false ++ " " ++ paramInfo.name

/-- The loop over `paramInfos` of `generateCppMethodSignature` (generator.cpp:1205-1213): each
parameter is followed by `", "` unless it is the last one and nothing is returned as a
parameter. -/
def cppParamList (getTypeInfo : String → Nat → UserTypeInfo) (returnAsParameter : Bool) :
    List VarInfo → String
  | [] => ""
  | paramInfo :: rest =>
    cppParamDecl getTypeInfo paramInfo ++
      (if !rest.isEmpty || returnAsParameter then ", " else "") ++
      cppParamList getTypeInfo returnAsParameter rest

/-- The local `returnAsParameter` of `generateCppMethodSignature` (generator.cpp:1166-1176);
`canBeReturned` is a function of `common.h`, taken as a parameter. -/
def returnAsParameter (getTypeInfo : String → Nat → UserTypeInfo)
    (canBeReturned : ParsedType → Nat → Bool) (methodInfo : MethodInfo) : Bool :=
  if methodInfo.returnInfo.type.isEmpty || isCtor methodInfo then false
  else
    !canBeReturned (getTypeInfo methodInfo.returnInfo.type methodInfo.returnInfo.flags).type
      methodInfo.returnInfo.flags

/-- The return type written first by `generateCppMethodSignature` (generator.cpp:1167-1181). -/
def cppReturnType (getTypeInfo : String → Nat → UserTypeInfo)
    (canBeReturned : ParsedType → Nat → Bool) (methodInfo : MethodInfo) : String :=
  if methodInfo.returnInfo.type.isEmpty || isCtor methodInfo then "void"
  else if !canBeReturned
      (getTypeInfo methodInfo.returnInfo.type methodInfo.returnInfo.flags).type
      methodInfo.returnInfo.flags then "void"
  else
    getInteropCppVarType methodInfo.returnInfo.type
      (getTypeInfo methodInfo.returnInfo.type methodInfo.returnInfo.flags).type
      methodInfo.returnInfo.flags false

/-- The function `generateCppMethodSignature` (generator.cpp:1159): the text written to the
string stream, in the order of the source. -/
def generateCppMethodSignature (getTypeInfo : String → Nat → UserTypeInfo)
    (canBeReturned : ParsedType → Nat → Bool) (methodInfo : MethodInfo)
    (thisPtrType nestedName : String) (isModule : Bool) : String :=
  let returnAsParameter := returnAsParameter getTypeInfo canBeReturned methodInfo
  cppReturnType getTypeInfo canBeReturned methodInfo ++ " " ++
    (if !nestedName.isEmpty then nestedName ++ "::" else "") ++
    "Internal_" ++ methodInfo.interopName ++ "(" ++
    (if isCtor methodInfo then
      "MonoObject* managedInstance" ++
        (if methodInfo.paramInfos.length > 0 then ", " else "")
    else if !isStatic methodInfo && !isModule then
      thisPtrType ++ "* thisPtr" ++
        (if methodInfo.paramInfos.length > 0 || returnAsParameter then ", " else "")
    else "") ++
    cppParamList getTypeInfo returnAsParameter methodInfo.paramInfos ++
    (if returnAsParameter then
      getInteropCppVarType methodInfo.returnInfo.type
        (getTypeInfo methodInfo.returnInfo.type methodInfo.returnInfo.flags).type
        methodInfo.returnInfo.flags false ++ " " ++ "__output"
    else "") ++
    ")"

/-- The parameters of an interop signature as the spec lists them: the managed instance for
a constructor, the receiver for a non-static method of a class that is no module, the
declared parameters, and the output parameter when the value is not returned directly. -/
def signatureParams (getTypeInfo : String → Nat → UserTypeInfo)
    (canBeReturned : ParsedType → Nat → Bool) (methodInfo : MethodInfo)
    (thisPtrType : String) (isModule : Bool) : List String :=
  (if isCtor methodInfo then ["MonoObject* managedInstance"]
    else if !isStatic methodInfo && !isModule then [thisPtrType ++ "* thisPtr"]
    else []) ++
  methodInfo.paramInfos.map (cppParamDecl getTypeInfo) ++
  (if !isCtor methodInfo && !methodInfo.returnInfo.type.isEmpty &&
      !canBeReturned (getTypeInfo methodInfo.returnInfo.type methodInfo.returnInfo.flags).type
        methodInfo.returnInfo.flags then
    [getInteropCppVarType methodInfo.returnInfo.type
      (getTypeInfo methodInfo.returnInfo.type methodInfo.returnInfo.flags).type
      methodInfo.returnInfo.flags false ++ " " ++ "__output"]
  else [])

/-! ## The symbol table of `postProcessFileInfos` -/

/-- Modelled from the spec: an entry of `EnumInfo::entries` (`common.h`): the managed name
and documentation of one enumerator. -/
structure EnumEntryInfo where
  name : String
  scriptName : String
  documentation : CommentEntry
  deriving DecidableEq, Repr

/-- Modelled from the spec: `struct EnumInfo` of `common.h`; `entries` is the ordered map
from integral value to entry, kept as an association list. -/
structure EnumInfo where
  name : String
  scriptName : String
  visibility : CSVisibility
  explicitType : String
  entries : List (Int × EnumEntryInfo)
  documentation : CommentEntry
  ns : List String
  deriving DecidableEq, Repr

/-- Modelled from the spec: `struct FileInfo` of `common.h`, one logical module: its classes,
structs and enums. The include and forward-declaration lists, written only by the include
pass (generator.cpp:971-1062), are left out of the state. -/
structure FileInfo where
  classInfos : List ClassInfo
  structInfos : List StructInfo
  enumInfos : List EnumInfo
  inEditor : Bool
  deriving DecidableEq, Repr

/-- Modelled from the spec: `struct ExternalClassInfos` of `common.h`: the external methods
collected for one class name. -/
structure ExternalClassInfos where
  methods : List MethodInfo
  deriving DecidableEq, Repr

/-- The globals `outputFileInfos` and `externalClassInfos`, both maps keyed by name and kept
as association lists in iteration order. -/
structure Model where
  outputFileInfos : List (String × FileInfo)
  externalClassInfos : List (String × ExternalClassInfos)
  deriving DecidableEq, Repr

/-- The lambda `findClassInfo` (generator.cpp:684): the first class of that name, files and
classes taken in iteration order. -/
def findClassInfo (outputFileInfos : List (String × FileInfo)) (name : String) :
    Option ClassInfo :=
  match outputFileInfos with
  | [] => none
  | fileInfo :: rest =>
    match fileInfo.2.classInfos.find? (fun classInfo => classInfo.name == name) with
    | some classInfo => some classInfo
    | none => findClassInfo rest name

/-- A write through the pointer `findClassInfo` returns, within one class list: `f` is
applied to the first class of that name. -/
def modifyFirstClass (name : String) (f : ClassInfo → ClassInfo) :
    List ClassInfo → List ClassInfo
  | [] => []
  | classInfo :: rest =>
    if classInfo.name == name then f classInfo :: rest
    else classInfo :: modifyFirstClass name f rest

/-- A write through the pointer `findClassInfo` returns: `f` is applied in place to the first
class of that name. -/
def modifyClassInfo (name : String) (f : ClassInfo → ClassInfo) :
    List (String × FileInfo) → List (String × FileInfo)
  | [] => []
  | fileInfo :: rest =>
    if fileInfo.2.classInfos.any (fun classInfo => classInfo.name == name) then
      (fileInfo.1, { fileInfo.2 with
        classInfos := modifyFirstClass name f fileInfo.2.classInfos }) :: rest
    else fileInfo :: modifyClassInfo name f rest

/-! ## `postProcessFileInfos`: external methods (generator.cpp:712-754) -/

/-- The body of the loop over the external methods of one entry (generator.cpp:720-750): the
method as it is pushed onto the class, or `none` when the iteration ends in `continue`. -/
def rebindMethod (className : String) (method : MethodInfo) : Option MethodInfo :=
  if isCtor method then
    if method.returnInfo.type.length == 0 then none
    else if method.returnInfo.type != className then none
    else some method
  else
    match method.paramInfos with
    | [] => none
    | param0 :: rest =>
      if param0.type != className then none
      else some { method with paramInfos := rest }

/-- The loop over the external methods of one entry (generator.cpp:718-753): the methods
pushed onto the class, and the methods of the entry afterwards. The loop variable is a
reference, so the erased first parameter is erased in the entry as well. -/
def rebindMethods (className : String) : List MethodInfo → List MethodInfo × List MethodInfo
  | [] => ([], [])
  | method :: rest =>
    let (pushed, rest1) := rebindMethods className rest
    match rebindMethod className method with
    | none => (pushed, method :: rest1)
    | some method1 => (method1 :: pushed, method1 :: rest1)

/-- One iteration of the loop over `externalClassInfos` (generator.cpp:712-754). -/
def rebindEntry (outputFileInfos : List (String × FileInfo))
    (entry : String × ExternalClassInfos) :
    List (String × FileInfo) × (String × ExternalClassInfos) :=
  match findClassInfo outputFileInfos entry.1 with
  | none => (outputFileInfos, entry)
  | some _ =>
    let (pushed, methods1) := rebindMethods entry.1 entry.2.methods
    (modifyClassInfo entry.1
        (fun classInfo => { classInfo with methodInfos := classInfo.methodInfos ++ pushed })
        outputFileInfos,
      (entry.1, { methods := methods1 }))

/-- The loop over `externalClassInfos` (generator.cpp:712-754). -/
def rebindEntries (outputFileInfos : List (String × FileInfo)) :
    List (String × ExternalClassInfos) →
      List (String × FileInfo) × List (String × ExternalClassInfos)
  | [] => (outputFileInfos, [])
  | entry :: rest =>
    let (files1, entry1) := rebindEntry outputFileInfos entry
    let (files2, rest1) := rebindEntries files1 rest
    (files2, entry1 :: rest1)

/-- The first pass of `postProcessFileInfos`: external methods are injected into their
classes. -/
def rebindExternalMethods (model : Model) : Model :=
  let (files, entries) := rebindEntries model.outputFileInfos model.externalClassInfos
  { outputFileInfos := files, externalClassInfos := entries }

/-- What the spec demands of an external method for it to be rebound onto the class
`className`: a constructor returns the class, any other method takes it as first
parameter. -/
def acceptsExternal (className : String) (method : MethodInfo) : Bool :=
  if isCtor method then
    decide (method.returnInfo.type ≠ "") && decide (method.returnInfo.type = className)
  else
    match method.paramInfos.head? with
    | none => false
    | some param0 => decide (param0.type = className)

/-- An accepted external method as the spec has it rebound: a constructor as it is, any
other method without its first parameter. -/
def withoutReceiver (method : MethodInfo) : MethodInfo :=
  if isCtor method then method else { method with paramInfos := method.paramInfos.tail }

/-! ## Documentation resolver: `parseCopydocString`, `resolveCopydocComment`
(generator.cpp:357-587) -/

/-- Modelled from the spec: one overload of a documented function in the comment index
(`common.h`): its parameter type list, compared textually, and its comment. -/
structure CommentMethodInfo where
  params : List String
  comment : CommentEntry
  deriving DecidableEq, Repr

/-- Modelled from the spec: `struct CommentInfo` of `common.h`, an entry of the comment
index: namespace path, comment, and the overloads when the entry is a function. -/
structure CommentInfo where
  name : String
  namespaces : List String
  comment : CommentEntry
  overloads : List CommentMethodInfo
  isFunction : Bool
  deriving DecidableEq, Repr

/-- The globals `commentSimpleLookup` (simple name to positions in `commentInfos`) and
`commentInfos`. -/
structure CommentIndex where
  commentSimpleLookup : List (String × List Nat)
  commentInfos : List CommentInfo
  deriving DecidableEq, Repr

/-- The default-constructed `CommentEntry()`. -/
def CommentEntry.empty : CommentEntry :=
  { brief := [], params := [], returns := [] }

/-- The characters `StringRef::trim` removes by default: blank, `\t`, `\n`, `\v`, `\f`,
`\r`. -/
def whitespaceChars : List Char :=
  [' ', '\t', '\n', Char.ofNat 11, Char.ofNat 12, '\r']

/-- The library function `StringRef::trim(Chars)`: the characters of `chars` are removed
from both ends. -/
def trimChars (chars : List Char) (s : String) : String :=
  String.mk
    (((s.data.dropWhile (fun c => chars.contains c)).reverse.dropWhile
      (fun c => chars.contains c)).reverse)

/-- The library function `StringRef::trim()` with its default character set. -/
def trim (s : String) : String := trimChars whitespaceChars s

/-- The first occurrence of the non-empty separator `sep`: the text before it and the text
after it, or `none` when it does not occur (`StringRef::find`). -/
def findSeparator (sep : List Char) : List Char → Option (List Char × List Char)
  | [] => none
  | c :: cs =>
    if sep.isPrefixOf (c :: cs) then some ([], (c :: cs).drop sep.length)
    else
      match findSeparator sep cs with
      | none => none
      | some (before, after) => some (c :: before, after)

/-- The library function `StringRef::split(char)`: the text before and after the first
occurrence of `sep`, or the whole text and the empty text when `sep` does not occur. -/
def splitFirst (sep : Char) (s : String) : String × String :=
  match findSeparator [sep] s.data with
  | none => (s, "")
  | some (before, after) => (String.mk before, String.mk after)

/-- The loop of the library function `StringRef::split(A, Separator, -1, false)`: the pieces
between occurrences of the separator, empty pieces left out. Every iteration removes at
least the separator, so `fuel = length + 1` lets the loop reach its end. -/
def splitLoop (sep : List Char) : Nat → List Char → List String
  | 0, s => if s.isEmpty then [] else [String.mk s]
  | fuel + 1, s =>
    match findSeparator sep s with
    | none => if s.isEmpty then [] else [String.mk s]
    | some (before, after) =>
      (if before.isEmpty then [] else [String.mk before]) ++ splitLoop sep fuel after

/-- The library function `StringRef::split(A, Separator, -1, false)`. -/
def splitDropEmpty (sep : String) (s : String) : List String :=
  splitLoop sep.data (s.data.length + 1) s.data

/-- The local `hasParamList` of `parseCopydocString` (generator.cpp:362). -/
def hasParamList (str : String) : Bool :=
  (trim str).data.contains '('

/-- The local `fullTypeName` of `parseCopydocString` (generator.cpp:364-377). -/
def fullTypeName (str : String) : String :=
  if hasParamList str then trim (splitFirst '(' (trim str)).1 else trim str

/-- The local `params` of `parseCopydocString` (generator.cpp:365-373): the text after the
first parenthesis, trimmed of closing parentheses and white space; empty without a parameter
list. -/
def paramText (str : String) : String :=
  if hasParamList str then
    trimChars (')' :: whitespaceChars) (splitFirst '(' (trim str)).2
  else ""

/-- The local `typeSplits` of `parseCopydocString` (generator.cpp:379-383). -/
def typeSplits (str : String) : List String :=
  let splits := splitDropEmpty "::" (fullTypeName str)
  if splits.isEmpty then [fullTypeName str] else splits

/-- The local `paramSplits` of `parseCopydocString` (generator.cpp:507-511): the parameter
text split at commas, empty pieces left out, each piece trimmed. -/
def paramSplits (str : String) : List String :=
  (splitDropEmpty "," (paramText str)).map trim

/-- The search of `commentSimpleLookup` (generator.cpp:385-424): `namespaceStart` and the
positions registered under the simple name, which is the last two segments joined by `::`
when that is registered and the last segment otherwise; `none` when neither is registered
(the function returns `false`). -/
def lookupSimpleName (commentSimpleLookup : List (String × List Nat))
    (typeSplits : List String) : Option (Nat × List Nat) :=
  match typeSplits.reverse with
  | [] => none
  | [last] =>
    match commentSimpleLookup.lookup last with
    | none => none
    | some lookup => some (1, lookup)
  | last :: secondLast :: _ =>
    match commentSimpleLookup.lookup (secondLast ++ "::" ++ last) with
    | some lookup => some (2, lookup)
    | none =>
      match commentSimpleLookup.lookup last with
      | none => none
      | some lookup => some (1, lookup)

/-- One of the two loops over `lookup` (generator.cpp:440-462, 467-489): the first entry
whose namespace path equals `ns` (same length, equal position by position). The outer `none`
is a position outside `commentInfos`. -/
def findNamespaceMatch (commentInfos : List CommentInfo) (ns : List String) :
    List Nat → Option (Option CommentInfo)
  | [] => some none
  | position :: rest =>
    match commentInfos[position]? with
    | none => none
    | some curCommentInfo =>
      if ns = curCommentInfo.namespaces then some (some curCommentInfo)
      else findNamespaceMatch commentInfos ns rest

/-- The choice of `finalCommentInfo` (generator.cpp:438-498): the namespace of the reference
is first taken relative to the current namespace, and as global only when nothing is found.
The inner `none` is `entryMatch == -1`. -/
def selectEntry (commentInfos : List CommentInfo) (fullNS copydocNS : List String)
    (lookup : List Nat) : Option (Option CommentInfo) :=
  match findNamespaceMatch commentInfos fullNS lookup with
  | none => none
  | some (some entry) => some (some entry)
  | some none => findNamespaceMatch commentInfos copydocNS lookup

/-- The end of `parseCopydocString` (generator.cpp:498-557): the comment taken from the
entry found. The result is the returned `bool` with `outputComment`; `none` is
`overloads[0]` on an entry without overloads. -/
def selectComment (finalCommentInfo : CommentInfo) (hasParamList : Bool)
    (paramSplits : List String) (outputComment : CommentEntry) :
    Option (Bool × CommentEntry) :=
  if hasParamList then
    if !finalCommentInfo.isFunction then some (false, outputComment)
    else
      match finalCommentInfo.overloads.find? (fun overload => paramSplits = overload.params) with
      | some overload => some (true, overload.comment)
      | none =>
        if paramSplits.isEmpty then
          match finalCommentInfo.overloads with
          | [] => none
          | overload :: _ => some (true, overload.comment)
        else some (false, outputComment)
  else if finalCommentInfo.isFunction then
    match finalCommentInfo.overloads with
    | [] => none
    | overload :: _ => some (true, overload.comment)
  else some (true, finalCommentInfo.comment)

/-- The function `parseCopydocString` (generator.cpp:357): the returned `bool` together with
`outputComment` afterwards; `none` is undefined behaviour (an index out of range). -/
def parseCopydocString (index : CommentIndex) (str : String) (curNS : List String)
    (outputComment : CommentEntry) : Option (Bool × CommentEntry) :=
  match lookupSimpleName index.commentSimpleLookup (typeSplits str) with
  | none => some (false, outputComment)
  | some (namespaceStart, lookup) =>
    let copydocNS := (typeSplits str).take ((typeSplits str).length - namespaceStart)
    match selectEntry index.commentInfos (curNS ++ copydocNS) copydocNS lookup with
    | none => none
    | some none => some (false, outputComment)
    | some (some finalCommentInfo) =>
      selectComment finalCommentInfo (hasParamList str) (paramSplits str) outputComment

/-- The loop over `comment.brief` of `resolveCopydocComment` (generator.cpp:562-572): the
text after the first blank of the first line that starts with `@copydoc`, empty when there is
no such line. -/
def findCopydocArg : List String → String
  | [] => ""
  | entry :: rest =>
    if "@copydoc".data.isPrefixOf entry.data then (splitFirst ' ' entry).2
    else findCopydocArg rest

/-- The function `resolveCopydocComment` (generator.cpp:560). The recursion has no bound in
the source: `fuel` counts the calls allowed, and `none` means they ran out or
`parseCopydocString` was undefined. -/
def resolveCopydocComment (index : CommentIndex) (curNS : List String) :
    Nat → CommentEntry → Option CommentEntry
  | 0, _ => none
  | fuel + 1, comment =>
    let copydocArg := findCopydocArg comment.brief
    if copydocArg.isEmpty then some comment
    else
      match parseCopydocString index copydocArg curNS CommentEntry.empty with
      | none => none
      | some (false, _) => some CommentEntry.empty
      | some (true, outComment) => resolveCopydocComment index curNS fuel outComment

/-! ## `postProcessFileInfos`: the passes over the whole symbol table
(generator.cpp:681-1157) -/

/-- A loop that fails as soon as one iteration fails: `f` is applied to every element in
order. -/
def mapOption {α β : Type} (f : α → Option β) : List α → Option (List β)
  | [] => some []
  | a :: rest =>
    match f a with
    | none => none
    | some b =>
      match mapOption f rest with
      | none => none
      | some rest1 => some (b :: rest1)

/-- The classes of a file rewritten by `f`, for a loop over `fileInfo.second.classInfos`. -/
def FileInfo.mapClasses (f : ClassInfo → ClassInfo) (fileInfo : FileInfo) : FileInfo :=
  { fileInfo with classInfos := fileInfo.classInfos.map f }

/-- The structs of a file rewritten by `f`, for a loop over `fileInfo.second.structInfos`. -/
def FileInfo.mapStructs (f : StructInfo → StructInfo) (fileInfo : FileInfo) : FileInfo :=
  { fileInfo with structInfos := fileInfo.structInfos.map f }

/-- The classes of a file rewritten by a loop body that can fail. -/
def FileInfo.mapClassesOption (f : ClassInfo → Option ClassInfo) (fileInfo : FileInfo) :
    Option FileInfo :=
  match mapOption f fileInfo.classInfos with
  | none => none
  | some classInfos => some { fileInfo with classInfos := classInfos }

/-- The call `resolveCopydocComment(methodInfo.documentation, classInfo.ns)` on one method
(generator.cpp:763-770). -/
def resolveMethodDoc (index : CommentIndex) (fuel : Nat) (ns : List String)
    (methodInfo : MethodInfo) : Option MethodInfo :=
  match resolveCopydocComment index ns fuel methodInfo.documentation with
  | none => none
  | some documentation => some { methodInfo with documentation := documentation }

/-- The copydoc pass on one class (generator.cpp:759-771): the class comment, then the
comments of its methods, constructors and events. -/
def resolveClassDocs (index : CommentIndex) (fuel : Nat) (classInfo : ClassInfo) :
    Option ClassInfo :=
  match resolveCopydocComment index classInfo.ns fuel classInfo.documentation with
  | none => none
  | some documentation =>
    match mapOption (resolveMethodDoc index fuel classInfo.ns) classInfo.methodInfos with
    | none => none
    | some methodInfos =>
      match mapOption (resolveMethodDoc index fuel classInfo.ns) classInfo.ctorInfos with
      | none => none
      | some ctorInfos =>
        match mapOption (resolveMethodDoc index fuel classInfo.ns) classInfo.eventInfos with
        | none => none
        | some eventInfos =>
          some { classInfo with
            documentation := documentation, methodInfos := methodInfos,
            ctorInfos := ctorInfos, eventInfos := eventInfos }

/-- The copydoc pass on one struct (generator.cpp:773-774). -/
def resolveStructDocs (index : CommentIndex) (fuel : Nat) (structInfo : StructInfo) :
    Option StructInfo :=
  match resolveCopydocComment index structInfo.ns fuel structInfo.documentation with
  | none => none
  | some documentation => some { structInfo with documentation := documentation }

/-- The copydoc pass on one enum entry (generator.cpp:780-781). -/
def resolveEnumEntryDoc (index : CommentIndex) (fuel : Nat) (ns : List String)
    (entry : Int × EnumEntryInfo) : Option (Int × EnumEntryInfo) :=
  match resolveCopydocComment index ns fuel entry.2.documentation with
  | none => none
  | some documentation => some (entry.1, { entry.2 with documentation := documentation })

/-- The copydoc pass on one enum (generator.cpp:776-782). -/
def resolveEnumDocs (index : CommentIndex) (fuel : Nat) (enumInfo : EnumInfo) :
    Option EnumInfo :=
  match resolveCopydocComment index enumInfo.ns fuel enumInfo.documentation with
  | none => none
  | some documentation =>
    match mapOption (resolveEnumEntryDoc index fuel enumInfo.ns) enumInfo.entries with
    | none => none
    | some entries =>
      some { enumInfo with documentation := documentation, entries := entries }

/-- The copydoc pass on one file (generator.cpp:757-783). -/
def resolveFileDocs (index : CommentIndex) (fuel : Nat) (fileInfo : String × FileInfo) :
    Option (String × FileInfo) :=
  match mapOption (resolveClassDocs index fuel) fileInfo.2.classInfos with
  | none => none
  | some classInfos =>
    match mapOption (resolveStructDocs index fuel) fileInfo.2.structInfos with
    | none => none
    | some structInfos =>
      match mapOption (resolveEnumDocs index fuel) fileInfo.2.enumInfos with
      | none => none
      | some enumInfos =>
        some (fileInfo.1, { fileInfo.2 with
          classInfos := classInfos, structInfos := structInfos, enumInfos := enumInfos })

/-- Modelled from the spec: `ClassFlags::Editor` of `common.h`, the IsEditorOnly bit. -/
def ClassFlags.Editor : Nat := 1

/-- Modelled from the spec: `ClassFlags::IsBase` of `common.h`, the IsBaseOfSomething bit. -/
def ClassFlags.IsBase : Nat := 2

/-- Modelled from the spec: `ClassFlags::IsModule` of `common.h`, the IsSingletonModule
bit. -/
def ClassFlags.IsModule : Nat := 4

/-- The non-empty `baseClass` names of all classes, in the order the base-class loop visits
the classes (generator.cpp:892-897). The loop writes only `flags`, so the names can be
collected before it runs. -/
def baseClassNames (outputFileInfos : List (String × FileInfo)) : List String :=
  (outputFileInfos.flatMap (fun fileInfo => fileInfo.2.classInfos.map
    (fun classInfo => classInfo.baseClass))).filter (fun baseClass => !baseClass.isEmpty)

/-- The base-class loop from one class on (generator.cpp:899-906): the base class is flagged
through the pointer `findClassInfo` returns; `none` is the `assert(false)` on a base class
that is not in the model. -/
def flagBaseClasses :
    List (String × FileInfo) → List String → Option (List (String × FileInfo))
  | outputFileInfos, [] => some outputFileInfos
  | outputFileInfos, baseClass :: rest =>
    match findClassInfo outputFileInfos baseClass with
    | none => none
    | some _ =>
      flagBaseClasses
        (modifyClassInfo baseClass
          (fun baseClassInfo =>
            { baseClassInfo with flags := baseClassInfo.flags ||| ClassFlags.IsBase })
          outputFileInfos)
        rest

/-- The lambda `findEnumInfo` (generator.cpp:698): the first enum of that name. -/
def findEnumInfo (outputFileInfos : List (String × FileInfo)) (name : String) :
    Option EnumInfo :=
  (outputFileInfos.flatMap (fun fileInfo => fileInfo.2.enumInfos)).find?
    (fun enumInfo => enumInfo.name == name)

/-- The digits read by `atoi`, accumulated from the left until the first character that is
no digit. -/
def atoiDigits : List Char → Nat → Nat
  | [], acc => acc
  | c :: cs, acc => if c.isDigit then atoiDigits cs (10 * acc + (c.toNat - 48)) else acc

/-- The conversion of an integer value to `int`: the value of the same residue modulo 2^32
in the range of `int`. -/
def wrapInt32 (v : Int) : Int :=
  (v + 2 ^ 31) % 2 ^ 32 - 2 ^ 31

/-- The cut of a value to the range of `long` (64 bits), which the library function `strtol`
applies to the value it reads. -/
def clampLong (v : Int) : Int :=
  if v < -(2 ^ 63) then -(2 ^ 63) else if 2 ^ 63 - 1 < v then 2 ^ 63 - 1 else v

/-- The library function `strtol` in base 10: leading white space, an optional sign, then
digits; the value read is cut to the range of `long`. -/
def strtol (s : String) : Int :=
  clampLong
    (match s.data.dropWhile (fun c => whitespaceChars.contains c) with
    | '-' :: digits => - (atoiDigits digits 0 : Int)
    | '+' :: digits => (atoiDigits digits 0 : Int)
    | digits => (atoiDigits digits 0 : Int))

/-- The library function `atoi` (generator.cpp:921), which is `(int) strtol(s, NULL, 10)`. -/
def atoi (s : String) : Int :=
  wrapInt32 (strtol s)

/-- The lambda `parseDefaultValue` (generator.cpp:911-939): a numeric default value of an
enum-typed variable becomes `EnumType.EntryName`, or the empty string when it cannot be
mapped. -/
def parseDefaultValue (getTypeInfo : String → Nat → UserTypeInfo)
    (outputFileInfos : List (String × FileInfo)) (paramInfo : VarInfo) : VarInfo :=
  if paramInfo.defaultValue.isEmpty then paramInfo
  else if (getTypeInfo paramInfo.type paramInfo.flags).type != ParsedType.Enum then paramInfo
  else
    match findEnumInfo outputFileInfos paramInfo.type with
    | none => { paramInfo with defaultValue := "" }
    | some enumInfo =>
      match enumInfo.entries.lookup (atoi paramInfo.defaultValue) with
      | none => { paramInfo with defaultValue := "" }
      | some entry =>
        { paramInfo with defaultValue := enumInfo.scriptName ++ "." ++ entry.scriptName }

/-- The parameters of one method or constructor rewritten by `f`. -/
def MethodInfo.mapParams (f : VarInfo → VarInfo) (methodInfo : MethodInfo) : MethodInfo :=
  { methodInfo with paramInfos := methodInfo.paramInfos.map f }

/-- The enum-default pass on one class (generator.cpp:943-956): the parameters of its
methods and of its constructors. -/
def defaultValuesClass (getTypeInfo : String → Nat → UserTypeInfo)
    (outputFileInfos : List (String × FileInfo)) (classInfo : ClassInfo) : ClassInfo :=
  { classInfo with
    methodInfos := classInfo.methodInfos.map
      (MethodInfo.mapParams (parseDefaultValue getTypeInfo outputFileInfos))
    ctorInfos := classInfo.ctorInfos.map
      (MethodInfo.mapParams (parseDefaultValue getTypeInfo outputFileInfos)) }

/-- The enum-default pass on one struct (generator.cpp:958-968): its fields and the
parameters of its constructors. -/
def defaultValuesStruct (getTypeInfo : String → Nat → UserTypeInfo)
    (outputFileInfos : List (String × FileInfo)) (structInfo : StructInfo) : StructInfo :=
  { structInfo with
    fields := structInfo.fields.map (parseDefaultValue getTypeInfo outputFileInfos)
    ctors := structInfo.ctors.map (fun ctorInfo =>
      { ctorInfo with
        params := ctorInfo.params.map (parseDefaultValue getTypeInfo outputFileInfos) }) }

/-- The enum-default pass (generator.cpp:941-969). It reads the enums, which it does not
write, so every `findEnumInfo` sees the enums as they are when the pass starts. -/
def rewriteDefaultValues (getTypeInfo : String → Nat → UserTypeInfo)
    (outputFileInfos : List (String × FileInfo)) : List (String × FileInfo) :=
  outputFileInfos.map (fun fileInfo =>
    (fileInfo.1,
      (fileInfo.2.mapClasses (defaultValuesClass getTypeInfo outputFileInfos)).mapStructs
        (defaultValuesStruct getTypeInfo outputFileInfos)))

/-- The lambda `findStructInfo` (generator.cpp:1089): the first struct of that name. -/
def findStructInfo (outputFileInfos : List (String × FileInfo)) (name : String) :
    Option StructInfo :=
  (outputFileInfos.flatMap (fun fileInfo => fileInfo.2.structInfos)).find?
    (fun structInfo => structInfo.name == name)

/-- The lambda `markComplexParam` (generator.cpp:1125-1134). -/
def markComplexParam (getTypeInfo : String → Nat → UserTypeInfo)
    (outputFileInfos : List (String × FileInfo)) (paramInfo : VarInfo) : VarInfo :=
  if (getTypeInfo paramInfo.type paramInfo.flags).type != ParsedType.Struct then paramInfo
  else
    match findStructInfo outputFileInfos paramInfo.type with
    | none => paramInfo
    | some structInfo =>
      if structInfo.requiresInterop then
        { paramInfo with flags := paramInfo.flags ||| TypeFlags.ComplexStruct }
      else paramInfo

/-- The three loops over the classes of a file that call `markComplexParam`
(generator.cpp:1136-1155): the parameters of the methods, of the constructors, and of the
constructors a second time. -/
def markComplexClass (getTypeInfo : String → Nat → UserTypeInfo)
    (outputFileInfos : List (String × FileInfo)) (classInfo : ClassInfo) : ClassInfo :=
  { classInfo with
    methodInfos := classInfo.methodInfos.map
      (MethodInfo.mapParams (markComplexParam getTypeInfo outputFileInfos))
    ctorInfos := (classInfo.ctorInfos.map
      (MethodInfo.mapParams (markComplexParam getTypeInfo outputFileInfos))).map
      (MethodInfo.mapParams (markComplexParam getTypeInfo outputFileInfos)) }

/-- The last loop over the files (generator.cpp:1103-1156), with the files already visited
in `done`: the structs of the file go through the second struct loop, then the parameters
of its classes are marked, `findStructInfo` seeing all files as they are at that moment. -/
def markComplexFiles (getTypeInfo : String → Nat → UserTypeInfo)
    (done : List (String × FileInfo)) :
    List (String × FileInfo) → List (String × FileInfo)
  | [] => done
  | fileInfo :: rest =>
    let file1 : String × FileInfo :=
      (fileInfo.1, fileInfo.2.mapStructs (markStructRequiringInterop getTypeInfo))
    let file2 : String × FileInfo :=
      (file1.1, file1.2.mapClasses
        (markComplexClass getTypeInfo (done ++ file1 :: rest)))
    markComplexFiles getTypeInfo (done ++ [file2]) rest

/-- The function `postProcessFileInfos` (generator.cpp:681): its passes in order. `index` is
the comment index and `getTypeInfo` the name-to-category lookup, both read only; `fuel`
bounds the depth of every copydoc resolution. The include pass is left out, see
`FileInfo`. -/
def postProcessFileInfos (index : CommentIndex) (getTypeInfo : String → Nat → UserTypeInfo)
    (fuel : Nat) (model : Model) : Option Model :=
  let rebound := rebindExternalMethods model
  match mapOption (resolveFileDocs index fuel) rebound.outputFileInfos with
  | none => none
  | some resolved =>
    match mapOption (fun fileInfo : String × FileInfo =>
        (fileInfo.2.mapClassesOption assignInteropNames).map (fun f => (fileInfo.1, f)))
        resolved with
    | none => none
    | some named =>
      match mapOption (fun fileInfo : String × FileInfo =>
          (fileInfo.2.mapClassesOption synthesizeProperties).map (fun f => (fileInfo.1, f)))
          named with
      | none => none
      | some withProperties =>
        match flagBaseClasses withProperties (baseClassNames withProperties) with
        | none => none
        | some flagged =>
          let withDefaults := rewriteDefaultValues getTypeInfo flagged
          let planned := withDefaults.map (fun fileInfo =>
            (fileInfo.1, fileInfo.2.mapStructs (findStructRequiringInterop getTypeInfo)))
          some { outputFileInfos := markComplexFiles getTypeInfo [] planned,
                 externalClassInfos := rebound.externalClassInfos }

/-- A method or constructor with the default values of its parameters blanked. -/
def withoutDefaults (methodInfo : MethodInfo) : MethodInfo :=
  methodInfo.mapParams (fun paramInfo => { paramInfo with defaultValue := "" })

/-- What the idempotence of `postProcessFileInfos` is about: per file, every class with its
methods, constructors and events (interop names included, default values of parameters
apart) and its property list, and every struct with its `requiresInterop` flag and interop
name. -/
def observe (model : Model) :
    List (String × List (String × List MethodInfo × List MethodInfo × List MethodInfo ×
      List PropertyInfo) × List (String × Bool × String)) :=
  model.outputFileInfos.map (fun fileInfo =>
    (fileInfo.1,
      fileInfo.2.classInfos.map (fun classInfo =>
        (classInfo.name, classInfo.methodInfos.map withoutDefaults,
          classInfo.ctorInfos.map withoutDefaults, classInfo.eventInfos,
          classInfo.propertyInfos)),
      fileInfo.2.structInfos.map (fun structInfo =>
        (structInfo.name, structInfo.requiresInterop, structInfo.interopName))))

/-! ## Auxiliary notions for the idempotence of property synthesis -/

/-- The property list after the property infos `infos` were recorded one after the other. -/
def recordAll (infos : List PropertyInfo) (propertyInfos : List PropertyInfo) :
    List PropertyInfo :=
  infos.foldl (fun acc info => recordProperty info acc) propertyInfos

/-- A recorded property after the property infos `infos` were merged into it in order. -/
def mergeAll (existingInfo : PropertyInfo) (infos : List PropertyInfo) : PropertyInfo :=
  infos.foldl mergeProperty existingInfo

/-- What a merge does to the getter of a property of type `type` and static-ness
`isStatic`. -/
def getterStep (type : String) (isStatic : Bool) (getter : String) (info : PropertyInfo) :
    String :=
  if type ≠ info.type ∨ isStatic ≠ info.isStatic then getter
  else if !info.getter.isEmpty then info.getter else getter

/-- What a merge does to the setter of a property of type `type` and static-ness
`isStatic`. -/
def setterStep (type : String) (isStatic : Bool) (setter : String) (info : PropertyInfo) :
    String :=
  if type ≠ info.type ∨ isStatic ≠ info.isStatic then setter
  else if !info.getter.isEmpty then setter else info.setter

/-- What a merge does to the documentation of a property of type `type` and static-ness
`isStatic`. -/
def docStep (type : String) (isStatic : Bool) (documentation : CommentEntry)
    (info : PropertyInfo) : CommentEntry :=
  if type ≠ info.type ∨ isStatic ≠ info.isStatic then documentation
  else if !info.getter.isEmpty then
    (if documentation.brief.isEmpty then info.documentation else documentation)
  else
    (if !info.documentation.brief.isEmpty then info.documentation else documentation)

/-- Two property infos that every merge treats alike: they agree on everything but the type
flags and the visibility. -/
def SameMerge (info info' : PropertyInfo) : Prop :=
  info'.name = info.name ∧ info'.type = info.type ∧ info'.isStatic = info.isStatic ∧
    info'.getter = info.getter ∧ info'.setter = info.setter ∧
    info'.documentation = info.documentation

/-- The property infos of the accessors of a method list, in order; `none` when one of them
is a setter without parameters. -/
def accessorInfos : List MethodInfo → Option (List PropertyInfo)
  | [] => some []
  | methodInfo :: rest =>
    if !isGetter methodInfo && !isSetter methodInfo then accessorInfos rest
    else
      match makePropertyInfo methodInfo with
      | none => none
      | some info =>
        match accessorInfos rest with
        | none => none
        | some infos => some (info :: infos)

/-- A parameter as a later pass may have left it: name and type are kept, while the flags
(ComplexStruct) and the default value may have changed. -/
def ParamRel (paramInfo paramInfo' : VarInfo) : Prop :=
  paramInfo'.name = paramInfo.name ∧ paramInfo'.type = paramInfo.type

/-- A method as a later pass may have left it: only the flags and default values of its
parameters may have changed. -/
def MethodRel (methodInfo methodInfo' : MethodInfo) : Prop :=
  methodInfo'.sourceName = methodInfo.sourceName ∧
    methodInfo'.interopName = methodInfo.interopName ∧
    methodInfo'.scriptName = methodInfo.scriptName ∧
    methodInfo'.visibility = methodInfo.visibility ∧
    methodInfo'.returnInfo = methodInfo.returnInfo ∧
    methodInfo'.documentation = methodInfo.documentation ∧
    methodInfo'.externalClass = methodInfo.externalClass ∧
    methodInfo'.flags = methodInfo.flags ∧
    List.Forall₂ ParamRel methodInfo.paramInfos methodInfo'.paramInfos

/-- A comment on which `resolveCopydocComment` has nothing to do: no brief line starts with
`@copydoc`, or the first such line has no argument. -/
def DocTerminal (comment : CommentEntry) : Prop :=
  (findCopydocArg comment.brief).isEmpty = true

/-- A method after the interop-name pass as a later pass may have left it, as far as the
names go. -/
def NameRel (methodInfo methodInfo' : MethodInfo) : Prop :=
  methodInfo'.sourceName = methodInfo.sourceName ∧
    methodInfo'.interopName = methodInfo.interopName

/-- A class after property synthesis as the later passes may have left it: only the class
flags and the flags and default values of method and constructor parameters may have
changed. -/
def LaterClass (classInfo classInfo' : ClassInfo) : Prop :=
  classInfo'.name = classInfo.name ∧ classInfo'.ns = classInfo.ns ∧
    classInfo'.baseClass = classInfo.baseClass ∧
    classInfo'.documentation = classInfo.documentation ∧
    classInfo'.propertyInfos = classInfo.propertyInfos ∧
    classInfo'.eventInfos = classInfo.eventInfos ∧
    List.Forall₂ MethodRel classInfo.methodInfos classInfo'.methodInfos ∧
    List.Forall₂ MethodRel classInfo.ctorInfos classInfo'.ctorInfos

/-- A class on which the first three per-class passes have nothing left to do. -/
def ClassSettled (index : CommentIndex) (fuel : Nat) (classInfo : ClassInfo) : Prop :=
  resolveClassDocs index fuel classInfo = some classInfo ∧
    assignInteropNames classInfo = some classInfo ∧
    synthesizeProperties classInfo = some classInfo

/-- A class all of whose comments are terminal for `resolveCopydocComment`. -/
def ClassDocsTerminal (classInfo : ClassInfo) : Prop :=
  DocTerminal classInfo.documentation ∧
    (∀ m ∈ classInfo.methodInfos, DocTerminal m.documentation) ∧
    (∀ m ∈ classInfo.ctorInfos, DocTerminal m.documentation) ∧
    (∀ m ∈ classInfo.eventInfos, DocTerminal m.documentation)

/-- Two files that correspond class by class, struct by struct and enum by enum, under the
given relations. -/
def FileRel (rc : ClassInfo → ClassInfo → Prop) (rs : StructInfo → StructInfo → Prop)
    (re : EnumInfo → EnumInfo → Prop) (f g : String × FileInfo) : Prop :=
  g.1 = f.1 ∧ g.2.inEditor = f.2.inEditor ∧
    List.Forall₂ rc f.2.classInfos g.2.classInfos ∧
    List.Forall₂ rs f.2.structInfos g.2.structInfos ∧
    List.Forall₂ re f.2.enumInfos g.2.enumInfos

/-- Two symbol tables that correspond file by file. -/
def FilesRel (rc : ClassInfo → ClassInfo → Prop) (rs : StructInfo → StructInfo → Prop)
    (re : EnumInfo → EnumInfo → Prop) (F G : List (String × FileInfo)) : Prop :=
  List.Forall₂ (FileRel rc rs re) F G

/-- What `findStructInfo` lets `markComplexParam` see of the symbol table: for a type name,
the `requiresInterop` flag of the first struct of that name. -/
def structTable (outputFileInfos : List (String × FileInfo)) (name : String) : Option Bool :=
  (findStructInfo outputFileInfos name).map (fun structInfo => structInfo.requiresInterop)

/-- The flags `markComplexParam` leaves on a variable of type `type` with flags `flags`,
given what the symbol table says about the structs. -/
def markFlags (getTypeInfo : String → Nat → UserTypeInfo) (table : String → Option Bool)
    (type : String) (flags : Nat) : Nat :=
  if (getTypeInfo type flags).type != ParsedType.Struct then flags
  else
    match table type with
    | some true => flags ||| TypeFlags.ComplexStruct
    | _ => flags

/-- The name and `requiresInterop` flag of every struct of the symbol table, in order. -/
def structKeys (outputFileInfos : List (String × FileInfo)) : List (String × Bool) :=
  (outputFileInfos.flatMap (fun fileInfo => fileInfo.2.structInfos)).map
    (fun structInfo => (structInfo.name, structInfo.requiresInterop))

/-- The class has only changed in its flags. -/
def FlagsOnly (classInfo classInfo' : ClassInfo) : Prop :=
  ∃ flags, classInfo' = { classInfo with flags := flags }

/-- A variable on which `markComplexParam` has nothing to do under the struct table
`table`. -/
def VarMarked (getTypeInfo : String → Nat → UserTypeInfo) (table : String → Option Bool)
    (paramInfo : VarInfo) : Prop :=
  markFlags getTypeInfo table paramInfo.type paramInfo.flags = paramInfo.flags

/-- A class all of whose method and constructor parameters are marked under `table`. -/
def ClassMarked (getTypeInfo : String → Nat → UserTypeInfo) (table : String → Option Bool)
    (classInfo : ClassInfo) : Prop :=
  (∀ m ∈ classInfo.methodInfos, ∀ p ∈ m.paramInfos, VarMarked getTypeInfo table p) ∧
    (∀ m ∈ classInfo.ctorInfos, ∀ p ∈ m.paramInfos, VarMarked getTypeInfo table p)

/-- The symbol table as the first struct loop leaves it, from the table `F` the base-class
loop left: default values rewritten, structs planned once. -/
def plannedFiles (getTypeInfo : String → Nat → UserTypeInfo) (F : List (String × FileInfo)) :
    List (String × FileInfo) :=
  (rewriteDefaultValues getTypeInfo F).map (fun fileInfo =>
    (fileInfo.1, fileInfo.2.mapStructs (findStructRequiringInterop getTypeInfo)))

/-- What the passes after the base-class loop do to one class of the table `F`. -/
def tailClass (getTypeInfo : String → Nat → UserTypeInfo) (F : List (String × FileInfo))
    (classInfo : ClassInfo) : ClassInfo :=
  markComplexClass getTypeInfo (plannedFiles getTypeInfo F)
    (defaultValuesClass getTypeInfo F classInfo)

/-- What the passes after the base-class loop do to one struct of the table `F`. -/
def tailStruct (getTypeInfo : String → Nat → UserTypeInfo) (F : List (String × FileInfo))
    (structInfo : StructInfo) : StructInfo :=
  planStructInterop getTypeInfo (defaultValuesStruct getTypeInfo F structInfo)

/-- What the passes after the base-class loop do to one file of the table `F`. -/
def tailFile (getTypeInfo : String → Nat → UserTypeInfo) (F : List (String × FileInfo))
    (fileInfo : String × FileInfo) : String × FileInfo :=
  (fileInfo.1,
    { classInfos := fileInfo.2.classInfos.map (tailClass getTypeInfo F),
      structInfos := fileInfo.2.structInfos.map (tailStruct getTypeInfo F),
      enumInfos := fileInfo.2.enumInfos,
      inEditor := fileInfo.2.inEditor })

/-! ## Marshaling engine: `generateMethodBodyBlockForParam` (generator.cpp:1282-1628)

The source appends to the string streams `preCallActions` and `postCallActions`; the
embedding returns the text appended to each, next to the returned argument name. `std::endl`
is a line feed. `isHandleType` and `mapBuiltinTypeToCppType` are functions of `common.h` and
are taken as parameters: `isHandleType` as it is, and `underlyingCppType typeName flags` for
the C++ name `mapBuiltinTypeToCppType` gives for the underlying type of
`getTypeInfo(typeName, flags)`. -/

/-- The function `getCppVarType` (generator.cpp:56). -/
def getCppVarType (typeName : String) (type : ParsedType) : String :=
  match type with
  | .Resource => "ResourceHandle<" ++ typeName ++ ">"
  | .SceneObject | .Component => "GameObjectHandle<" ++ typeName ++ ">"
  | .Class => "SPtr<" ++ typeName ++ ">"
  | _ => typeName

/-- The function `getScriptInteropType` (generator.cpp:209): the name of the wrapper class.
The lookup in `cppToCsTypeMap` only feeds diagnostics. -/
def getScriptInteropType (name : String) : String := "Script" ++ name

/-- The function `generateNativeToScriptObjectLine` (generator.cpp:1282); `none` is the
`assert(false)` on a category that is no resource or game object. -/
def generateNativeToScriptObjectLine (type : ParsedType)
    (scriptType scriptName argName indent : String) : Option String :=
  match type with
  | .Resource =>
    some (indent ++ "ScriptResourceBase* " ++ scriptName ++ ";\n" ++
      indent ++ scriptName ++ " = ScriptResourceManager::instance().getScriptResource(" ++
        argName ++ ", true);\n")
  | .Component =>
    some (indent ++ scriptType ++ "* " ++ scriptName ++ ";\n" ++
      indent ++ scriptName ++
        " = ScriptGameObjectManager::instance().getBuiltinScriptComponent(" ++
        argName ++ ");\n")
  | .SceneObject =>
    some (indent ++ scriptType ++ "* " ++ scriptName ++ ";\n" ++
      indent ++ scriptName ++
        " = ScriptGameObjectManager::instance().getOrCreateScriptSceneObject(" ++
        argName ++ ");\n")
  | _ => none

/-- The element type of the managed array of an array parameter or field
(generator.cpp:1481-1496, again 1758-1773 and 1956-1971). -/
def arrayEntryType (type : ParsedType) (typeName : String) : String :=
  match type with
  | .Builtin | .String | .WString | .Enum => typeName
  | .ScriptObject => "MonoObject*"
  | _ => getScriptInteropType typeName

/-- The non-array branch of `generateMethodBodyBlockForParam` (generator.cpp:1316-1478): the
argument name, the text appended to `preCallActions` and the text appended to
`postCallActions`. -/
def methodBodyBlockScalar (isHandleType : ParsedType → Bool) (type : ParsedType)
    (name typeName : String) (flags : Nat) (returnValue : Bool) :
    Option (String × String × String) :=
  let tmp := "tmp" ++ name
  let scriptType := getScriptInteropType typeName
  let scriptName := "script" ++ name
  match type with
  | .Builtin | .Enum | .Struct =>
    if returnValue then
      some (tmp, "\t\t" ++ typeName ++ " " ++ tmp ++ ";\n",
        if type == ParsedType.Struct then
          if isComplexStruct flags then
            "\t\t*" ++ name ++ " = " ++ scriptType ++ "::fromInterop(" ++ tmp ++ ");\n"
          else "\t\t*" ++ name ++ " = " ++ tmp ++ ";\n"
        else "\t\t" ++ name ++ " = " ++ tmp ++ ";\n")
    else if isOutput flags then
      some (tmp, "\t\t" ++ typeName ++ " " ++ tmp ++ ";\n",
        if type == ParsedType.Struct && isComplexStruct flags then
          "\t\t*" ++ name ++ " = " ++ scriptType ++ "::fromInterop(" ++ tmp ++ ");\n"
        else "\t\t*" ++ name ++ " = " ++ tmp ++ ";\n")
    else if type == ParsedType.Struct && isComplexStruct flags then
      some (tmp, "\t\t" ++ getStructInteropType typeName ++ " " ++ tmp ++ ";\n",
        "\t\t*" ++ tmp ++ " = " ++ scriptType ++ "::toInterop(" ++ name ++ ");\n")
    else some (name, "", "")
  | .String =>
    if returnValue then
      some (tmp, "\t\tString " ++ tmp ++ ";\n",
        "\t\t" ++ name ++ " = MonoUtil::stringToMono(" ++ tmp ++ ");\n")
    else if isOutput flags then
      some (tmp, "\t\tString " ++ tmp ++ ";\n",
        "\t\t*" ++ name ++ " = MonoUtil::stringToMono(" ++ tmp ++ ");\n")
    else
      some (tmp, "\t\tString " ++ tmp ++ ";\n" ++
        "\t\t" ++ tmp ++ " = MonoUtil::monoToString(" ++ name ++ ");\n", "")
  | .WString =>
    if returnValue then
      some (tmp, "\t\tWString " ++ tmp ++ ";\n",
        "\t\t" ++ name ++ " = MonoUtil::wstringToMono(" ++ tmp ++ ");\n")
    else if isOutput flags then
      some (tmp, "\t\tWString " ++ tmp ++ ";\n",
        "\t\t*" ++ name ++ " = MonoUtil::wstringToMono(" ++ tmp ++ ");\n")
    else
      some (tmp, "\t\tWString " ++ tmp ++ ";\n" ++
        "\t\t" ++ tmp ++ " = MonoUtil::monoToWString(" ++ name ++ ");\n", "")
  | .ScriptObject =>
    if returnValue then
      some (tmp, "\t\tScriptObjectBase* " ++ tmp ++ ";\n",
        "\t\t" ++ name ++ " = " ++ tmp ++ "->getManagedInstance();\n")
    else if isOutput flags then
      some (tmp, "\t\tScriptObjectBase* " ++ tmp ++ ";\n",
        "\t\t*" ++ name ++ " = " ++ tmp ++ "->getManagedInstance();\n")
    else some (tmp, "", "")
  | .Class =>
    let decl := "\t\t" ++ getCppVarType typeName type ++ " " ++ tmp ++ ";\n"
    if returnValue then
      some (tmp, decl, "\t\t" ++ name ++ " = " ++ scriptType ++ "::create(" ++ tmp ++ ");\n")
    else if isOutput flags then
      some (tmp, decl, "\t\t*" ++ name ++ " = " ++ scriptType ++ "::create(" ++ tmp ++ ");\n")
    else
      some (tmp, decl ++
        "\t\t" ++ scriptType ++ "* " ++ scriptName ++ ";\n" ++
        "\t\t" ++ scriptName ++ " = " ++ scriptType ++ "::toNative(" ++ name ++ ");\n" ++
        "\t\t" ++ tmp ++ " = " ++ scriptName ++ "->getInternal();\n", "")
  | .Component | .SceneObject | .Resource =>
    let decl := "\t\t" ++ getCppVarType typeName type ++ " " ++ tmp ++ ";\n"
    if returnValue then
      (generateNativeToScriptObjectLine type scriptType scriptName tmp "\t\t").map
        (fun line => (tmp, decl,
          line ++ "\t\t" ++ name ++ " = " ++ scriptName ++ "->getManagedInstance();\n"))
    else if isOutput flags then
      (generateNativeToScriptObjectLine type scriptType scriptName tmp "\t\t").map
        (fun line => (tmp, decl,
          line ++ "\t\t*" ++ name ++ " = " ++ scriptName ++ "->getManagedInstance();\n"))
    else
      some (tmp, decl ++
        "\t\t" ++ scriptType ++ "* " ++ scriptName ++ ";\n" ++
        "\t\t" ++ scriptName ++ " = " ++ scriptType ++ "::toNative(" ++ name ++ ");\n" ++
        (if isHandleType type then "\t\t" ++ tmp ++ " = " ++ scriptName ++ "->getHandle();\n"
         else "\t\t" ++ tmp ++ " = " ++ scriptName ++ "->getInternal();\n"), "")

/-- The statement in the element loop of an input array (generator.cpp:1510-1556), appended
to `preCallActions`. -/
def inputArrayElement (isHandleType : ParsedType → Bool) (enumType : String)
    (type : ParsedType) (name typeName : String) (flags : Nat) : String :=
  let entryType := arrayEntryType type typeName
  let argName := "vec" ++ name
  let arrayName := "array" ++ name
  match type with
  | .Builtin | .String | .WString =>
    "\t\t\t" ++ argName ++ "[i] = " ++ arrayName ++ ".get<" ++ entryType ++ ">(i);\n"
  | .ScriptObject => ""
  | .Enum =>
    "\t\t\t" ++ argName ++ "[i] = (" ++ entryType ++ ")" ++ arrayName ++ ".get<" ++
      enumType ++ ">(i);\n"
  | .Struct =>
    "\t\t\t" ++ argName ++ "[i] = " ++
      (if isComplexStruct flags then entryType ++ "::fromInterop(" else "") ++
      entryType ++ "::unbox(" ++ arrayName ++ ".get<MonoObject*>(i))" ++
      (if isComplexStruct flags then entryType ++ ")" else "") ++
      ";\n"
  | _ =>
    let scriptName := "script" ++ name
    "\t\t\t" ++ entryType ++ "* " ++ scriptName ++ ";\n" ++
    "\t\t\t" ++ scriptName ++ " = " ++ entryType ++ "::toNative(" ++ arrayName ++
      ".get<MonoObject*>(i));\n" ++
    "\t\t\tif(scriptName != nullptr)\n" ++
    (if isHandleType type then
      "\t\t\t\t" ++ argName ++ "[i] = " ++ scriptName ++ "->getHandle();\n"
     else "\t\t\t\t" ++ argName ++ "[i] = " ++ scriptName ++ "->getInternal();\n")

/-- The statement in the element loop of an output or returned array
(generator.cpp:1573-1616), appended to `postCallActions`. -/
def outputArrayElement (enumType : String) (type : ParsedType) (name typeName : String)
    (flags : Nat) : Option String :=
  let entryType := arrayEntryType type typeName
  let argName := "vec" ++ name
  let arrayName := "array" ++ name
  match type with
  | .Builtin | .String | .WString =>
    some ("\t\t\t" ++ arrayName ++ ".set(i, " ++ argName ++ "[i]);\n")
  | .Enum =>
    some ("\t\t\t" ++ arrayName ++ ".set(i, (" ++ enumType ++ ")" ++ argName ++ "[i]);\n")
  | .Struct =>
    some ("\t\t\t" ++ arrayName ++ ".set(i, " ++ entryType ++ "::box(" ++
      (if isComplexStruct flags then entryType ++ "::toInterop(" else "") ++
      argName ++ "[i]" ++
      (if isComplexStruct flags then ")" else "") ++
      "));\n")
  | .ScriptObject =>
    some ("\t\t\t" ++ arrayName ++ ".set(i, " ++ argName ++ "[i]->getManagedInstance());\n")
  | .Class =>
    some ("\t\t\t" ++ arrayName ++ ".set(i, " ++ entryType ++ "::create(" ++ argName ++
      "[i]));\n")
  | .Component | .SceneObject | .Resource =>
    let scriptName := "script" ++ name
    (generateNativeToScriptObjectLine type entryType scriptName (argName ++ "[i]")
      "\t\t\t").map
      (fun line => line ++
        "\t\t\t" ++ arrayName ++ ".set(i, " ++ scriptName ++ "->getManagedInstance());\n")

/-- The array branch of `generateMethodBodyBlockForParam` (generator.cpp:1479-1627). -/
def methodBodyBlockArray (isHandleType : ParsedType → Bool) (enumType : String)
    (type : ParsedType) (name typeName : String) (flags : Nat)
    ( isLast returnValue : Bool) : Option (String × String × String) :=
  let entryType := arrayEntryType type typeName
  let argType := "Vector<" ++ typeName ++ ">"
  let argName := "vec" ++ name
  let arrayName := "array" ++ name
  if !isOutput flags && !returnValue then
    some (argName,
      "\t\tScriptArray " ++ arrayName ++ "(" ++ name ++ ");\n" ++
      "\t\t" ++ argType ++ " " ++ argName ++ "(" ++ arrayName ++ ".size());\n" ++
      "\t\tfor(int i = 0; i < (int)" ++ arrayName ++ ".size(); i++)\n" ++
      "\t\t\x7b\n" ++
      inputArrayElement isHandleType enumType type name typeName flags ++
      "\t\t\x7d\n" ++
      (if !isLast then "\n" else ""),
      "")
  else
    (outputArrayElement enumType type name typeName flags).map (fun element =>
      (argName,
        "\t\t" ++ argType ++ " " ++ argName ++ ";\n",
        "\t\tScriptArray " ++ arrayName ++ " = ScriptArray::create<" ++ entryType ++
          ">((int)" ++ argName ++ ".size());\n" ++
        "\t\tfor(int i = 0; i < (int)" ++ argName ++ ".size(); i++)\n" ++
        "\t\t\x7b\n" ++
        element ++
        "\t\t\x7d\n" ++
        (if returnValue then "\t\t" ++ name ++ " = " ++ arrayName ++ ".getInternal();\n"
         else "\t\t*" ++ name ++ " = " ++ arrayName ++ ".getInternal();\n")))

/-- The function `generateMethodBodyBlockForParam` (generator.cpp:1311): the returned
argument name, the text appended to `preCallActions` and the text appended to
`postCallActions`; `none` is a failed `assert`. -/
def generateMethodBodyBlockForParam (getTypeInfo : String → Nat → UserTypeInfo)
    (isHandleType : ParsedType → Bool) (underlyingCppType : String → Nat → String)
    (name typeName : String) (flags : Nat) ( isLast returnValue : Bool) :
    Option (String × String × String) :=
  let paramTypeInfo := getTypeInfo typeName flags
  if !isArray flags then
    methodBodyBlockScalar isHandleType paramTypeInfo.type name typeName flags returnValue
  else
    methodBodyBlockArray isHandleType (underlyingCppType typeName flags) paramTypeInfo.type
      name typeName flags isLast returnValue

/-! ## Struct field conversion: `generateFieldConvertBlock` (generator.cpp:1630-1875) -/

/-- The non-array branch of `generateFieldConvertBlock` (generator.cpp:1634-1755): the
returned expression and the text appended to `preActions`. -/
def fieldConvertScalar (isHandleType : ParsedType → Bool) (type : ParsedType)
    (name typeName : String) (flags : Nat) (toInterop : Bool) : Option (String × String) :=
  let tmp := "tmp" ++ name
  let scriptType := getScriptInteropType typeName
  let scriptName := "script" ++ name
  match type with
  | .Builtin | .Enum => some ("value." ++ name, "")
  | .Struct =>
    if isComplexStruct flags then
      if toInterop then
        some (tmp, "\t\t" ++ getStructInteropType typeName ++ " " ++ tmp ++ ";\n" ++
          "\t\t" ++ tmp ++ " = " ++ scriptType ++ "::toInterop(value." ++ name ++ ");\n")
      else
        some (tmp, "\t\t" ++ typeName ++ " " ++ tmp ++ ";\n" ++
          "\t\t" ++ tmp ++ " = " ++ scriptType ++ "::fromInterop(value." ++ name ++ ");\n")
    else some ("value." ++ name, "")
  | .String =>
    if toInterop then
      some (tmp, "\t\tMonoString* " ++ tmp ++ ";\n" ++
        "\t\t" ++ tmp ++ " = MonoUtil::stringToMono(value." ++ name ++ ");\n")
    else
      some (tmp, "\t\tString " ++ tmp ++ ";\n" ++
        "\t\t" ++ tmp ++ " = MonoUtil::monoToString(value." ++ name ++ ");\n")
  | .WString =>
    if toInterop then
      some (tmp, "\t\tMonoString* " ++ tmp ++ ";\n" ++
        "\t\t" ++ tmp ++ " = MonoUtil::wstringToMono(value." ++ name ++ ");\n")
    else
      some (tmp, "\t\tWString " ++ tmp ++ ";\n" ++
        "\t\t" ++ tmp ++ " = MonoUtil::monoToWString(value." ++ name ++ ");\n")
  | .ScriptObject => some ("", "")
  | .Class =>
    if toInterop then
      some (tmp, "\t\tMonoObject* " ++ tmp ++ ";\n" ++
        "\t\t" ++ tmp ++ " = " ++ scriptType ++ "::create(value." ++ name ++ ");\n")
    else
      some (tmp, "\t\t" ++ getCppVarType typeName type ++ " " ++ tmp ++ ";\n" ++
        "\t\t" ++ scriptType ++ "* " ++ scriptName ++ ";\n" ++
        "\t\t" ++ scriptName ++ " = " ++ scriptType ++ "::toNative(value." ++ name ++ ");\n" ++
        "\t\t" ++ tmp ++ " = " ++ scriptName ++ "->getInternal();\n")
  | .Component | .SceneObject | .Resource =>
    if toInterop then
      (generateNativeToScriptObjectLine type scriptType scriptName ("value." ++ name)
        "\t\t").map
        (fun line => (tmp, line ++ "\t\tMonoObject* " ++ tmp ++ ";\n" ++
          "\t\t" ++ tmp ++ " = " ++ scriptName ++ "->getManagedInstance();\n"))
    else
      some (tmp, "\t\t" ++ getCppVarType typeName type ++ " " ++ tmp ++ ";\n" ++
        "\t\t" ++ scriptType ++ "* " ++ scriptName ++ ";\n" ++
        "\t\t" ++ scriptName ++ " = " ++ scriptType ++ "::toNative(value." ++ name ++ ");\n" ++
        (if isHandleType type then "\t\t" ++ tmp ++ " = " ++ scriptName ++ "->getHandle();\n"
         else "\t\t" ++ tmp ++ " = " ++ scriptName ++ "->getInternal();\n"))

/-- The statement in the element loop of an array field read from the boundary
(generator.cpp:1787-1821). -/
def fieldFromInteropElement (isHandleType : ParsedType → Bool) (enumType : String)
    (type : ParsedType) (name typeName : String) : String :=
  let entryType := arrayEntryType type typeName
  let argName := "vec" ++ name
  let arrayName := "array" ++ name
  match type with
  | .Builtin | .String | .WString =>
    "\t\t\t" ++ argName ++ "[i] = " ++ arrayName ++ ".get<" ++ entryType ++ ">(i);\n"
  | .ScriptObject => ""
  | .Enum =>
    "\t\t\t" ++ argName ++ "[i] = (" ++ entryType ++ ")" ++ arrayName ++ ".get<" ++
      enumType ++ ">(i);\n"
  | .Struct =>
    "\t\t\t" ++ argName ++ "[i] = " ++ entryType ++ "::unbox(" ++ arrayName ++
      ".get<MonoObject*>(i));\n"
  | _ =>
    let scriptName := "script" ++ name
    "\t\t\t" ++ entryType ++ "* " ++ scriptName ++ ";\n" ++
    "\t\t\t" ++ scriptName ++ " = " ++ entryType ++ "::toNative(" ++ arrayName ++
      ".get<MonoObject*>(i));\n" ++
    "\t\t\tif(scriptName != nullptr)\n" ++
    (if isHandleType type then
      "\t\t\t\t" ++ argName ++ "[i] = " ++ scriptName ++ "->getHandle();\n"
     else "\t\t\t\t" ++ argName ++ "[i] = " ++ scriptName ++ "->getInternal();\n")

/-- The statement in the element loop of an array field written to the boundary
(generator.cpp:1835-1867). -/
def fieldToInteropElement (enumType : String) (type : ParsedType) (name typeName : String) :
    Option String :=
  let entryType := arrayEntryType type typeName
  let arrayName := "array" ++ name
  match type with
  | .Builtin | .String | .WString =>
    some ("\t\t\t" ++ arrayName ++ ".set(i, value." ++ name ++ "[i]);\n")
  | .Enum =>
    some ("\t\t\t" ++ arrayName ++ ".set(i, (" ++ enumType ++ ")value." ++ name ++ "[i]);\n")
  | .Struct =>
    some ("\t\t\t" ++ arrayName ++ ".set(i, " ++ entryType ++ "::box(value." ++ name ++
      "[i]));\n")
  | .ScriptObject =>
    some ("\t\t\t" ++ arrayName ++ ".set(i, value." ++ name ++ "[i]->getManagedInstance());\n")
  | .Class =>
    some ("\t\t\t" ++ arrayName ++ ".set(i, " ++ entryType ++ "::create(value." ++ name ++
      "[i]));\n")
  | .Component | .SceneObject | .Resource =>
    let scriptName := "script" ++ name
    (generateNativeToScriptObjectLine type entryType scriptName ("value." ++ name ++ "[i]")
      "\t\t\t").map
      (fun line => line ++
        "\t\t\t" ++ arrayName ++ ".set(i, " ++ scriptName ++ "->getManagedInstance());\n")

/-- The array branch of `generateFieldConvertBlock` (generator.cpp:1756-1874). -/
def fieldConvertArray (isHandleType : ParsedType → Bool) (enumType : String)
    (type : ParsedType) (name typeName : String) (toInterop : Bool) :
    Option (String × String) :=
  let entryType := arrayEntryType type typeName
  let argType := "Vector<" ++ typeName ++ ">"
  let argName := "vec" ++ name
  let arrayName := "array" ++ name
  if !toInterop then
    some (argName,
      "\t\tScriptArray " ++ arrayName ++ "(value." ++ name ++ ");\n" ++
      "\t\t" ++ argType ++ " " ++ argName ++ "(" ++ arrayName ++ ".size());\n" ++
      "\t\tfor(int i = 0; i < (int)" ++ arrayName ++ ".size(); i++)\n" ++
      "\t\t\x7b\n" ++
      fieldFromInteropElement isHandleType enumType type name typeName ++
      "\t\t\x7d\n")
  else
    (fieldToInteropElement enumType type name typeName).map (fun element =>
      (argName,
        "\t\t" ++ argType ++ " " ++ argName ++ ";\n" ++
        "\t\tScriptArray " ++ arrayName ++ " = ScriptArray::create<" ++ entryType ++
          ">((int)value." ++ name ++ ".size());\n" ++
        "\t\tfor(int i = 0; i < (int)value." ++ name ++ ".size(); i++)\n" ++
        "\t\t\x7b\n" ++
        element ++
        "\t\t\x7d\n" ++
        "\t\t" ++ argName ++ " = " ++ arrayName ++ ".getInternal();\n"))

/-- The function `generateFieldConvertBlock` (generator.cpp:1630): the returned expression
and the text appended to `preActions`; `none` is a failed `assert`. -/
def generateFieldConvertBlock (getTypeInfo : String → Nat → UserTypeInfo)
    (isHandleType : ParsedType → Bool) (underlyingCppType : String → Nat → String)
    (name typeName : String) (flags : Nat) (toInterop : Bool) : Option (String × String) :=
  let paramTypeInfo := getTypeInfo typeName flags
  if !isArray flags then
    fieldConvertScalar isHandleType paramTypeInfo.type name typeName flags toInterop
  else
    fieldConvertArray isHandleType (underlyingCppType typeName flags) paramTypeInfo.type
      name typeName toInterop

/-! ## `generateCppMethodBody` (generator.cpp:2033-2200) -/

/-- The local `isExternal` of `generateCppMethodBody` (generator.cpp:2044): the External bit
of the method flags. -/
def isExternal (methodInfo : MethodInfo) : Bool :=
  (methodInfo.flags &&& MethodFlags.External) != 0

/-- The locals of `generateCppMethodBody` when the body is assembled (generator.cpp:2094). -/
structure MethodBodyParts where
  preCallActions : String
  methodArgs : String
  postCallActions : String
  returnAssignment : String
  returnStmt : String
  deriving DecidableEq, Repr

/-- The loop over the declared parameters (generator.cpp:2066-2084): the text appended to
`preCallActions`, to `methodArgs` and to `postCallActions`. -/
def methodBodyParams (getTypeInfo : String → Nat → UserTypeInfo)
    (isHandleType : ParsedType → Bool) (underlyingCppType : String → Nat → String) :
    List VarInfo → Option (String × String × String)
  | [] => some ("", "", "")
  | paramInfo :: rest =>
    let isLast := rest.isEmpty
    match generateMethodBodyBlockForParam getTypeInfo isHandleType underlyingCppType
        paramInfo.name paramInfo.type paramInfo.flags isLast false with
    | none => none
    | some (argName, pre, post) =>
      match getAsManagedToCppArgument argName
          (if !isArray paramInfo.flags then (getTypeInfo paramInfo.type paramInfo.flags).type
           else ParsedType.Builtin) paramInfo.flags with
      | none => none
      | some arg =>
        match methodBodyParams getTypeInfo isHandleType underlyingCppType rest with
        | none => none
        | some (pre1, args1, post1) =>
          some (pre ++ pre1, arg ++ (if !isLast then ", " else "") ++ args1, post ++ post1)

/-- The first part of `generateCppMethodBody` (generator.cpp:2036-2092): the block of the
return value is generated before the parameters when the value is returned directly, and
after them when it is returned through the parameter `__output`. -/
def methodBodyParts (getTypeInfo : String → Nat → UserTypeInfo)
    (canBeReturned : ParsedType → Nat → Bool) (isHandleType : ParsedType → Bool)
    (underlyingCppType : String → Nat → String) (methodInfo : MethodInfo) :
    Option MethodBodyParts :=
  let returnInfo := methodInfo.returnInfo
  match methodBodyParams getTypeInfo isHandleType underlyingCppType methodInfo.paramInfos with
  | none => none
  | some (pre, args, post) =>
    if !returnInfo.type.isEmpty && !isCtor methodInfo then
      match generateMethodBodyBlockForParam getTypeInfo isHandleType underlyingCppType
          "__output" returnInfo.type returnInfo.flags true true with
      | none => none
      | some (argName, returnPre, returnPost) =>
        if !canBeReturned (getTypeInfo returnInfo.type returnInfo.flags).type
            returnInfo.flags then
          some { preCallActions := pre ++ returnPre, methodArgs := args,
                 postCallActions := post ++ returnPost,
                 returnAssignment := argName ++ " = ", returnStmt := "" }
        else
          some { preCallActions := returnPre ++ pre, methodArgs := args,
                 postCallActions :=
                   "\t\t" ++ getInteropCppVarType returnInfo.type
                     (getTypeInfo returnInfo.type returnInfo.flags).type returnInfo.flags
                     false ++ " __output;\n" ++ returnPost ++ post,
                 returnAssignment := argName ++ " = ",
                 returnStmt := "\t\treturn __output;" }
    else
      some { preCallActions := pre, methodArgs := args, postCallActions := post,
             returnAssignment := "", returnStmt := "" }

/-- The invocation written between the pre-call and the post-call actions
(generator.cpp:2098-2184); `none` is the `assert` on a class category that is neither Class
nor a handle type. A constructor of an unsupported category writes nothing. -/
def methodInvocation (isHandleType : ParsedType → Bool) (methodInfo : MethodInfo)
    (sourceClassName interopClassName : String) (classType : ParsedType) (isModule : Bool)
    (returnAssignment methodArgs : String) : Option String :=
  let fullMethodName := methodInfo.externalClass ++ "::" ++ methodInfo.sourceName
  let scriptInstance := "\t\t" ++ interopClassName ++ "* scriptInstance = new (bs_alloc<" ++
    interopClassName ++ ">())" ++ interopClassName ++ "(managedInstance, instance);\n"
  if isCtor methodInfo then
    if !isExternal methodInfo then
      if classType == ParsedType.Class then
        some ("\t\tSPtr<" ++ sourceClassName ++ "> instance = bs_shared_ptr_new<" ++
          sourceClassName ++ ">(" ++ methodArgs ++ ");\n" ++ scriptInstance)
      else some ""
    else if classType == ParsedType.Class then
      some ("\t\tSPtr<" ++ sourceClassName ++ "> instance = " ++ fullMethodName ++ "(" ++
        methodArgs ++ ");\n" ++ scriptInstance)
    else if classType == ParsedType.Resource then
      some ("\t\tResourceHandle<" ++ sourceClassName ++ "> instance = " ++ fullMethodName ++
        "(" ++ methodArgs ++ ");\n" ++
        "\t\tScriptResourceBase* scriptInstance = ScriptResourceManager::instance()." ++
        "createBuiltinScriptResource(instance, managedInstance);\n")
    else some ""
  else if !isExternal methodInfo then
    if isStatic methodInfo then
      some ("\t\t" ++ returnAssignment ++ sourceClassName ++ "::" ++ methodInfo.sourceName ++
        "(" ++ methodArgs ++ ");\n")
    else if isModule then
      some ("\t\t" ++ returnAssignment ++ sourceClassName ++ "::instance()." ++
        methodInfo.sourceName ++ "(" ++ methodArgs ++ ");\n")
    else if classType == ParsedType.Class then
      some ("\t\t" ++ returnAssignment ++ "thisPtr->getInternal()->" ++
        methodInfo.sourceName ++ "(" ++ methodArgs ++ ");\n")
    else if isHandleType classType then
      some ("\t\t" ++ returnAssignment ++ "thisPtr->getHandle()->" ++
        methodInfo.sourceName ++ "(" ++ methodArgs ++ ");\n")
    else none
  else if isStatic methodInfo then
    some ("\t\t" ++ returnAssignment ++ fullMethodName ++ "(" ++ methodArgs ++ ");\n")
  else
    let tail := (if !methodArgs.isEmpty then ", " ++ methodArgs else "") ++ ");\n"
    if classType == ParsedType.Class then
      some ("\t\t" ++ returnAssignment ++ fullMethodName ++ "(thisPtr->getInternal()" ++ tail)
    else if isHandleType classType then
      some ("\t\t" ++ returnAssignment ++ fullMethodName ++ "(thisPtr->getHandle()" ++ tail)
    else none

/-- The function `generateCppMethodBody` (generator.cpp:2033); `none` is a failed
`assert`. -/
def generateCppMethodBody (getTypeInfo : String → Nat → UserTypeInfo)
    (canBeReturned : ParsedType → Nat → Bool) (isHandleType : ParsedType → Bool)
    (underlyingCppType : String → Nat → String) (methodInfo : MethodInfo)
    (sourceClassName interopClassName : String) (classType : ParsedType) (isModule : Bool) :
    Option String :=
  match methodBodyParts getTypeInfo canBeReturned isHandleType underlyingCppType
      methodInfo with
  | none => none
  | some parts =>
    match methodInvocation isHandleType methodInfo sourceClassName interopClassName classType
        isModule parts.returnAssignment parts.methodArgs with
    | none => none
    | some invocation =>
      some ("\t\x7b\n" ++ parts.preCallActions ++ invocation ++
        (if !parts.postCallActions.isEmpty then "\n" else "") ++
        parts.postCallActions ++
        (if !parts.returnStmt.isEmpty then "\n" ++ parts.returnStmt ++ "\n" else "") ++
        "\t\x7d\n")

/-! ## Managed constructors: `generateCSClass` (generator.cpp:2949-3035) -/

/-- The function `isPlainStruct` (generator.cpp:68). -/
def isPlainStruct (type : ParsedType) (flags : Nat) : Bool :=
  type == ParsedType.Struct && !isArray flags

/-- The function `getCSVarType` (generator.cpp:73). -/
def getCSVarType (typeName : String) (type : ParsedType) (flags : Nat)
    (paramPrefixes arraySuffixes forceStructAsRef : Bool) : String :=
  (if paramPrefixes && isOutput flags then "out "
   else if forceStructAsRef && isPlainStruct type flags then "ref " else "") ++
  typeName ++
  (if arraySuffixes && isArray flags then "[]" else "")

/-- The function `generateCSMethodParams` (generator.cpp:2808). -/
def generateCSMethodParams (getTypeInfo : String → Nat → UserTypeInfo) (forInterop : Bool) :
    List VarInfo → String
  | [] => ""
  | paramInfo :: rest =>
    let paramTypeInfo := getTypeInfo paramInfo.type paramInfo.flags
    getCSVarType paramTypeInfo.scriptName paramTypeInfo.type paramInfo.flags true true
        forInterop ++ " " ++ paramInfo.name ++
      (if !forInterop && !paramInfo.defaultValue.isEmpty then " = " ++ paramInfo.defaultValue
       else "") ++
      (if !rest.isEmpty then ", " else "") ++
      generateCSMethodParams getTypeInfo forInterop rest

/-- The parameter type list of a managed constructor or method: the qualified types
`generateCSMethodParams` writes before the parameter names. -/
def csParamTypes (getTypeInfo : String → Nat → UserTypeInfo) (methodInfo : MethodInfo) :
    List String :=
  methodInfo.paramInfos.map (fun paramInfo =>
    getCSVarType (getTypeInfo paramInfo.type paramInfo.flags).scriptName
      (getTypeInfo paramInfo.type paramInfo.flags).type paramInfo.flags true true false)

/-- The local `interopOnly` of `generateCSClass` (generator.cpp:2974, 3007). -/
def isInteropOnly (methodInfo : MethodInfo) : Bool :=
  (methodInfo.flags &&& MethodFlags.InteropOnly) != 0

/-- The head of a constructor written to the stream `ctors` (generator.cpp:2980-2987, again
3018-3025): visibility, managed class name and parameters. -/
def csCtorHead (getTypeInfo : String → Nat → UserTypeInfo) (scriptName : String)
    (entry : MethodInfo) : String :=
  (match entry.visibility with
    | .Internal => "\t\tinternal "
    | .Private => "\t\tprivate "
    | .Public => "\t\tpublic ") ++
  scriptName ++ "(" ++ generateCSMethodParams getTypeInfo false entry.paramInfos ++ ")\n"

/-- The constructors `generateCSClass` writes to the stream `ctors` (generator.cpp:2959-3035),
in order: the private constructor for runtime use, one constructor for every entry of
`ctorInfos` that is not interop-only, and one for every constructor-flagged entry of
`methodInfos` that is not interop-only. -/
def emittedCtors (input : ClassInfo) : Option (List MethodInfo) :=
  (findUnusedCtorSignature input).map (fun pvtCtor =>
    pvtCtor :: (input.ctorInfos.filter (fun entry => !isInteropOnly entry) ++
      input.methodInfos.filter (fun entry => !isInteropOnly entry && isCtor entry)))

/-- The heads of the constructors in the stream `ctors` of `generateCSClass`
(generator.cpp:2962, 2980-2987, 3018-3025), in order; the documentation comments and the
bodies written between them are left out. -/
def generateCSClassCtorHeads (getTypeInfo : String → Nat → UserTypeInfo) (input : ClassInfo)
    (typeInfo : UserTypeInfo) : Option (List String) :=
  (findUnusedCtorSignature input).map (fun pvtCtor =>
    ("\t\tprivate " ++ typeInfo.scriptName ++ "(" ++
        generateCSMethodParams getTypeInfo false pvtCtor.paramInfos ++ ") \x7b \x7d\n") ::
      ((input.ctorInfos.filter (fun entry => !isInteropOnly entry)).map
          (csCtorHead getTypeInfo typeInfo.scriptName) ++
        (input.methodInfos.filter (fun entry => !isInteropOnly entry && isCtor entry)).map
          (csCtorHead getTypeInfo typeInfo.scriptName)))

/-! ## Event glue (generator.cpp:1227-1280, 1877-2031, 2202-2243) -/

/-- The parameter list of `generateCppEventCallbackSignature` (generator.cpp:1243-1254), from
the index `idx` on. -/
def eventCallbackParams : Nat → List VarInfo → String
  | _, [] => ""
  | idx, paramInfo :: rest =>
    paramInfo.type ++ " p" ++ to_string idx ++ (if !rest.isEmpty then ", " else "") ++
      eventCallbackParams (idx + 1) rest

/-- The function `generateCppEventCallbackSignature` (generator.cpp:1227). -/
def generateCppEventCallbackSignature (eventInfo : MethodInfo) (nestedName : String)
    (isModule : Bool) : String :=
  (if (isStatic eventInfo || isModule) && nestedName.isEmpty then "static " else "") ++
  "void " ++
  (if !nestedName.isEmpty then nestedName ++ "::" else "") ++
  eventInfo.interopName ++ "(" ++ eventCallbackParams 0 eventInfo.paramInfos ++ ")"

/-- The function `generateCppEventThunk` (generator.cpp:1260). -/
def generateCppEventThunk (getTypeInfo : String → Nat → UserTypeInfo) (eventInfo : MethodInfo)
    (isModule : Bool) : String :=
  "\t\ttypedef void(__stdcall *" ++ eventInfo.sourceName ++ "ThunkDef) (" ++
  (if !isStatic eventInfo && !isModule then "MonoObject*, " else "") ++
  String.join (eventInfo.paramInfos.map (fun paramInfo =>
    getInteropCppVarType paramInfo.type (getTypeInfo paramInfo.type paramInfo.flags).type
      paramInfo.flags false ++ " " ++ paramInfo.name ++ ", ")) ++
  "MonoException**);\n" ++
  "\t\tstatic " ++ eventInfo.sourceName ++ "ThunkDef " ++ eventInfo.sourceName ++ "Thunk;\n"

/-- The non-array branch of `generateEventCallbackBodyBlockForParam`
(generator.cpp:1881-1953): the argument name and the text appended to `preCallActions`. -/
def eventCallbackBlockScalar (type : ParsedType) (name typeName : String) (flags : Nat) :
    Option (String × String) :=
  let tmp := "tmp" ++ name
  let scriptType := getScriptInteropType typeName
  match type with
  | .Builtin | .Enum => some (name, "")
  | .Struct =>
    if isComplexStruct flags then
      some (tmp, "\t\t" ++ getStructInteropType typeName ++ " " ++ tmp ++ ";\n" ++
        "\t\t" ++ tmp ++ " = " ++ scriptType ++ "::toInterop(" ++ name ++ ");\n")
    else some (name, "")
  | .String =>
    some (tmp, "\t\tMonoString* " ++ tmp ++ ";\n" ++
      "\t\t" ++ tmp ++ " = MonoUtil::stringToMono(" ++ name ++ ");\n")
  | .WString =>
    some (tmp, "\t\tMonoString* " ++ tmp ++ ";\n" ++
      "\t\t" ++ tmp ++ " = MonoUtil::wstringToMono(" ++ name ++ ");\n")
  | .ScriptObject =>
    some (tmp, "\t\tMonoObject* " ++ tmp ++ " = " ++ name ++ "->getManagedInstance();\n")
  | .Class =>
    some (tmp, "\t\tMonoObject* " ++ tmp ++ " = " ++ scriptType ++ "::create(" ++ name ++
      ");\n")
  | .Component | .SceneObject | .Resource =>
    let scriptName := "script" ++ name
    (generateNativeToScriptObjectLine type scriptType scriptName tmp "\t\t").map
      (fun line => (tmp, "\t\tMonoObject* " ++ tmp ++ ";\n" ++ line ++
        "\t\t" ++ name ++ " = " ++ scriptName ++ "->getManagedInstance();\n"))

/-- The statement in the element loop of an array passed to an event callback
(generator.cpp:1982-2024). -/
def eventCallbackArrayElement (enumType : String) (type : ParsedType)
    (name typeName : String) (flags : Nat) : Option String :=
  let entryType := arrayEntryType type typeName
  let arrayName := "array" ++ name
  match type with
  | .Builtin | .String | .WString =>
    some ("\t\t\t" ++ arrayName ++ ".set(i, " ++ name ++ "[i]);\n")
  | .Enum =>
    some ("\t\t\t" ++ arrayName ++ ".set(i, (" ++ enumType ++ ")" ++ name ++ "[i]);\n")
  | .Struct =>
    some ("\t\t\t" ++ arrayName ++ ".set(i, " ++ entryType ++ "::box(" ++
      (if isComplexStruct flags then entryType ++ "::toInterop(" else "") ++
      name ++ "[i]" ++
      (if isComplexStruct flags then ")" else "") ++
      "));\n")
  | .ScriptObject =>
    some ("\t\t\t" ++ arrayName ++ ".set(i, " ++ name ++ "[i]->getManagedInstance());\n")
  | .Class =>
    some ("\t\t\t" ++ arrayName ++ ".set(i, " ++ entryType ++ "::create(" ++ name ++
      "[i]));\n")
  | .Component | .SceneObject | .Resource =>
    let scriptName := "script" ++ name
    (generateNativeToScriptObjectLine type entryType scriptName (name ++ "[i]")
      "\t\t\t").map
      (fun line => line ++
        "\t\t\t" ++ arrayName ++ ".set(i, " ++ scriptName ++ "->getManagedInstance());\n")

/-- The function `generateEventCallbackBodyBlockForParam` (generator.cpp:1877): the argument
name and the text appended to `preCallActions`; `none` is a failed `assert`. -/
def generateEventCallbackBodyBlockForParam (getTypeInfo : String → Nat → UserTypeInfo)
    (underlyingCppType : String → Nat → String) (name typeName : String) (flags : Nat) :
    Option (String × String) :=
  let paramTypeInfo := getTypeInfo typeName flags
  if !isArray flags then eventCallbackBlockScalar paramTypeInfo.type name typeName flags
  else
    let entryType := arrayEntryType paramTypeInfo.type typeName
    let argName := "vec" ++ name
    let arrayName := "array" ++ name
    (eventCallbackArrayElement (underlyingCppType typeName flags) paramTypeInfo.type name
      typeName flags).map (fun element =>
      (argName,
        "\t\tMonoArray* " ++ argName ++ ";\n" ++
        "\t\tScriptArray " ++ arrayName ++ " = ScriptArray::create<" ++ entryType ++
          ">((int)" ++ name ++ ".size());\n" ++
        "\t\tfor(int i = 0; i < (int)" ++ name ++ ".size(); i++)\n" ++
        "\t\t\x7b\n" ++
        element ++
        "\t\t\x7d\n" ++
        "\t\t" ++ argName ++ " = " ++ arrayName ++ ".getInternal();\n"))

/-- The loop over the parameters of `generateCppEventCallbackBody` (generator.cpp:2209-2230),
from the index `idx` on: the text appended to `preCallActions` and to `methodArgs`. -/
def eventCallbackBodyParams (getTypeInfo : String → Nat → UserTypeInfo)
    (underlyingCppType : String → Nat → String) : Nat → List VarInfo → Option (String × String)
  | _, [] => some ("", "")
  | idx, paramInfo :: rest =>
    match generateEventCallbackBodyBlockForParam getTypeInfo underlyingCppType
        ("p" ++ to_string idx) paramInfo.type paramInfo.flags with
    | none => none
    | some (argName, pre) =>
      match eventCallbackBodyParams getTypeInfo underlyingCppType (idx + 1) rest with
      | none => none
      | some (pre1, args1) =>
        some (pre ++ pre1,
          getAsCppToManagedArgument argName
            (if !isArray paramInfo.flags then
              (getTypeInfo paramInfo.type paramInfo.flags).type
             else ParsedType.Class) paramInfo.flags ++
          (if !rest.isEmpty then ", " else "") ++ args1)

/-- The function `generateCppEventCallbackBody` (generator.cpp:2202). -/
def generateCppEventCallbackBody (getTypeInfo : String → Nat → UserTypeInfo)
    (underlyingCppType : String → Nat → String) (eventInfo : MethodInfo) (isModule : Bool) :
    Option String :=
  (eventCallbackBodyParams getTypeInfo underlyingCppType 0 eventInfo.paramInfos).map
    (fun (pre, args) =>
      "\t\x7b\n" ++ pre ++
      (if isStatic eventInfo || isModule then
        "\t\tMonoUtil::invokeThunk(" ++ eventInfo.sourceName ++ "Thunk, " ++ args ++ ");\n"
       else
        "\t\tMonoUtil::invokeThunk(" ++ eventInfo.sourceName ++
          "Thunk, getManagedInstance(), " ++ args ++ ");\n") ++
      "\t\x7d\n")

/-! ## `generateCppHeaderOutput` (generator.cpp:2245-2437) -/

/-- The local `isModule` of the class generators (generator.cpp:2249, 2442, 2951). -/
def classIsModule (classInfo : ClassInfo) : Bool :=
  (classInfo.flags &&& ClassFlags.IsModule) != 0

/-- The local `isBase` of the class generators (generator.cpp:2248, 2441). -/
def classIsBase (classInfo : ClassInfo) : Bool :=
  (classInfo.flags &&& ClassFlags.IsBase) != 0

/-- The local `inEditor` of `generateCppHeaderOutput` (generator.cpp:2247). -/
def classInEditor (classInfo : ClassInfo) : Bool :=
  (classInfo.flags &&& ClassFlags.Editor) != 0

/-- The local `hasStaticEvents` of `generateCppHeaderOutput` (generator.cpp:2252-2264). -/
def headerHasStaticEvents (classInfo : ClassInfo) : Bool :=
  let hasStaticEvents := classIsModule classInfo && !classInfo.eventInfos.isEmpty
  if !hasStaticEvents then classInfo.eventInfos.any isStatic else hasStaticEvents

/-- The local `interopBaseClassName` of the class generators (generator.cpp:2278-2325,
2458-2462). -/
def interopBaseClassName (classInfo : ClassInfo) : String :=
  if classIsBase classInfo then getScriptInteropType classInfo.name ++ "Base"
  else if !classInfo.baseClass.isEmpty then getScriptInteropType classInfo.baseClass ++ "Base"
  else ""

/-- The local `interopClassThisPtrType` of the class generators (generator.cpp:2423-2427,
2652-2656). -/
def interopClassThisPtrType (classInfo : ClassInfo) : String :=
  if classIsBase classInfo then interopBaseClassName classInfo
  else getScriptInteropType classInfo.name

/-- The base class written by `generateCppHeaderOutput` when the class is a base of another
(generator.cpp:2278-2321). -/
def headerBaseClass (classInfo : ClassInfo) (typeInfo : UserTypeInfo) : String :=
  let isModule := classIsModule classInfo
  let isRootBase := classInfo.baseClass.isEmpty
  let exportAttr := if !classInEditor classInfo then "BS_SCR_BE_EXPORT" else "BS_SCR_BED_EXPORT"
  let wrappedDataType := getCppVarType classInfo.name typeInfo.type
  if classIsBase classInfo then
    "\tclass " ++ exportAttr ++ " " ++ interopBaseClassName classInfo ++ " : public " ++
    (if isRootBase then
      (if typeInfo.type == ParsedType.Class then "ScriptObjectBase"
       else if typeInfo.type == ParsedType.Component then "ScriptComponentBase"
       else if typeInfo.type == ParsedType.Resource then "ScriptResourceBase" else "")
     else getScriptInteropType classInfo.baseClass ++ "Base") ++
    "\n" ++ "\t\x7b\n" ++ "\tpublic:\n" ++
    interopBaseClassName classInfo ++ "(MonoObject* instance);\n" ++
    "virtual ~" ++ interopBaseClassName classInfo ++ "() \x7b\x7d\n" ++
    (if typeInfo.type == ParsedType.Class && !isModule then
      "\n" ++ "\t\t" ++ wrappedDataType ++ " getInternal() const \x7b return mInternal; \x7d\n" ++
      (if isRootBase then
        "\tprotected:\n" ++ "\t\t" ++ wrappedDataType ++ " mInternal;\n" else "")
     else "") ++
    "\t\x7d;\n" ++ "\n"
  else ""

/-- The declarations of `startUp` and `shutDown` in the header (generator.cpp:2380-2386). -/
def headerStartUpDecl (classInfo : ClassInfo) : String :=
  if headerHasStaticEvents classInfo then
    "\t\tstatic void startUp();\n" ++ "\t\tstatic void shutDown();\n" ++ "\n"
  else ""

/-- The part of the header that `generateCppHeaderOutput` writes before the declarations of
`startUp` and `shutDown` (generator.cpp:2266-2378): the base class, if any, the head of the
class and its public members. -/
def headerPublic (classInfo : ClassInfo) (typeInfo : UserTypeInfo) : String :=
  let isModule := classIsModule classInfo
  let exportAttr := if !classInEditor classInfo then "BS_SCR_BE_EXPORT" else "BS_SCR_BED_EXPORT"
  let wrappedDataType := getCppVarType classInfo.name typeInfo.type
  let interopClassName := getScriptInteropType classInfo.name
  headerBaseClass classInfo typeInfo ++
  "\tclass " ++ exportAttr ++ " " ++ interopClassName ++ " : public " ++
  (if typeInfo.type == ParsedType.Resource then
    "TScriptResource<" ++ interopClassName ++ ", " ++ classInfo.name
   else if typeInfo.type == ParsedType.Component then
    "TScriptComponent<" ++ interopClassName ++ ", " ++ classInfo.name
   else "ScriptObject<" ++ interopClassName) ++
  (if !(interopBaseClassName classInfo).isEmpty then ", " ++ interopBaseClassName classInfo
   else "") ++
  ">" ++ "\n" ++ "\t\x7b\n" ++ "\tpublic:\n" ++
  (if !classInEditor classInfo then
    "\t\tSCRIPT_OBJ(ENGINE_ASSEMBLY, \"BansheeEngine\", \"" ++ typeInfo.scriptName ++ "\")\n"
   else
    "\t\tSCRIPT_OBJ(EDITOR_ASSEMBLY, \"BansheeEditor\", \"" ++ typeInfo.scriptName ++ "\")\n") ++
  "\n" ++
  (if !isModule then
    "\t\t" ++ interopClassName ++ "(MonoObject* managedInstance, const " ++ wrappedDataType ++
      "& value);\n"
   else "\t\t" ++ interopClassName ++ "(MonoObject* managedInstance);\n") ++
  "\n" ++
  (if typeInfo.type == ParsedType.Class && !isModule then
    "\t\t" ++ wrappedDataType ++ " getInternal() const \x7b return mInternal; \x7d\n" ++
    "\t\tstatic MonoObject* create(const " ++ wrappedDataType ++ "& value);\n" ++ "\n"
   else if typeInfo.type == ParsedType.Resource then
    "\t\tstatic MonoObject* createInstance();\n" ++ "\n"
   else "")

/-- The part of the header that `generateCppHeaderOutput` writes after the declarations of
`startUp` and `shutDown` (generator.cpp:2388-2436): the private members. -/
def headerPrivate (getTypeInfo : String → Nat → UserTypeInfo)
    (canBeReturned : ParsedType → Nat → Bool) (classInfo : ClassInfo)
    (typeInfo : UserTypeInfo) : String :=
  let isModule := classIsModule classInfo
  let wrappedDataType := getCppVarType classInfo.name typeInfo.type
  "\tprivate:\n" ++
  String.join (classInfo.eventInfos.map (fun eventInfo =>
    "\t\t" ++ generateCppEventCallbackSignature eventInfo "" isModule ++ ";\n")) ++
  (if !classInfo.eventInfos.isEmpty then "\n" else "") ++
  (if typeInfo.type == ParsedType.Class && !isModule then
    "\t\t" ++ wrappedDataType ++ " mInternal;\n" ++ "\n" else "") ++
  String.join (classInfo.eventInfos.map (fun eventInfo =>
    generateCppEventThunk getTypeInfo eventInfo isModule)) ++
  (if !classInfo.eventInfos.isEmpty then "\n" else "") ++
  String.join (classInfo.eventInfos.map (fun eventInfo =>
    if isStatic eventInfo || isModule then
      "\t\tstatic HEvent " ++ eventInfo.sourceName ++ "Conn;\n"
    else "")) ++
  (if headerHasStaticEvents classInfo then "\n" else "") ++
  String.join (classInfo.ctorInfos.map (fun methodInfo =>
    "\t\tstatic " ++ generateCppMethodSignature getTypeInfo canBeReturned methodInfo
      (interopClassThisPtrType classInfo) "" isModule ++ ";\n")) ++
  String.join (classInfo.methodInfos.map (fun methodInfo =>
    "\t\tstatic " ++ generateCppMethodSignature getTypeInfo canBeReturned methodInfo
      (interopClassThisPtrType classInfo) "" isModule ++ ";\n")) ++
  "\t\x7d;\n"

/-- The function `generateCppHeaderOutput` (generator.cpp:2245): the public part, the
declarations of `startUp` and `shutDown`, and the private part, in the order they are
written. -/
def generateCppHeaderOutput (getTypeInfo : String → Nat → UserTypeInfo)
    (canBeReturned : ParsedType → Nat → Bool) (classInfo : ClassInfo)
    (typeInfo : UserTypeInfo) : String :=
  headerPublic classInfo typeInfo ++
  headerStartUpDecl classInfo ++
  headerPrivate getTypeInfo canBeReturned classInfo typeInfo

/-! ## `generateCppSourceOutput` (generator.cpp:2439-2681) -/

/-- The local `hasStaticEvents` of `generateCppSourceOutput` (generator.cpp:2444-2453). -/
def sourceHasStaticEvents (classInfo : ClassInfo) : Bool :=
  classInfo.eventInfos.foldl
    (fun hasStaticEvents eventInfo => if isStatic eventInfo then true else hasStaticEvents)
    (classIsModule classInfo && !classInfo.eventInfos.isEmpty)

/-- The subscription of one event in the constructor of the wrapper
(generator.cpp:2496-2501). -/
def ctorEventConnect (interopClassName : String) (eventInfo : MethodInfo) : String :=
  "\t\tvalue->" ++ eventInfo.sourceName ++ ".connect(std::bind(&" ++ interopClassName ++ "::" ++
    eventInfo.interopName ++ ", getManagedInstance()" ++
    String.join ((List.range eventInfo.paramInfos.length).map
      (fun i => ", _" ++ to_string (i + 1))) ++
    ")); \n"

/-- The subscriptions written into the constructor of the wrapper (generator.cpp:2488-2504),
one entry per event that the loop subscribes. -/
def ctorEventConnects (classInfo : ClassInfo) : List String :=
  if !classIsModule classInfo then
    classInfo.eventInfos.filterMap (fun eventInfo =>
      if !isStatic eventInfo then
        some (ctorEventConnect (getScriptInteropType classInfo.name) eventInfo)
      else none)
  else []

/-- The body of the loop of `startUp` on one event (generator.cpp:2609-2620): the
subscription written for it, if any. -/
def startUpEventConnect (classInfo : ClassInfo) (eventInfo : MethodInfo) : Option String :=
  let interopClassName := getScriptInteropType classInfo.name
  if isStatic eventInfo then
    some ("\t\t" ++ eventInfo.sourceName ++ "Conn = " ++ classInfo.name ++ "::" ++
      eventInfo.sourceName ++ ".connect(&" ++ interopClassName ++ "::" ++
      eventInfo.interopName ++ ");\n")
  else if classIsModule classInfo then
    some ("\t\t" ++ eventInfo.sourceName ++ "Conn = " ++ classInfo.name ++ "::instance()." ++
      eventInfo.sourceName ++ ".connect(&" ++ interopClassName ++ "::" ++
      eventInfo.interopName ++ ");\n")
  else none

/-- The subscriptions written into `startUp` (generator.cpp:2607-2621), one entry per event
that the loop subscribes. -/
def startUpConnects (classInfo : ClassInfo) : List String :=
  classInfo.eventInfos.filterMap (startUpEventConnect classInfo)

/-- The body of the loop of `shutDown` on one event (generator.cpp:2630-2632): the
disconnection written for it, if any. -/
def shutDownEventDisconnect (classInfo : ClassInfo) (eventInfo : MethodInfo) : Option String :=
  if isStatic eventInfo || classIsModule classInfo then
    some ("\t\t" ++ eventInfo.sourceName ++ "Conn.disconnect();\n")
  else none

/-- The disconnections written into `shutDown` (generator.cpp:2628-2633), one entry per event
that the loop disconnects. -/
def shutDownDisconnects (classInfo : ClassInfo) : List String :=
  classInfo.eventInfos.filterMap (shutDownEventDisconnect classInfo)

/-- The constructor of the wrapper (generator.cpp:2466-2507). -/
def sourceConstructor (classInfo : ClassInfo) (typeInfo : UserTypeInfo) : String :=
  let isModule := classIsModule classInfo
  let interopClassName := getScriptInteropType classInfo.name
  let wrappedDataType := getCppVarType classInfo.name typeInfo.type
  (if !isModule then
    "\t" ++ interopClassName ++ "::" ++ interopClassName ++
      "(MonoObject* managedInstance, const " ++ wrappedDataType ++ "& value)\n"
   else
    "\t" ++ interopClassName ++ "::" ++ interopClassName ++ "(MonoObject* managedInstance)\n") ++
  "\t\t:" ++
  (if typeInfo.type == ParsedType.Resource then "TScriptResource(managedInstance, value)"
   else if typeInfo.type == ParsedType.Component then "TScriptComponent(managedInstance, value)"
   else if !isModule then "ScriptObject(managedInstance), mInternal(value)"
   else "ScriptObject(managedInstance)") ++
  "\n" ++ "\t\x7b\n" ++
  String.join (ctorEventConnects classInfo) ++
  "\t\x7d\n" ++ "\n"

/-- The managed signature of an event looked up in `initRuntimeData`
(generator.cpp:2533-2543). -/
def eventThunkSignature (getTypeInfo : String → Nat → UserTypeInfo) : List VarInfo → String
  | [] => ""
  | paramInfo :: rest =>
    getCSVarType (getTypeInfo paramInfo.type paramInfo.flags).scriptName
        (getTypeInfo paramInfo.type paramInfo.flags).type paramInfo.flags false true false ++
      (if !rest.isEmpty then ", " else "") ++ eventThunkSignature getTypeInfo rest

/-- The function `initRuntimeData` of the wrapper (generator.cpp:2509-2549). -/
def sourceInitRuntimeData (getTypeInfo : String → Nat → UserTypeInfo) (classInfo : ClassInfo) :
    String :=
  let interopClassName := getScriptInteropType classInfo.name
  let addInternalCall := fun (methodInfo : MethodInfo) =>
    "\t\tmetaData.scriptClass->addInternalCall(\"Internal_" ++ methodInfo.interopName ++
      "\", &" ++ interopClassName ++ "::Internal_" ++ methodInfo.interopName ++ ");\n"
  "\tvoid " ++ interopClassName ++ "::initRuntimeData()\n" ++ "\t\x7b\n" ++
  String.join (classInfo.ctorInfos.map addInternalCall) ++
  String.join (classInfo.methodInfos.map addInternalCall) ++
  "\n" ++
  String.join (classInfo.eventInfos.map (fun eventInfo =>
    "\t\t" ++ eventInfo.sourceName ++ "Thunk = " ++
    "(" ++ eventInfo.sourceName ++ "ThunkDef)metaData.scriptClass->getMethodExact(" ++
    "\"Internal_" ++ eventInfo.interopName ++ "\", \"" ++
    eventThunkSignature getTypeInfo eventInfo.paramInfos ++
    "\")->getThunk();\n")) ++
  "\t\x7d\n" ++ "\n"

/-- The functions `create` or `createInstance` of the wrapper (generator.cpp:2551-2599);
`none` when the search of `findUnusedCtorSignature` runs out of iterations. -/
def sourceCreate (classInfo : ClassInfo) (typeInfo : UserTypeInfo) : Option String :=
  let interopClassName := getScriptInteropType classInfo.name
  let wrappedDataType := getCppVarType classInfo.name typeInfo.type
  if (typeInfo.type == ParsedType.Class && !classIsModule classInfo) ||
      typeInfo.type == ParsedType.Resource then
    (findUnusedCtorSignature classInfo).map (fun unusedCtor =>
      let numDummyParams := unusedCtor.paramInfos.length
      let ctorSignature := String.intercalate "," (unusedCtor.paramInfos.map (fun p => p.type))
      let ctorParamsInit :=
        "\t\tbool dummy = false;\n" ++
        "\t\tvoid* ctorParams[" ++ to_string numDummyParams ++ "] = \x7b " ++
        String.intercalate ", " (unusedCtor.paramInfos.map (fun _ => "&dummy")) ++
        " \x7d;\n" ++ "\n"
      if typeInfo.type == ParsedType.Class then
        "\tMonoObject* " ++ interopClassName ++ "::create(const " ++ wrappedDataType ++
          "& value)\n" ++ "\t\x7b\n" ++
        ctorParamsInit ++
        "\t\tMonoObject* managedInstance = metaData.scriptClass->createInstance(\"" ++
          ctorSignature ++ "\", ctorParams);\n" ++
        "\t\t" ++ interopClassName ++ "* scriptInstance = new (bs_alloc<" ++ interopClassName ++
          ">()) " ++ interopClassName ++ "(managedInstance, value);\n" ++
        "\t\treturn managedInstance;\n" ++
        "\t\x7d\n"
      else
        "\t MonoObject*" ++ interopClassName ++ "::createInstance()\n" ++ "\t\x7b\n" ++
        ctorParamsInit ++
        "\t\treturn metaData.scriptClass->createInstance(\"" ++ ctorSignature ++
          "\", ctorParams);\n" ++
        "\t\x7d\n")
  else some ""

/-- The functions `startUp` and `shutDown` of the wrapper (generator.cpp:2601-2637). -/
def sourceStartUpShutDown (classInfo : ClassInfo) : String :=
  let interopClassName := getScriptInteropType classInfo.name
  if sourceHasStaticEvents classInfo then
    "\tvoid " ++ interopClassName ++ "::startUp()\n" ++ "\t\x7b\n" ++
    String.join (startUpConnects classInfo) ++
    "\t\x7d\n" ++
    "\tvoid " ++ interopClassName ++ "::shutDown()\n" ++ "\t\x7b\n" ++
    String.join (shutDownDisconnects classInfo) ++
    "\t\x7d\n" ++ "\n"
  else ""

/-- The implementations of the event callbacks (generator.cpp:2639-2649). -/
def sourceEventCallbacks (getTypeInfo : String → Nat → UserTypeInfo)
    (underlyingCppType : String → Nat → String) (classInfo : ClassInfo) :
    List MethodInfo → Option String
  | [] => some ""
  | eventInfo :: rest =>
    match generateCppEventCallbackBody getTypeInfo underlyingCppType eventInfo
        (classIsModule classInfo) with
    | none => none
    | some body =>
      match sourceEventCallbacks getTypeInfo underlyingCppType classInfo rest with
      | none => none
      | some rest1 =>
        some ("\t" ++ generateCppEventCallbackSignature eventInfo
            (getScriptInteropType classInfo.name) (classIsModule classInfo) ++ "\n" ++
          body ++ (if !rest.isEmpty then "\n" else "") ++ rest1)

/-- One of the two loops over the interop methods (generator.cpp:2658-2678). In the loop over
`ctorInfos` the source compares the iterator with `methodInfos.end()`, the end of another
vector, which it never equals: there `separateLast` is true and every body is followed by an
empty line. -/
def sourceHookMethods (getTypeInfo : String → Nat → UserTypeInfo)
    (canBeReturned : ParsedType → Nat → Bool) (isHandleType : ParsedType → Bool)
    (underlyingCppType : String → Nat → String) (classInfo : ClassInfo)
    (typeInfo : UserTypeInfo) (separateLast : Bool) : List MethodInfo → Option String
  | [] => some ""
  | methodInfo :: rest =>
    match generateCppMethodBody getTypeInfo canBeReturned isHandleType underlyingCppType
        methodInfo classInfo.name (getScriptInteropType classInfo.name) typeInfo.type
        (classIsModule classInfo) with
    | none => none
    | some body =>
      match sourceHookMethods getTypeInfo canBeReturned isHandleType underlyingCppType
          classInfo typeInfo separateLast rest with
      | none => none
      | some rest1 =>
        some ("\t" ++ generateCppMethodSignature getTypeInfo canBeReturned methodInfo
            (interopClassThisPtrType classInfo) (getScriptInteropType classInfo.name)
            (classIsModule classInfo) ++ "\n" ++
          body ++ (if separateLast || !rest.isEmpty then "\n" else "") ++ rest1)

/-- The function `generateCppSourceOutput` (generator.cpp:2439): its sections in the order
they are written; `none` is a failed `assert` in one of them. -/
def generateCppSourceOutput (getTypeInfo : String → Nat → UserTypeInfo)
    (canBeReturned : ParsedType → Nat → Bool) (isHandleType : ParsedType → Bool)
    (underlyingCppType : String → Nat → String) (classInfo : ClassInfo)
    (typeInfo : UserTypeInfo) : Option String :=
  match sourceCreate classInfo typeInfo with
  | none => none
  | some create =>
    match sourceEventCallbacks getTypeInfo underlyingCppType classInfo classInfo.eventInfos with
    | none => none
    | some callbacks =>
      match sourceHookMethods getTypeInfo canBeReturned isHandleType underlyingCppType
          classInfo typeInfo true classInfo.ctorInfos with
      | none => none
      | some ctorHooks =>
        match sourceHookMethods getTypeInfo canBeReturned isHandleType underlyingCppType
            classInfo typeInfo false classInfo.methodInfos with
        | none => none
        | some methodHooks =>
          some (sourceConstructor classInfo typeInfo ++
            sourceInitRuntimeData getTypeInfo classInfo ++
            create ++
            sourceStartUpShutDown classInfo ++
            callbacks ++ ctorHooks ++ methodHooks)

/-! ## Managed methods and properties: `generateCSClass` (generator.cpp:2829-3173) -/

/-- The function `generateCSMethodArgs` (generator.cpp:2829). -/
def generateCSMethodArgs (getTypeInfo : String → Nat → UserTypeInfo) (forInterop : Bool) :
    List VarInfo → String
  | [] => ""
  | paramInfo :: rest =>
    (if isOutput paramInfo.flags then "out "
     else if forInterop &&
        isPlainStruct (getTypeInfo paramInfo.type paramInfo.flags).type paramInfo.flags then
      "ref "
     else "") ++
    paramInfo.name ++ (if !rest.isEmpty then ", " else "") ++
    generateCSMethodArgs getTypeInfo forInterop rest

/-- The function `generateCSInteropMethodSignature` (generator.cpp:2887). -/
def generateCSInteropMethodSignature (getTypeInfo : String → Nat → UserTypeInfo)
    (canBeReturned : ParsedType → Nat → Bool) (methodInfo : MethodInfo)
    (csClassName : String) (isModule : Bool) : String :=
  let returnTypeInfo := getTypeInfo methodInfo.returnInfo.type methodInfo.returnInfo.flags
  let qualifiedType := getCSVarType returnTypeInfo.scriptName returnTypeInfo.type
    methodInfo.returnInfo.flags false true false
  let returnAsParameter := returnAsParameter getTypeInfo canBeReturned methodInfo
  (if methodInfo.returnInfo.type.isEmpty || isCtor methodInfo then "void"
   else if returnAsParameter then "void" else qualifiedType) ++
  " " ++ "Internal_" ++ methodInfo.interopName ++ "(" ++
  (if isCtor methodInfo then
    csClassName ++ " managedInstance" ++
      (if methodInfo.paramInfos.length > 0 then ", " else "")
   else if !isStatic methodInfo && !isModule then
    "IntPtr thisPtr" ++
      (if methodInfo.paramInfos.length > 0 || returnAsParameter then ", " else "")
   else "") ++
  generateCSMethodParams getTypeInfo true methodInfo.paramInfos ++
  (if returnAsParameter then
    (if methodInfo.paramInfos.length > 0 then ", " else "") ++
      "out " ++ qualifiedType ++ " __output"
   else "") ++
  ")"

/-- The extern declaration `generateCSClass` writes to the stream `interops` for an entry of
`ctorInfos` (generator.cpp:2968-2972). -/
def csCtorExtern (getTypeInfo : String → Nat → UserTypeInfo) (scriptName : String)
    (entry : MethodInfo) : String :=
  "\t\t[MethodImpl(MethodImplOptions.InternalCall)]\n" ++
  "\t\tprivate static extern void Internal_" ++ entry.interopName ++ "(" ++ scriptName ++
    " managedInstance, " ++ generateCSMethodParams getTypeInfo true entry.paramInfos ++ ");" ++
  "\n"

/-- The extern declaration `generateCSClass` writes to the stream `interops` for an entry of
`methodInfos` (generator.cpp:3002-3005). -/
def csMethodExtern (getTypeInfo : String → Nat → UserTypeInfo)
    (canBeReturned : ParsedType → Nat → Bool) (scriptName : String) (isModule : Bool)
    (entry : MethodInfo) : String :=
  "\t\t[MethodImpl(MethodImplOptions.InternalCall)]\n" ++
  "\t\tprivate static extern " ++
    generateCSInteropMethodSignature getTypeInfo canBeReturned entry scriptName isModule ++
    ";" ++ "\n"

/-- The statements in the body of a managed method that is no property accessor
(generator.cpp:3066-3100): the call of the interop function and what surrounds it. -/
def csMethodBodyCall (getTypeInfo : String → Nat → UserTypeInfo)
    (canBeReturned : ParsedType → Nat → Bool) (isModule : Bool) (entry : MethodInfo) : String :=
  let returnTypeInfo := getTypeInfo entry.returnInfo.type entry.returnInfo.flags
  let returnType :=
    if entry.returnInfo.type.isEmpty then "void"
    else getCSVarType returnTypeInfo.scriptName returnTypeInfo.type entry.returnInfo.flags
      false true false
  let returnByParam := !entry.returnInfo.type.isEmpty &&
    !canBeReturned returnTypeInfo.type entry.returnInfo.flags
  (if !entry.returnInfo.type.isEmpty then
    if !canBeReturned returnTypeInfo.type entry.returnInfo.flags then
      "\t\t\t" ++ returnType ++ " temp;\n" ++ "\t\t\tInternal_" ++ entry.interopName ++ "("
    else "\t\t\treturn Internal_" ++ entry.interopName ++ "("
   else "\t\t\tInternal_" ++ entry.interopName ++ "(") ++
  (if !isStatic entry && !isModule then "mCachedPtr" else "") ++
  (if entry.paramInfos.length > 0 || returnByParam then ", " else "") ++
  generateCSMethodArgs getTypeInfo true entry.paramInfos ++
  (if returnByParam then
    (if entry.paramInfos.length > 0 then ", " else "") ++ "out temp"
   else "") ++
  ");\n" ++
  (if returnByParam then "\t\t\treturn temp;\n" else "")

/-- The read accessor `generateCSClass` writes for a property (generator.cpp:3136-3156);
`propTypeName` is the local of that name. -/
def csPropertyGetter (getTypeInfo : String → Nat → UserTypeInfo)
    (canBeReturned : ParsedType → Nat → Bool) (isModule : Bool) (entry : PropertyInfo) :
    String :=
  let propTypeInfo := getTypeInfo entry.type entry.typeFlags
  let propTypeName := getCSVarType propTypeInfo.scriptName propTypeInfo.type entry.typeFlags
    false true false
  if !entry.getter.isEmpty then
    if canBeReturned propTypeInfo.type entry.typeFlags then
      "\t\t\tget \x7b return Internal_" ++ entry.getter ++ "(mCachedPtr); \x7d\n"
    else
      "\t\t\tget\n" ++ "\t\t\t\x7b\n" ++
      "\t\t\t\t" ++ propTypeName ++ " temp;\n" ++
      "\t\t\t\tInternal_" ++ entry.getter ++ "(" ++
      (if !entry.isStatic && !isModule then "mCachedPtr, " else "") ++
      "out temp);\n" ++
      "\t\t\t\treturn temp;\n" ++ "\t\t\t\x7d\n"
  else ""

/-! ## Auxiliary notions for the chains of `@copydoc` references -/

/-- The test `commentRef.startswith("@copydoc")` of `resolveCopydocComment`
(generator.cpp:567). -/
def startsWithCopydoc (line : String) : Bool :=
  "@copydoc".data.isPrefixOf line.data

/-- A terminal comment in the words of the spec: no brief line starts with `@copydoc`, or the
first brief line that does has no text after its first space. -/
def IsTerminalComment (comment : CommentEntry) : Prop :=
  (∀ line ∈ comment.brief, startsWithCopydoc line = false) ∨
  ∃ before line after, comment.brief = before ++ line :: after ∧
    (∀ l ∈ before, startsWithCopydoc l = false) ∧ startsWithCopydoc line = true ∧
    (splitFirst ' ' line).2 = ""

/-- One resolved reference: `comment` is not terminal and `parseCopydocString` finds `next`
for its `@copydoc` argument. -/
def copydocStep (index : CommentIndex) (curNS : List String)
    (comment next : CommentEntry) : Prop :=
  (findCopydocArg comment.brief).isEmpty = false ∧
    ∃ ok, parseCopydocString index (findCopydocArg comment.brief) curNS CommentEntry.empty =
      some (ok, next) ∧ ok = true

/-- An unresolvable reference: `comment` is not terminal and `parseCopydocString` returns
`false` for its `@copydoc` argument. -/
def copydocUnresolvable (index : CommentIndex) (curNS : List String)
    (comment : CommentEntry) : Prop :=
  (findCopydocArg comment.brief).isEmpty = false ∧
    ∃ leftover, parseCopydocString index (findCopydocArg comment.brief) curNS
      CommentEntry.empty = some (false, leftover)

/-- The last comment of the chain that starts at `comment` and goes on with `chain`. -/
def lastOf (comment : CommentEntry) : List CommentEntry → CommentEntry
  | [] => comment
  | next :: rest => lastOf next rest

/-! ## Auxiliary notions for the frame of `postProcessFileInfos` -/

/-- The return value of a method is as it was. -/
def ReturnKept (methodInfo methodInfo' : MethodInfo) : Prop :=
  methodInfo'.returnInfo = methodInfo.returnInfo

/-- The return value and the parameters of an event are as they were. -/
def EventKept (eventInfo eventInfo' : MethodInfo) : Prop :=
  eventInfo'.returnInfo = eventInfo.returnInfo ∧ eventInfo'.paramInfos = eventInfo.paramInfos

/-- A class whose methods, constructors and events correspond one to one to those of
`classInfo`, with the return values, and for events also the parameters, as they were. -/
def ClassKept (classInfo classInfo' : ClassInfo) : Prop :=
  List.Forall₂ ReturnKept classInfo.methodInfos classInfo'.methodInfos ∧
    List.Forall₂ ReturnKept classInfo.ctorInfos classInfo'.ctorInfos ∧
    List.Forall₂ EventKept classInfo.eventInfos classInfo'.eventInfos

/-- A class that differs from `classInfo` only by methods pushed at the back of its method
list. -/
def ClassPushed (classInfo classInfo' : ClassInfo) : Prop :=
  ∃ pushed, classInfo' = { classInfo with methodInfos := classInfo.methodInfos ++ pushed }

/-- The decimal literal of an integer value, as the front end writes a numeric default
value. -/
def decimalLiteral (v : Int) : String :=
  if v < 0 then "-" ++ to_string v.natAbs else to_string v.toNat

/-! ## `generateXMLComments`: the lambda `wordWrap` (generator.cpp:593-637)

A `std::string` is the list of its bytes here, since the lambda measures and cuts bytes.
Lengths and positions are `int` in the source: the conversions of a `size_t` to `int` are
taken modulo 2^32 (`wrapInt32`), and so are additions and subtractions, none of which leaves
the range of `int` on the inputs of the theorems below. -/

/-- The bytes that the `std::string` of a text holds: its UTF-8 encoding. -/
def stringBytes (s : String) : List UInt8 :=
  s.data.flatMap String.utf8EncodeChar

/-- What the library functions of `StringRef` make of an `int` passed for a `size_t` that
they then cut to `length` with `std::min`: a negative value converts to a huge one, which the
minimum cuts to `length`. -/
def clampIndex (i : Int) (length : Nat) : Nat :=
  if i < 0 then length else min i.toNat length

/-- The library function `StringRef::substr(Start, N)`. -/
def substr (s : List UInt8) (start n : Int) : List UInt8 :=
  (s.drop (clampIndex start s.length)).take
    (clampIndex n (s.length - clampIndex start s.length))

/-- The loop of the library function `StringRef::rfind(C, From)`: the greatest index
strictly below `bound` at which `s` holds `c`, or `npos`, which is -1 as an `int`. -/
def rfindBelow (s : List UInt8) (c : UInt8) : Nat → Int
  | 0 => -1
  | i + 1 => if s[i]? = some c then (i : Int) else rfindBelow s c i

/-- The library function `StringRef::find_last_of(C, From)`, which is `rfind(C, From)`. -/
def find_last_of (s : List UInt8) (c : UInt8) (start : Int) : Int :=
  rfindBelow s c (clampIndex start s.length)

/-- The `while` loop of `wordWrap` (generator.cpp:608-634) with the loop state `curIdx`: the
texts of the lines written, without prefix and line end. `inputLength` is the length of the
input as an `int`, and 32 is the space. `fuel` counts the iterations allowed and `none` means
they ran out. -/
def wordWrapLoop (input : List UInt8) (inputLength lineLength : Int) :
    Nat → Int → Option (List (List UInt8))
  | 0, _ => none
  | fuel + 1, curIdx =>
    if curIdx < inputLength then
      let remainingLength := wrapInt32 (inputLength - curIdx)
      if remainingLength ≤ lineLength then some [substr input curIdx remainingLength]
      else
        let lastSpace := wrapInt32 (find_last_of input 32 (wrapInt32 (curIdx + lineLength)))
        if lastSpace == -1 || decide (lastSpace ≤ curIdx) then
          (wordWrapLoop input inputLength lineLength fuel (wrapInt32 (curIdx + lineLength))).map
            (fun rest => substr input curIdx lineLength :: rest)
        else
          let length := wrapInt32 (wrapInt32 (lastSpace - curIdx) + 1)
          (wordWrapLoop input inputLength lineLength fuel (wrapInt32 (curIdx + length))).map
            (fun rest => substr input curIdx length :: rest)
    else some []

/-- The lines that the lambda `wordWrap` (generator.cpp:593) writes, each without the line
end that follows it; `columnLength` is 124 by default. The loop is given `input.length + 1`
iterations, which suffice when the lengths fit into an `int` and the prefix is shorter than
the column length. -/
def wordWrapLines (input linePrefix : List UInt8) (columnLength : Int) :
    Option (List (List UInt8)) :=
  let prefixLength := wrapInt32 linePrefix.length
  let inputLength := wrapInt32 input.length
  if wrapInt32 (inputLength + prefixLength) ≤ columnLength then
    some [linePrefix ++ input]
  else
    (wordWrapLoop input inputLength (wrapInt32 (columnLength - prefixLength))
      (input.length + 1) 0).map
      (fun pieces => pieces.map (fun piece => linePrefix ++ piece))

/-- The text that the lambda `wordWrap` returns: every line written, followed by its line
end, the byte 10. -/
def wordWrap (input linePrefix : List UInt8) (columnLength : Int) : Option (List UInt8) :=
  (wordWrapLines input linePrefix columnLength).map
    (fun lines => lines.flatMap (fun line => line ++ [10]))

/-! ## Sample inputs -/

/-- A variable of the given type name, without flags or default value. -/
def sampleVar (type : String) : VarInfo :=
  { name := "value", type := type, defaultValue := "", flags := 0 }

/-- A comment with one brief paragraph. -/
def sampleComment (brief : String) : CommentEntry :=
  { brief := [brief], params := [], returns := [] }

/-- A getter `int getSize()` of the property `Size`, documented. -/
def sampleGetter : MethodInfo :=
  { sourceName := "getSize", interopName := "getSize", scriptName := "Size",
    visibility := .Public, returnInfo := sampleVar "int", paramInfos := [],
    documentation := sampleComment "Size of the object.", externalClass := "",
    flags := MethodFlags.PropertyGetter }

/-- A setter `void setSize(int value)` of the property `Size`, documented. -/
def sampleSetter : MethodInfo :=
  { sourceName := "setSize", interopName := "setSize", scriptName := "Size",
    visibility := .Public, returnInfo := sampleVar "", paramInfos := [sampleVar "int"],
    documentation := sampleComment "Changes the size.", externalClass := "",
    flags := MethodFlags.PropertySetter }

/-- The getter of `Size` again, with an empty source name and hence an empty interop name. -/
def unnamedGetter : MethodInfo :=
  { sampleGetter with sourceName := "", interopName := "" }

/-- A static getter `float getSize()` of the property `Size`. -/
def sampleFloatGetter : MethodInfo :=
  { sampleGetter with
    sourceName := "getSizeF", interopName := "getSizeF", returnInfo := sampleVar "float" }

/-- The property `Size` as the setter alone records it. -/
def sampleProperty : PropertyInfo :=
  { name := "Size", type := "int", getter := "", setter := "setSize", typeFlags := 0,
    isStatic := false, visibility := .Public,
    documentation := sampleComment "Changes the size." }

/-- A method that is no accessor. -/
def sampleMethod : MethodInfo :=
  { sourceName := "update", interopName := "update", scriptName := "Update",
    visibility := .Public, returnInfo := sampleVar "", paramInfos := [],
    documentation := sampleComment "Updates the object.", externalClass := "", flags := 0 }

/-- A name-to-category lookup that knows `int` as Builtin and takes every other name for
a Class. -/
def sampleTypeInfo (typeName : String) (_flags : Nat) : UserTypeInfo :=
  { scriptName := typeName, type := if typeName = "int" then .Builtin else .Class,
    declFile := "", destFile := "" }

/-- A struct with a handle field and a builtin field. -/
def sampleStruct : StructInfo :=
  { name := "Bounds", interopName := "", visibility := .Public, ctors := [],
    fields := [sampleVar "Mesh", sampleVar "int"], requiresInterop := false,
    documentation := sampleComment "Bounds of a mesh.", ns := [] }

/-- A constructor of `Mesh` with the given parameters. -/
def sampleCtor (paramInfos : List VarInfo) : MethodInfo :=
  { sourceName := "Mesh", interopName := "", scriptName := "Mesh", visibility := .Public,
    returnInfo := sampleVar "", paramInfos := paramInfos,
    documentation := sampleComment "Creates a mesh.", externalClass := "",
    flags := MethodFlags.Constructor }

/-- A class `Mesh` with the given constructors and nothing else. -/
def sampleClass (ctorInfos : List MethodInfo) : ClassInfo :=
  { name := "Mesh", visibility := .Public, flags := 0, ns := [], baseClass := "",
    ctorInfos := ctorInfos, propertyInfos := [], methodInfos := [], eventInfos := [],
    documentation := sampleComment "A mesh." }

/-- The documented function `bs::Foo::bar` with three overloads. -/
def sampleBarInBs : CommentInfo :=
  { name := "bar", namespaces := ["bs"], comment := CommentEntry.empty, isFunction := true,
    overloads :=
      [{ params := ["int"], comment := sampleComment "bar of an int." },
       { params := [], comment := sampleComment "bar of nothing." },
       { params := ["int", "float"], comment := sampleComment "bar of two." }] }

/-- The only overload of the documented global function `Foo::bar`. -/
def sampleGlobalOverload : CommentMethodInfo :=
  { params := ["int", "float"], comment := sampleComment "global bar." }

/-- The documented function `Foo::bar` of the global namespace. -/
def sampleGlobalBar : CommentInfo :=
  { name := "bar", namespaces := [], comment := CommentEntry.empty, isFunction := true,
    overloads := [sampleGlobalOverload] }

/-- A comment index with two functions `Foo::bar`, one in the global namespace and one in
`bs`, and the class `bs::Foo`. -/
def sampleIndex : CommentIndex :=
  { commentSimpleLookup := [("Foo::bar", [1, 0]), ("Foo", [2])],
    commentInfos :=
      [sampleBarInBs, sampleGlobalBar,
       { name := "Foo", namespaces := ["bs"], comment := sampleComment "The class Foo.",
         overloads := [], isFunction := false }] }

/-- A name-to-category lookup that knows `int` as Builtin and `Inner` and `Outer` as Struct,
and takes every other name for a Class. -/
def modelTypeInfo (typeName : String) (_flags : Nat) : UserTypeInfo :=
  { scriptName := typeName,
    type := if typeName = "int" then .Builtin
      else if typeName = "Inner" ∨ typeName = "Outer" then .Struct else .Class,
    declFile := "", destFile := "" }

/-- The struct `Inner { int value; }`. -/
def innerStruct : StructInfo :=
  { name := "Inner", interopName := "", visibility := .Public, ctors := [],
    fields := [sampleVar "int"], requiresInterop := false,
    documentation := CommentEntry.empty, ns := [] }

/-- The struct `Outer { Inner value; }`. -/
def outerStruct : StructInfo :=
  { name := "Outer", interopName := "", visibility := .Public, ctors := [],
    fields := [sampleVar "Inner"], requiresInterop := false,
    documentation := CommentEntry.empty, ns := [] }

/-- The method `void setBounds(Inner value)`. -/
def setBoundsMethod : MethodInfo :=
  { sourceName := "setBounds", interopName := "", scriptName := "SetBounds",
    visibility := .Public, returnInfo := sampleVar "", paramInfos := [sampleVar "Inner"],
    documentation := CommentEntry.empty, externalClass := "", flags := 0 }

/-- The external constructor `Mesh create(int value)`. -/
def externalCtor : MethodInfo :=
  { sourceName := "create", interopName := "", scriptName := "Mesh", visibility := .Public,
    returnInfo := sampleVar "Mesh", paramInfos := [sampleVar "int"],
    documentation := CommentEntry.empty, externalClass := "MeshEx",
    flags := MethodFlags.Constructor ||| MethodFlags.External }

/-- The external method `void scale(Mesh value, int value)`. -/
def externalMethod : MethodInfo :=
  { sourceName := "scale", interopName := "", scriptName := "Scale", visibility := .Public,
    returnInfo := sampleVar "", paramInfos := [sampleVar "Mesh", sampleVar "int"],
    documentation := CommentEntry.empty, externalClass := "MeshEx",
    flags := MethodFlags.External }

/-- The external method `void reset(int value)`, whose first parameter is not a `Mesh`. -/
def externalStray : MethodInfo :=
  { sourceName := "reset", interopName := "", scriptName := "Reset", visibility := .Public,
    returnInfo := sampleVar "", paramInfos := [sampleVar "int"],
    documentation := CommentEntry.empty, externalClass := "MeshEx",
    flags := MethodFlags.External }

/-- The class `Mesh` with the method `setBounds`. -/
def meshClass : ClassInfo :=
  { name := "Mesh", visibility := .Public, flags := 0, ns := [], baseClass := "",
    ctorInfos := [], propertyInfos := [], methodInfos := [setBoundsMethod],
    eventInfos := [], documentation := CommentEntry.empty }

/-- One module with the class `Mesh` and the structs `Inner` and `Outer`. -/
def meshFiles : List (String × FileInfo) :=
  [("Mesh", { classInfos := [meshClass], structInfos := [innerStruct, outerStruct],
              enumInfos := [], inEditor := false })]

/-- The module of `meshFiles` together with one external constructor of `Mesh`. -/
def meshModel : Model :=
  { outputFileInfos := meshFiles,
    externalClassInfos := [("Mesh", { methods := [externalCtor] })] }

/-- A lookup that knows the enum `Mode`; every other name is a class. -/
def enumTypeInfo (typeName : String) (_flags : Nat) : UserTypeInfo :=
  { scriptName := typeName,
    type := if typeName = "Mode" then .Enum else .Class,
    declFile := "", destFile := "" }

/-- The enum `Mode { Off = 0, On = 1 }`. -/
def modeEnum : EnumInfo :=
  { name := "Mode", scriptName := "Mode", visibility := .Public, explicitType := "",
    entries := [(0, { name := "Off", scriptName := "Off", documentation := CommentEntry.empty }),
      (1, { name := "On", scriptName := "On", documentation := CommentEntry.empty })],
    documentation := CommentEntry.empty, ns := [] }

/-- The method `void setMode(Mode mode = 1)`, the default value as the parser records it. -/
def setModeMethod : MethodInfo :=
  { sourceName := "setMode", interopName := "", scriptName := "SetMode",
    visibility := .Public, returnInfo := sampleVar "",
    paramInfos := [{ name := "mode", type := "Mode", defaultValue := "1", flags := 0 }],
    documentation := CommentEntry.empty, externalClass := "", flags := 0 }

/-- The class `Light` with the method `setMode`. -/
def lightClass : ClassInfo :=
  { name := "Light", visibility := .Public, flags := 0, ns := [], baseClass := "",
    ctorInfos := [], propertyInfos := [], methodInfos := [setModeMethod],
    eventInfos := [], documentation := CommentEntry.empty }

/-- One module with the enum `Mode` and the class `Light`, and no external methods. -/
def modeModel : Model :=
  { outputFileInfos :=
      [("Light", { classInfos := [lightClass], structInfos := [], enumInfos := [modeEnum],
                   inEditor := false })],
    externalClassInfos := [] }

/-- A lookup for the marshaling samples: `int` is a builtin, `Vec` a struct, `Texture` a
resource, `Camera` a component; every other name is a class. -/
def marshalTypeInfo (typeName : String) (_flags : Nat) : UserTypeInfo :=
  { scriptName := typeName,
    type := if typeName = "int" then .Builtin
      else if typeName = "Vec" then .Struct
      else if typeName = "Texture" then .Resource
      else if typeName = "Camera" then .Component else .Class,
    declFile := "", destFile := "" }

/-- The handle categories of the samples: resources and game objects. -/
def sampleIsHandleType (type : ParsedType) : Bool :=
  type == ParsedType.Resource || type == ParsedType.Component ||
    type == ParsedType.SceneObject

/-- The underlying C++ type of the sample enums. -/
def sampleUnderlyingCppType (_typeName : String) (_flags : Nat) : String := "int32_t"

/-- A sample `canBeReturned`: everything but structs and arrays is returned directly. -/
def sampleCanBeReturned (type : ParsedType) (flags : Nat) : Bool :=
  type != ParsedType.Struct && !isArray flags

/-- The method `Vec getBounds(int& count)`: a struct return value, which the sample
`canBeReturned` sends through `__output`, and one output parameter. -/
def getBoundsMethod : MethodInfo :=
  { sourceName := "getBounds", interopName := "getBounds", scriptName := "GetBounds",
    visibility := .Public,
    returnInfo := { name := "", type := "Vec", defaultValue := "", flags := 0 },
    paramInfos := [{ name := "count", type := "int", defaultValue := "",
                     flags := TypeFlags.Output }],
    documentation := CommentEntry.empty, externalClass := "", flags := 0 }

/-- The method `int getCount(int& total)`: a builtin return value, returned directly, and one
output parameter. -/
def getCountMethod : MethodInfo :=
  { sourceName := "getCount", interopName := "getCount", scriptName := "GetCount",
    visibility := .Public,
    returnInfo := { name := "", type := "int", defaultValue := "", flags := 0 },
    paramInfos := [{ name := "total", type := "int", defaultValue := "",
                     flags := TypeFlags.Output }],
    documentation := CommentEntry.empty, externalClass := "", flags := 0 }

/-- A lookup for the managed samples: `bool` and `int` are builtins, every other name is a
class; the managed name is the native name. -/
def csTypeInfo (typeName : String) (_flags : Nat) : UserTypeInfo :=
  { scriptName := typeName,
    type := if typeName = "bool" ∨ typeName = "int" then .Builtin else .Class,
    declFile := "", destFile := "" }

/-- The external constructor `Mesh create(bool value)`. -/
def externalBoolCtor : MethodInfo :=
  { sourceName := "create", interopName := "create", scriptName := "Mesh",
    visibility := .Public, returnInfo := sampleVar "Mesh",
    paramInfos := [{ name := "value", type := "bool", defaultValue := "",
                     flags := TypeFlags.Builtin }],
    documentation := CommentEntry.empty, externalClass := "MeshEx",
    flags := MethodFlags.Constructor ||| MethodFlags.External }

/-- The instance event `onChange(int)`. -/
def onChangeEvent : MethodInfo :=
  { sourceName := "onChange", interopName := "onChange", scriptName := "OnChange",
    visibility := .Public, returnInfo := sampleVar "",
    paramInfos := [{ name := "value", type := "int", defaultValue := "", flags := 0 }],
    documentation := CommentEntry.empty, externalClass := "", flags := 0 }

/-- The static event `onReset()`. -/
def onResetEvent : MethodInfo :=
  { sourceName := "onReset", interopName := "onReset", scriptName := "OnReset",
    visibility := .Public, returnInfo := sampleVar "", paramInfos := [],
    documentation := CommentEntry.empty, externalClass := "",
    flags := MethodFlags.Static }

/-- The class `Mesh` with the instance event `onChange` and the static event `onReset`. -/
def eventClass : ClassInfo :=
  { name := "Mesh", visibility := .Public, flags := 0, ns := [], baseClass := "",
    ctorInfos := [], propertyInfos := [], methodInfos := [],
    eventInfos := [onChangeEvent, onResetEvent], documentation := CommentEntry.empty }

/-- The external setter `void markDirty(Mesh value)`, whose only parameter is the receiver. -/
def externalSetter : MethodInfo :=
  { sourceName := "markDirty", interopName := "", scriptName := "Dirty", visibility := .Public,
    returnInfo := sampleVar "", paramInfos := [sampleVar "Mesh"],
    documentation := CommentEntry.empty, externalClass := "MeshEx",
    flags := MethodFlags.PropertySetter ||| MethodFlags.External }

/-- The static method `static void reset(int value)`. -/
def staticResetMethod : MethodInfo :=
  { sourceName := "reset", interopName := "reset", scriptName := "Reset",
    visibility := .Public, returnInfo := sampleVar "",
    paramInfos := [{ name := "value", type := "int", defaultValue := "", flags := 0 }],
    documentation := CommentEntry.empty, externalClass := "", flags := MethodFlags.Static }

/-- The static getter `static int getCount()` of the property `Count`. -/
def staticGetCount : MethodInfo :=
  { sourceName := "getCount", interopName := "getCount", scriptName := "Count",
    visibility := .Public,
    returnInfo := { name := "", type := "int", defaultValue := "", flags := 0 },
    paramInfos := [], documentation := CommentEntry.empty, externalClass := "",
    flags := MethodFlags.Static ||| MethodFlags.PropertyGetter }

/-- The property `Count` as property synthesis builds it from `staticGetCount`. -/
def staticCountProperty : PropertyInfo :=
  { name := "Count", type := "int", getter := "getCount", setter := "", typeFlags := 0,
    isStatic := true, visibility := .Public, documentation := CommentEntry.empty }

/-- The constructor `Mesh()` after the interop-name pass. -/
def defaultCtor : MethodInfo :=
  { sourceName := "Mesh", interopName := "Mesh", scriptName := "Mesh", visibility := .Public,
    returnInfo := sampleVar "", paramInfos := [], documentation := CommentEntry.empty,
    externalClass := "", flags := MethodFlags.Constructor }

/-- A comment index with the two documented classes `A` and `B`, whose comments reference
each other by `@copydoc`. -/
def cyclicIndex : CommentIndex :=
  { commentSimpleLookup := [("A", [0]), ("B", [1])],
    commentInfos :=
      [{ name := "A", namespaces := [], comment := sampleComment "@copydoc B",
         overloads := [], isFunction := false },
       { name := "B", namespaces := [], comment := sampleComment "@copydoc A",
         overloads := [], isFunction := false }] }

/-- A comment index with the documented classes `A`, whose comment references `B`, and `B`,
whose comment is plain text. -/
def chainIndex : CommentIndex :=
  { commentSimpleLookup := [("A", [0]), ("B", [1])],
    commentInfos :=
      [{ name := "A", namespaces := [], comment := sampleComment "@copydoc B",
         overloads := [], isFunction := false },
       { name := "B", namespaces := [], comment := sampleComment "The class B.",
         overloads := [], isFunction := false }] }

/-- A comment of 149 characters: with the prefix `/// ` it does not fit in 124 columns. -/
def longComment : String :=
  "Creates a new mesh with enough space to hold the requested number of vertices and " ++
  "indices, and returns a handle to it once the data has been written."

/-- The module with the class `Mesh` and the external method `scale(Mesh, int)`, which takes
the class as its receiver. -/
def receiverModel : Model :=
  { outputFileInfos := meshFiles,
    externalClassInfos := [("Mesh", { methods := [externalMethod, externalStray] })] }

/-! ## Properties of the type classifier -/

theorem ownedExactlyBy_rawPointer {flags : Nat} (h : ownedExactlyBy flags .RawPointer = true) :
    isSrcPointer flags = true ∧ isSrcReference flags = false ∧ isSrcValue flags = false ∧
      isSrcSPtr flags = false ∧ isSrcRHandle flags = false ∧ isSrcGHandle flags = false := by
  simpa [ownedExactlyBy, hasOwnership, and_assoc] using h

theorem ownedExactlyBy_referenceOrValue {flags : Nat}
    (h : ownedExactlyBy flags .ReferenceOrValue = true) :
    isSrcPointer flags = false ∧ (isSrcReference flags || isSrcValue flags) = true ∧
      isSrcSPtr flags = false ∧ isSrcRHandle flags = false ∧ isSrcGHandle flags = false := by
  simpa [ownedExactlyBy, hasOwnership] using h

theorem ownedExactlyBy_sharedPointer {flags : Nat}
    (h : ownedExactlyBy flags .SharedPointer = true) :
    isSrcPointer flags = false ∧ (isSrcReference flags || isSrcValue flags) = false ∧
      isSrcSPtr flags = true ∧ isSrcRHandle flags = false ∧ isSrcGHandle flags = false := by
  simpa [ownedExactlyBy, hasOwnership] using h

theorem ownedExactlyBy_resourceHandle {flags : Nat}
    (h : ownedExactlyBy flags .ResourceHandle = true) :
    isSrcPointer flags = false ∧ (isSrcReference flags || isSrcValue flags) = false ∧
      isSrcSPtr flags = false ∧ isSrcRHandle flags = true ∧ isSrcGHandle flags = false := by
  simpa [ownedExactlyBy, hasOwnership] using h

theorem ownedExactlyBy_gameObjectHandle {flags : Nat}
    (h : ownedExactlyBy flags .GameObjectHandle = true) :
    isSrcPointer flags = false ∧ (isSrcReference flags || isSrcValue flags) = false ∧
      isSrcSPtr flags = false ∧ isSrcRHandle flags = false ∧ isSrcGHandle flags = true := by
  simpa [ownedExactlyBy, hasOwnership] using h

/-- C3: for arrays and for every category other than Struct, `getInteropCppVarType` returns
the pointer form exactly when IsOutput is set and `forStruct` is false: an array is
`MonoArray**` or `MonoArray*` whatever its category; without IsArray, Builtin and Enum give
`typeName*` or `typeName`, String and WString give `MonoString**` or `MonoString*`, and
Resource, Component, SceneObject, Class and ScriptObject give `MonoObject**` or
`MonoObject*`. -/
theorem getInteropCppVarType_pointer_form (typeName : String) (type : ParsedType)
    (flags : Nat) (forStruct : Bool) :
    (isArray flags = true →
      getInteropCppVarType typeName type flags forStruct =
        if isOutput flags = true ∧ forStruct = false then "MonoArray**" else "MonoArray*") ∧
    (isArray flags = false → type = .Builtin ∨ type = .Enum →
      getInteropCppVarType typeName type flags forStruct =
        if isOutput flags = true ∧ forStruct = false then typeName ++ "*" else typeName) ∧
    (isArray flags = false → type = .String ∨ type = .WString →
      getInteropCppVarType typeName type flags forStruct =
        if isOutput flags = true ∧ forStruct = false then "MonoString**" else "MonoString*") ∧
    (isArray flags = false →
      type = .Resource ∨ type = .Component ∨ type = .SceneObject ∨ type = .Class ∨
        type = .ScriptObject →
      getInteropCppVarType typeName type flags forStruct =
        if isOutput flags = true ∧ forStruct = false then "MonoObject**" else "MonoObject*") := by
  refine ⟨?_, ?_, ?_, ?_⟩
  · intro h
    cases forStruct <;> cases ho : isOutput flags <;> simp [getInteropCppVarType, h, ho]
  · intro h ht
    rcases ht with ht | ht <;> subst ht <;>
      cases forStruct <;> cases ho : isOutput flags <;> simp [getInteropCppVarType, h, ho]
  · intro h ht
    rcases ht with ht | ht <;> subst ht <;>
      cases forStruct <;> cases ho : isOutput flags <;> simp [getInteropCppVarType, h, ho]
  · intro h ht
    rcases ht with ht | ht | ht | ht | ht <;> subst ht <;>
      cases forStruct <;> cases ho : isOutput flags <;> simp [getInteropCppVarType, h, ho]

theorem getInteropCppVarType_pointer_form_witness :
    getInteropCppVarType "int" .Enum TypeFlags.Output false = "int*" ∧
      getInteropCppVarType "int" .Enum TypeFlags.Output true = "int" ∧
      getInteropCppVarType "Mesh" .Resource (TypeFlags.Output ||| TypeFlags.Array) false =
        "MonoArray**" :=
  ⟨((getInteropCppVarType_pointer_form "int" .Enum TypeFlags.Output false).2.1
      (by decide) (Or.inr rfl)).trans (by decide),
    ((getInteropCppVarType_pointer_form "int" .Enum TypeFlags.Output true).2.1
      (by decide) (Or.inr rfl)).trans (by decide),
    ((getInteropCppVarType_pointer_form "Mesh" .Resource
      (TypeFlags.Output ||| TypeFlags.Array) false).1 (by decide)).trans (by decide)⟩

/-- C4: for a non-array Struct, `getInteropCppVarType` returns the base type in struct-field
context and the base type followed by `*` otherwise, the base type being
`"__" + typeName + "Interop"` under ComplexStruct and `typeName` without it; the result does
not depend on IsOutput: two flag words that are both non-array and agree on ComplexStruct give
the same result. -/
theorem getInteropCppVarType_struct (typeName : String) (flags : Nat) (forStruct : Bool)
    (h : isArray flags = false) :
    getInteropCppVarType typeName .Struct flags forStruct =
        (if isComplexStruct flags then "__" ++ typeName ++ "Interop" else typeName) ++
          (if forStruct then "" else "*") ∧
      ∀ flags' : Nat, isArray flags' = false → isComplexStruct flags' = isComplexStruct flags →
        getInteropCppVarType typeName .Struct flags' forStruct =
          getInteropCppVarType typeName .Struct flags forStruct := by
  constructor
  · cases forStruct <;> cases hc : isComplexStruct flags <;>
      simp [getInteropCppVarType, getStructInteropType, h, hc]
  · intro flags' h' hc
    simp [getInteropCppVarType, h, h', hc]

theorem getInteropCppVarType_struct_witness :
    getInteropCppVarType "Vec" .Struct (TypeFlags.ComplexStruct ||| TypeFlags.Output) false =
        (if isComplexStruct (TypeFlags.ComplexStruct ||| TypeFlags.Output) then
            "__" ++ "Vec" ++ "Interop" else "Vec") ++ (if false then "" else "*") ∧
      ∀ flags' : Nat, isArray flags' = false →
        isComplexStruct flags' = isComplexStruct (TypeFlags.ComplexStruct ||| TypeFlags.Output) →
        getInteropCppVarType "Vec" .Struct flags' false =
          getInteropCppVarType "Vec" .Struct (TypeFlags.ComplexStruct ||| TypeFlags.Output)
            false :=
  getInteropCppVarType_struct "Vec" (TypeFlags.ComplexStruct ||| TypeFlags.Output) false
    (by decide)

/-- C5: with exactly one ownership kind, raw pointer or reference/value,
`getAsManagedToCppArgument` forwards Builtin and Enum as `name` (IsOutput) or `&name` for a raw
pointer and as `*name` (IsOutput) or `name` for a reference/value, and forwards Struct,
whatever IsOutput is, as `name` for a raw pointer and `*name` for a reference/value. -/
theorem getAsManagedToCppArgument_plain (name : String) (flags : Nat) :
    (ownedExactlyBy flags .RawPointer = true →
      (∀ type, type = ParsedType.Builtin ∨ type = ParsedType.Enum →
        getAsManagedToCppArgument name type flags =
          some (if isOutput flags then name else "&" ++ name)) ∧
      getAsManagedToCppArgument name .Struct flags = some name) ∧
    (ownedExactlyBy flags .ReferenceOrValue = true →
      (∀ type, type = ParsedType.Builtin ∨ type = ParsedType.Enum →
        getAsManagedToCppArgument name type flags =
          some (if isOutput flags then "*" ++ name else name)) ∧
      getAsManagedToCppArgument name .Struct flags = some ("*" ++ name)) := by
  constructor
  · intro h
    obtain ⟨hp, -, -, hs, hr, hg⟩ := ownedExactlyBy_rawPointer h
    refine ⟨?_, ?_⟩
    · intro type ht
      rcases ht with ht | ht <;> subst ht <;> cases ho : isOutput flags <;>
        simp [getAsManagedToCppArgument, getArgumentPlain, hp, hs, hr, hg, ho]
    · simp [getAsManagedToCppArgument, getArgumentPlain, hp, hs, hr, hg]
  · intro h
    obtain ⟨hp, hv, hs, hr, hg⟩ := ownedExactlyBy_referenceOrValue h
    refine ⟨?_, ?_⟩
    · intro type ht
      rcases ht with ht | ht <;> subst ht <;> cases ho : isOutput flags <;>
        simp [getAsManagedToCppArgument, getArgumentPlain, hp, hs, hr, hg, ho, hv]
    · simp [getAsManagedToCppArgument, getArgumentPlain, hp, hs, hr, hg, hv]

theorem getAsManagedToCppArgument_plain_witness :
    getAsManagedToCppArgument "value" .Builtin TypeFlags.SrcPtr = some "&value" ∧
      getAsManagedToCppArgument "value" .Struct (TypeFlags.SrcRef ||| TypeFlags.Output) =
        some "*value" :=
  ⟨(((getAsManagedToCppArgument_plain "value" TypeFlags.SrcPtr).1 (by decide)).1
      .Builtin (Or.inl rfl)).trans (by decide),
    ((getAsManagedToCppArgument_plain "value"
      (TypeFlags.SrcRef ||| TypeFlags.Output)).2 (by decide)).2⟩

/-- C6: with exactly one ownership kind, `getAsManagedToCppArgument` forwards Resource,
Component and SceneObject as `name` for a resource or game-object handle,
`name.getInternalPtr()` for a shared pointer, `name.get()` for a raw pointer and `*name` for a
reference/value; it forwards Class as `name.get()` for a raw pointer, `name` for a shared
pointer and `*name` for a reference/value, and the two handle kinds fail the assertion for
Class. -/
theorem getAsManagedToCppArgument_object (name : String) (flags : Nat) :
    (∀ type, type = ParsedType.Resource ∨ type = ParsedType.Component ∨
        type = ParsedType.SceneObject →
      (ownedExactlyBy flags .ResourceHandle = true ∨
          ownedExactlyBy flags .GameObjectHandle = true →
        getAsManagedToCppArgument name type flags = some name) ∧
      (ownedExactlyBy flags .SharedPointer = true →
        getAsManagedToCppArgument name type flags = some (name ++ ".getInternalPtr()")) ∧
      (ownedExactlyBy flags .RawPointer = true →
        getAsManagedToCppArgument name type flags = some (name ++ ".get()")) ∧
      (ownedExactlyBy flags .ReferenceOrValue = true →
        getAsManagedToCppArgument name type flags = some ("*" ++ name))) ∧
    (ownedExactlyBy flags .RawPointer = true →
      getAsManagedToCppArgument name .Class flags = some (name ++ ".get()")) ∧
    (ownedExactlyBy flags .SharedPointer = true →
      getAsManagedToCppArgument name .Class flags = some name) ∧
    (ownedExactlyBy flags .ReferenceOrValue = true →
      getAsManagedToCppArgument name .Class flags = some ("*" ++ name)) ∧
    (ownedExactlyBy flags .ResourceHandle = true ∨
        ownedExactlyBy flags .GameObjectHandle = true →
      getAsManagedToCppArgument name .Class flags = none) := by
  refine ⟨?_, ?_, ?_, ?_, ?_⟩
  · intro type ht
    refine ⟨?_, ?_, ?_, ?_⟩
    · intro h
      rcases h with h | h
      · obtain ⟨hp, hv, hs, hr, hg⟩ := ownedExactlyBy_resourceHandle h
        rcases ht with ht | ht | ht <;> subst ht <;> simp [getAsManagedToCppArgument, hr]
      · obtain ⟨hp, hv, hs, hr, hg⟩ := ownedExactlyBy_gameObjectHandle h
        rcases ht with ht | ht | ht <;> subst ht <;> simp [getAsManagedToCppArgument, hg]
    · intro h
      obtain ⟨hp, hv, hs, hr, hg⟩ := ownedExactlyBy_sharedPointer h
      rcases ht with ht | ht | ht <;> subst ht <;>
        simp [getAsManagedToCppArgument, hr, hg, hs]
    · intro h
      obtain ⟨hp, -, -, hs, hr, hg⟩ := ownedExactlyBy_rawPointer h
      rcases ht with ht | ht | ht <;> subst ht <;>
        simp [getAsManagedToCppArgument, hr, hg, hs, hp]
    · intro h
      obtain ⟨hp, hv, hs, hr, hg⟩ := ownedExactlyBy_referenceOrValue h
      rcases ht with ht | ht | ht <;> subst ht <;>
        simp [getAsManagedToCppArgument, hr, hg, hs, hp, hv]
  · intro h
    obtain ⟨hp, -, -, hs, hr, hg⟩ := ownedExactlyBy_rawPointer h
    simp [getAsManagedToCppArgument, hr, hg, hp]
  · intro h
    obtain ⟨hp, hv, hs, hr, hg⟩ := ownedExactlyBy_sharedPointer h
    simp [getAsManagedToCppArgument, hr, hg, hp, hs]
  · intro h
    obtain ⟨hp, hv, hs, hr, hg⟩ := ownedExactlyBy_referenceOrValue h
    simp [getAsManagedToCppArgument, hr, hg, hp, hs, hv]
  · intro h
    rcases h with h | h
    · obtain ⟨hp, hv, hs, hr, hg⟩ := ownedExactlyBy_resourceHandle h
      simp [getAsManagedToCppArgument, hr]
    · obtain ⟨hp, hv, hs, hr, hg⟩ := ownedExactlyBy_gameObjectHandle h
      simp [getAsManagedToCppArgument, hg]

theorem getAsManagedToCppArgument_object_witness :
    getAsManagedToCppArgument "value" .Resource TypeFlags.SrcSPtr =
        some "value.getInternalPtr()" ∧
      getAsManagedToCppArgument "value" .Class TypeFlags.SrcRHandle = none :=
  ⟨(((getAsManagedToCppArgument_object "value" TypeFlags.SrcSPtr).1
      .Resource (Or.inl rfl)).2.1 (by decide)).trans (by decide),
    (getAsManagedToCppArgument_object "value" TypeFlags.SrcRHandle).2.2.2.2
      (Or.inl (by decide))⟩

/-- C7, as stated, fails: for a Class value owned by a raw pointer
`getAsCppToManagedArgument` returns the name unchanged, not `*name`. -/
theorem getAsCppToManagedArgument_handle_not_dereferenced :
    hasOwnership TypeFlags.SrcPtr .RawPointer = true ∧
      getAsCppToManagedArgument "value" .Class TypeFlags.SrcPtr = "value" ∧
      getAsCppToManagedArgument "value" .Class TypeFlags.SrcPtr ≠ "*" ++ "value" := by
  decide

/-- C7, amended: `getAsCppToManagedArgument` returns `*name` for a raw pointer and `name` for
a reference/value only for Builtin and Enum; for every handle category (String, WString,
Resource, Component, SceneObject, Class, ScriptObject) it returns `name` unchanged whatever
the ownership is; for Struct it returns `name` for a raw pointer and `&name` for a
reference/value. -/
theorem getAsCppToManagedArgument_table (name : String) (flags : Nat) :
    (∀ type, type = ParsedType.Builtin ∨ type = ParsedType.Enum →
      (hasOwnership flags .RawPointer = true →
        getAsCppToManagedArgument name type flags = "*" ++ name) ∧
      (hasOwnership flags .RawPointer = false → hasOwnership flags .ReferenceOrValue = true →
        getAsCppToManagedArgument name type flags = name)) ∧
    (∀ type, type = ParsedType.String ∨ type = ParsedType.WString ∨
        type = ParsedType.Resource ∨ type = ParsedType.Component ∨
        type = ParsedType.SceneObject ∨ type = ParsedType.Class ∨
        type = ParsedType.ScriptObject →
      getAsCppToManagedArgument name type flags = name) ∧
    (hasOwnership flags .RawPointer = true →
      getAsCppToManagedArgument name .Struct flags = name) ∧
    (hasOwnership flags .RawPointer = false → hasOwnership flags .ReferenceOrValue = true →
      getAsCppToManagedArgument name .Struct flags = "&" ++ name) := by
  refine ⟨?_, ?_, ?_, ?_⟩
  · intro type ht
    refine ⟨?_, ?_⟩
    · intro h
      simp only [hasOwnership] at h
      rcases ht with ht | ht <;> subst ht <;> simp [getAsCppToManagedArgument, h]
    · intro h hv
      simp only [hasOwnership] at h hv
      rcases ht with ht | ht <;> subst ht <;> simp [getAsCppToManagedArgument, h]
  · intro type ht
    rcases ht with ht | ht | ht | ht | ht | ht | ht <;> subst ht <;>
      simp [getAsCppToManagedArgument]
  · intro h
    simp only [hasOwnership] at h
    simp [getAsCppToManagedArgument, h]
  · intro h hv
    simp only [hasOwnership] at h hv
    simp [getAsCppToManagedArgument, h, hv]

theorem getAsCppToManagedArgument_table_witness :
    getAsCppToManagedArgument "value" .Enum TypeFlags.SrcPtr = "*value" ∧
      getAsCppToManagedArgument "value" .Struct TypeFlags.SrcRef = "&value" ∧
      getAsCppToManagedArgument "value" .Class TypeFlags.SrcPtr = "value" :=
  ⟨(((getAsCppToManagedArgument_table "value" TypeFlags.SrcPtr).1
      .Enum (Or.inr rfl)).1 (by decide)).trans (by decide),
    ((getAsCppToManagedArgument_table "value" TypeFlags.SrcRef).2.2.2
      (by decide) (by decide)).trans (by decide),
    (getAsCppToManagedArgument_table "value" TypeFlags.SrcPtr).2.1 .Class
      (Or.inr (Or.inr (Or.inr (Or.inr (Or.inr (Or.inl rfl))))))⟩

/-! ## Properties of the struct interop planner -/

theorem scanFields_eq (getTypeInfo : String → Nat → UserTypeInfo) (requiresInterop : Bool)
    (fields : List VarInfo) :
    scanFields getTypeInfo requiresInterop fields =
      (fields.any (fieldRequiresInterop getTypeInfo) || requiresInterop) := by
  induction fields with
  | nil => simp [scanFields]
  | cons f rest ih =>
    cases hf : fieldRequiresInterop getTypeInfo f <;> simp [scanFields, hf, ih]

/-- C2: for a struct whose `requiresInterop` is false beforehand, after the struct loops of
`postProcessFileInfos` the flag is true exactly when some field is an array or has category
Builtin, Enum or Struct, and `interopName` is `"__" + name + "Interop"` when the flag is true
and the declared name otherwise. -/
theorem planStructInterop_spec (getTypeInfo : String → Nat → UserTypeInfo)
    (structInfo : StructInfo) (h : structInfo.requiresInterop = false) :
    ((planStructInterop getTypeInfo structInfo).requiresInterop = true ↔
      ∃ fieldInfo ∈ structInfo.fields,
        isArray fieldInfo.flags = true ∨
          (getTypeInfo fieldInfo.type fieldInfo.flags).type = ParsedType.Builtin ∨
          (getTypeInfo fieldInfo.type fieldInfo.flags).type = ParsedType.Enum ∨
          (getTypeInfo fieldInfo.type fieldInfo.flags).type = ParsedType.Struct) ∧
    (planStructInterop getTypeInfo structInfo).interopName =
      (if (planStructInterop getTypeInfo structInfo).requiresInterop then
        "__" ++ structInfo.name ++ "Interop" else structInfo.name) ∧
    (planStructInterop getTypeInfo structInfo).name = structInfo.name ∧
    (planStructInterop getTypeInfo structInfo).fields = structInfo.fields := by
  refine ⟨?_, ?_, ?_, ?_⟩
  · simp [planStructInterop, markStructRequiringInterop, findStructRequiringInterop,
      scanFields_eq, h, fieldRequiresInterop, or_assoc]
  · simp [planStructInterop, markStructRequiringInterop, findStructRequiringInterop]
  · simp [planStructInterop, markStructRequiringInterop, findStructRequiringInterop]
  · simp [planStructInterop, markStructRequiringInterop, findStructRequiringInterop]

/-! ## Properties of the interop-name pass -/

theorem digitChar_toNat (k : Nat) (h : k < 10) : (Nat.digitChar k).toNat - 48 = k := by
  interval_cases k <;> rfl

theorem toDigitsCore_foldl (fuel : Nat) :
    ∀ (n : Nat) (ds : List Char), n < fuel →
      (Nat.toDigitsCore 10 fuel n ds).foldl (fun a c => 10 * a + (c.toNat - 48)) 0 =
        ds.foldl (fun a c => 10 * a + (c.toNat - 48)) n := by
  induction fuel with
  | zero => intro n ds h; omega
  | succ fuel ih =>
    intro n ds h
    unfold Nat.toDigitsCore
    simp only
    split
    · rename_i h0
      have hn : n < 10 := by
        by_contra hc
        have : 1 ≤ n / 10 := (Nat.one_le_div_iff (by decide)).2 (by omega)
        omega
      simp [List.foldl, digitChar_toNat n hn, Nat.mod_eq_of_lt hn]
    · rename_i h0
      have hlt : n / 10 < fuel := by
        have : n / 10 < n := Nat.div_lt_self (by
          rcases Nat.eq_zero_or_pos n with h1 | h1
          · subst h1; simp at h0
          · exact h1) (by decide)
        omega
      rw [ih (n / 10) _ hlt]
      simp only [List.foldl, digitChar_toNat (n % 10) (Nat.mod_lt _ (by decide))]
      congr 1
      omega

theorem to_string_injective : Function.Injective to_string := by
  intro a b h
  have hl : Nat.toDigits 10 a = Nat.toDigits 10 b := by
    have := congrArg String.data h
    simpa [to_string, Nat.repr, List.asString] using this
  have ha := toDigitsCore_foldl (a + 1) a [] (Nat.lt_succ_self a)
  have hb := toDigitsCore_foldl (b + 1) b [] (Nat.lt_succ_self b)
  simp only [List.foldl] at ha hb
  unfold Nat.toDigits at hl
  rw [hl] at ha
  omega

theorem append_to_string_injective (sourceName : String) :
    Function.Injective (fun k : Nat => sourceName ++ to_string k) := by
  intro a b h
  apply to_string_injective
  have := congrArg String.data h
  simp only [String.data_append] at this
  exact String.ext (List.append_cancel_left this)

/-- Among the first `usedNames.length + 1` numbered candidates one is unused. -/
theorem exists_unused_candidate (usedNames : List String) (sourceName : String) :
    ∃ k, k ≤ usedNames.length ∧ sourceName ++ to_string k ∉ usedNames := by
  by_contra hc
  simp only [not_exists, not_and, not_not] at hc
  have hnd : ((List.range (usedNames.length + 1)).map
      (fun k : Nat => sourceName ++ to_string k)).Nodup :=
    (List.nodup_range _).map (append_to_string_injective sourceName)
  have hsub : (List.range (usedNames.length + 1)).map
      (fun k : Nat => sourceName ++ to_string k) ⊆ usedNames := by
    intro x hx
    obtain ⟨k, hk, rfl⟩ := List.mem_map.1 hx
    exact hc k (by have := List.mem_range.1 hk; omega)
  have := (List.subperm_of_subset hnd hsub).length_le
  simp at this

theorem generateInteropNameLoop_some (usedNames : List String) (sourceName : String)
    (fuel : Nat) :
    ∀ (counter : Nat) (interopName : String),
      ((interopName ∉ usedNames ∧ 1 ≤ fuel) ∨
        ∃ k, counter ≤ k ∧ k + 2 ≤ counter + fuel ∧ sourceName ++ to_string k ∉ usedNames) →
      ∃ r, generateInteropNameLoop usedNames sourceName fuel counter interopName = some r ∧
        r ∉ usedNames := by
  induction fuel with
  | zero =>
    intro counter interopName h
    rcases h with ⟨-, h⟩ | ⟨k, h1, h2, -⟩ <;> omega
  | succ fuel ih =>
    intro counter interopName h
    by_cases hm : interopName ∈ usedNames
    · simp only [generateInteropNameLoop, hm, if_true]
      apply ih
      rcases h with ⟨h, -⟩ | ⟨k, h1, h2, h3⟩
      · exact absurd hm h
      · rcases Nat.eq_or_lt_of_le h1 with h4 | h4
        · subst h4
          exact Or.inl ⟨h3, by omega⟩
        · exact Or.inr ⟨k, by omega, by omega, h3⟩
    · exact ⟨interopName, by simp [generateInteropNameLoop, hm], hm⟩

/-- The loop of `generateInteropName` ends within `usedNames.length + 2` iterations, with a
name that is not in use. -/
theorem generateInteropName_isSome (usedNames : List String) (methodInfo : MethodInfo) :
    ∃ r, generateInteropName usedNames methodInfo =
        some (r :: usedNames, { methodInfo with interopName := r }) ∧ r ∉ usedNames := by
  obtain ⟨k, hk, hfree⟩ := exists_unused_candidate usedNames methodInfo.sourceName
  obtain ⟨r, hr, hnot⟩ := generateInteropNameLoop_some usedNames methodInfo.sourceName
    (usedNames.length + 2) 0 methodInfo.sourceName (Or.inr ⟨k, by omega, by omega, hfree⟩)
  exact ⟨r, by simp [generateInteropName, hr], hnot⟩

/-- A loop over a method list always succeeds; the names it assigns are pairwise distinct,
none was in use before, and afterwards exactly they and the earlier names are in use. -/
theorem generateInteropNames_spec (methodInfos : List MethodInfo) :
    ∀ usedNames : List String, ∃ used' methodInfos',
      generateInteropNames usedNames methodInfos = some (used', methodInfos') ∧
      (methodInfos'.map (fun m => m.interopName)).Nodup ∧
      (∀ n ∈ methodInfos'.map (fun m => m.interopName), n ∉ usedNames) ∧
      (∀ n, n ∈ used' ↔ n ∈ methodInfos'.map (fun m => m.interopName) ∨ n ∈ usedNames) := by
  induction methodInfos with
  | nil => intro usedNames; exact ⟨usedNames, [], by simp [generateInteropNames]⟩
  | cons m rest ih =>
    intro usedNames
    obtain ⟨r, hr, hnot⟩ := generateInteropName_isSome usedNames m
    obtain ⟨used', rest', hrest, hnd, hfresh, hused⟩ := ih (r :: usedNames)
    refine ⟨used', { m with interopName := r } :: rest', ?_, ?_, ?_, ?_⟩
    · simp [generateInteropNames, hr, hrest]
    · simp only [List.map_cons, List.nodup_cons]
      exact ⟨fun hmem => hfresh r hmem (List.mem_cons_self _ _), hnd⟩
    · intro n hn
      simp only [List.map_cons, List.mem_cons] at hn
      rcases hn with hn | hn
      · subst hn; exact hnot
      · exact fun hmem => hfresh n hn (List.mem_cons_of_mem _ hmem)
    · intro n
      rw [hused n]
      simp only [List.map_cons, List.mem_cons]
      tauto

/-- C1: the interop-name pass always completes on a class, and afterwards the interop names
of its methods, constructors and events, taken together, are pairwise distinct, whatever the
source names are. -/
theorem assignInteropNames_nodup (classInfo : ClassInfo) :
    ∃ classInfo', assignInteropNames classInfo = some classInfo' ∧
      classInfo'.interopNames.Nodup := by
  obtain ⟨u1, ms, h1, nd1, -, hu1⟩ := generateInteropNames_spec classInfo.methodInfos []
  obtain ⟨u2, cs, h2, nd2, f2, hu2⟩ := generateInteropNames_spec classInfo.ctorInfos u1
  obtain ⟨u3, es, h3, nd3, f3, -⟩ := generateInteropNames_spec classInfo.eventInfos u2
  refine ⟨_, by simp only [assignInteropNames, h1, h2, h3]; rfl, ?_⟩
  simp only [ClassInfo.interopNames, List.map_append]
  rw [List.nodup_append, List.nodup_append]
  refine ⟨⟨nd1, nd2, ?_⟩, nd3, ?_⟩
  · intro n hn1 hn2
    exact f2 n hn2 ((hu1 n).2 (Or.inl hn1))
  · intro n hn hn3
    apply f3 n hn3
    rw [hu2 n]
    rcases List.mem_append.1 hn with hn | hn
    · exact Or.inr ((hu1 n).2 (Or.inl hn))
    · exact Or.inl hn

/-! ## Properties of property synthesis -/

theorem mergeProperty_name (existingInfo propertyInfo : PropertyInfo) :
    (mergeProperty existingInfo propertyInfo).name = existingInfo.name := by
  unfold mergeProperty
  split_ifs <;> rfl

theorem propertiesNamed_recordProperty_of_ne (name : String) (propertyInfo : PropertyInfo)
    (hne : propertyInfo.name ≠ name) (propertyInfos : List PropertyInfo) :
    propertiesNamed name (recordProperty propertyInfo propertyInfos) =
      propertiesNamed name propertyInfos := by
  induction propertyInfos with
  | nil => simp [recordProperty, propertiesNamed, hne]
  | cons e rest ih =>
    unfold propertiesNamed at ih ⊢
    by_cases he : propertyInfo.name = e.name
    · have hen : e.name ≠ name := he ▸ hne
      simp [recordProperty, he, List.filter_cons, mergeProperty_name, hen]
    · simp only [recordProperty, he, if_false, List.filter_cons, ih]

theorem propertiesNamed_recordProperty_of_eq (propertyInfo : PropertyInfo)
    (propertyInfos : List PropertyInfo) :
    propertiesNamed propertyInfo.name (recordProperty propertyInfo propertyInfos) =
      match propertiesNamed propertyInfo.name propertyInfos with
      | [] => [propertyInfo]
      | e :: rest => mergeProperty e propertyInfo :: rest := by
  induction propertyInfos with
  | nil => simp [recordProperty, propertiesNamed]
  | cons e rest ih =>
    unfold propertiesNamed at ih ⊢
    by_cases he : propertyInfo.name = e.name
    · simp [recordProperty, he, List.filter_cons, mergeProperty_name]
    · have he' : ¬ e.name = propertyInfo.name := fun h => he h.symm
      simp only [recordProperty, he, if_false, List.filter_cons, he', decide_False,
        Bool.false_eq_true]
      exact ih

theorem generatePropertyInfos_append (a b : List MethodInfo) :
    ∀ propertyInfos : List PropertyInfo,
      generatePropertyInfos propertyInfos (a ++ b) =
        (generatePropertyInfos propertyInfos a).bind (fun p => generatePropertyInfos p b) := by
  induction a with
  | nil => intro propertyInfos; simp [generatePropertyInfos]
  | cons m rest ih =>
    intro propertyInfos
    cases h : propertyStep propertyInfos m with
    | none => simp [generatePropertyInfos, h]
    | some p => simp [generatePropertyInfos, h, ih]

/-- Methods that are not accessors of `name` leave the properties called `name` alone. -/
theorem generatePropertyInfos_frame (name : String) (methodInfos : List MethodInfo) :
    ∀ propertyInfos : List PropertyInfo, OtherAccessorsApart name methodInfos →
      ∃ propertyInfos', generatePropertyInfos propertyInfos methodInfos = some propertyInfos' ∧
        propertiesNamed name propertyInfos' = propertiesNamed name propertyInfos := by
  induction methodInfos with
  | nil => intro propertyInfos _; exact ⟨propertyInfos, by simp [generatePropertyInfos]⟩
  | cons m rest ih =>
    intro propertyInfos hapart
    have hrest : OtherAccessorsApart name rest :=
      fun x hx => hapart x (List.mem_cons_of_mem _ hx)
    have hm := hapart m (List.mem_cons_self _ _)
    by_cases hacc : (isGetter m || isSetter m) = true
    · obtain ⟨hname, hparam⟩ := hm hacc
      have hstep : ∃ q, makePropertyInfo m = some q ∧ q.name = m.scriptName := by
        unfold makePropertyInfo
        by_cases hg : isGetter m = true
        · simp [hg]
        · simp only [hg, if_false]
          cases hp : m.paramInfos with
          | nil => exact absurd hp (hparam (by simpa using hg))
          | cons p0 ps => simp
      obtain ⟨q, hq, hqn⟩ := hstep
      obtain ⟨props', h1, h2⟩ := ih (recordProperty q propertyInfos) hrest
      refine ⟨props', ?_, ?_⟩
      · have : (!isGetter m && !isSetter m) = false := by
          cases hg : isGetter m <;> cases hs : isSetter m <;> simp_all
        simp [generatePropertyInfos, propertyStep, this, hq, h1]
      · rw [h2]
        exact propertiesNamed_recordProperty_of_ne name q (hqn ▸ hname) propertyInfos
    · obtain ⟨props', h1, h2⟩ := ih propertyInfos hrest
      refine ⟨props', ?_, h2⟩
      have : (!isGetter m && !isSetter m) = true := by
        cases hg : isGetter m <;> cases hs : isSetter m <;> simp_all
      simp [generatePropertyInfos, propertyStep, this, h1]

/-- The pass over `pre ++ x :: mid ++ y :: post`, where `x` and `y` are the only accessors of
one property, which is not recorded yet: exactly one property of that name results, the one
built from `x` with `y` merged into it. -/
theorem generatePropertyInfos_pair (propertyInfos : List PropertyInfo)
    (pre mid post : List MethodInfo) (x y : MethodInfo) (qx qy : PropertyInfo)
    (hxs : ∀ ps, propertyStep ps x = some (recordProperty qx ps))
    (hys : ∀ ps, propertyStep ps y = some (recordProperty qy ps))
    (hxn : qx.name = qy.name)
    (hnone : propertiesNamed qx.name propertyInfos = [])
    (hapart : OtherAccessorsApart qx.name (pre ++ mid ++ post)) :
    ∃ propertyInfos', generatePropertyInfos propertyInfos (pre ++ x :: mid ++ y :: post) =
        some propertyInfos' ∧
      propertiesNamed qx.name propertyInfos' = [mergeProperty qx qy] := by
  have hpre : OtherAccessorsApart qx.name pre :=
    fun m hm => hapart m (by simp [hm])
  have hmid : OtherAccessorsApart qx.name mid :=
    fun m hm => hapart m (by simp [hm])
  have hpost : OtherAccessorsApart qx.name post :=
    fun m hm => hapart m (by simp [hm])
  obtain ⟨p1, h1, e1⟩ := generatePropertyInfos_frame qx.name pre propertyInfos hpre
  obtain ⟨p2, h2, e2⟩ := generatePropertyInfos_frame qx.name mid (recordProperty qx p1) hmid
  obtain ⟨p3, h3, e3⟩ := generatePropertyInfos_frame qx.name post (recordProperty qy p2) hpost
  refine ⟨p3, ?_, ?_⟩
  · have : pre ++ x :: mid ++ y :: post = pre ++ (x :: (mid ++ y :: post)) := by simp
    rw [this, generatePropertyInfos_append, h1]
    simp only [Option.some_bind, generatePropertyInfos, hxs]
    rw [generatePropertyInfos_append, h2]
    simp only [Option.some_bind, generatePropertyInfos, hys, h3]
  · rw [e3]
    have := propertiesNamed_recordProperty_of_eq qy p2
    rw [← hxn, e2] at this
    have h4 := propertiesNamed_recordProperty_of_eq qx p1
    rw [e1, hnone] at h4
    rw [h4] at this
    exact this

theorem propertyStep_getter (m : MethodInfo) (hg : isGetter m = true)
    (propertyInfos : List PropertyInfo) :
    propertyStep propertyInfos m =
      some (recordProperty
        { name := m.scriptName, type := m.returnInfo.type, getter := m.interopName,
          setter := "", typeFlags := m.returnInfo.flags, isStatic := isStatic m,
          visibility := m.visibility, documentation := m.documentation } propertyInfos) := by
  simp [propertyStep, makePropertyInfo, hg]

theorem propertyStep_setter (m : MethodInfo) (hg : isGetter m = false)
    (hs : isSetter m = true) (param0 : VarInfo) (params : List VarInfo)
    (hp : m.paramInfos = param0 :: params) (propertyInfos : List PropertyInfo) :
    propertyStep propertyInfos m =
      some (recordProperty
        { name := m.scriptName, type := param0.type, getter := "",
          setter := m.interopName, typeFlags := param0.flags, isStatic := isStatic m,
          visibility := m.visibility, documentation := m.documentation } propertyInfos) := by
  simp [propertyStep, makePropertyInfo, hg, hs, hp]

theorem propertiesNamed_eq_nil (name : String) (propertyInfos : List PropertyInfo)
    (h : ∀ p ∈ propertyInfos, p.name ≠ name) : propertiesNamed name propertyInfos = [] := by
  simp only [propertiesNamed, List.filter_eq_nil_iff]
  intro p hp
  simpa using h p hp

/-- The property that results from a getter `g` and a setter `s` of one name, type and
static-ness, in either order, when the getter has a non-empty interop name in the order
setter first. -/
theorem generatePropertyInfos_accessors (propertyInfos : List PropertyInfo)
    (pre mid post methodInfos : List MethodInfo) (g s : MethodInfo)
    (param0 : VarInfo) (params : List VarInfo)
    (hg : isGetter g = true) (hs : isSetter s = true) (hsg : isGetter s = false)
    (hparam : s.paramInfos = param0 :: params)
    (hname : g.scriptName = s.scriptName)
    (htype : g.returnInfo.type = param0.type)
    (hstatic : isStatic g = isStatic s)
    (hnone : ∀ p ∈ propertyInfos, p.name ≠ g.scriptName)
    (hothers : OtherAccessorsApart g.scriptName (pre ++ mid ++ post))
    (horder : methodInfos = pre ++ g :: mid ++ s :: post ∨
      (methodInfos = pre ++ s :: mid ++ g :: post ∧ g.interopName ≠ "")) :
    ∃ propertyInfos' p,
      generatePropertyInfos propertyInfos methodInfos = some propertyInfos' ∧
      propertiesNamed g.scriptName propertyInfos' = [p] ∧
      p.getter = g.interopName ∧ p.setter = s.interopName ∧
      p.documentation =
        (if s.documentation.brief.isEmpty then g.documentation else s.documentation) := by
  have hnil := propertiesNamed_eq_nil g.scriptName propertyInfos hnone
  have hemp : ("" : String).isEmpty = true := by decide
  rcases horder with horder | ⟨horder, hne⟩
  · obtain ⟨props', h1, h2⟩ := generatePropertyInfos_pair propertyInfos pre mid post g s _ _
      (propertyStep_getter g hg) (propertyStep_setter s hsg hs param0 params hparam)
      hname hnil hothers
    refine ⟨props', _, horder ▸ h1, h2, ?_, ?_, ?_⟩
    · simp [mergeProperty, htype, hstatic, hemp]
    · simp [mergeProperty, htype, hstatic, hemp]
    · cases hb : s.documentation.brief.isEmpty <;> simp [mergeProperty, htype, hstatic, hb, hemp]
  · have hne' : g.interopName.isEmpty = false := by
      cases hb : g.interopName.isEmpty
      · rfl
      · exact absurd ((String.isEmpty_iff _).1 hb) hne
    obtain ⟨props', h1, h2⟩ := generatePropertyInfos_pair propertyInfos pre mid post s g _ _
      (propertyStep_setter s hsg hs param0 params hparam) (propertyStep_getter g hg)
      hname.symm (by simpa [hname] using hnil) (by simpa [hname] using hothers)
    refine ⟨props', _, horder ▸ h1, by simpa [hname] using h2, ?_, ?_, ?_⟩
    · simp [mergeProperty, htype, hstatic, hne']
    · simp [mergeProperty, htype, hstatic, hne']
    · cases hb : s.documentation.brief.isEmpty <;>
        simp [mergeProperty, htype, hstatic, hne', hb]

/-- C8, as stated, fails: with the setter declared first and a getter whose interop name is
empty, the merge takes the getter for a setter and overwrites the recorded setter, so the one
property `Size` ends with an empty setter instead of `setSize`. The two interop names are
the ones the interop-name pass assigns to these methods. -/
theorem generatePropertyInfos_unnamed_getter :
    isGetter unnamedGetter = true ∧ isSetter unnamedGetter = false ∧
      isSetter sampleSetter = true ∧ isGetter sampleSetter = false ∧
      unnamedGetter.scriptName = sampleSetter.scriptName ∧
      accessorType unnamedGetter = accessorType sampleSetter ∧
      isStatic unnamedGetter = isStatic sampleSetter ∧
      (generatePropertyInfos [] [sampleSetter, unnamedGetter]).map
          (fun ps => ps.map (fun p => (p.name, p.getter, p.setter))) =
        some [("Size", "", "")] ∧
      sampleSetter.interopName = "setSize" ∧
      (generateInteropNames [] [sampleSetter, unnamedGetter]).map (fun r => r.2) =
        some [sampleSetter, unnamedGetter] := by
  decide

/-- C8, amended: when `methodInfos` holds a getter `g` and a setter `s` (with a first
parameter) of one script name, type name and static-ness, no other accessor of that name, and
no property of that name is recorded beforehand, the pass completes and records exactly one
property of that name, whose getter is `g.interopName` and whose setter is `s.interopName`;
this holds with `g` before `s`, and with `s` before `g` when `g.interopName` is not empty. -/
theorem generatePropertyInfos_merges_accessors (propertyInfos : List PropertyInfo)
    (pre mid post methodInfos : List MethodInfo) (g s : MethodInfo)
    (param0 : VarInfo) (params : List VarInfo)
    (hg : isGetter g = true) (hs : isSetter s = true) (hsg : isGetter s = false)
    (hparam : s.paramInfos = param0 :: params)
    (hname : g.scriptName = s.scriptName)
    (htype : g.returnInfo.type = param0.type)
    (hstatic : isStatic g = isStatic s)
    (hnone : ∀ p ∈ propertyInfos, p.name ≠ g.scriptName)
    (hothers : OtherAccessorsApart g.scriptName (pre ++ mid ++ post))
    (horder : methodInfos = pre ++ g :: mid ++ s :: post ∨
      (methodInfos = pre ++ s :: mid ++ g :: post ∧ g.interopName ≠ "")) :
    ∃ propertyInfos' p,
      generatePropertyInfos propertyInfos methodInfos = some propertyInfos' ∧
      propertiesNamed g.scriptName propertyInfos' = [p] ∧
      p.getter = g.interopName ∧ p.setter = s.interopName := by
  obtain ⟨props', p, h1, h2, h3, h4, -⟩ := generatePropertyInfos_accessors propertyInfos
    pre mid post methodInfos g s param0 params hg hs hsg hparam hname htype hstatic hnone
    hothers horder
  exact ⟨props', p, h1, h2, h3, h4⟩

theorem sampleMethod_apart : OtherAccessorsApart "Size" ([sampleMethod] ++ [] ++ []) := by
  intro m hm
  have hm' : m = sampleMethod := by simpa using hm
  subst hm'
  decide

theorem generatePropertyInfos_merges_accessors_witness :
    ∃ propertyInfos' p,
      generatePropertyInfos [] [sampleMethod, sampleSetter, sampleGetter] =
        some propertyInfos' ∧
      propertiesNamed sampleGetter.scriptName propertyInfos' = [p] ∧
      p.getter = sampleGetter.interopName ∧ p.setter = sampleSetter.interopName :=
  generatePropertyInfos_merges_accessors [] [sampleMethod] [] [] _ sampleGetter sampleSetter
    (sampleVar "int") [] (by decide) (by decide) (by decide) rfl rfl rfl (by decide)
    (by simp) sampleMethod_apart (Or.inr ⟨rfl, by decide⟩)

/-- C9, as stated, fails: a documented getter followed by a documented setter yields a
property that carries the setter's documentation, not the getter's. -/
theorem generatePropertyInfos_prefers_setter_doc :
    sampleGetter.documentation.brief ≠ [] ∧
      (generatePropertyInfos [] [sampleGetter, sampleSetter]).map
          (fun ps => ps.map (fun p => (p.name, p.getter, p.setter, p.documentation))) =
        some [("Size", "getSize", "setSize", sampleSetter.documentation)] ∧
      sampleSetter.documentation ≠ sampleGetter.documentation := by
  decide

/-- C9, amended: when a getter `g` and a setter `s` merge into one property (same script name,
type name and static-ness, no other accessor of that name, no property of that name recorded
beforehand), the property's documentation is the setter's documentation unless the setter's
brief is empty, in which case it is the getter's documentation; this holds with `g` before
`s`, and with `s` before `g` when `g.interopName` is not empty. -/
theorem generatePropertyInfos_documentation (propertyInfos : List PropertyInfo)
    (pre mid post methodInfos : List MethodInfo) (g s : MethodInfo)
    (param0 : VarInfo) (params : List VarInfo)
    (hg : isGetter g = true) (hs : isSetter s = true) (hsg : isGetter s = false)
    (hparam : s.paramInfos = param0 :: params)
    (hname : g.scriptName = s.scriptName)
    (htype : g.returnInfo.type = param0.type)
    (hstatic : isStatic g = isStatic s)
    (hnone : ∀ p ∈ propertyInfos, p.name ≠ g.scriptName)
    (hothers : OtherAccessorsApart g.scriptName (pre ++ mid ++ post))
    (horder : methodInfos = pre ++ g :: mid ++ s :: post ∨
      (methodInfos = pre ++ s :: mid ++ g :: post ∧ g.interopName ≠ "")) :
    ∃ propertyInfos' p,
      generatePropertyInfos propertyInfos methodInfos = some propertyInfos' ∧
      propertiesNamed g.scriptName propertyInfos' = [p] ∧
      p.documentation =
        (if s.documentation.brief.isEmpty then g.documentation else s.documentation) := by
  obtain ⟨props', p, h1, h2, -, -, h5⟩ := generatePropertyInfos_accessors propertyInfos
    pre mid post methodInfos g s param0 params hg hs hsg hparam hname htype hstatic hnone
    hothers horder
  exact ⟨props', p, h1, h2, h5⟩

theorem sampleMethod_apart_post : OtherAccessorsApart "Size" ([] ++ [] ++ [sampleMethod]) := by
  intro m hm
  have hm' : m = sampleMethod := by simpa using hm
  subst hm'
  decide

theorem generatePropertyInfos_documentation_witness :
    ∃ propertyInfos' p,
      generatePropertyInfos [] [sampleGetter, sampleSetter, sampleMethod] =
        some propertyInfos' ∧
      propertiesNamed sampleGetter.scriptName propertyInfos' = [p] ∧
      p.documentation =
        (if sampleSetter.documentation.brief.isEmpty then sampleGetter.documentation
          else sampleSetter.documentation) :=
  generatePropertyInfos_documentation [] [] [] [sampleMethod] _ sampleGetter sampleSetter
    (sampleVar "int") [] (by decide) (by decide) (by decide) rfl rfl rfl (by decide)
    (by simp) sampleMethod_apart_post (Or.inl rfl)

theorem recordProperty_mismatch (propertyInfo existingInfo : PropertyInfo)
    (hmis : existingInfo.type ≠ propertyInfo.type ∨
      existingInfo.isStatic ≠ propertyInfo.isStatic) :
    ∀ propertyInfos : List PropertyInfo,
      propertyInfos.find? (fun info => decide (propertyInfo.name = info.name)) =
        some existingInfo →
      recordProperty propertyInfo propertyInfos = propertyInfos := by
  intro propertyInfos
  induction propertyInfos with
  | nil => intro h; simp at h
  | cons e rest ih =>
    intro h
    by_cases he : propertyInfo.name = e.name
    · simp only [List.find?, he, decide_True, Option.some.injEq] at h
      subst h
      simp [recordProperty, he, mergeProperty, hmis]
    · simp only [List.find?, he, decide_False] at h
      simp [recordProperty, he, ih h]

/-- C10: when a getter- or setter-flagged method has the script name of an already recorded
property (the one `std::find_if` returns) but another type name or another static-ness, the
step leaves the whole property list as it was: the recorded property keeps every field and no
property is added. -/
theorem propertyStep_mismatch_dropped (propertyInfos : List PropertyInfo)
    (methodInfo : MethodInfo) (type : String) (existingInfo : PropertyInfo)
    (hacc : (isGetter methodInfo || isSetter methodInfo) = true)
    (htype : accessorType methodInfo = some type)
    (hfind : propertyInfos.find? (fun info => decide (methodInfo.scriptName = info.name)) =
      some existingInfo)
    (hmis : existingInfo.type ≠ type ∨ existingInfo.isStatic ≠ isStatic methodInfo) :
    propertyStep propertyInfos methodInfo = some propertyInfos := by
  have hnot : (!isGetter methodInfo && !isSetter methodInfo) = false := by
    cases hg : isGetter methodInfo <;> cases hs : isSetter methodInfo <;> simp_all
  by_cases hg : isGetter methodInfo = true
  · have ht : methodInfo.returnInfo.type = type := by
      simpa [accessorType, hg] using htype
    rw [propertyStep_getter methodInfo hg]
    rw [recordProperty_mismatch _ existingInfo (by simpa [ht] using hmis) propertyInfos hfind]
  · have hg' : isGetter methodInfo = false := by simpa using hg
    have hs : isSetter methodInfo = true := by simpa [hg'] using hacc
    cases hp : methodInfo.paramInfos with
    | nil => simp [accessorType, hg', hp] at htype
    | cons param0 params =>
      have ht : param0.type = type := by simpa [accessorType, hg', hp] using htype
      rw [propertyStep_setter methodInfo hg' hs param0 params hp]
      rw [recordProperty_mismatch _ existingInfo (by simpa [ht] using hmis) propertyInfos hfind]

theorem propertyStep_mismatch_dropped_witness :
    propertyStep [sampleProperty] sampleFloatGetter = some [sampleProperty] :=
  propertyStep_mismatch_dropped [sampleProperty] sampleFloatGetter "float" sampleProperty
    (by decide) (by decide) (by decide) (Or.inl (by decide))

theorem planStructInterop_spec_witness :
    (planStructInterop sampleTypeInfo sampleStruct).requiresInterop = true ∧
      (planStructInterop sampleTypeInfo sampleStruct).interopName = "__BoundsInterop" := by
  have h := planStructInterop_spec sampleTypeInfo sampleStruct rfl
  refine ⟨h.1.2 ⟨sampleVar "int", by decide, Or.inr (Or.inl (by decide))⟩, ?_⟩
  decide

/-! ## The interop-name pass: discovery order -/

theorem generateInteropNameLoop_least (usedNames : List String) (sourceName : String)
    (fuel : Nat) :
    ∀ (counter : Nat) (interopName r : String),
      generateInteropNameLoop usedNames sourceName fuel counter interopName = some r →
      (interopName ∉ usedNames ∧ r = interopName) ∨
      (interopName ∈ usedNames ∧ ∃ k, counter ≤ k ∧ r = sourceName ++ to_string k ∧
        r ∉ usedNames ∧ ∀ j, counter ≤ j → j < k → sourceName ++ to_string j ∈ usedNames) := by
  induction fuel with
  | zero => intro counter interopName r h; simp [generateInteropNameLoop] at h
  | succ fuel ih =>
    intro counter interopName r h
    by_cases hm : interopName ∈ usedNames
    · simp only [generateInteropNameLoop, hm, if_true] at h
      right
      refine ⟨hm, ?_⟩
      rcases ih (counter + 1) _ r h with ⟨h1, h2⟩ | ⟨h1, k, hk, h2, h3, h4⟩
      · refine ⟨counter, le_refl _, h2, h2 ▸ h1, ?_⟩
        intro j hj1 hj2
        omega
      · refine ⟨k, by omega, h2, h3, ?_⟩
        intro j hj1 hj2
        rcases Nat.eq_or_lt_of_le hj1 with h5 | h5
        · subst h5; exact h1
        · exact h4 j h5 hj2
    · simp only [generateInteropNameLoop, hm, if_false, Option.some.injEq] at h
      exact Or.inl ⟨hm, h.symm⟩

/-- The name `generateInteropName` assigns is the least free name for the source name. -/
theorem generateInteropName_least (usedNames : List String) (methodInfo : MethodInfo) :
    ∃ r, generateInteropName usedNames methodInfo =
        some (r :: usedNames, { methodInfo with interopName := r }) ∧
      IsLeastFreeName (fun n => n ∈ usedNames) methodInfo.sourceName r := by
  obtain ⟨r, hr, _⟩ := generateInteropName_isSome usedNames methodInfo
  refine ⟨r, hr, ?_⟩
  have hloop : generateInteropNameLoop usedNames methodInfo.sourceName
      (usedNames.length + 2) 0 methodInfo.sourceName = some r := by
    unfold generateInteropName at hr
    split at hr
    · simp at hr
    · rename_i name hname
      simp only [Option.some.injEq, Prod.mk.injEq, List.cons.injEq] at hr
      rw [hname, hr.1.1]
  rcases generateInteropNameLoop_least _ _ _ _ _ _ hloop with ⟨h1, h2⟩ | ⟨h1, k, _, h2, h3, h4⟩
  · exact ⟨fun _ => h2, fun h => absurd h h1⟩
  · exact ⟨fun h => absurd h1 h, fun _ => ⟨k, h2, h3, fun j hj => h4 j (Nat.zero_le _) hj⟩⟩

theorem generateInteropNames_append (a b : List MethodInfo) :
    ∀ usedNames : List String,
      generateInteropNames usedNames (a ++ b) =
        (generateInteropNames usedNames a).bind (fun r1 =>
          (generateInteropNames r1.1 b).map (fun r2 => (r2.1, r1.2 ++ r2.2))) := by
  induction a with
  | nil =>
    intro usedNames
    cases h : generateInteropNames usedNames b <;> simp [generateInteropNames, h]
  | cons m rest ih =>
    intro usedNames
    cases h1 : generateInteropName usedNames m with
    | none => simp [generateInteropNames, h1]
    | some r1 =>
      obtain ⟨u1, m1⟩ := r1
      simp only [List.cons_append, generateInteropNames, h1, List.append_eq]
      rw [ih u1]
      cases h2 : generateInteropNames u1 rest with
      | none => simp
      | some r2 =>
        obtain ⟨u2, rest1⟩ := r2
        cases h3 : generateInteropNames u2 b with
        | none => simp [h3]
        | some r3 => simp [h3]

/-- A loop over a method list gives each entry the least free name with respect to the names
in use before the loop and the names given to the earlier entries of the list. -/
theorem generateInteropNames_least (methodInfos : List MethodInfo) :
    ∀ usedNames : List String, ∃ used' methodInfos',
      generateInteropNames usedNames methodInfos = some (used', methodInfos') ∧
      (∀ (i : Nat) (m m' : MethodInfo), methodInfos[i]? = some m → methodInfos'[i]? = some m' →
        IsLeastFreeName
          (fun n => n ∈ (methodInfos'.map (fun x => x.interopName)).take i ∨ n ∈ usedNames)
          m.sourceName m'.interopName) ∧
      methodInfos'.length = methodInfos.length := by
  induction methodInfos with
  | nil => intro usedNames; exact ⟨usedNames, [], by simp [generateInteropNames]⟩
  | cons m rest ih =>
    intro usedNames
    obtain ⟨r, hr, hleast⟩ := generateInteropName_least usedNames m
    obtain ⟨used', rest', hrest, hall, hlen⟩ := ih (r :: usedNames)
    refine ⟨used', { m with interopName := r } :: rest', ?_, ?_, ?_⟩
    · simp [generateInteropNames, hr, hrest]
    · intro i x x' hx hx'
      cases i with
      | zero =>
        simp only [List.getElem?_cons_zero, Option.some.injEq] at hx hx'
        subst hx hx'
        simpa using hleast
      | succ i =>
        simp only [List.getElem?_cons_succ] at hx hx'
        have := hall i x x' hx hx'
        have heq : (fun n => n ∈ (rest'.map (fun x => x.interopName)).take i ∨
            n ∈ r :: usedNames) =
            (fun n => n ∈ (({ m with interopName := r } :: rest').map
              (fun x => x.interopName)).take (i + 1) ∨ n ∈ usedNames) := by
          funext n
          simp only [List.map_cons, List.take_succ_cons, List.mem_cons, eq_iff_iff]
          tauto
        rw [← heq]
        exact this
    · simp [hlen]

/-- C19: within a class the interop names are assigned in discovery order (methods, then
constructors, then events): the entry at each position receives its source name when no
earlier entry was assigned that string, and otherwise its source name followed by the decimal
numeral of the least `c` such that this string was not assigned earlier; and the names given
to a list of entries are the same whatever entries follow them. -/
theorem assignInteropNames_discovery_order (classInfo : ClassInfo) :
    (∃ classInfo', assignInteropNames classInfo = some classInfo' ∧
      ∀ (i : Nat) (m : MethodInfo) (name : String),
        (classInfo.methodInfos ++ classInfo.ctorInfos ++ classInfo.eventInfos)[i]? = some m →
        classInfo'.interopNames[i]? = some name →
        IsLeastFreeName (fun n => n ∈ classInfo'.interopNames.take i) m.sourceName name) ∧
    (∀ (usedNames : List String) (earlier later : List MethodInfo),
      (generateInteropNames usedNames (earlier ++ later)).map
          (fun r => r.2.take earlier.length) =
        (generateInteropNames usedNames earlier).map (fun r => r.2)) := by
  constructor
  · obtain ⟨u, all', hall, hleast, hlen⟩ := generateInteropNames_least
      (classInfo.methodInfos ++ classInfo.ctorInfos ++ classInfo.eventInfos) []
    rw [List.append_assoc, generateInteropNames_append] at hall
    cases h1 : generateInteropNames [] classInfo.methodInfos with
    | none => simp [h1] at hall
    | some r1 =>
      obtain ⟨u1, ms⟩ := r1
      simp only [h1, Option.some_bind, generateInteropNames_append] at hall
      cases h2 : generateInteropNames u1 classInfo.ctorInfos with
      | none => simp [h2] at hall
      | some r2 =>
        obtain ⟨u2, cs⟩ := r2
        simp only [h2, Option.some_bind] at hall
        cases h3 : generateInteropNames u2 classInfo.eventInfos with
        | none => simp [h3] at hall
        | some r3 =>
          obtain ⟨u3, es⟩ := r3
          simp only [h3, Option.map_some', Option.some.injEq, Prod.mk.injEq] at hall
          obtain ⟨-, hall⟩ := hall
          refine ⟨_, by simp only [assignInteropNames, h1, h2, h3]; rfl, ?_⟩
          intro i m name hm hname
          have hnames : ({ classInfo with
              methodInfos := ms, ctorInfos := cs, eventInfos := es } : ClassInfo).interopNames =
              all'.map (fun x => x.interopName) := by
            simp [ClassInfo.interopNames, ← hall]
          rw [hnames] at hname ⊢
          rw [List.getElem?_map] at hname
          cases hx : all'[i]? with
          | none => simp [hx] at hname
          | some x =>
            simp only [hx, Option.map_some', Option.some.injEq] at hname
            have := hleast i m x hm hx
            simpa [hname] using this
  · intro usedNames earlier later
    rw [generateInteropNames_append]
    obtain ⟨u1, e', h1, -, hlen1⟩ := generateInteropNames_least earlier usedNames
    obtain ⟨u2, l', h2, -, -⟩ := generateInteropNames_least later u1
    simp [h1, h2, ← hlen1]

/-! ## Properties of `findUnusedCtorSignature` -/

theorem isSignatureValid_iff (ctorInfos : List MethodInfo) (numBools : Nat) :
    isSignatureValid ctorInfos numBools = true ↔
      ¬ ∃ c ∈ ctorInfos, isBoolCtor numBools c := by
  simp only [isSignatureValid, isBoolCtor, List.all_eq_true, Bool.or_eq_true, bne_iff_ne,
    List.any_eq_true, not_exists, not_and, ne_eq]
  constructor
  · intro h c hc hlen hall
    rcases h c hc with h1 | ⟨p, hp, hne⟩
    · exact h1 hlen
    · exact hne (hall p hp)
  · intro h c hc
    by_cases hlen : c.paramInfos.length = numBools
    · right
      by_contra hcon
      apply h c hc hlen
      intro p hp
      by_contra hne
      exact hcon ⟨p, hp, hne⟩
    · exact Or.inl hlen

theorem findNumBools_least (ctorInfos : List MethodInfo) (fuel : Nat) :
    ∀ start : Nat,
      (∃ n, start ≤ n ∧ n < start + fuel ∧ isSignatureValid ctorInfos n = true) →
      ∃ N, findNumBools ctorInfos fuel start = some N ∧ start ≤ N ∧
        isSignatureValid ctorInfos N = true ∧
        ∀ n, start ≤ n → n < N → isSignatureValid ctorInfos n = false := by
  induction fuel with
  | zero => intro start ⟨n, h1, h2, _⟩; omega
  | succ fuel ih =>
    intro start ⟨n, h1, h2, h3⟩
    by_cases hv : isSignatureValid ctorInfos start = true
    · exact ⟨start, by simp [findNumBools, hv], le_refl _, hv, fun k hk1 hk2 => by omega⟩
    · have hn : start + 1 ≤ n := by
        rcases Nat.eq_or_lt_of_le h1 with h4 | h4
        · subst h4; exact absurd h3 hv
        · exact h4
      obtain ⟨N, hN, hle, hvalid, hmin⟩ := ih (start + 1) ⟨n, hn, by omega, h3⟩
      refine ⟨N, by simp [findNumBools, hv, hN], by omega, hvalid, ?_⟩
      intro k hk1 hk2
      rcases Nat.eq_or_lt_of_le hk1 with h4 | h4
      · subst h4; simpa using hv
      · exact hmin k h4 hk2

/-- Among the arities `1 .. ctorInfos.length + 1` one has no all-boolean constructor. -/
theorem exists_valid_signature (ctorInfos : List MethodInfo) :
    ∃ n, 1 ≤ n ∧ n < 1 + (ctorInfos.length + 1) ∧ isSignatureValid ctorInfos n = true := by
  by_contra hc
  simp only [not_exists, not_and] at hc
  have hsub : List.range' 1 (ctorInfos.length + 1) ⊆
      ctorInfos.map (fun c => c.paramInfos.length) := by
    intro n hn
    simp only [List.mem_range'_1] at hn
    have hinv := hc n hn.1 (by omega)
    rw [isSignatureValid_iff] at hinv
    simp only [not_not] at hinv
    obtain ⟨c, hc1, hc2, _⟩ := hinv
    exact List.mem_map.2 ⟨c, hc1, hc2⟩
  have := (List.subperm_of_subset (List.nodup_range' 1 (ctorInfos.length + 1)) hsub).length_le
  simp at this

/-- The search of `findUnusedCtorSignature` ends, with the least arity from 1 on for which no
constructor is all-boolean. -/
theorem findNumBools_spec (ctorInfos : List MethodInfo) :
    ∃ N, findNumBools ctorInfos (ctorInfos.length + 1) 1 = some N ∧ 1 ≤ N ∧
      isSignatureValid ctorInfos N = true ∧
      ∀ n, 1 ≤ n → n < N → isSignatureValid ctorInfos n = false :=
  findNumBools_least ctorInfos _ 1 (exists_valid_signature ctorInfos)

/-- C12, as stated, fails for `K = 0`: a class without constructors has no all-boolean
constructor of arity 0, yet the synthesized constructor has one parameter, not none. -/
theorem findUnusedCtorSignature_no_ctors :
    (¬ ∃ c ∈ (sampleClass []).ctorInfos, isBoolCtor 0 c) ∧
      (findUnusedCtorSignature (sampleClass [])).map (fun m => m.paramInfos.map (fun p => p.type))
        = some ["bool"] := by
  constructor
  · simp [sampleClass]
  · decide

/-- C12, amended: for every `K >= 1` and every class that declares an all-boolean constructor
for each arity `1 .. K-1` and no all-boolean constructor of arity `K`,
`findUnusedCtorSignature` returns a constructor with exactly `K` parameters, all of type
`bool`; the search starts at arity 1, so arity 0 is never chosen. -/
theorem findUnusedCtorSignature_arity (classInfo : ClassInfo) (K : Nat) (hK : 1 ≤ K)
    (hlow : ∀ a, 1 ≤ a → a < K → ∃ c ∈ classInfo.ctorInfos, isBoolCtor a c)
    (hnone : ¬ ∃ c ∈ classInfo.ctorInfos, isBoolCtor K c) :
    ∃ m, findUnusedCtorSignature classInfo = some m ∧ m.paramInfos.length = K ∧
      ∀ p ∈ m.paramInfos, p.type = "bool" := by
  obtain ⟨N, hN, h1, hvalid, hmin⟩ := findNumBools_spec classInfo.ctorInfos
  have hNK : N = K := by
    rcases Nat.lt_trichotomy N K with h | h | h
    · exact absurd (hlow N h1 h) ((isSignatureValid_iff _ _).1 hvalid)
    · exact h
    · have := hmin K hK h
      rw [(isSignatureValid_iff _ _).2 hnone] at this
      exact absurd this (by decide)
  subst hNK
  have hres : findUnusedCtorSignature classInfo =
      some { sourceName := classInfo.name, interopName := "", scriptName := classInfo.name,
             visibility := .Private,
             returnInfo := { name := "", type := "", defaultValue := "", flags := 0 },
             paramInfos := (List.range N).map dummyParam,
             documentation := { brief := [], params := [], returns := [] },
             externalClass := "", flags := MethodFlags.Constructor } := by
    simp only [findUnusedCtorSignature, hN]
  refine ⟨_, hres, by simp, ?_⟩
  intro p hp
  simp only [List.mem_map] at hp
  obtain ⟨i, -, rfl⟩ := hp
  rfl

theorem findUnusedCtorSignature_arity_witness :
    ∃ m, findUnusedCtorSignature (sampleClass [sampleCtor [], sampleCtor [sampleVar "bool"]]) =
        some m ∧ m.paramInfos.length = 2 ∧ ∀ p ∈ m.paramInfos, p.type = "bool" :=
  findUnusedCtorSignature_arity _ 2 (by decide)
    (fun a h1 h2 => ⟨sampleCtor [sampleVar "bool"], by simp [sampleClass], by
      have : a = 1 := by omega
      subst this
      simp [isBoolCtor, sampleCtor, sampleVar]⟩)
    (by simp [sampleClass, isBoolCtor, sampleCtor, sampleVar])

/-! ## Properties of `generateCppMethodSignature` -/

theorem intercalate_go_append (s : String) (l : List String) :
    ∀ x y : String, String.intercalate.go (x ++ y) s l = x ++ String.intercalate.go y s l := by
  induction l with
  | nil => intro x y; simp [String.intercalate.go]
  | cons c l ih =>
    intro x y
    simp only [String.intercalate.go]
    rw [String.append_assoc x, String.append_assoc x, ih]

theorem intercalate_cons_cons (s a b : String) (l : List String) :
    s.intercalate (a :: b :: l) = a ++ s ++ s.intercalate (b :: l) := by
  simp only [String.intercalate, String.intercalate.go]
  rw [intercalate_go_append]

theorem intercalate_cons_of_ne_nil (s a : String) (l : List String) (h : l ≠ []) :
    s.intercalate (a :: l) = a ++ s ++ s.intercalate l := by
  cases l with
  | nil => exact absurd rfl h
  | cons b l => exact intercalate_cons_cons s a b l

theorem intercalate_singleton (s a : String) : s.intercalate [a] = a := by
  simp [String.intercalate, String.intercalate.go]

theorem cppParamList_eq (getTypeInfo : String → Nat → UserTypeInfo) (viaOutput : Bool)
    (out : String) (paramInfos : List VarInfo) :
    cppParamList getTypeInfo viaOutput paramInfos ++ (if viaOutput then out else "") =
      ", ".intercalate (paramInfos.map (cppParamDecl getTypeInfo) ++
        (if viaOutput then [out] else [])) := by
  induction paramInfos with
  | nil =>
    cases viaOutput
    · simp [cppParamList, String.intercalate]
    · simp [cppParamList, intercalate_singleton]
  | cons p rest ih =>
    simp only [cppParamList, List.map_cons, List.cons_append]
    by_cases hne : rest.map (cppParamDecl getTypeInfo) ++ (if viaOutput then [out] else []) = []
    · have hrest : rest = [] := by
        cases rest with
        | nil => rfl
        | cons a b => simp at hne
      subst hrest
      have hv : viaOutput = false := by
        cases viaOutput
        · rfl
        · simp at hne
      subst hv
      simp [cppParamList, intercalate_singleton]
    · rw [intercalate_cons_of_ne_nil _ _ _ hne, ← ih]
      have hsep : (!rest.isEmpty || viaOutput) = true := by
        cases rest with
        | nil =>
          cases viaOutput
          · simp at hne
          · rfl
        | cons a b => rfl
      simp [hsep, String.append_assoc]

theorem intercalate_head (first : String) (sep : Bool) (l : List String)
    (hsep : sep = true ↔ l ≠ []) :
    first ++ (if sep then ", " else "") ++ ", ".intercalate l = ", ".intercalate (first :: l) := by
  by_cases hl : l = []
  · subst hl
    have : sep = false := by
      cases sep
      · rfl
      · exact absurd rfl (hsep.1 rfl)
    subst this
    simp [String.intercalate, String.intercalate.go]
  · rw [intercalate_cons_of_ne_nil _ _ _ hl, hsep.2 hl]
    rfl

/-- C20: `generateCppMethodSignature` emits the return type, a blank, the optional
`nestedName::`, `Internal_` followed by the interop name, and between parentheses the
parameters separated by `", "` with no separator before the first or after the last: the
managed instance exactly for a constructor, the receiver exactly for a method that is neither
a constructor nor static in a class that is no module, the declared parameters in order, and
`__output` exactly when the method is no constructor, has a return type and `canBeReturned`
is false for it. The return type is `void` for a constructor, for a method without return
type and for a method returning through `__output`. -/
theorem generateCppMethodSignature_spec (getTypeInfo : String → Nat → UserTypeInfo)
    (canBeReturned : ParsedType → Nat → Bool) (methodInfo : MethodInfo)
    (thisPtrType nestedName : String) (isModule : Bool) :
    generateCppMethodSignature getTypeInfo canBeReturned methodInfo thisPtrType nestedName
        isModule =
      cppReturnType getTypeInfo canBeReturned methodInfo ++ " " ++
        (if !nestedName.isEmpty then nestedName ++ "::" else "") ++
        "Internal_" ++ methodInfo.interopName ++ "(" ++
        ", ".intercalate
          (signatureParams getTypeInfo canBeReturned methodInfo thisPtrType isModule) ++
        ")" ∧
    (isCtor methodInfo = true ∨ methodInfo.returnInfo.type.isEmpty = true ∨
        canBeReturned (getTypeInfo methodInfo.returnInfo.type methodInfo.returnInfo.flags).type
          methodInfo.returnInfo.flags = false →
      cppReturnType getTypeInfo canBeReturned methodInfo = "void") := by
  constructor
  · have hrap : (!isCtor methodInfo && !methodInfo.returnInfo.type.isEmpty &&
        !canBeReturned
          (getTypeInfo methodInfo.returnInfo.type methodInfo.returnInfo.flags).type
          methodInfo.returnInfo.flags) =
        returnAsParameter getTypeInfo canBeReturned methodInfo := by
      unfold returnAsParameter
      cases isCtor methodInfo <;> cases methodInfo.returnInfo.type.isEmpty <;> simp
    have hctor : isCtor methodInfo = true →
        returnAsParameter getTypeInfo canBeReturned methodInfo = false := by
      intro h
      simp [returnAsParameter, h]
    have key := cppParamList_eq getTypeInfo
      (returnAsParameter getTypeInfo canBeReturned methodInfo)
      (getInteropCppVarType methodInfo.returnInfo.type
        (getTypeInfo methodInfo.returnInfo.type methodInfo.returnInfo.flags).type
        methodInfo.returnInfo.flags false ++ " " ++ "__output") methodInfo.paramInfos
    have hmid :
        (if isCtor methodInfo then
          "MonoObject* managedInstance" ++
            (if methodInfo.paramInfos.length > 0 then ", " else "")
        else if !isStatic methodInfo && !isModule then
          thisPtrType ++ "* thisPtr" ++
            (if methodInfo.paramInfos.length > 0 ||
              returnAsParameter getTypeInfo canBeReturned methodInfo then ", " else "")
        else "") ++
        (cppParamList getTypeInfo (returnAsParameter getTypeInfo canBeReturned methodInfo)
          methodInfo.paramInfos ++
        (if returnAsParameter getTypeInfo canBeReturned methodInfo then
          getInteropCppVarType methodInfo.returnInfo.type
            (getTypeInfo methodInfo.returnInfo.type methodInfo.returnInfo.flags).type
            methodInfo.returnInfo.flags false ++ " " ++ "__output"
        else "")) =
        ", ".intercalate
          (signatureParams getTypeInfo canBeReturned methodInfo thisPtrType isModule) := by
      rw [key]
      unfold signatureParams
      rw [hrap]
      by_cases hc : isCtor methodInfo = true
      · have hr := hctor hc
        simp only [hc, if_true, hr, List.append_nil, List.singleton_append, Bool.false_eq_true,
          if_false]
        have := intercalate_head "MonoObject* managedInstance"
          (decide (methodInfo.paramInfos.length > 0))
          (methodInfo.paramInfos.map (cppParamDecl getTypeInfo))
          (by cases methodInfo.paramInfos <;> simp)
        simpa using this
      · simp only [hc, if_false, Bool.false_eq_true]
        by_cases hrecv : (!isStatic methodInfo && !isModule) = true
        · simp only [hrecv, if_true, List.singleton_append, List.cons_append, List.nil_append]
          have := intercalate_head (thisPtrType ++ "* thisPtr")
            (decide (methodInfo.paramInfos.length > 0) ||
              returnAsParameter getTypeInfo canBeReturned methodInfo)
            (methodInfo.paramInfos.map (cppParamDecl getTypeInfo) ++
              (if returnAsParameter getTypeInfo canBeReturned methodInfo then
                [getInteropCppVarType methodInfo.returnInfo.type
                  (getTypeInfo methodInfo.returnInfo.type methodInfo.returnInfo.flags).type
                  methodInfo.returnInfo.flags false ++ " " ++ "__output"]
              else []))
            (by
              cases methodInfo.paramInfos <;>
                cases returnAsParameter getTypeInfo canBeReturned methodInfo <;> simp)
          simpa using this
        · simp only [hrecv, if_false, Bool.false_eq_true, List.nil_append]
          simp
    unfold generateCppMethodSignature
    simp only [String.append_assoc] at hmid ⊢
    rw [← hmid]
    simp only [String.append_assoc]
  · intro h
    unfold cppReturnType
    rcases h with h | h | h <;> simp [h]

/-! ## Properties of external-method rebinding -/

theorem findClassInfo_name (outputFileInfos : List (String × FileInfo)) (name : String)
    (classInfo : ClassInfo) (h : findClassInfo outputFileInfos name = some classInfo) :
    classInfo.name = name := by
  induction outputFileInfos with
  | nil => simp [findClassInfo] at h
  | cons f rest ih =>
    unfold findClassInfo at h
    cases hf : f.2.classInfos.find? (fun c => c.name == name) with
    | none => rw [hf] at h; exact ih h
    | some c =>
      rw [hf] at h
      simp only [Option.some.injEq] at h
      subst h
      simpa using List.find?_some hf

theorem find?_modifyFirstClass (name : String) (f : ClassInfo → ClassInfo)
    (hf : ∀ c, (f c).name = c.name) (classInfos : List ClassInfo) :
    (modifyFirstClass name f classInfos).find? (fun c => c.name == name) =
      (classInfos.find? (fun c => c.name == name)).map f := by
  induction classInfos with
  | nil => simp [modifyFirstClass]
  | cons c rest ih =>
    by_cases hc : (c.name == name) = true
    · simp [modifyFirstClass, hc, List.find?, hf]
    · simp only [Bool.not_eq_true] at hc
      simp [modifyFirstClass, hc, List.find?, ih]

theorem findClassInfo_modifyClassInfo (name : String) (f : ClassInfo → ClassInfo)
    (hf : ∀ c, (f c).name = c.name) (outputFileInfos : List (String × FileInfo)) :
    findClassInfo (modifyClassInfo name f outputFileInfos) name =
      (findClassInfo outputFileInfos name).map f := by
  induction outputFileInfos with
  | nil => simp [findClassInfo, modifyClassInfo]
  | cons file rest ih =>
    cases hfind : file.2.classInfos.find? (fun c => c.name == name) with
    | none =>
      have hany : file.2.classInfos.any (fun c => c.name == name) = false := by
        rw [List.find?_eq_none] at hfind
        simpa using hfind
      simp [findClassInfo, modifyClassInfo, hany, hfind, ih]
    | some c =>
      have hany : file.2.classInfos.any (fun c => c.name == name) = true := by
        have hmem := List.mem_of_find?_eq_some hfind
        have hname := List.find?_some hfind
        simp only [List.any_eq_true]
        exact ⟨c, hmem, hname⟩
      simp [findClassInfo, modifyClassInfo, hany, hfind, find?_modifyFirstClass name f hf]

theorem string_length_eq_zero_iff (s : String) : s.length = 0 ↔ s = "" := by
  obtain ⟨data⟩ := s
  constructor
  · intro h
    have hd : data = [] := List.length_eq_zero.1 h
    subst hd
    rfl
  · intro h
    have hd : data = [] := congrArg String.data h
    subst hd
    rfl

theorem rebindMethod_eq (className : String) (method : MethodInfo) :
    rebindMethod className method =
      if acceptsExternal className method then some (withoutReceiver method) else none := by
  unfold rebindMethod acceptsExternal withoutReceiver
  by_cases hc : isCtor method = true
  · simp only [hc, if_true, beq_iff_eq, string_length_eq_zero_iff, bne_iff_ne, ne_eq,
      ite_not, Bool.and_eq_true, decide_eq_true_eq]
    by_cases h0 : method.returnInfo.type = ""
    · simp [h0]
    · by_cases h1 : method.returnInfo.type = className
      · subst h1
        simp [h0]
      · simp [h0, h1]
  · simp only [hc, if_false, Bool.false_eq_true]
    cases hp : method.paramInfos with
    | nil => simp
    | cons p ps => by_cases h1 : p.type = className <;> simp [h1]

theorem rebindMethods_fst (className : String) (methods : List MethodInfo) :
    (rebindMethods className methods).1 =
      (methods.filter (acceptsExternal className)).map withoutReceiver := by
  induction methods with
  | nil => simp [rebindMethods]
  | cons m rest ih =>
    simp only [rebindMethods, rebindMethod_eq]
    by_cases ha : acceptsExternal className m = true
    · simp [ha, ih]
    · simp only [Bool.not_eq_true] at ha
      simp [ha, ih]

/-- C11: when external methods are rebound onto a class `C` of the model, the method list of
`C` afterwards is the list it had before, unchanged and in order, followed by the accepted
external methods in their order; a constructor-flagged method is accepted exactly when its
return type is non-empty and equals the name of `C`, any other method exactly when it has a
first parameter whose type name equals the name of `C`; every other method is dropped. An
accepted non-constructor is pushed without its first parameter. -/
theorem rebindEntry_spec (outputFileInfos : List (String × FileInfo)) (name : String)
    (externalInfo : ExternalClassInfos) (classInfo : ClassInfo)
    (hfind : findClassInfo outputFileInfos name = some classInfo) :
    findClassInfo (rebindEntry outputFileInfos (name, externalInfo)).1 name =
        some { classInfo with
          methodInfos := classInfo.methodInfos ++
            (externalInfo.methods.filter (acceptsExternal classInfo.name)).map
              withoutReceiver } ∧
      ∀ method : MethodInfo,
        (acceptsExternal classInfo.name method = true ↔
          if isCtor method then
            method.returnInfo.type ≠ "" ∧ method.returnInfo.type = classInfo.name
          else ∃ param0 rest, method.paramInfos = param0 :: rest ∧
            param0.type = classInfo.name) := by
  have hname := findClassInfo_name _ _ _ hfind
  constructor
  · simp only [rebindEntry, hfind]
    rw [findClassInfo_modifyClassInfo name
      (fun c : ClassInfo =>
        { c with methodInfos := c.methodInfos ++ (rebindMethods name externalInfo.methods).1 })
      (fun c => rfl) outputFileInfos, hfind, hname]
    simp [rebindMethods_fst]
    exact hname
  · intro method
    unfold acceptsExternal
    by_cases hc : isCtor method = true
    · simp [hc]
    · simp only [hc, if_false, Bool.false_eq_true]
      cases hp : method.paramInfos with
      | nil => simp
      | cons p ps => simp

/-! ## Properties of the documentation resolver -/

theorem findNamespaceMatch_eq (commentInfos : List CommentInfo) (ns : List String)
    (lookup : List Nat) (entries : List CommentInfo)
    (hvalid : List.Forall₂ (fun position entry => commentInfos[position]? = some entry)
      lookup entries) :
    findNamespaceMatch commentInfos ns lookup =
      some (entries.find? (fun entry => decide (entry.namespaces = ns))) := by
  induction hvalid with
  | nil => simp [findNamespaceMatch]
  | @cons position entry lookup1 entries1 h _ ih =>
    by_cases hns : ns = entry.namespaces
    · simp [findNamespaceMatch, h, hns, List.find?]
    · have hns' : ¬ entry.namespaces = ns := fun hh => hns hh.symm
      simp [findNamespaceMatch, h, hns, hns', List.find?, ih]

/-- C14: among the index entries registered under the simple name of the reference,
`parseCopydocString` takes the first entry whose namespace path is the current namespace
followed by the namespace segments of the reference, wherever it stands among the entries;
only when there is none it takes the first entry whose namespace path is the namespace
segments of the reference alone; and when there is none either it returns `false`. -/
theorem parseCopydocString_namespace (index : CommentIndex) (str : String)
    (curNS : List String) (outputComment : CommentEntry) (namespaceStart : Nat)
    (lookup : List Nat) (entries : List CommentInfo)
    (hlookup : lookupSimpleName index.commentSimpleLookup (typeSplits str) =
      some (namespaceStart, lookup))
    (hvalid : List.Forall₂ (fun position entry => index.commentInfos[position]? = some entry)
      lookup entries) :
    parseCopydocString index str curNS outputComment =
      match entries.find? (fun entry => decide (entry.namespaces =
          curNS ++ (typeSplits str).take ((typeSplits str).length - namespaceStart))) with
      | some entry => selectComment entry (hasParamList str) (paramSplits str) outputComment
      | none =>
        match entries.find? (fun entry => decide (entry.namespaces =
            (typeSplits str).take ((typeSplits str).length - namespaceStart))) with
        | some entry => selectComment entry (hasParamList str) (paramSplits str) outputComment
        | none => some (false, outputComment) := by
  simp only [parseCopydocString, hlookup, selectEntry,
    findNamespaceMatch_eq _ _ _ _ hvalid]
  cases h1 : entries.find? (fun entry => decide (entry.namespaces =
      curNS ++ (typeSplits str).take ((typeSplits str).length - namespaceStart))) with
  | some e => rfl
  | none =>
    simp only
    cases h2 : entries.find? (fun entry => decide (entry.namespaces =
        (typeSplits str).take ((typeSplits str).length - namespaceStart))) with
    | some e => rfl
    | none => rfl

theorem parseCopydocString_namespace_witness :
    parseCopydocString sampleIndex "Foo::bar(int,float)" ["bs"] CommentEntry.empty =
      some (true, sampleComment "bar of two.") :=
  (parseCopydocString_namespace sampleIndex "Foo::bar(int,float)" ["bs"] CommentEntry.empty
    2 [1, 0] [sampleGlobalBar, sampleBarInBs] (by decide)
    (List.Forall₂.cons (by decide) (List.Forall₂.cons (by decide) List.Forall₂.nil))).trans
    (by decide)

/-- C13: for a reference with a non-empty parameter list whose target entry is found,
`parseCopydocString` returns the comment of the first overload whose parameter list equals
the comma-separated, trimmed parameter tokens of the reference (same length, equal position
by position) when the target is a function; when the target is no function or no overload
matches, it returns `false` and leaves the output comment as it was. -/
theorem parseCopydocString_overload (index : CommentIndex) (str : String)
    (curNS : List String) (outputComment : CommentEntry) (namespaceStart : Nat)
    (lookup : List Nat) (finalCommentInfo : CommentInfo)
    (hlookup : lookupSimpleName index.commentSimpleLookup (typeSplits str) =
      some (namespaceStart, lookup))
    (hentry : selectEntry index.commentInfos
      (curNS ++ (typeSplits str).take ((typeSplits str).length - namespaceStart))
      ((typeSplits str).take ((typeSplits str).length - namespaceStart)) lookup =
      some (some finalCommentInfo))
    (hparams : hasParamList str = true) (hne : paramSplits str ≠ []) :
    parseCopydocString index str curNS outputComment =
      some (if finalCommentInfo.isFunction then
        match finalCommentInfo.overloads.find?
            (fun overload => decide (overload.params = paramSplits str)) with
        | some overload => (true, overload.comment)
        | none => (false, outputComment)
      else (false, outputComment)) := by
  simp only [parseCopydocString, hlookup, hentry, selectComment, hparams, if_true]
  have hfind : finalCommentInfo.overloads.find?
      (fun overload => decide (paramSplits str = overload.params)) =
      finalCommentInfo.overloads.find?
        (fun overload => decide (overload.params = paramSplits str)) := by
    congr 1
    funext o
    simp [eq_comm]
  cases hf : finalCommentInfo.isFunction with
  | false => simp
  | true =>
    simp only [Bool.not_true, Bool.false_eq_true, if_false, if_true]
    rw [hfind]
    cases hfo : finalCommentInfo.overloads.find?
        (fun overload => decide (overload.params = paramSplits str)) with
    | some o => rfl
    | none =>
      have : (paramSplits str).isEmpty = false := by
        cases hps : paramSplits str with
        | nil => exact absurd hps hne
        | cons a b => rfl
      simp [this]

theorem parseCopydocString_overload_witness :
    parseCopydocString sampleIndex "Foo::bar(int, float)" [] CommentEntry.empty =
      some (true, sampleComment "global bar.") :=
  (parseCopydocString_overload sampleIndex "Foo::bar(int, float)" [] CommentEntry.empty
    2 [1, 0] sampleGlobalBar (by decide) (by decide) (by decide) (by decide)).trans
    (by decide)

/-- C16, as stated, fails: the reference `Foo::bar()` resolves to the comment of the second
overload of the target, the one without parameters, not to that of `overloads[0]`. -/
theorem parseCopydocString_empty_params_exact_match :
    paramSplits "Foo::bar()" = [] ∧
      parseCopydocString sampleIndex "Foo::bar()" ["bs"] CommentEntry.empty =
        some (true, sampleComment "bar of nothing.") ∧
      (sampleIndex.commentInfos[0]?.bind (fun entry => entry.overloads.head?)).map
          (fun overload => overload.comment) = some (sampleComment "bar of an int.") := by
  decide

/-- C16, amended: for a function target with at least one overload, a reference written with
an empty parameter list resolves to the comment of the first overload that has no
parameters, and to the comment of `overloads[0]` when no overload is without parameters. -/
theorem parseCopydocString_empty_params (index : CommentIndex) (str : String)
    (curNS : List String) (outputComment : CommentEntry) (namespaceStart : Nat)
    (lookup : List Nat) (finalCommentInfo : CommentInfo) (first : CommentMethodInfo)
    (rest : List CommentMethodInfo)
    (hlookup : lookupSimpleName index.commentSimpleLookup (typeSplits str) =
      some (namespaceStart, lookup))
    (hentry : selectEntry index.commentInfos
      (curNS ++ (typeSplits str).take ((typeSplits str).length - namespaceStart))
      ((typeSplits str).take ((typeSplits str).length - namespaceStart)) lookup =
      some (some finalCommentInfo))
    (hparams : hasParamList str = true) (hempty : paramSplits str = [])
    (hfunction : finalCommentInfo.isFunction = true)
    (hoverloads : finalCommentInfo.overloads = first :: rest) :
    parseCopydocString index str curNS outputComment =
      some (true,
        match (first :: rest).find? (fun overload => decide (overload.params = [])) with
        | some overload => overload.comment
        | none => first.comment) := by
  simp only [parseCopydocString, hlookup, hentry, selectComment, hparams, if_true, hfunction,
    Bool.not_true, Bool.false_eq_true, if_false, hempty, hoverloads, List.isEmpty_nil]
  have hfind : (first :: rest).find? (fun overload => decide ([] = overload.params)) =
      (first :: rest).find? (fun overload => decide (overload.params = [])) := by
    congr 1
    funext o
    simp [eq_comm]
  rw [hfind]
  cases (first :: rest).find? (fun overload => decide (overload.params = [])) <;> rfl

theorem parseCopydocString_empty_params_witness :
    parseCopydocString sampleIndex "Foo::bar( )" [] CommentEntry.empty =
      some (true, sampleComment "global bar.") :=
  (parseCopydocString_empty_params sampleIndex "Foo::bar( )" [] CommentEntry.empty
    2 [1, 0] sampleGlobalBar sampleGlobalOverload [] (by decide) (by decide) (by decide)
    (by decide) (by decide) rfl).trans (by decide)

/-- C15: when the `@copydoc` line of a comment (the first brief line that starts with
`@copydoc`) has a non-empty argument and `parseCopydocString` returns `false` for it,
`resolveCopydocComment` replaces the comment by the empty comment: brief, parameter comments
and return comments are all empty afterwards. -/
theorem resolveCopydocComment_unresolved (index : CommentIndex) (curNS : List String)
    (fuel : Nat) (comment leftover : CommentEntry)
    (harg : (findCopydocArg comment.brief).isEmpty = false)
    (hparse : parseCopydocString index (findCopydocArg comment.brief) curNS
      CommentEntry.empty = some (false, leftover)) :
    ∃ result, resolveCopydocComment index curNS (fuel + 1) comment = some result ∧
      result.brief = [] ∧ result.params = [] ∧ result.returns = [] := by
  refine ⟨CommentEntry.empty, ?_, rfl, rfl, rfl⟩
  simp [resolveCopydocComment, harg, hparse]

theorem resolveCopydocComment_unresolved_witness :
    ∃ result, resolveCopydocComment sampleIndex ["bs"] (0 + 1)
        { brief := ["Text.", "@copydoc Foo::bar(float)"],
          params := [{ name := "x", comments := ["A parameter."] }],
          returns := ["A value."] } = some result ∧
      result.brief = [] ∧ result.params = [] ∧ result.returns = [] :=
  resolveCopydocComment_unresolved sampleIndex ["bs"] 0 _ CommentEntry.empty
    (by decide) (by decide)

theorem rebindEntry_spec_witness :
    findClassInfo (rebindEntry meshFiles
        ("Mesh", { methods := [externalStray, externalMethod, externalCtor] })).1 "Mesh" =
      some { meshClass with
        methodInfos := meshClass.methodInfos ++
          ([externalStray, externalMethod, externalCtor].filter
            (acceptsExternal meshClass.name)).map withoutReceiver } :=
  (rebindEntry_spec meshFiles "Mesh"
    { methods := [externalStray, externalMethod, externalCtor] } meshClass (by decide)).1

/-! ## Properties of `postProcessFileInfos` as a whole -/

/-- C18 at a failing input: after `postProcessFileInfos` on the module with the structs
`Inner { int value; }` and `Outer { Inner value; }`, both structs require flattening and the
parameter of type `Inner` of the method `setBounds` carries the ComplexStruct flag, but the
field of type `Inner` of `Outer` does not. -/
theorem postProcessFileInfos_struct_field_unmarked :
    (postProcessFileInfos sampleIndex modelTypeInfo 1
        { outputFileInfos := meshFiles, externalClassInfos := [] }).map
      (fun model => model.outputFileInfos.map (fun fileInfo =>
        (fileInfo.2.classInfos.map (fun classInfo => classInfo.methodInfos.map
            (fun m => m.paramInfos.map (fun p => (p.type, isComplexStruct p.flags)))),
          fileInfo.2.structInfos.map (fun structInfo =>
            (structInfo.name, structInfo.requiresInterop,
              structInfo.fields.map (fun p => (p.type, isComplexStruct p.flags))))))) =
      some [([[[("Inner", true)]]],
        [("Inner", true, [("int", false)]), ("Outer", true, [("Inner", false)])])] := by
  rfl

/-- C17, as stated, fails: on a model with an external constructor the second run pushes the
constructor onto the class once more, so the method list of `Mesh` grows from two methods to
three and a new interop name `create0` is assigned. -/
theorem postProcessFileInfos_second_run_rebinds :
    (postProcessFileInfos sampleIndex modelTypeInfo 1 meshModel).map
        (fun model => model.outputFileInfos.map (fun fileInfo =>
          fileInfo.2.classInfos.map (fun classInfo =>
            classInfo.methodInfos.map (fun m => m.interopName)))) =
      some [[["setBounds", "create"]]] ∧
    ((postProcessFileInfos sampleIndex modelTypeInfo 1 meshModel).bind
        (postProcessFileInfos sampleIndex modelTypeInfo 1)).map
        (fun model => model.outputFileInfos.map (fun fileInfo =>
          fileInfo.2.classInfos.map (fun classInfo =>
            classInfo.methodInfos.map (fun m => m.interopName)))) =
      some [[["setBounds", "create", "create0"]]] := by
  decide

/-! ## Idempotence of property synthesis -/

theorem mergeProperty_fields (e q : PropertyInfo) :
    mergeProperty e q =
      { e with
        getter := getterStep e.type e.isStatic e.getter q
        setter := setterStep e.type e.isStatic e.setter q
        documentation := docStep e.type e.isStatic e.documentation q } := by
  unfold mergeProperty getterStep setterStep docStep
  by_cases hmis : e.type ≠ q.type ∨ e.isStatic ≠ q.isStatic
  · simp only [hmis, if_true]
  · simp only [hmis, if_false]
    by_cases hg : (!q.getter.isEmpty) = true
    · simp only [hg, if_true]
    · simp only [hg, if_false, Bool.false_eq_true]

theorem mergeAll_fields (A : List PropertyInfo) :
    ∀ e : PropertyInfo, mergeAll e A =
      { e with
        getter := A.foldl (getterStep e.type e.isStatic) e.getter
        setter := A.foldl (setterStep e.type e.isStatic) e.setter
        documentation := A.foldl (docStep e.type e.isStatic) e.documentation } := by
  induction A with
  | nil => intro e; rfl
  | cons q A ih =>
    intro e
    simp only [mergeAll, List.foldl_cons] at ih ⊢
    rw [ih (mergeProperty e q), mergeProperty_fields]

/-- A fold of steps each of which either keeps the value or overwrites it with a fixed one
either keeps every value or yields one fixed value. -/
theorem foldl_writer_shape {X Q : Type} (f : X → Q → X)
    (hf : ∀ q, (∀ x, f x q = x) ∨ (∃ v, ∀ x, f x q = v)) (A : List Q) :
    (∀ x, A.foldl f x = x) ∨ (∃ v, ∀ x, A.foldl f x = v) := by
  induction A with
  | nil => exact Or.inl (fun x => rfl)
  | cons q A ih =>
    rcases ih with ih | ⟨v, ih⟩
    · rcases hf q with h | ⟨w, h⟩
      · exact Or.inl (fun x => by simp [List.foldl_cons, h, ih])
      · exact Or.inr ⟨w, fun x => by simp [List.foldl_cons, h, ih]⟩
    · exact Or.inr ⟨v, fun x => by simp [List.foldl_cons, ih]⟩

theorem getterStep_writer (type : String) (isStatic : Bool) (q : PropertyInfo) :
    (∀ x, getterStep type isStatic x q = x) ∨ (∃ v, ∀ x, getterStep type isStatic x q = v) := by
  unfold getterStep
  by_cases h1 : type ≠ q.type ∨ isStatic ≠ q.isStatic
  · exact Or.inl (fun x => by simp only [h1, if_true])
  · by_cases h2 : (!q.getter.isEmpty) = true
    · exact Or.inr ⟨q.getter, fun x => by simp only [h1, h2, if_false, if_true]⟩
    · exact Or.inl (fun x => by simp only [h1, h2, if_false, Bool.false_eq_true])

theorem setterStep_writer (type : String) (isStatic : Bool) (q : PropertyInfo) :
    (∀ x, setterStep type isStatic x q = x) ∨ (∃ v, ∀ x, setterStep type isStatic x q = v) := by
  unfold setterStep
  by_cases h1 : type ≠ q.type ∨ isStatic ≠ q.isStatic
  · exact Or.inl (fun x => by simp only [h1, if_true])
  · by_cases h2 : (!q.getter.isEmpty) = true
    · exact Or.inl (fun x => by simp only [h1, h2, if_false, if_true])
    · exact Or.inr ⟨q.setter, fun x => by simp only [h1, h2, if_false, Bool.false_eq_true]⟩

/-- The three shapes a fold of documentation steps can have: constant, identity, or "keep a
comment with a brief, replace any other by a fixed one". -/
theorem docStep_shape (type : String) (isStatic : Bool) (A : List PropertyInfo) :
    (∃ c, ∀ x, A.foldl (docStep type isStatic) x = c) ∨
    (∀ x, A.foldl (docStep type isStatic) x = x) ∨
    (∃ d, ∀ x : CommentEntry,
      A.foldl (docStep type isStatic) x = if x.brief.isEmpty then d else x) := by
  induction A with
  | nil => exact Or.inr (Or.inl (fun x => rfl))
  | cons q A ih =>
    simp only [List.foldl_cons]
    by_cases h1 : type ≠ q.type ∨ isStatic ≠ q.isStatic
    · have hq : ∀ x, docStep type isStatic x q = x := fun x => by
        unfold docStep; simp only [h1, if_true]
      simpa [hq] using ih
    · by_cases h2 : (!q.getter.isEmpty) = true
      · have hq : ∀ x : CommentEntry, docStep type isStatic x q =
            if x.brief.isEmpty then q.documentation else x := fun x => by
          unfold docStep; simp only [h1, h2, if_false, if_true]
        rcases ih with ⟨c, ih⟩ | ih | ⟨d, ih⟩
        · exact Or.inl ⟨c, fun x => ih _⟩
        · exact Or.inr (Or.inr ⟨q.documentation, fun x => by rw [ih, hq]⟩)
        · refine Or.inr (Or.inr ⟨if q.documentation.brief.isEmpty then d else q.documentation,
            fun x => ?_⟩)
          rw [ih, hq]
          by_cases hx : x.brief.isEmpty = true
          · simp [hx]
          · simp [hx]
      · by_cases h3 : (!q.documentation.brief.isEmpty) = true
        · have hq : ∀ x : CommentEntry, docStep type isStatic x q = q.documentation :=
            fun x => by
              unfold docStep
              simp only [h1, h2, h3, if_false, if_true, Bool.false_eq_true]
          rcases ih with ⟨c, ih⟩ | ih | ⟨d, ih⟩
          · exact Or.inl ⟨c, fun x => ih _⟩
          · exact Or.inl ⟨q.documentation, fun x => by rw [ih, hq]⟩
          · exact Or.inl ⟨_, fun x => by rw [ih, hq]⟩
        · have hq : ∀ x : CommentEntry, docStep type isStatic x q = x := fun x => by
            unfold docStep
            simp only [h1, h2, h3, if_false, Bool.false_eq_true]
          simpa [hq] using ih

theorem foldl_writer_idem {X Q : Type} (f : X → Q → X)
    (hf : ∀ q, (∀ x, f x q = x) ∨ (∃ v, ∀ x, f x q = v)) (A : List Q) (x : X) :
    A.foldl f (A.foldl f x) = A.foldl f x := by
  rcases foldl_writer_shape f hf A with h | ⟨v, h⟩
  · rw [h]
  · rw [h, h]

theorem foldl_writer_replay {X Q : Type} (f : X → Q → X)
    (hf : ∀ q, (∀ x, f x q = x) ∨ (∃ v, ∀ x, f x q = v)) (A : List Q) (x0 : X) (q : Q)
    (hq : f x0 q = x0) :
    A.foldl f (f (A.foldl f x0) q) = A.foldl f x0 := by
  rcases foldl_writer_shape f hf A with h | ⟨v, h⟩
  · rw [h, h, hq]
  · rw [h, h]

theorem docStep_idem (type : String) (isStatic : Bool) (A : List PropertyInfo)
    (x : CommentEntry) :
    A.foldl (docStep type isStatic) (A.foldl (docStep type isStatic) x) =
      A.foldl (docStep type isStatic) x := by
  rcases docStep_shape type isStatic A with ⟨c, h⟩ | h | ⟨d, h⟩
  · rw [h, h]
  · rw [h]
  · rw [h x]
    by_cases hx : x.brief.isEmpty = true
    · simp only [hx, if_true]
      rw [h d]
      by_cases hd : d.brief.isEmpty = true <;> simp [hd]
    · simp only [hx, if_false, Bool.false_eq_true]
      rw [h x]
      simp [hx]

theorem docStep_replay (A : List PropertyInfo) (q : PropertyInfo) :
    A.foldl (docStep q.type q.isStatic)
        (docStep q.type q.isStatic (A.foldl (docStep q.type q.isStatic) q.documentation) q) =
      A.foldl (docStep q.type q.isStatic) q.documentation := by
  have hstep : ∀ y : CommentEntry, docStep q.type q.isStatic y q =
      if !q.getter.isEmpty then (if y.brief.isEmpty then q.documentation else y)
      else (if !q.documentation.brief.isEmpty then q.documentation else y) := by
    intro y
    unfold docStep
    simp
  have hself : docStep q.type q.isStatic q.documentation q = q.documentation := by
    rw [hstep]
    by_cases h1 : (!q.getter.isEmpty) = true
    · by_cases h2 : q.documentation.brief.isEmpty = true <;> simp [h1, h2]
    · by_cases h2 : (!q.documentation.brief.isEmpty) = true <;> simp [h1, h2]
  rcases docStep_shape q.type q.isStatic A with ⟨c, h⟩ | h | ⟨d, h⟩
  · rw [h, h]
  · rw [h, h, hself]
  · by_cases hx : q.documentation.brief.isEmpty = true
    · have hy : A.foldl (docStep q.type q.isStatic) q.documentation = d := by
        rw [h]; simp [hx]
      rw [hy, hstep]
      by_cases h1 : (!q.getter.isEmpty) = true
      · simp only [h1, if_true]
        by_cases hd : d.brief.isEmpty = true
        · simp only [hd, if_true]
          rw [h]; simp [hx]
        · simp only [hd, if_false, Bool.false_eq_true]
          rw [h]; simp [hd]
      · have h2 : (!q.documentation.brief.isEmpty) = false := by simp [hx]
        simp only [h1, h2, if_false, Bool.false_eq_true]
        rw [h]
        by_cases hd : d.brief.isEmpty = true <;> simp [hd]
    · have hy : A.foldl (docStep q.type q.isStatic) q.documentation = q.documentation := by
        rw [h]; simp [hx]
      rw [hy, hself, hy]

/-- Merging a list of property infos into a property a second time changes nothing. -/
theorem mergeAll_idem (e : PropertyInfo) (A : List PropertyInfo) :
    mergeAll (mergeAll e A) A = mergeAll e A := by
  rw [mergeAll_fields A (mergeAll e A), mergeAll_fields A e]
  simp only [foldl_writer_idem _ (getterStep_writer e.type e.isStatic),
    foldl_writer_idem _ (setterStep_writer e.type e.isStatic), docStep_idem]

/-- Merging the info a property was created from, and then the infos merged into it, once
more into the result changes nothing. -/
theorem mergeAll_replay (q : PropertyInfo) (A : List PropertyInfo) :
    mergeAll (mergeAll q A) (q :: A) = mergeAll q A := by
  have hg : getterStep q.type q.isStatic q.getter q = q.getter := by
    unfold getterStep; simp
  have hs : setterStep q.type q.isStatic q.setter q = q.setter := by
    unfold setterStep; simp
  show mergeAll (mergeProperty (mergeAll q A) q) A = mergeAll q A
  rw [mergeProperty_fields, mergeAll_fields A q, mergeAll_fields A]
  simp only [foldl_writer_replay _ (getterStep_writer q.type q.isStatic) A q.getter q hg,
    foldl_writer_replay _ (setterStep_writer q.type q.isStatic) A q.setter q hs,
    docStep_replay]

theorem mergeAll_name (e : PropertyInfo) (A : List PropertyInfo) :
    (mergeAll e A).name = e.name := by
  rw [mergeAll_fields]

theorem mergeProperty_congr (e q q' : PropertyInfo) (h : SameMerge q q') :
    mergeProperty e q' = mergeProperty e q := by
  obtain ⟨-, h2, h3, h4, h5, h6⟩ := h
  unfold mergeProperty
  rw [h2, h3, h4, h5, h6]

theorem mergeAll_congr (A A' : List PropertyInfo) (h : List.Forall₂ SameMerge A A') :
    ∀ e : PropertyInfo, mergeAll e A' = mergeAll e A := by
  induction h with
  | nil => intro e; rfl
  | @cons q q' A A' hq _ ih =>
    intro e
    simp only [mergeAll, List.foldl_cons] at ih ⊢
    rw [mergeProperty_congr e q q' hq, ih]

theorem sameMerge_filter (p : String → Bool) (A A' : List PropertyInfo)
    (h : List.Forall₂ SameMerge A A') :
    List.Forall₂ SameMerge (A.filter (fun q => p q.name)) (A'.filter (fun q => p q.name)) := by
  induction h with
  | nil => exact List.Forall₂.nil
  | @cons q q' A A' hq _ ih =>
    have hn : q'.name = q.name := hq.1
    simp only [List.filter_cons, hn]
    by_cases hp : p q.name = true
    · simp only [hp, if_true]
      exact List.Forall₂.cons hq ih
    · simp only [hp, if_false, Bool.false_eq_true]
      exact ih

/-- Recording a list of infos into a non-empty property list: the infos of the name of the
first property are merged into it, the others are recorded into the rest of the list. -/
theorem recordAll_cons (qs : List PropertyInfo) :
    ∀ (e : PropertyInfo) (rest : List PropertyInfo),
      recordAll qs (e :: rest) =
        mergeAll e (qs.filter (fun q => decide (q.name = e.name))) ::
          recordAll (qs.filter (fun q => !decide (q.name = e.name))) rest := by
  induction qs with
  | nil => intro e rest; rfl
  | cons q qs ih =>
    intro e rest
    by_cases hq : q.name = e.name
    · have h1 : recordProperty q (e :: rest) = mergeProperty e q :: rest := by
        simp [recordProperty, hq]
      simp only [recordAll, List.foldl_cons] at ih ⊢
      rw [h1, ih]
      simp [List.filter_cons, hq, mergeProperty_name, mergeAll]
    · have h1 : recordProperty q (e :: rest) = e :: recordProperty q rest := by
        simp [recordProperty, hq]
      simp only [recordAll, List.foldl_cons] at ih ⊢
      rw [h1, ih]
      simp [List.filter_cons, hq]

theorem length_filter_le_self (p : PropertyInfo → Bool) (A : List PropertyInfo) :
    (A.filter p).length ≤ A.length := List.length_filter_le p A

/-- Recording the same infos (up to type flags and visibility) a second time leaves the
property list as the first recording made it. -/
theorem recordAll_idem (n : Nat) :
    ∀ (qs qs' P : List PropertyInfo), qs.length + P.length ≤ n →
      List.Forall₂ SameMerge qs qs' →
      recordAll qs' (recordAll qs P) = recordAll qs P := by
  induction n with
  | zero =>
    intro qs qs' P hn h
    have hq : qs = [] := List.length_eq_zero.1 (by omega)
    have hP : P = [] := List.length_eq_zero.1 (by omega)
    subst hq hP
    cases h
    rfl
  | succ n ih =>
    intro qs qs' P hn h
    cases P with
    | cons e rest =>
      rw [recordAll_cons qs e rest, recordAll_cons qs', mergeAll_name]
      have hA := sameMerge_filter (fun s => decide (s = e.name)) qs qs' h
      have hB := sameMerge_filter (fun s => !decide (s = e.name)) qs qs' h
      rw [mergeAll_congr _ _ hA, mergeAll_idem]
      rw [ih _ _ rest (by
        have := length_filter_le_self
          (fun q : PropertyInfo => (fun s => !decide (s = e.name)) q.name) qs
        simp only [List.length_cons] at hn
        omega) hB]
    | nil =>
      cases h with
      | nil => rfl
      | @cons q q' qt qt' hq ht =>
        have hstart : recordAll (q :: qt) [] = recordAll qt [q] := rfl
        rw [hstart, recordAll_cons qt q [], recordAll_cons (q' :: qt'), mergeAll_name]
        have hn' : q'.name = q.name := hq.1
        have hA := sameMerge_filter (fun s => decide (s = q.name)) qt qt' ht
        have hB := sameMerge_filter (fun s => !decide (s = q.name)) qt qt' ht
        have hf1 : (q' :: qt').filter (fun x => decide (x.name = q.name)) =
            q' :: qt'.filter (fun x => decide (x.name = q.name)) := by
          simp [List.filter_cons, hn']
        have hf2 : (q' :: qt').filter (fun x => !decide (x.name = q.name)) =
            qt'.filter (fun x => !decide (x.name = q.name)) := by
          simp [List.filter_cons, hn']
        rw [hf1, hf2, mergeAll_congr _ _ (List.Forall₂.cons hq hA), mergeAll_replay]
        rw [ih _ _ [] (by
          have := length_filter_le_self (fun x => !decide (x.name = q.name)) qt
          simp only [List.length_cons, List.length_nil] at hn ⊢
          omega) hB]

theorem generatePropertyInfos_eq_recordAll (methodInfos : List MethodInfo) :
    ∀ propertyInfos : List PropertyInfo,
      generatePropertyInfos propertyInfos methodInfos =
        (accessorInfos methodInfos).map (fun infos => recordAll infos propertyInfos) := by
  induction methodInfos with
  | nil => intro P; rfl
  | cons m rest ih =>
    intro P
    by_cases hacc : (!isGetter m && !isSetter m) = true
    · simp only [generatePropertyInfos, propertyStep, hacc, if_true, accessorInfos, ih]
    · simp only [Bool.not_eq_true] at hacc
      cases hq : makePropertyInfo m with
      | none => simp [generatePropertyInfos, propertyStep, hacc, accessorInfos, hq]
      | some q =>
        simp only [generatePropertyInfos, propertyStep, hacc, accessorInfos, hq, ih,
          Bool.false_eq_true, if_false]
        cases accessorInfos rest with
        | none => rfl
        | some qs => rfl

theorem makePropertyInfo_rel (m m' : MethodInfo) (h : MethodRel m m') :
    isGetter m' = isGetter m ∧ isSetter m' = isSetter m ∧
      ((makePropertyInfo m = none ∧ makePropertyInfo m' = none) ∨
        ∃ q q', makePropertyInfo m = some q ∧ makePropertyInfo m' = some q' ∧
          SameMerge q q') := by
  obtain ⟨h1, h2, h3, h4, h5, h6, h7, h8, h9⟩ := h
  have hg : isGetter m' = isGetter m := by simp [isGetter, h8]
  have hs : isSetter m' = isSetter m := by simp [isSetter, h8]
  have hst : isStatic m' = isStatic m := by simp [isStatic, h8]
  refine ⟨hg, hs, ?_⟩
  by_cases hgm : isGetter m = true
  · have hgm' : isGetter m' = true := hg.trans hgm
    refine Or.inr ⟨_, _, by simp only [makePropertyInfo, hgm, if_true]; rfl,
      by simp only [makePropertyInfo, hgm', if_true]; rfl, ?_⟩
    exact ⟨h3, by rw [h5], hst, h2, rfl, h6⟩
  · simp only [Bool.not_eq_true] at hgm
    have hgm' : isGetter m' = false := hg.trans hgm
    cases hp : m.paramInfos with
    | nil =>
      rw [hp] at h9
      have hp' := List.forall₂_nil_left_iff.1 h9
      exact Or.inl ⟨by simp [makePropertyInfo, hgm, hp], by simp [makePropertyInfo, hgm', hp']⟩
    | cons p ps =>
      rw [hp] at h9
      obtain ⟨p', ps', hpp, -, hp'⟩ := List.forall₂_cons_left_iff.1 h9
      refine Or.inr ⟨_, _,
        by simp only [makePropertyInfo, hgm, hp, Bool.false_eq_true, if_false]; rfl,
        by simp only [makePropertyInfo, hgm', hp', Bool.false_eq_true, if_false]; rfl, ?_⟩
      exact ⟨h3, hpp.2, hst, rfl, h2, h6⟩

theorem accessorInfos_rel (ms ms' : List MethodInfo) (h : List.Forall₂ MethodRel ms ms') :
    ∀ qs, accessorInfos ms = some qs →
      ∃ qs', accessorInfos ms' = some qs' ∧ List.Forall₂ SameMerge qs qs' := by
  induction h with
  | nil =>
    intro qs hqs
    simp only [accessorInfos, Option.some.injEq] at hqs
    subst hqs
    exact ⟨[], rfl, List.Forall₂.nil⟩
  | @cons m m' ms ms' hm _ ih =>
    intro qs hqs
    obtain ⟨hg, hs, hq⟩ := makePropertyInfo_rel m m' hm
    by_cases hacc : (!isGetter m && !isSetter m) = true
    · simp only [accessorInfos, hacc, if_true] at hqs
      obtain ⟨qs', h1, h2⟩ := ih qs hqs
      exact ⟨qs', by simp only [accessorInfos, hg, hs, hacc, if_true, h1], h2⟩
    · simp only [Bool.not_eq_true] at hacc
      simp only [accessorInfos, hacc, Bool.false_eq_true, if_false] at hqs
      rcases hq with ⟨hn, -⟩ | ⟨q, q', hq1, hq2, hsame⟩
      · simp [hn] at hqs
      · rw [hq1] at hqs
        cases hrest : accessorInfos ms with
        | none => simp [hrest] at hqs
        | some qt =>
          simp only [hrest, Option.some.injEq] at hqs
          subst hqs
          obtain ⟨qt', h1, h2⟩ := ih qt hrest
          exact ⟨q' :: qt', by
            simp only [accessorInfos, hg, hs, hacc, Bool.false_eq_true, if_false, hq2, h1],
            List.Forall₂.cons hsame h2⟩

/-- The property list a class got from property synthesis is left alone when the pass runs
again on it, also after later passes changed flags and default values of parameters. -/
theorem generatePropertyInfos_idem (P0 P1 : List PropertyInfo) (ms ms' : List MethodInfo)
    (h : generatePropertyInfos P0 ms = some P1) (hrel : List.Forall₂ MethodRel ms ms') :
    generatePropertyInfos P1 ms' = some P1 := by
  rw [generatePropertyInfos_eq_recordAll] at h ⊢
  cases hqs : accessorInfos ms with
  | none => simp [hqs] at h
  | some qs =>
    simp only [hqs, Option.map_some', Option.some.injEq] at h
    obtain ⟨qs', h1, h2⟩ := accessorInfos_rel ms ms' hrel qs hqs
    simp only [h1, Option.map_some', Option.some.injEq]
    rw [← h]
    exact recordAll_idem _ qs qs' P0 (le_refl _) h2

/-! ## Fixed points of the per-class passes -/

theorem mapOption_fixed {α : Type} (f : α → Option α) (l : List α)
    (h : ∀ x ∈ l, f x = some x) : mapOption f l = some l := by
  induction l with
  | nil => rfl
  | cons a rest ih =>
    simp [mapOption, h a (List.mem_cons_self _ _),
      ih (fun x hx => h x (List.mem_cons_of_mem _ hx))]

theorem mapOption_forall₂ {α β : Type} (f : α → Option β) (l : List α) :
    ∀ l' : List β, mapOption f l = some l' → List.Forall₂ (fun x y => f x = some y) l l' := by
  induction l with
  | nil =>
    intro l' h
    simp only [mapOption, Option.some.injEq] at h
    subst h
    exact List.Forall₂.nil
  | cons a rest ih =>
    intro l' h
    cases ha : f a with
    | none => simp [mapOption, ha] at h
    | some b =>
      cases hr : mapOption f rest with
      | none => simp [mapOption, ha, hr] at h
      | some rest' =>
        simp only [mapOption, ha, hr, Option.some.injEq] at h
        subst h
        exact List.Forall₂.cons ha (ih rest' hr)

theorem forall₂_transfer {α β : Type} (R : α → β → Prop) (P : α → Prop) (Q : β → Prop)
    (hRP : ∀ a b, R a b → P a → Q b) (l : List α) (l' : List β) (h : List.Forall₂ R l l')
    (hP : ∀ a ∈ l, P a) : ∀ b ∈ l', Q b := by
  induction h with
  | nil => intro b hb; simp at hb
  | @cons a b l l' hab _ ih =>
    intro x hx
    rcases List.mem_cons.1 hx with hx | hx
    · subst hx
      exact hRP a x hab (hP a (List.mem_cons_self _ _))
    · exact ih (fun y hy => hP y (List.mem_cons_of_mem _ hy)) x hx

theorem forall₂_of_mem {α β : Type} (R : α → β → Prop) (l : List α) (l' : List β)
    (h : List.Forall₂ R l l') : ∀ b ∈ l', ∃ a ∈ l, R a b := by
  induction h with
  | nil => intro b hb; simp at hb
  | @cons a b l l' hab _ ih =>
    intro x hx
    rcases List.mem_cons.1 hx with hx | hx
    · subst hx
      exact ⟨a, List.mem_cons_self _ _, hab⟩
    · obtain ⟨y, hy, hr⟩ := ih x hx
      exact ⟨y, List.mem_cons_of_mem _ hy, hr⟩

theorem resolveCopydocComment_terminal (index : CommentIndex) (ns : List String)
    (fuel : Nat) :
    ∀ comment result : CommentEntry,
      resolveCopydocComment index ns fuel comment = some result → DocTerminal result := by
  induction fuel with
  | zero => intro comment result h; simp [resolveCopydocComment] at h
  | succ fuel ih =>
    intro comment result h
    unfold resolveCopydocComment at h
    simp only at h
    by_cases harg : (findCopydocArg comment.brief).isEmpty = true
    · simp only [harg, if_true, Option.some.injEq] at h
      subst h
      exact harg
    · simp only [harg, if_false, Bool.false_eq_true] at h
      cases hparse : parseCopydocString index (findCopydocArg comment.brief) ns
          CommentEntry.empty with
      | none => simp [hparse] at h
      | some r =>
        obtain ⟨ok, out⟩ := r
        cases ok with
        | false =>
          simp only [hparse, Option.some.injEq] at h
          subst h
          rfl
        | true =>
          simp only [hparse] at h
          exact ih out result h

theorem resolveCopydocComment_of_terminal (index : CommentIndex) (ns : List String)
    (fuel : Nat) (comment : CommentEntry) (h : DocTerminal comment) :
    resolveCopydocComment index ns (fuel + 1) comment = some comment := by
  unfold DocTerminal at h
  simp [resolveCopydocComment, h]

theorem resolveCopydocComment_fuel_pos (index : CommentIndex) (ns : List String)
    (fuel : Nat) (comment result : CommentEntry)
    (h : resolveCopydocComment index ns fuel comment = some result) :
    ∃ k, fuel = k + 1 := by
  cases fuel with
  | zero => simp [resolveCopydocComment] at h
  | succ k => exact ⟨k, rfl⟩

theorem generateInteropName_rel (usedNames used1 : List String) (m m1 m2 : MethodInfo)
    (h : generateInteropName usedNames m = some (used1, m1)) (hrel : NameRel m1 m2) :
    m1.sourceName = m.sourceName ∧ m1.documentation = m.documentation ∧
      generateInteropName usedNames m2 = some (used1, m2) := by
  unfold generateInteropName at h
  cases hloop : generateInteropNameLoop usedNames m.sourceName (usedNames.length + 2) 0
      m.sourceName with
  | none => simp [hloop] at h
  | some r =>
    simp only [hloop, Option.some.injEq, Prod.mk.injEq] at h
    obtain ⟨h1, h2⟩ := h
    subst h1 h2
    obtain ⟨hs, hi⟩ := hrel
    simp only at hs hi
    refine ⟨rfl, rfl, ?_⟩
    have hloop2 : generateInteropNameLoop usedNames m2.sourceName (usedNames.length + 2) 0
        m2.sourceName = some r := by rw [hs]; exact hloop
    simp only [generateInteropName, hloop2, Option.some.injEq, Prod.mk.injEq, true_and]
    cases m2
    simp only at hi
    subst hi
    rfl

theorem generateInteropNames_rel (ms : List MethodInfo) :
    ∀ (usedNames used1 : List String) (ms1 ms2 : List MethodInfo),
      generateInteropNames usedNames ms = some (used1, ms1) →
      List.Forall₂ NameRel ms1 ms2 →
      List.Forall₂ (fun m m1 => m1.documentation = m.documentation) ms ms1 ∧
        generateInteropNames usedNames ms2 = some (used1, ms2) := by
  induction ms with
  | nil =>
    intro usedNames used1 ms1 ms2 h hrel
    simp only [generateInteropNames, Option.some.injEq, Prod.mk.injEq] at h
    obtain ⟨h1, h2⟩ := h
    subst h1 h2
    cases hrel
    exact ⟨List.Forall₂.nil, rfl⟩
  | cons m rest ih =>
    intro usedNames used1 ms1 ms2 h hrel
    cases hm : generateInteropName usedNames m with
    | none => simp [generateInteropNames, hm] at h
    | some r =>
      obtain ⟨u1, m1⟩ := r
      cases hr : generateInteropNames u1 rest with
      | none => simp [generateInteropNames, hm, hr] at h
      | some r2 =>
        obtain ⟨u2, rest1⟩ := r2
        simp only [generateInteropNames, hm, hr, Option.some.injEq, Prod.mk.injEq] at h
        obtain ⟨h1, h2⟩ := h
        subst h1 h2
        obtain ⟨m2, rest2, hm2, hrest2, heq⟩ := List.forall₂_cons_left_iff.1 hrel
        subst heq
        obtain ⟨-, hdoc, hgen⟩ := generateInteropName_rel usedNames u1 m m1 m2 hm hm2
        obtain ⟨hdocs, hgens⟩ := ih u1 u2 rest1 rest2 hr hrest2
        exact ⟨List.Forall₂.cons hdoc hdocs, by simp [generateInteropNames, hgen, hgens]⟩

theorem resolveMethodDoc_terminal (index : CommentIndex) (fuel : Nat) (ns : List String)
    (ms ms1 : List MethodInfo)
    (h : mapOption (resolveMethodDoc index fuel ns) ms = some ms1) :
    ∀ m ∈ ms1, DocTerminal m.documentation := by
  have h2 := mapOption_forall₂ _ ms ms1 h
  intro m1 hm1
  obtain ⟨m, -, hm⟩ := forall₂_of_mem _ ms ms1 h2 m1 hm1
  unfold resolveMethodDoc at hm
  cases hd : resolveCopydocComment index ns fuel m.documentation with
  | none => simp [hd] at hm
  | some d =>
    simp only [hd, Option.some.injEq] at hm
    subst hm
    exact resolveCopydocComment_terminal index ns fuel _ _ hd

theorem resolveMethodDoc_fixed (index : CommentIndex) (k : Nat) (ns : List String)
    (ms : List MethodInfo) (h : ∀ m ∈ ms, DocTerminal m.documentation) :
    mapOption (resolveMethodDoc index (k + 1) ns) ms = some ms := by
  apply mapOption_fixed
  intro m hm
  unfold resolveMethodDoc
  rw [resolveCopydocComment_of_terminal index ns k _ (h m hm)]

theorem resolveClassDocs_terminal (index : CommentIndex) (fuel : Nat) (c0 c1 : ClassInfo)
    (h : resolveClassDocs index fuel c0 = some c1) :
    ClassDocsTerminal c1 ∧ (∃ k, fuel = k + 1) ∧ c1.ns = c0.ns := by
  unfold resolveClassDocs at h
  cases hd : resolveCopydocComment index c0.ns fuel c0.documentation with
  | none => simp [hd] at h
  | some d =>
    cases hm : mapOption (resolveMethodDoc index fuel c0.ns) c0.methodInfos with
    | none => simp [hd, hm] at h
    | some ms =>
      cases hc : mapOption (resolveMethodDoc index fuel c0.ns) c0.ctorInfos with
      | none => simp [hd, hm, hc] at h
      | some cs =>
        cases he : mapOption (resolveMethodDoc index fuel c0.ns) c0.eventInfos with
        | none => simp [hd, hm, hc, he] at h
        | some es =>
          simp only [hd, hm, hc, he, Option.some.injEq] at h
          subst h
          exact ⟨⟨resolveCopydocComment_terminal index c0.ns fuel _ _ hd,
            resolveMethodDoc_terminal index fuel c0.ns _ _ hm,
            resolveMethodDoc_terminal index fuel c0.ns _ _ hc,
            resolveMethodDoc_terminal index fuel c0.ns _ _ he⟩,
            resolveCopydocComment_fuel_pos index c0.ns fuel _ _ hd, rfl⟩

theorem resolveClassDocs_fixed (index : CommentIndex) (k : Nat) (c : ClassInfo)
    (h : ClassDocsTerminal c) : resolveClassDocs index (k + 1) c = some c := by
  obtain ⟨h1, h2, h3, h4⟩ := h
  unfold resolveClassDocs
  rw [resolveCopydocComment_of_terminal index c.ns k _ h1,
    resolveMethodDoc_fixed index k c.ns _ h2, resolveMethodDoc_fixed index k c.ns _ h3,
    resolveMethodDoc_fixed index k c.ns _ h4]

theorem methodRel_nameRel (l l' : List MethodInfo) (h : List.Forall₂ MethodRel l l') :
    List.Forall₂ NameRel l l' :=
  h.imp (fun _ _ hm => ⟨hm.1, hm.2.1⟩)

theorem nameRel_refl (l : List MethodInfo) : List.Forall₂ NameRel l l :=
  List.forall₂_same.2 (fun _ _ => ⟨rfl, rfl⟩)

/-- A class that went through the copydoc pass, the interop-name pass and property synthesis
is settled, also after later passes changed flags and default values. -/
theorem classSettled_of_chain (index : CommentIndex) (fuel : Nat)
    (c0 c1 c2 c3 c7 : ClassInfo)
    (hR : resolveClassDocs index fuel c0 = some c1)
    (hN : assignInteropNames c1 = some c2)
    (hP : synthesizeProperties c2 = some c3)
    (hL : LaterClass c3 c7) : ClassSettled index fuel c7 := by
  obtain ⟨⟨t1, t2, t3, t4⟩, ⟨k, hk⟩, -⟩ := resolveClassDocs_terminal index fuel c0 c1 hR
  subst hk
  obtain ⟨l1, l2, l3, l4, l5, l6, l7, l8⟩ := hL
  -- the interop-name pass
  unfold assignInteropNames at hN
  cases hm : generateInteropNames [] c1.methodInfos with
  | none => simp [hm] at hN
  | some r1 =>
    obtain ⟨u1, ms2⟩ := r1
    cases hc : generateInteropNames u1 c1.ctorInfos with
    | none => simp [hm, hc] at hN
    | some r2 =>
      obtain ⟨u2, cs2⟩ := r2
      cases he : generateInteropNames u2 c1.eventInfos with
      | none => simp [hm, hc, he] at hN
      | some r3 =>
        obtain ⟨u3, es2⟩ := r3
        simp only [hm, hc, he, Option.some.injEq] at hN
        subst hN
        -- property synthesis
        unfold synthesizeProperties at hP
        simp only at hP
        cases hg : generatePropertyInfos c1.propertyInfos ms2 with
        | none => simp [hg] at hP
        | some P1 =>
          simp only [hg, Option.some.injEq] at hP
          subst hP
          simp only at l1 l2 l3 l4 l5 l6 l7 l8
          obtain ⟨dm, gm⟩ := generateInteropNames_rel _ _ _ _ _ hm (methodRel_nameRel _ _ l7)
          obtain ⟨dc, gc⟩ := generateInteropNames_rel _ _ _ _ _ hc (methodRel_nameRel _ _ l8)
          obtain ⟨de, ge⟩ := generateInteropNames_rel _ _ _ es2 c7.eventInfos he
            (by rw [l6]; exact nameRel_refl es2)
          have docs7 : ClassDocsTerminal c7 := by
            refine ⟨l4 ▸ t1, ?_, ?_, ?_⟩
            · have := forall₂_transfer _ _ (fun m => DocTerminal m.documentation)
                (fun a b hab ha => by show DocTerminal b.documentation; rw [hab]; exact ha) _ _ dm t2
              exact forall₂_transfer _ _ (fun m => DocTerminal m.documentation)
                (fun a b hab ha => by
                  show DocTerminal b.documentation; rw [hab.2.2.2.2.2.1]; exact ha) _ _ l7 this
            · have := forall₂_transfer _ _ (fun m => DocTerminal m.documentation)
                (fun a b hab ha => by show DocTerminal b.documentation; rw [hab]; exact ha) _ _ dc t3
              exact forall₂_transfer _ _ (fun m => DocTerminal m.documentation)
                (fun a b hab ha => by
                  show DocTerminal b.documentation; rw [hab.2.2.2.2.2.1]; exact ha) _ _ l8 this
            · rw [l6]
              exact forall₂_transfer _ _ (fun m => DocTerminal m.documentation)
                (fun a b hab ha => by show DocTerminal b.documentation; rw [hab]; exact ha) _ _ de t4
          refine ⟨resolveClassDocs_fixed index k c7 docs7, ?_, ?_⟩
          · simp only [assignInteropNames, gm, gc, ge]
          · have := generatePropertyInfos_idem _ _ _ _ hg l7
            simp only [synthesizeProperties, l5, this]
            rw [← l5]

/-! ## The passes as relations between symbol tables -/

theorem forall₂_comp {α β γ : Type} (R : α → β → Prop) (S : β → γ → Prop)
    (a : List α) (b : List β) (h1 : List.Forall₂ R a b) :
    ∀ c : List γ, List.Forall₂ S b c →
      List.Forall₂ (fun x z => ∃ y, R x y ∧ S y z) a c := by
  induction h1 with
  | nil => intro c h2; cases h2; exact List.Forall₂.nil
  | @cons x y a b hxy _ ih =>
    intro c h2
    obtain ⟨z, c', hyz, hrest, rfl⟩ := List.forall₂_cons_left_iff.1 h2
    exact List.Forall₂.cons ⟨y, hxy, hyz⟩ (ih c' hrest)

theorem forall₂_eq {α : Type} (l l' : List α) (h : List.Forall₂ (fun a b => b = a) l l') :
    l' = l := by
  induction h with
  | nil => rfl
  | cons h1 _ ih => rw [h1, ih]

theorem forall₂_eq_refl {α : Type} (l : List α) : List.Forall₂ (fun a b => b = a) l l :=
  List.forall₂_same.2 (fun _ _ => rfl)

theorem forall₂_map_self {α β : Type} (R : α → β → Prop) (h : α → β)
    (hR : ∀ a, R a (h a)) (l : List α) : List.Forall₂ R l (l.map h) := by
  induction l with
  | nil => exact List.Forall₂.nil
  | cons a l ih => exact List.Forall₂.cons (hR a) ih

theorem FilesRel.comp {rc rc' : ClassInfo → ClassInfo → Prop}
    {rs rs' : StructInfo → StructInfo → Prop} {re re' : EnumInfo → EnumInfo → Prop}
    {F G H : List (String × FileInfo)} (h1 : FilesRel rc rs re F G)
    (h2 : FilesRel rc' rs' re' G H) :
    FilesRel (fun x z => ∃ y, rc x y ∧ rc' y z) (fun x z => ∃ y, rs x y ∧ rs' y z)
      (fun x z => ∃ y, re x y ∧ re' y z) F H := by
  have := forall₂_comp _ _ F G h1 H h2
  refine this.imp ?_
  rintro f h ⟨g, ⟨a1, a2, a3, a4, a5⟩, ⟨b1, b2, b3, b4, b5⟩⟩
  exact ⟨b1.trans a1, b2.trans a2, forall₂_comp _ _ _ _ a3 _ b3,
    forall₂_comp _ _ _ _ a4 _ b4, forall₂_comp _ _ _ _ a5 _ b5⟩

theorem FilesRel.imp {rc rc' : ClassInfo → ClassInfo → Prop}
    {rs rs' : StructInfo → StructInfo → Prop} {re re' : EnumInfo → EnumInfo → Prop}
    {F G : List (String × FileInfo)} (h : FilesRel rc rs re F G)
    (hc : ∀ a b, rc a b → rc' a b) (hs : ∀ a b, rs a b → rs' a b)
    (he : ∀ a b, re a b → re' a b) : FilesRel rc' rs' re' F G := by
  refine List.Forall₂.imp ?_ h
  rintro f g ⟨a1, a2, a3, a4, a5⟩
  exact ⟨a1, a2, a3.imp hc, a4.imp hs, a5.imp he⟩

theorem filesRel_resolve (index : CommentIndex) (fuel : Nat)
    (F G : List (String × FileInfo))
    (h : mapOption (resolveFileDocs index fuel) F = some G) :
    FilesRel (fun c c' => resolveClassDocs index fuel c = some c')
      (fun s s' => resolveStructDocs index fuel s = some s')
      (fun e e' => resolveEnumDocs index fuel e = some e') F G := by
  refine (mapOption_forall₂ _ F G h).imp ?_
  intro f g hfg
  unfold resolveFileDocs at hfg
  cases hc : mapOption (resolveClassDocs index fuel) f.2.classInfos with
  | none => simp [hc] at hfg
  | some cs =>
    cases hs : mapOption (resolveStructDocs index fuel) f.2.structInfos with
    | none => simp [hc, hs] at hfg
    | some ss =>
      cases he : mapOption (resolveEnumDocs index fuel) f.2.enumInfos with
      | none => simp [hc, hs, he] at hfg
      | some es =>
        simp only [hc, hs, he, Option.some.injEq] at hfg
        subst hfg
        exact ⟨rfl, rfl, mapOption_forall₂ _ _ _ hc, mapOption_forall₂ _ _ _ hs,
          mapOption_forall₂ _ _ _ he⟩

theorem filesRel_mapClassesOption (h : ClassInfo → Option ClassInfo)
    (F G : List (String × FileInfo))
    (hFG : mapOption (fun fileInfo : String × FileInfo =>
      (fileInfo.2.mapClassesOption h).map (fun f => (fileInfo.1, f))) F = some G) :
    FilesRel (fun c c' => h c = some c') (fun s s' => s' = s) (fun e e' => e' = e) F G := by
  refine (mapOption_forall₂ _ F G hFG).imp ?_
  intro f g hfg
  unfold FileInfo.mapClassesOption at hfg
  cases hc : mapOption h f.2.classInfos with
  | none => simp [hc] at hfg
  | some cs =>
    simp only [hc, Option.map_some', Option.some.injEq] at hfg
    subst hfg
    exact ⟨rfl, rfl, mapOption_forall₂ _ _ _ hc, forall₂_eq_refl _, forall₂_eq_refl _⟩

theorem mapClassesOption_fixed (h : ClassInfo → Option ClassInfo)
    (F : List (String × FileInfo))
    (hfix : ∀ f ∈ F, ∀ c ∈ f.2.classInfos, h c = some c) :
    mapOption (fun fileInfo : String × FileInfo =>
      (fileInfo.2.mapClassesOption h).map (fun f => (fileInfo.1, f))) F = some F := by
  apply mapOption_fixed
  intro f hf
  unfold FileInfo.mapClassesOption
  rw [mapOption_fixed h _ (hfix f hf)]
  rfl

theorem markComplexParam_eq (getTypeInfo : String → Nat → UserTypeInfo)
    (T : List (String × FileInfo)) (p : VarInfo) :
    markComplexParam getTypeInfo T p =
      { p with flags := markFlags getTypeInfo (structTable T) p.type p.flags } := by
  unfold markComplexParam markFlags structTable
  by_cases h1 : ((getTypeInfo p.type p.flags).type != ParsedType.Struct) = true
  · simp only [h1, if_true]
  · simp only [h1, if_false, Bool.false_eq_true]
    cases hf : findStructInfo T p.type with
    | none => simp
    | some s => cases hr : s.requiresInterop <;> simp [hr]

theorem structTable_eq_keys (F : List (String × FileInfo)) (name : String) :
    structTable F name =
      ((structKeys F).find? (fun key => key.1 == name)).map (fun key => key.2) := by
  unfold structTable findStructInfo structKeys
  induction F.flatMap (fun fileInfo => fileInfo.2.structInfos) with
  | nil => rfl
  | cons s rest ih =>
    by_cases hs : (s.name == name) = true
    · simp [List.find?, hs]
    · simp only [Bool.not_eq_true] at hs
      simp only [List.find?, hs, List.map_cons]
      exact ih

theorem markComplexParam_congr (getTypeInfo : String → Nat → UserTypeInfo)
    (T T' : List (String × FileInfo)) (h : structKeys T' = structKeys T) :
    markComplexParam getTypeInfo T' = markComplexParam getTypeInfo T := by
  funext p
  rw [markComplexParam_eq, markComplexParam_eq]
  have : structTable T' = structTable T := by
    funext n
    rw [structTable_eq_keys, structTable_eq_keys, h]
  rw [this]

theorem markComplexClass_congr (getTypeInfo : String → Nat → UserTypeInfo)
    (T T' : List (String × FileInfo)) (h : structKeys T' = structKeys T) :
    markComplexClass getTypeInfo T' = markComplexClass getTypeInfo T := by
  funext c
  unfold markComplexClass
  rw [markComplexParam_congr getTypeInfo T T' h]

theorem structKeys_append (A B : List (String × FileInfo)) :
    structKeys (A ++ B) = structKeys A ++ structKeys B := by
  simp [structKeys, List.flatMap_append]

theorem structKeys_cons (f : String × FileInfo) (B : List (String × FileInfo)) :
    structKeys (f :: B) =
      f.2.structInfos.map (fun s => (s.name, s.requiresInterop)) ++ structKeys B := by
  simp [structKeys, List.flatMap_cons]

theorem scanFields_idem (getTypeInfo : String → Nat → UserTypeInfo) (r : Bool)
    (fields : List VarInfo) :
    scanFields getTypeInfo (scanFields getTypeInfo r fields) fields =
      scanFields getTypeInfo r fields := by
  rw [scanFields_eq, scanFields_eq]
  cases fields.any (fieldRequiresInterop getTypeInfo) <;> simp

/-- The last loop over the files, when the second struct loop does not change any
`requiresInterop` flag: every file has its structs re-planned and the parameters of its
classes marked against one and the same symbol table. -/
theorem markComplexFiles_eq (getTypeInfo : String → Nat → UserTypeInfo) :
    ∀ (rest done : List (String × FileInfo)),
      (∀ f ∈ rest, ∀ s ∈ f.2.structInfos,
        (markStructRequiringInterop getTypeInfo s).requiresInterop = s.requiresInterop) →
      markComplexFiles getTypeInfo done rest =
        done ++ rest.map (fun f =>
          (f.1, (f.2.mapStructs (markStructRequiringInterop getTypeInfo)).mapClasses
            (markComplexClass getTypeInfo (done ++ rest)))) := by
  intro rest
  induction rest with
  | nil => intro done _; simp [markComplexFiles]
  | cons f rest ih =>
    intro done hkeep
    have hkeys : (f.2.mapStructs (markStructRequiringInterop getTypeInfo)).structInfos.map
        (fun s => (s.name, s.requiresInterop)) =
        f.2.structInfos.map (fun s => (s.name, s.requiresInterop)) := by
      simp only [FileInfo.mapStructs, List.map_map]
      apply List.map_congr_left
      intro s hs
      have := hkeep f (List.mem_cons_self _ _) s hs
      simp only [Function.comp, this]
      rfl
    have hT : structKeys (done ++ (f.1, f.2.mapStructs
        (markStructRequiringInterop getTypeInfo)) :: rest) = structKeys (done ++ f :: rest) := by
      rw [structKeys_append, structKeys_append, structKeys_cons, structKeys_cons, hkeys]
    have hT2 : structKeys ((done ++ [(f.1, (f.2.mapStructs
        (markStructRequiringInterop getTypeInfo)).mapClasses
          (markComplexClass getTypeInfo (done ++ (f.1, f.2.mapStructs
            (markStructRequiringInterop getTypeInfo)) :: rest)))]) ++ rest) =
        structKeys (done ++ f :: rest) := by
      rw [structKeys_append, structKeys_append, structKeys_append, structKeys_cons,
        structKeys_cons]
      simp only [FileInfo.mapClasses]
      rw [hkeys]
      simp [structKeys]
    simp only [markComplexFiles]
    rw [ih _ (fun g hg => hkeep g (List.mem_cons_of_mem _ hg))]
    rw [markComplexClass_congr getTypeInfo _ _ hT2, markComplexClass_congr getTypeInfo _ _ hT]
    simp

theorem parseDefaultValue_eq (getTypeInfo : String → Nat → UserTypeInfo)
    (F : List (String × FileInfo)) (x : VarInfo) :
    ∃ d, parseDefaultValue getTypeInfo F x = { x with defaultValue := d } := by
  refine ⟨(parseDefaultValue getTypeInfo F x).defaultValue, ?_⟩
  unfold parseDefaultValue
  by_cases h1 : x.defaultValue.isEmpty = true
  · simp [h1]
  · by_cases h2 : ((getTypeInfo x.type x.flags).type != ParsedType.Enum) = true
    · simp [h1, h2]
    · simp only [h1, h2, if_false, Bool.false_eq_true]
      cases h3 : findEnumInfo F x.type with
      | none => rfl
      | some e =>
        cases h4 : e.entries.lookup (atoi x.defaultValue) with
        | none => simp only [h4]
        | some entry => simp only [h4]

theorem parseDefaultValue_fields (getTypeInfo : String → Nat → UserTypeInfo)
    (F : List (String × FileInfo)) (x : VarInfo) :
    (parseDefaultValue getTypeInfo F x).name = x.name ∧
      (parseDefaultValue getTypeInfo F x).type = x.type ∧
      (parseDefaultValue getTypeInfo F x).flags = x.flags := by
  obtain ⟨d, hd⟩ := parseDefaultValue_eq getTypeInfo F x
  rw [hd]
  exact ⟨rfl, rfl, rfl⟩

theorem scanFields_parseDefaultValue (getTypeInfo : String → Nat → UserTypeInfo)
    (F : List (String × FileInfo)) (r : Bool) (fields : List VarInfo) :
    scanFields getTypeInfo r (fields.map (parseDefaultValue getTypeInfo F)) =
      scanFields getTypeInfo r fields := by
  induction fields with
  | nil => rfl
  | cons x rest ih =>
    obtain ⟨h1, h2, h3⟩ := parseDefaultValue_fields getTypeInfo F x
    have : fieldRequiresInterop getTypeInfo (parseDefaultValue getTypeInfo F x) =
        fieldRequiresInterop getTypeInfo x := by
      simp only [fieldRequiresInterop, h2, h3]
    simp only [List.map_cons, scanFields, this, ih]

theorem markStructRequiringInterop_keeps (getTypeInfo : String → Nat → UserTypeInfo)
    (s : StructInfo) :
    (markStructRequiringInterop getTypeInfo
      (findStructRequiringInterop getTypeInfo s)).requiresInterop =
      (findStructRequiringInterop getTypeInfo s).requiresInterop := by
  simp only [markStructRequiringInterop, findStructRequiringInterop]
  exact scanFields_idem getTypeInfo _ _

/-- The passes after the base-class loop, as one map over the files. -/
theorem tail_eq (getTypeInfo : String → Nat → UserTypeInfo) (F : List (String × FileInfo)) :
    markComplexFiles getTypeInfo []
      ((rewriteDefaultValues getTypeInfo F).map (fun fileInfo =>
        (fileInfo.1, fileInfo.2.mapStructs (findStructRequiringInterop getTypeInfo)))) =
    F.map (fun f => (f.1,
      { classInfos := f.2.classInfos.map (fun c =>
          markComplexClass getTypeInfo
            ((rewriteDefaultValues getTypeInfo F).map (fun fileInfo =>
              (fileInfo.1, fileInfo.2.mapStructs (findStructRequiringInterop getTypeInfo))))
            (defaultValuesClass getTypeInfo F c)),
        structInfos := f.2.structInfos.map (fun s =>
          planStructInterop getTypeInfo (defaultValuesStruct getTypeInfo F s)),
        enumInfos := f.2.enumInfos,
        inEditor := f.2.inEditor })) := by
  rw [markComplexFiles_eq]
  · simp only [List.nil_append, rewriteDefaultValues, List.map_map]
    apply List.map_congr_left
    intro f _
    simp [FileInfo.mapStructs, FileInfo.mapClasses, planStructInterop, Function.comp]
  · intro f hf s hs
    simp only [rewriteDefaultValues, List.map_map, List.mem_map] at hf
    obtain ⟨g, _, rfl⟩ := hf
    simp only [Function.comp, FileInfo.mapStructs, FileInfo.mapClasses, List.map_map,
      List.mem_map] at hs
    obtain ⟨s', _, rfl⟩ := hs
    exact markStructRequiringInterop_keeps getTypeInfo _

theorem structKeys_planned (getTypeInfo : String → Nat → UserTypeInfo)
    (F : List (String × FileInfo)) :
    structKeys ((rewriteDefaultValues getTypeInfo F).map (fun fileInfo =>
        (fileInfo.1, fileInfo.2.mapStructs (findStructRequiringInterop getTypeInfo)))) =
      (F.flatMap (fun f => f.2.structInfos)).map
        (fun s => (s.name, scanFields getTypeInfo s.requiresInterop s.fields)) := by
  simp only [rewriteDefaultValues, List.map_map]
  generalize hD : defaultValuesStruct getTypeInfo F = D
  have hDn : ∀ s, (D s).name = s.name ∧
      scanFields getTypeInfo (D s).requiresInterop (D s).fields =
        scanFields getTypeInfo s.requiresInterop s.fields := by
    intro s
    subst hD
    exact ⟨rfl, scanFields_parseDefaultValue getTypeInfo F _ _⟩
  clear hD
  generalize defaultValuesClass getTypeInfo F = C
  induction F with
  | nil => rfl
  | cons f rest ih =>
    rw [List.map_cons, structKeys_cons, List.flatMap_cons, List.map_append]
    unfold structKeys at ih
    rw [← ih]
    congr 1
    simp only [Function.comp, FileInfo.mapStructs, FileInfo.mapClasses, List.map_map]
    apply List.map_congr_left
    intro s _
    simp only [Function.comp, findStructRequiringInterop, (hDn s).1, (hDn s).2]

theorem forall₂_of_mem_left {α β : Type} (R : α → β → Prop) (l : List α) (l' : List β)
    (h : List.Forall₂ R l l') : ∀ a ∈ l, ∃ b ∈ l', R a b := by
  induction h with
  | nil => intro b hb; simp at hb
  | @cons a b l l' hab _ ih =>
    intro x hx
    rcases List.mem_cons.1 hx with hx | hx
    · subst hx
      exact ⟨b, List.mem_cons_self _ _, hab⟩
    · obtain ⟨y, hy, hr⟩ := ih x hx
      exact ⟨y, List.mem_cons_of_mem _ hy, hr⟩

theorem forall₂_map_eq {α β γ : Type} (R : α → β → Prop) (g : α → γ) (h : β → γ)
    (hR : ∀ a b, R a b → h b = g a) (l : List α) (l' : List β)
    (hl : List.Forall₂ R l l') : l'.map h = l.map g := by
  induction hl with
  | nil => rfl
  | @cons a b l l' hab _ ih => simp only [List.map_cons, hR a b hab, ih]

theorem filesRel_classes_right {rc : ClassInfo → ClassInfo → Prop}
    {rs : StructInfo → StructInfo → Prop} {re : EnumInfo → EnumInfo → Prop}
    {F G : List (String × FileInfo)} (h : FilesRel rc rs re F G) :
    ∀ g ∈ G, ∀ c' ∈ g.2.classInfos, ∃ f ∈ F, ∃ c ∈ f.2.classInfos, rc c c' := by
  intro g hg c' hc'
  obtain ⟨f, hf, -, -, h3, -, -⟩ := forall₂_of_mem _ F G h g hg
  obtain ⟨c, hc, hr⟩ := forall₂_of_mem _ _ _ h3 c' hc'
  exact ⟨f, hf, c, hc, hr⟩

theorem filesRel_classes_left {rc : ClassInfo → ClassInfo → Prop}
    {rs : StructInfo → StructInfo → Prop} {re : EnumInfo → EnumInfo → Prop}
    {F G : List (String × FileInfo)} (h : FilesRel rc rs re F G) :
    ∀ f ∈ F, ∀ c ∈ f.2.classInfos, ∃ g ∈ G, ∃ c' ∈ g.2.classInfos, rc c c' := by
  intro f hf c hc
  obtain ⟨g, hg, -, -, h3, -, -⟩ := forall₂_of_mem_left _ F G h f hf
  obtain ⟨c', hc', hr⟩ := forall₂_of_mem_left _ _ _ h3 c hc
  exact ⟨g, hg, c', hc', hr⟩

theorem filesRel_structs_right {rc : ClassInfo → ClassInfo → Prop}
    {rs : StructInfo → StructInfo → Prop} {re : EnumInfo → EnumInfo → Prop}
    {F G : List (String × FileInfo)} (h : FilesRel rc rs re F G) :
    ∀ g ∈ G, ∀ s' ∈ g.2.structInfos, ∃ s, rs s s' := by
  intro g hg s' hs'
  obtain ⟨f, hf, -, -, -, h4, -⟩ := forall₂_of_mem _ F G h g hg
  obtain ⟨s, -, hr⟩ := forall₂_of_mem _ _ _ h4 s' hs'
  exact ⟨s, hr⟩

theorem filesRel_enums_right {rc : ClassInfo → ClassInfo → Prop}
    {rs : StructInfo → StructInfo → Prop} {re : EnumInfo → EnumInfo → Prop}
    {F G : List (String × FileInfo)} (h : FilesRel rc rs re F G) :
    ∀ g ∈ G, ∀ e' ∈ g.2.enumInfos, ∃ e, re e e' := by
  intro g hg e' he'
  obtain ⟨f, hf, -, -, -, -, h5⟩ := forall₂_of_mem _ F G h g hg
  obtain ⟨e, -, hr⟩ := forall₂_of_mem _ _ _ h5 e' he'
  exact ⟨e, hr⟩

theorem filesRel_refl {rc : ClassInfo → ClassInfo → Prop}
    {rs : StructInfo → StructInfo → Prop} {re : EnumInfo → EnumInfo → Prop}
    (hc : ∀ c, rc c c) (hs : ∀ s, rs s s) (he : ∀ e, re e e) (F : List (String × FileInfo)) :
    FilesRel rc rs re F F :=
  List.forall₂_same.2 (fun _ _ => ⟨rfl, rfl, List.forall₂_same.2 (fun c _ => hc c),
    List.forall₂_same.2 (fun s _ => hs s), List.forall₂_same.2 (fun e _ => he e)⟩)

theorem flagsOnly_refl (c : ClassInfo) : FlagsOnly c c := ⟨c.flags, rfl⟩

theorem flagsOnly_trans (a b c : ClassInfo) (h1 : FlagsOnly a b) (h2 : FlagsOnly b c) :
    FlagsOnly a c := by
  obtain ⟨x, rfl⟩ := h1
  obtain ⟨y, rfl⟩ := h2
  exact ⟨y, rfl⟩

theorem modifyFirstClass_rel (name : String) (f : ClassInfo → ClassInfo)
    (hf : ∀ c, FlagsOnly c (f c)) (l : List ClassInfo) :
    List.Forall₂ FlagsOnly l (modifyFirstClass name f l) := by
  induction l with
  | nil => exact List.Forall₂.nil
  | cons c rest ih =>
    by_cases hc : (c.name == name) = true
    · simp only [modifyFirstClass, hc, if_true]
      exact List.Forall₂.cons (hf c) (List.forall₂_same.2 (fun x _ => flagsOnly_refl x))
    · simp only [modifyFirstClass, hc, if_false, Bool.false_eq_true]
      exact List.Forall₂.cons (flagsOnly_refl c) ih

theorem modifyClassInfo_rel (name : String) (f : ClassInfo → ClassInfo)
    (hf : ∀ c, FlagsOnly c (f c)) (F : List (String × FileInfo)) :
    FilesRel FlagsOnly (fun s s' => s' = s) (fun e e' => e' = e) F
      (modifyClassInfo name f F) := by
  induction F with
  | nil => exact List.Forall₂.nil
  | cons file rest ih =>
    by_cases hany : file.2.classInfos.any (fun c => c.name == name) = true
    · simp only [modifyClassInfo, hany, if_true]
      exact List.Forall₂.cons
        ⟨rfl, rfl, modifyFirstClass_rel name f hf _, forall₂_eq_refl _, forall₂_eq_refl _⟩
        (@filesRel_refl FlagsOnly (fun s s' => s' = s) (fun e e' => e' = e) flagsOnly_refl
          (fun _ => rfl) (fun _ => rfl) rest)
    · simp only [modifyClassInfo, hany, if_false, Bool.false_eq_true]
      exact List.Forall₂.cons
        ⟨rfl, rfl, List.forall₂_same.2 (fun x _ => flagsOnly_refl x), forall₂_eq_refl _,
          forall₂_eq_refl _⟩ ih

/-- The base-class loop writes nothing but class flags. -/
theorem flagBaseClasses_rel (names : List String) :
    ∀ F F' : List (String × FileInfo), flagBaseClasses F names = some F' →
      FilesRel FlagsOnly (fun s s' => s' = s) (fun e e' => e' = e) F F' := by
  induction names with
  | nil =>
    intro F F' h
    simp only [flagBaseClasses, Option.some.injEq] at h
    subst h
    exact @filesRel_refl FlagsOnly (fun s s' => s' = s) (fun e e' => e' = e) flagsOnly_refl
      (fun _ => rfl) (fun _ => rfl) F
  | cons b rest ih =>
    intro F F' h
    unfold flagBaseClasses at h
    cases hfind : findClassInfo F b with
    | none => simp [hfind] at h
    | some c =>
      simp only [hfind] at h
      have h1 := modifyClassInfo_rel b
        (fun baseClassInfo =>
          { baseClassInfo with flags := baseClassInfo.flags ||| ClassFlags.IsBase })
        (fun c => ⟨_, rfl⟩) F
      have h2 := ih _ F' h
      refine (h1.comp h2).imp ?_ ?_ ?_
      · rintro a c ⟨b, hab, hbc⟩; exact flagsOnly_trans a b c hab hbc
      · rintro a c ⟨b, hab, hbc⟩; rw [hbc, hab]
      · rintro a c ⟨b, hab, hbc⟩; rw [hbc, hab]

theorem findClassInfo_isSome_iff (F : List (String × FileInfo)) (name : String) :
    (findClassInfo F name).isSome = true ↔
      ∃ f ∈ F, ∃ c ∈ f.2.classInfos, c.name = name := by
  induction F with
  | nil => simp [findClassInfo]
  | cons file rest ih =>
    unfold findClassInfo
    cases hfind : file.2.classInfos.find? (fun c => c.name == name) with
    | none =>
      simp only [ih, List.mem_cons, exists_eq_or_imp]
      rw [List.find?_eq_none] at hfind
      constructor
      · intro h; exact Or.inr h
      · rintro (⟨c, hc, hn⟩ | h)
        · exact absurd (by simpa using hn) (hfind c hc)
        · exact h
    | some c =>
      simp only [Option.isSome_some, true_iff]
      exact ⟨file, List.mem_cons_self _ _, c, List.mem_of_find?_eq_some hfind,
        by simpa using List.find?_some hfind⟩

/-- The base-class loop completes exactly when every base class named is in the model. -/
theorem flagBaseClasses_isSome (names : List String) :
    ∀ F : List (String × FileInfo),
      (∃ F', flagBaseClasses F names = some F') ↔
        ∀ n ∈ names, ∃ f ∈ F, ∃ c ∈ f.2.classInfos, c.name = n := by
  induction names with
  | nil => intro F; simp [flagBaseClasses]
  | cons b rest ih =>
    intro F
    have hrel := modifyClassInfo_rel b
      (fun baseClassInfo =>
        { baseClassInfo with flags := baseClassInfo.flags ||| ClassFlags.IsBase })
      (fun c => ⟨_, rfl⟩) F
    have hname : ∀ a c : ClassInfo, FlagsOnly a c → c.name = a.name := by
      rintro a c ⟨x, rfl⟩; rfl
    unfold flagBaseClasses
    cases hfind : findClassInfo F b with
    | none =>
      simp only [false_iff, exists_false, not_forall, reduceCtorEq]
      refine ⟨b, List.mem_cons_self _ _, ?_⟩
      intro hex
      have := (findClassInfo_isSome_iff F b).2 hex
      simp [hfind] at this
    | some c =>
      simp only
      rw [ih]
      have hb := (findClassInfo_isSome_iff F b).1 (by simp [hfind])
      constructor
      · intro h n hn
        rcases List.mem_cons.1 hn with rfl | hn
        · exact hb
        · obtain ⟨g, hg, c', hc', hn'⟩ := h n hn
          obtain ⟨f, hf, c0, hc0, hr⟩ := filesRel_classes_right hrel g hg c' hc'
          exact ⟨f, hf, c0, hc0, (hname _ _ hr).symm.trans hn'⟩
      · intro h n hn
        obtain ⟨f, hf, c0, hc0, hn'⟩ := h n (List.mem_cons_of_mem _ hn)
        obtain ⟨g, hg, c', hc', hr⟩ := filesRel_classes_left hrel f hf c0 hc0
        exact ⟨g, hg, c', hc', (hname _ _ hr).trans hn'⟩

theorem baseClassNames_rel {rc : ClassInfo → ClassInfo → Prop}
    {rs : StructInfo → StructInfo → Prop} {re : EnumInfo → EnumInfo → Prop}
    (hc : ∀ a b, rc a b → b.baseClass = a.baseClass)
    {F G : List (String × FileInfo)} (h : FilesRel rc rs re F G) :
    baseClassNames G = baseClassNames F := by
  unfold baseClassNames
  congr 1
  induction h with
  | nil => rfl
  | @cons f g F G hfg _ ih =>
    simp only [List.flatMap_cons, ih]
    rw [forall₂_map_eq rc _ _ hc _ _ hfg.2.2.1]

theorem or_complexStruct_idem (flags : Nat) :
    (flags ||| TypeFlags.ComplexStruct) ||| TypeFlags.ComplexStruct =
      flags ||| TypeFlags.ComplexStruct := by
  apply Nat.eq_of_testBit_eq
  intro i
  simp only [Nat.testBit_or, Bool.or_assoc, Bool.or_self]

theorem markFlags_marked (getTypeInfo : String → Nat → UserTypeInfo)
    (table : String → Option Bool) (type : String) (flags : Nat) :
    markFlags getTypeInfo table type (markFlags getTypeInfo table type flags) =
      markFlags getTypeInfo table type flags := by
  by_cases h1 : ((getTypeInfo type flags).type != ParsedType.Struct) = true
  · have h : markFlags getTypeInfo table type flags = flags := by simp [markFlags, h1]
    rw [h, h]
  · cases ht : table type with
    | none =>
      have h : markFlags getTypeInfo table type flags = flags := by simp [markFlags, ht]
      rw [h, h]
    | some b =>
      cases b with
      | false =>
        have h : markFlags getTypeInfo table type flags = flags := by simp [markFlags, ht]
        rw [h, h]
      | true =>
        have h : markFlags getTypeInfo table type flags = flags ||| TypeFlags.ComplexStruct := by
          simp [markFlags, ht, h1]
        rw [h]
        unfold markFlags
        by_cases h2 : ((getTypeInfo type (flags ||| TypeFlags.ComplexStruct)).type !=
            ParsedType.Struct) = true
        · simp only [h2, if_true]
        · simp only [h2, if_false, Bool.false_eq_true, ht]
          exact or_complexStruct_idem flags

theorem varMarked_mark (getTypeInfo : String → Nat → UserTypeInfo)
    (T : List (String × FileInfo)) (p : VarInfo) :
    VarMarked getTypeInfo (structTable T) (markComplexParam getTypeInfo T p) := by
  rw [markComplexParam_eq]
  exact markFlags_marked getTypeInfo _ _ _

theorem mark_of_varMarked (getTypeInfo : String → Nat → UserTypeInfo)
    (T : List (String × FileInfo)) (p : VarInfo)
    (h : VarMarked getTypeInfo (structTable T) p) : markComplexParam getTypeInfo T p = p := by
  rw [markComplexParam_eq]
  unfold VarMarked at h
  rw [h]

theorem varMarked_parseDefaultValue (getTypeInfo : String → Nat → UserTypeInfo)
    (table : String → Option Bool) (F : List (String × FileInfo)) (p : VarInfo)
    (h : VarMarked getTypeInfo table p) :
    VarMarked getTypeInfo table (parseDefaultValue getTypeInfo F p) := by
  obtain ⟨-, h2, h3⟩ := parseDefaultValue_fields getTypeInfo F p
  unfold VarMarked at h ⊢
  rw [h2, h3]
  exact h

theorem withoutDefaults_parseDefaultValue (getTypeInfo : String → Nat → UserTypeInfo)
    (F : List (String × FileInfo)) (m : MethodInfo) :
    withoutDefaults (m.mapParams (parseDefaultValue getTypeInfo F)) = withoutDefaults m := by
  simp only [withoutDefaults, MethodInfo.mapParams, List.map_map]
  congr 1
  apply List.map_congr_left
  intro p _
  obtain ⟨d, hd⟩ := parseDefaultValue_eq getTypeInfo F p
  simp only [Function.comp, hd]

/-- A second marking and default-value pass on a method whose parameters are marked changes
nothing but default values. -/
theorem withoutDefaults_tail (getTypeInfo : String → Nat → UserTypeInfo)
    (T F : List (String × FileInfo)) (m : MethodInfo)
    (h : ∀ p ∈ m.paramInfos, VarMarked getTypeInfo (structTable T) p) :
    (m.mapParams (parseDefaultValue getTypeInfo F)).mapParams (markComplexParam getTypeInfo T) =
      m.mapParams (parseDefaultValue getTypeInfo F) := by
  simp only [MethodInfo.mapParams, List.map_map]
  congr 1
  conv_rhs => rw [← List.map_id (m.paramInfos.map (parseDefaultValue getTypeInfo F))]
  rw [List.map_map]
  apply List.map_congr_left
  intro p hp
  simp only [Function.comp, id]
  exact mark_of_varMarked getTypeInfo T _
    (varMarked_parseDefaultValue getTypeInfo _ F p (h p hp))

theorem classMarked_mark (getTypeInfo : String → Nat → UserTypeInfo)
    (T : List (String × FileInfo)) (c : ClassInfo) :
    ClassMarked getTypeInfo (structTable T) (markComplexClass getTypeInfo T c) := by
  constructor
  · intro m hm p hp
    simp only [markComplexClass, List.mem_map] at hm
    obtain ⟨m0, _, rfl⟩ := hm
    simp only [MethodInfo.mapParams, List.mem_map] at hp
    obtain ⟨p0, _, rfl⟩ := hp
    exact varMarked_mark getTypeInfo T p0
  · intro m hm p hp
    simp only [markComplexClass, List.mem_map] at hm
    obtain ⟨m0, _, rfl⟩ := hm
    simp only [MethodInfo.mapParams, List.mem_map] at hp
    obtain ⟨p0, _, rfl⟩ := hp
    exact varMarked_mark getTypeInfo T p0

/-- What a second run of the passes after the base-class loop leaves of a class that is
marked already. -/
theorem observe_class_tail (getTypeInfo : String → Nat → UserTypeInfo)
    (T F : List (String × FileInfo)) (c : ClassInfo) (flags : Nat)
    (h : ClassMarked getTypeInfo (structTable T) c) :
    let c' := markComplexClass getTypeInfo T
      (defaultValuesClass getTypeInfo F { c with flags := flags })
    c'.name = c.name ∧
      c'.methodInfos.map withoutDefaults = c.methodInfos.map withoutDefaults ∧
      c'.ctorInfos.map withoutDefaults = c.ctorInfos.map withoutDefaults ∧
      c'.eventInfos = c.eventInfos ∧ c'.propertyInfos = c.propertyInfos := by
  refine ⟨rfl, ?_, ?_, rfl, rfl⟩
  · simp only [markComplexClass, defaultValuesClass, List.map_map]
    apply List.map_congr_left
    intro m hm
    simp only [Function.comp]
    rw [withoutDefaults_tail getTypeInfo T F m (h.1 m hm),
      withoutDefaults_parseDefaultValue]
  · simp only [markComplexClass, defaultValuesClass, List.map_map]
    apply List.map_congr_left
    intro m hm
    simp only [Function.comp]
    rw [withoutDefaults_tail getTypeInfo T F m (h.2 m hm),
      withoutDefaults_tail getTypeInfo T F m (h.2 m hm),
      withoutDefaults_parseDefaultValue]

theorem paramRel_tail (getTypeInfo : String → Nat → UserTypeInfo)
    (T F : List (String × FileInfo)) (p : VarInfo) :
    ParamRel p (markComplexParam getTypeInfo T (parseDefaultValue getTypeInfo F p)) := by
  obtain ⟨h1, h2, -⟩ := parseDefaultValue_fields getTypeInfo F p
  rw [markComplexParam_eq]
  exact ⟨h1, h2⟩

theorem paramRel_mark (getTypeInfo : String → Nat → UserTypeInfo)
    (T : List (String × FileInfo)) (p : VarInfo) :
    ParamRel p (markComplexParam getTypeInfo T p) := by
  rw [markComplexParam_eq]
  exact ⟨rfl, rfl⟩

theorem paramRel_trans (p q r : VarInfo) (h1 : ParamRel p q) (h2 : ParamRel q r) :
    ParamRel p r :=
  ⟨h2.1.trans h1.1, h2.2.trans h1.2⟩

theorem methodRel_mapParams (g : VarInfo → VarInfo) (hg : ∀ p, ParamRel p (g p))
    (m : MethodInfo) : MethodRel m (m.mapParams g) :=
  ⟨rfl, rfl, rfl, rfl, rfl, rfl, rfl, rfl, forall₂_map_self _ g hg _⟩

/-- The passes after property synthesis leave a class as `LaterClass` says. -/
theorem laterClass_tail (getTypeInfo : String → Nat → UserTypeInfo)
    (T F : List (String × FileInfo)) (c : ClassInfo) (flags : Nat) :
    LaterClass c (markComplexClass getTypeInfo T
      (defaultValuesClass getTypeInfo F { c with flags := flags })) := by
  refine ⟨rfl, rfl, rfl, rfl, rfl, rfl, ?_, ?_⟩
  · simp only [markComplexClass, defaultValuesClass, List.map_map]
    refine forall₂_map_self _ _ ?_ _
    intro m
    have := methodRel_mapParams
      (fun p => markComplexParam getTypeInfo T (parseDefaultValue getTypeInfo F p))
      (paramRel_tail getTypeInfo T F) m
    simpa [MethodInfo.mapParams, Function.comp] using this
  · simp only [markComplexClass, defaultValuesClass, List.map_map]
    refine forall₂_map_self _ _ ?_ _
    intro m
    have := methodRel_mapParams
      (fun p => markComplexParam getTypeInfo T
        (markComplexParam getTypeInfo T (parseDefaultValue getTypeInfo F p)))
      (fun p => paramRel_trans _ _ _ (paramRel_tail getTypeInfo T F p)
        (paramRel_mark getTypeInfo T _)) m
    simpa [MethodInfo.mapParams, Function.comp] using this

/-- What a second run of the struct passes leaves of a struct that went through them. -/
theorem observe_struct_tail (getTypeInfo : String → Nat → UserTypeInfo)
    (F : List (String × FileInfo)) (x : StructInfo) :
    let s := planStructInterop getTypeInfo x
    let s' := planStructInterop getTypeInfo (defaultValuesStruct getTypeInfo F s)
    s'.name = s.name ∧ s'.requiresInterop = s.requiresInterop ∧
      s'.interopName = s.interopName := by
  have hr : (planStructInterop getTypeInfo (defaultValuesStruct getTypeInfo F
      (planStructInterop getTypeInfo x))).requiresInterop =
      (planStructInterop getTypeInfo x).requiresInterop := by
    simp only [planStructInterop, markStructRequiringInterop, findStructRequiringInterop,
      defaultValuesStruct, scanFields_parseDefaultValue, scanFields_idem]
  refine ⟨rfl, hr, ?_⟩
  have h1 : ∀ y : StructInfo, (planStructInterop getTypeInfo y).interopName =
      if (planStructInterop getTypeInfo y).requiresInterop then "__" ++ y.name ++ "Interop"
      else y.name := by
    intro y
    simp only [planStructInterop, markStructRequiringInterop, findStructRequiringInterop]
  show (planStructInterop getTypeInfo (defaultValuesStruct getTypeInfo F
      (planStructInterop getTypeInfo x))).interopName =
      (planStructInterop getTypeInfo x).interopName
  rw [h1, h1 x, hr]
  rfl

theorem planKey_tail (getTypeInfo : String → Nat → UserTypeInfo)
    (F : List (String × FileInfo)) (s : StructInfo) :
    scanFields getTypeInfo
      (planStructInterop getTypeInfo (defaultValuesStruct getTypeInfo F s)).requiresInterop
      (planStructInterop getTypeInfo (defaultValuesStruct getTypeInfo F s)).fields =
      scanFields getTypeInfo s.requiresInterop s.fields := by
  simp only [planStructInterop, markStructRequiringInterop, findStructRequiringInterop,
    defaultValuesStruct, scanFields_parseDefaultValue, scanFields_idem]

theorem flatMap_structs_rel {rc : ClassInfo → ClassInfo → Prop}
    {re : EnumInfo → EnumInfo → Prop} {F G : List (String × FileInfo)}
    (h : FilesRel rc (fun s s' => s' = s) re F G) :
    G.flatMap (fun f => f.2.structInfos) = F.flatMap (fun f => f.2.structInfos) := by
  induction h with
  | nil => rfl
  | @cons f g F G hfg _ ih =>
    simp only [List.flatMap_cons, ih, forall₂_eq _ _ hfg.2.2.2.1]

theorem resolveStructDocs_fixed (index : CommentIndex) (fuel : Nat) (s0 s1 s : StructInfo)
    (h : resolveStructDocs index fuel s0 = some s1)
    (hdoc : s.documentation = s1.documentation) :
    resolveStructDocs index fuel s = some s := by
  unfold resolveStructDocs at h
  cases hd : resolveCopydocComment index s0.ns fuel s0.documentation with
  | none => simp [hd] at h
  | some d =>
    simp only [hd, Option.some.injEq] at h
    subst h
    obtain ⟨k, rfl⟩ := resolveCopydocComment_fuel_pos index s0.ns fuel _ _ hd
    have ht := resolveCopydocComment_terminal index s0.ns _ _ _ hd
    simp only at hdoc
    rw [← hdoc] at ht
    unfold resolveStructDocs
    rw [resolveCopydocComment_of_terminal index s.ns k _ ht]

theorem resolveEnumDocs_fixed (index : CommentIndex) (fuel : Nat) (e0 e1 : EnumInfo)
    (h : resolveEnumDocs index fuel e0 = some e1) :
    resolveEnumDocs index fuel e1 = some e1 := by
  unfold resolveEnumDocs at h
  cases hd : resolveCopydocComment index e0.ns fuel e0.documentation with
  | none => simp [hd] at h
  | some d =>
    cases he : mapOption (resolveEnumEntryDoc index fuel e0.ns) e0.entries with
    | none => simp [hd, he] at h
    | some es =>
      simp only [hd, he, Option.some.injEq] at h
      subst h
      obtain ⟨k, rfl⟩ := resolveCopydocComment_fuel_pos index e0.ns fuel _ _ hd
      have ht := resolveCopydocComment_terminal index e0.ns _ _ _ hd
      have hes : ∀ entry ∈ es, DocTerminal entry.2.documentation := by
        intro entry hentry
        obtain ⟨entry0, -, h0⟩ := forall₂_of_mem _ _ _ (mapOption_forall₂ _ _ _ he) entry hentry
        unfold resolveEnumEntryDoc at h0
        cases hd0 : resolveCopydocComment index e0.ns (k + 1) entry0.2.documentation with
        | none => simp [hd0] at h0
        | some d0 =>
          simp only [hd0, Option.some.injEq] at h0
          subst h0
          exact resolveCopydocComment_terminal index e0.ns _ _ _ hd0
      unfold resolveEnumDocs
      simp only
      rw [resolveCopydocComment_of_terminal index e0.ns k _ ht]
      have : mapOption (resolveEnumEntryDoc index (k + 1) e0.ns) es = some es := by
        apply mapOption_fixed
        intro entry hentry
        unfold resolveEnumEntryDoc
        rw [resolveCopydocComment_of_terminal index e0.ns k _ (hes entry hentry)]
      simp only [this]

theorem tail_eq_map (getTypeInfo : String → Nat → UserTypeInfo)
    (F : List (String × FileInfo)) :
    markComplexFiles getTypeInfo [] (plannedFiles getTypeInfo F) =
      F.map (tailFile getTypeInfo F) :=
  tail_eq getTypeInfo F

theorem flatMap_structs_tail (getTypeInfo : String → Nat → UserTypeInfo)
    (F G : List (String × FileInfo)) :
    (G.map (tailFile getTypeInfo F)).flatMap (fun f => f.2.structInfos) =
      (G.flatMap (fun f => f.2.structInfos)).map (tailStruct getTypeInfo F) := by
  induction G with
  | nil => rfl
  | cons g rest ih =>
    simp only [List.map_cons, List.flatMap_cons, List.map_append, ih]
    rfl

theorem structTable_second (getTypeInfo : String → Nat → UserTypeInfo)
    (F F' : List (String × FileInfo))
    (h : F'.flatMap (fun f => f.2.structInfos) =
      (F.flatMap (fun f => f.2.structInfos)).map (tailStruct getTypeInfo F)) :
    structTable (plannedFiles getTypeInfo F') = structTable (plannedFiles getTypeInfo F) := by
  funext n
  rw [structTable_eq_keys, structTable_eq_keys]
  unfold plannedFiles
  rw [structKeys_planned, structKeys_planned, h, List.map_map]
  congr 2
  apply List.map_congr_left
  intro s _
  simp only [Function.comp, tailStruct, planKey_tail]
  rfl

theorem observe_eq_of_forall₂ (M M' : Model)
    (h : List.Forall₂ (fun f g : String × FileInfo =>
      g.1 = f.1 ∧
      g.2.classInfos.map (fun classInfo =>
        (classInfo.name, classInfo.methodInfos.map withoutDefaults,
          classInfo.ctorInfos.map withoutDefaults, classInfo.eventInfos,
          classInfo.propertyInfos)) =
      f.2.classInfos.map (fun classInfo =>
        (classInfo.name, classInfo.methodInfos.map withoutDefaults,
          classInfo.ctorInfos.map withoutDefaults, classInfo.eventInfos,
          classInfo.propertyInfos)) ∧
      g.2.structInfos.map (fun structInfo =>
        (structInfo.name, structInfo.requiresInterop, structInfo.interopName)) =
      f.2.structInfos.map (fun structInfo =>
        (structInfo.name, structInfo.requiresInterop, structInfo.interopName)))
      M.outputFileInfos M'.outputFileInfos) :
    observe M' = observe M := by
  unfold observe
  refine forall₂_map_eq _ _ _ ?_ _ _ h
  rintro f g ⟨h1, h2, h3⟩
  simp only [h1, h2, h3]

/-- A second run of the passes after the base-class loop, on a table that differs from the
result of the first only in class flags, leaves what `observe` shows unchanged. -/
theorem observe_tail (getTypeInfo : String → Nat → UserTypeInfo)
    (F F' : List (String × FileInfo)) (E E' : List (String × ExternalClassInfos))
    (h : FilesRel FlagsOnly (fun s s' => s' = s) (fun e e' => e' = e)
      (F.map (tailFile getTypeInfo F)) F') :
    observe { outputFileInfos := F'.map (tailFile getTypeInfo F'), externalClassInfos := E' } =
      observe { outputFileInfos := F.map (tailFile getTypeInfo F), externalClassInfos := E } := by
  have htable : structTable (plannedFiles getTypeInfo F') =
      structTable (plannedFiles getTypeInfo F) := by
    apply structTable_second
    rw [flatMap_structs_rel h, flatMap_structs_tail]
  apply observe_eq_of_forall₂
  show List.Forall₂ _ (F.map (tailFile getTypeInfo F)) (F'.map (tailFile getTypeInfo F'))
  rw [List.forall₂_map_right_iff, List.forall₂_map_left_iff]
  refine List.Forall₂.imp ?_ (List.forall₂_map_left_iff.1 h)
  rintro f f' ⟨h1, -, h3, h4, -⟩
  refine ⟨h1, ?_, ?_⟩
  · show (f'.2.classInfos.map (tailClass getTypeInfo F')).map _ =
      (f.2.classInfos.map (tailClass getTypeInfo F)).map _
    rw [List.map_map, List.map_map]
    refine forall₂_map_eq _ _ _ ?_ _ _ (List.forall₂_map_left_iff.1 h3)
    rintro c c' ⟨flags, rfl⟩
    have hmarked : ClassMarked getTypeInfo (structTable (plannedFiles getTypeInfo F'))
        (tailClass getTypeInfo F c) := by
      rw [htable]
      exact classMarked_mark getTypeInfo _ _
    obtain ⟨o1, o2, o3, o4, o5⟩ := observe_class_tail getTypeInfo
      (plannedFiles getTypeInfo F') F' (tailClass getTypeInfo F c) flags hmarked
    simp only [Function.comp, tailClass] at o1 o2 o3 o4 o5 ⊢
    rw [o1, o2, o3, o4, o5]
  · have hs : f'.2.structInfos = f.2.structInfos.map (tailStruct getTypeInfo F) :=
      forall₂_eq _ _ h4
    show (f'.2.structInfos.map (tailStruct getTypeInfo F')).map _ =
      (f.2.structInfos.map (tailStruct getTypeInfo F)).map _
    rw [hs, List.map_map, List.map_map, List.map_map]
    apply List.map_congr_left
    intro x _
    obtain ⟨o1, o2, o3⟩ := observe_struct_tail getTypeInfo F'
      (defaultValuesStruct getTypeInfo F x)
    simp only [Function.comp, tailStruct] at o1 o2 o3 ⊢
    rw [o1, o2, o3]

theorem rebindExternalMethods_nil (model : Model) (h : model.externalClassInfos = []) :
    rebindExternalMethods model = model := by
  obtain ⟨files, externals⟩ := model
  simp only at h
  subst h
  rfl

/-- A table that results from the passes of `postProcessFileInfos` up to property synthesis
followed by the later passes is a fixed point of the passes up to property synthesis. -/
theorem settled_of_run (index : CommentIndex) (getTypeInfo : String → Nat → UserTypeInfo)
    (fuel : Nat) (F0 F1 F2 F3 F4 : List (String × FileInfo))
    (hR : mapOption (resolveFileDocs index fuel) F0 = some F1)
    (hN : mapOption (fun fileInfo : String × FileInfo =>
      (fileInfo.2.mapClassesOption assignInteropNames).map (fun f => (fileInfo.1, f))) F1 =
        some F2)
    (hP : mapOption (fun fileInfo : String × FileInfo =>
      (fileInfo.2.mapClassesOption synthesizeProperties).map (fun f => (fileInfo.1, f))) F2 =
        some F3)
    (hB : FilesRel FlagsOnly (fun s s' => s' = s) (fun e e' => e' = e) F3 F4) :
    FilesRel (fun _ c => ClassSettled index fuel c)
      (fun _ s => resolveStructDocs index fuel s = some s)
      (fun _ e => resolveEnumDocs index fuel e = some e)
      F0 (F4.map (tailFile getTypeInfo F4)) ∧
    FilesRel LaterClass (fun _ _ => True) (fun _ _ => True)
      F3 (F4.map (tailFile getTypeInfo F4)) := by
  have r01 := filesRel_resolve index fuel F0 F1 hR
  have r12 := filesRel_mapClassesOption _ F1 F2 hN
  have r23 := filesRel_mapClassesOption _ F2 F3 hP
  have r47 : FilesRel (fun c c' => c' = tailClass getTypeInfo F4 c)
      (fun s s' => s' = tailStruct getTypeInfo F4 s) (fun e e' => e' = e)
      F4 (F4.map (tailFile getTypeInfo F4)) :=
    forall₂_map_self _ _ (fun f => ⟨rfl, rfl,
      forall₂_map_self (fun c c' => c' = tailClass getTypeInfo F4 c) _ (fun _ => rfl) _,
      forall₂_map_self (fun s s' => s' = tailStruct getTypeInfo F4 s) _ (fun _ => rfl) _,
      forall₂_eq_refl _⟩) F4
  have hlater : ∀ c3 c4 c7 : ClassInfo, FlagsOnly c3 c4 →
      c7 = tailClass getTypeInfo F4 c4 → LaterClass c3 c7 := by
    rintro c3 c4 c7 ⟨flags, rfl⟩ rfl
    exact laterClass_tail getTypeInfo _ F4 c3 flags
  constructor
  · refine (((r01.comp r12).comp r23).comp (hB.comp r47)).imp ?_ ?_ ?_
    · rintro c0 c7 ⟨c3, ⟨c2, ⟨c1, h01, h12⟩, h23⟩, ⟨c4, h34, h47⟩⟩
      exact classSettled_of_chain index fuel c0 c1 c2 c3 c7 h01 h12 h23
        (hlater c3 c4 c7 h34 h47)
    · rintro s0 s7 ⟨s3, ⟨s2, ⟨s1, h01, h12⟩, h23⟩, ⟨s4, h34, h47⟩⟩
      subst h12 h23 h34 h47
      exact resolveStructDocs_fixed index fuel s0 _ _ h01 rfl
    · rintro e0 e7 ⟨e3, ⟨e2, ⟨e1, h01, h12⟩, h23⟩, ⟨e4, h34, h47⟩⟩
      subst h12 h23 h34 h47
      exact resolveEnumDocs_fixed index fuel e0 _ h01
  · refine (hB.comp r47).imp ?_ (fun _ _ _ => trivial) (fun _ _ _ => trivial)
    rintro c3 c7 ⟨c4, h34, h47⟩
    exact hlater c3 c4 c7 h34 h47

theorem resolveFileDocs_fixed (index : CommentIndex) (fuel : Nat)
    (F : List (String × FileInfo))
    (hc : ∀ f ∈ F, ∀ c ∈ f.2.classInfos, resolveClassDocs index fuel c = some c)
    (hs : ∀ f ∈ F, ∀ s ∈ f.2.structInfos, resolveStructDocs index fuel s = some s)
    (he : ∀ f ∈ F, ∀ e ∈ f.2.enumInfos, resolveEnumDocs index fuel e = some e) :
    mapOption (resolveFileDocs index fuel) F = some F := by
  apply mapOption_fixed
  intro f hf
  unfold resolveFileDocs
  rw [mapOption_fixed _ _ (hc f hf), mapOption_fixed _ _ (hs f hf),
    mapOption_fixed _ _ (he f hf)]

theorem modifyFirstClass_append_nil (name : String) (l : List ClassInfo) :
    modifyFirstClass name
      (fun classInfo => { classInfo with methodInfos := classInfo.methodInfos ++ [] }) l = l := by
  induction l with
  | nil => rfl
  | cons c rest ih =>
    by_cases hc : (c.name == name) = true
    · simp only [modifyFirstClass, hc, if_true, List.append_nil]
    · simp only [modifyFirstClass, hc, if_false, Bool.false_eq_true, ih]

theorem modifyClassInfo_append_nil (name : String) (F : List (String × FileInfo)) :
    modifyClassInfo name
      (fun classInfo => { classInfo with methodInfos := classInfo.methodInfos ++ [] }) F = F := by
  induction F with
  | nil => rfl
  | cons file rest ih =>
    by_cases hany : file.2.classInfos.any (fun c => c.name == name) = true
    · simp only [modifyClassInfo, hany, if_true, modifyFirstClass_append_nil]
    · simp only [modifyClassInfo, hany, if_false, Bool.false_eq_true, ih]

theorem rebindMethods_skipped (className : String) (methods : List MethodInfo)
    (h : ∀ m ∈ methods, rebindMethod className m = none) :
    rebindMethods className methods = ([], methods) := by
  induction methods with
  | nil => rfl
  | cons m rest ih =>
    have hrest := ih (fun x hx => h x (List.mem_cons_of_mem _ hx))
    simp only [rebindMethods, hrest, h m (List.mem_cons_self _ _)]

theorem rebindEntry_skipped (F : List (String × FileInfo)) (entry : String × ExternalClassInfos)
    (h : findClassInfo F entry.1 = none ∨
      ∀ m ∈ entry.2.methods, rebindMethod entry.1 m = none) :
    rebindEntry F entry = (F, entry) := by
  unfold rebindEntry
  cases hfind : findClassInfo F entry.1 with
  | none => rfl
  | some c =>
    rcases h with h | h
    · rw [hfind] at h; exact Option.noConfusion h
    · simp only [rebindMethods_skipped _ _ h, modifyClassInfo_append_nil]

theorem rebindEntries_skipped (F : List (String × FileInfo))
    (entries : List (String × ExternalClassInfos))
    (h : ∀ entry ∈ entries, findClassInfo F entry.1 = none ∨
      ∀ m ∈ entry.2.methods, rebindMethod entry.1 m = none) :
    rebindEntries F entries = (F, entries) := by
  induction entries with
  | nil => rfl
  | cons entry rest ih =>
    have hrest := ih (fun x hx => h x (List.mem_cons_of_mem _ hx))
    simp only [rebindEntries, rebindEntry_skipped F entry (h entry (List.mem_cons_self _ _)),
      hrest]

/-- The rebinding pass changes nothing when, for every entry of the external table, the
class is not in the model or every method of the entry is skipped. -/
theorem rebindExternalMethods_skipped (model : Model)
    (h : ∀ entry ∈ model.externalClassInfos,
      findClassInfo model.outputFileInfos entry.1 = none ∨
        ∀ m ∈ entry.2.methods, rebindMethod entry.1 m = none) :
    rebindExternalMethods model = model := by
  unfold rebindExternalMethods
  simp only [rebindEntries_skipped _ _ h]

/-- What the rebinding pass does with a method that it accepted once: a constructor is
accepted again unchanged, any other method only if its parameter after the erased receiver is
of the class type again. -/
theorem rebindMethod_again (className : String) (m m1 : MethodInfo)
    (h : rebindMethod className m = some m1) :
    (isCtor m = true → rebindMethod className m1 = some m1) ∧
    (isCtor m = false → (rebindMethod className m1 = none ↔
      ∀ p, m1.paramInfos.head? = some p → p.type ≠ className)) := by
  unfold rebindMethod at h
  by_cases hc : isCtor m = true
  · simp only [hc, if_true] at h
    refine ⟨fun _ => ?_, fun hn => absurd hc (by simp [hn])⟩
    split at h
    · exact Option.noConfusion h
    · split at h
      · exact Option.noConfusion h
      · rename_i h1 h2
        simp only [Option.some.injEq] at h
        subst h
        simp only [rebindMethod, hc, if_true, h1, h2, if_false, Bool.false_eq_true]
  · simp only [hc, if_false, Bool.false_eq_true] at h
    refine ⟨fun ht => absurd ht hc, fun _ => ?_⟩
    cases hp : m.paramInfos with
    | nil => simp [hp] at h
    | cons p0 rest =>
      simp only [hp] at h
      split at h
      · exact Option.noConfusion h
      · simp only [Option.some.injEq] at h
        subst h
        have hc1 : isCtor { m with paramInfos := rest } = isCtor m := rfl
        simp only [rebindMethod, hc1, hc, if_false, Bool.false_eq_true]
        cases rest with
        | nil => simp
        | cons p1 rest1 =>
          by_cases hp1 : (p1.type != className) = true
          · simp only [hp1, if_true, List.head?_cons, Option.some.injEq, true_iff]
            rintro p rfl
            simpa using hp1
          · simp only [hp1, if_false, Bool.false_eq_true, List.head?_cons, Option.some.injEq]
            constructor
            · intro h
              exact Option.noConfusion h
            · intro hall
              exact absurd (by simpa using hp1) (hall p1 rfl)

/-- C17, amended: `postProcessFileInfos` is idempotent on its own output whenever the
rebinding pass skips every method of the processed external-class table, that is, for every
entry the class is not in the model or every method of the entry is skipped. If the first run
completes with `model1`, the second run on `model1` completes too, keeps the external-class
table, and leaves unchanged what `observe` shows: of every class the name, the methods and
constructors (interop names included, the default values of their parameters apart), the
events and the property list, and of every struct the name, the `requiresInterop` flag and
the interop name. -/
theorem postProcessFileInfos_idempotent (index : CommentIndex)
    (getTypeInfo : String → Nat → UserTypeInfo) (fuel : Nat) (model model1 : Model)
    (h1 : postProcessFileInfos index getTypeInfo fuel model = some model1)
    (hskip : ∀ entry ∈ model1.externalClassInfos,
      findClassInfo model1.outputFileInfos entry.1 = none ∨
        ∀ m ∈ entry.2.methods, rebindMethod entry.1 m = none) :
    ∃ model2, postProcessFileInfos index getTypeInfo fuel model1 = some model2 ∧
      observe model2 = observe model1 ∧
      model2.externalClassInfos = model1.externalClassInfos := by
  unfold postProcessFileInfos at h1
  simp only at h1
  generalize rebindExternalMethods model = rebound at h1
  cases hR : mapOption (resolveFileDocs index fuel) rebound.outputFileInfos with
  | none => simp [hR] at h1
  | some F1 =>
    cases hN : mapOption (fun fileInfo : String × FileInfo =>
        (fileInfo.2.mapClassesOption assignInteropNames).map (fun f => (fileInfo.1, f)))
        F1 with
    | none => simp [hR, hN] at h1
    | some F2 =>
      cases hP : mapOption (fun fileInfo : String × FileInfo =>
          (fileInfo.2.mapClassesOption synthesizeProperties).map (fun f => (fileInfo.1, f)))
          F2 with
      | none => simp [hR, hN, hP] at h1
      | some F3 =>
        cases hB : flagBaseClasses F3 (baseClassNames F3) with
        | none => simp [hR, hN, hP, hB] at h1
        | some F4 =>
          simp only [hR, hN, hP, hB, Option.some.injEq] at h1
          have h7 : model1 = Model.mk (F4.map (tailFile getTypeInfo F4))
              rebound.externalClassInfos := by
            rw [← h1]
            exact congrArg (fun x => Model.mk x rebound.externalClassInfos)
              (tail_eq_map getTypeInfo F4)
          obtain ⟨hsettled, hlater⟩ := settled_of_run index getTypeInfo fuel
            rebound.outputFileInfos F1 F2 F3 F4 hR hN hP (flagBaseClasses_rel _ F3 F4 hB)
          -- the passes up to property synthesis change nothing on the second run
          have hR2 : mapOption (resolveFileDocs index fuel) (F4.map (tailFile getTypeInfo F4)) =
              some (F4.map (tailFile getTypeInfo F4)) := by
            apply resolveFileDocs_fixed
            · intro f hf c hc
              obtain ⟨_, _, _, _, hs⟩ := filesRel_classes_right hsettled f hf c hc
              exact hs.1
            · intro f hf s hs
              obtain ⟨_, hs'⟩ := filesRel_structs_right hsettled f hf s hs
              exact hs'
            · intro f hf e he
              obtain ⟨_, he'⟩ := filesRel_enums_right hsettled f hf e he
              exact he'
          have hN2 := mapClassesOption_fixed assignInteropNames
            (F4.map (tailFile getTypeInfo F4)) (by
              intro f hf c hc
              obtain ⟨_, _, _, _, hs⟩ := filesRel_classes_right hsettled f hf c hc
              exact hs.2.1)
          have hP2 := mapClassesOption_fixed synthesizeProperties
            (F4.map (tailFile getTypeInfo F4)) (by
              intro f hf c hc
              obtain ⟨_, _, _, _, hs⟩ := filesRel_classes_right hsettled f hf c hc
              exact hs.2.2)
          -- the base-class loop finds every base class again
          have hnames : baseClassNames (F4.map (tailFile getTypeInfo F4)) =
              baseClassNames F3 :=
            baseClassNames_rel (fun a b hab => hab.2.2.1) hlater
          obtain ⟨F4', hB2⟩ : ∃ F4', flagBaseClasses (F4.map (tailFile getTypeInfo F4))
              (baseClassNames (F4.map (tailFile getTypeInfo F4))) = some F4' := by
            rw [hnames]
            refine (flagBaseClasses_isSome _ _).2 ?_
            intro n hn
            obtain ⟨f, hf, c, hc, hcn⟩ := (flagBaseClasses_isSome _ F3).1 ⟨F4, hB⟩ n hn
            obtain ⟨g, hg, c', hc', hr⟩ := filesRel_classes_left hlater f hf c hc
            exact ⟨g, hg, c', hc', hr.1.trans hcn⟩
          rw [h7] at hskip
          refine ⟨Model.mk (F4'.map (tailFile getTypeInfo F4')) rebound.externalClassInfos,
            ?_, ?_, ?_⟩
          · rw [h7]
            unfold postProcessFileInfos
            rw [rebindExternalMethods_skipped _ hskip]
            simp only [hR2, hN2, hP2, hB2]
            exact congrArg (fun x => some (Model.mk x rebound.externalClassInfos))
              (tail_eq_map getTypeInfo F4')
          · rw [h7]
            exact observe_tail getTypeInfo F4 F4' _ _
              (flagBaseClasses_rel _ _ F4' hB2)
          · rw [h7]

/-- C17, amended, on the module with the class `Mesh` and the external methods
`scale(Mesh, int)` and `reset`: the first run rebinds `scale` and erases its receiver in the
table, the second run skips both methods and changes nothing that `observe` shows. -/
theorem postProcessFileInfos_idempotent_witness :
    ∃ model1 model2,
      postProcessFileInfos sampleIndex modelTypeInfo 1 receiverModel = some model1 ∧
      model1.externalClassInfos =
        [("Mesh", { methods :=
          [{ externalMethod with paramInfos := [sampleVar "int"] }, externalStray] })] ∧
      postProcessFileInfos sampleIndex modelTypeInfo 1 model1 = some model2 ∧
      observe model2 = observe model1 ∧
      model2.externalClassInfos = model1.externalClassInfos := by
  have h : ∃ model1, postProcessFileInfos sampleIndex modelTypeInfo 1 receiverModel =
      some model1 ∧
      model1.externalClassInfos =
        [("Mesh", { methods :=
          [{ externalMethod with paramInfos := [sampleVar "int"] }, externalStray] })] ∧
      ∀ entry ∈ model1.externalClassInfos,
        findClassInfo model1.outputFileInfos entry.1 = none ∨
          ∀ m ∈ entry.2.methods, rebindMethod entry.1 m = none :=
    ⟨_, rfl, rfl, by decide⟩
  obtain ⟨model1, h1, htable, hskip⟩ := h
  obtain ⟨model2, h2, h3, h4⟩ := postProcessFileInfos_idempotent sampleIndex modelTypeInfo 1
    receiverModel model1 h1 hskip
  exact ⟨model1, model2, h1, htable, h2, h3, h4⟩

set_option maxRecDepth 16384 in
/-- Why `observe` leaves the default values of parameters out: the enum-default pass is not
idempotent. The first run turns the default value `1` of a `Mode` parameter into `Mode.On`;
the second run reads `Mode.On` with `atoi`, gets 0, and writes `Mode.Off`. -/
theorem postProcessFileInfos_second_run_default_value :
    (postProcessFileInfos sampleIndex enumTypeInfo 1 modeModel).map
        (fun model => model.outputFileInfos.map (fun fileInfo =>
          fileInfo.2.classInfos.map (fun classInfo =>
            classInfo.methodInfos.map (fun m => m.paramInfos.map (fun p => p.defaultValue))))) =
      some [[[["Mode.On"]]]] ∧
    ((postProcessFileInfos sampleIndex enumTypeInfo 1 modeModel).bind
        (postProcessFileInfos sampleIndex enumTypeInfo 1)).map
        (fun model => model.outputFileInfos.map (fun fileInfo =>
          fileInfo.2.classInfos.map (fun classInfo =>
            classInfo.methodInfos.map (fun m => m.paramInfos.map (fun p => p.defaultValue))))) =
      some [[[["Mode.Off"]]]] :=
  ⟨rfl, rfl⟩

/-! ## The synthesized runtime constructor -/

/-- C25: for every class, `findUnusedCtorSignature` returns (the search ends within
`ctorInfos.length + 1` iterations) a private, constructor-flagged method with `N >= 1`
parameters named `__dummy0` .. `__dummy<N-1>`, all of type `bool`, such that no constructor of
`ctorInfos` has exactly `N` parameters all of type `bool`, while for every `M` with
`1 <= M < N` some constructor has exactly `M` parameters all of type `bool`; hence `N` is at
most the number of declared constructors plus one. -/
theorem findUnusedCtorSignature_spec (classInfo : ClassInfo) :
    ∃ m N, findUnusedCtorSignature classInfo = some m ∧
      m.visibility = CSVisibility.Private ∧ isCtor m = true ∧
      1 ≤ N ∧ N ≤ classInfo.ctorInfos.length + 1 ∧
      m.paramInfos.map (fun p => p.name) =
        (List.range N).map (fun i => "__dummy" ++ to_string i) ∧
      (∀ p ∈ m.paramInfos, p.type = "bool") ∧
      (¬ ∃ c ∈ classInfo.ctorInfos, isBoolCtor N c) ∧
      ∀ M, 1 ≤ M → M < N → ∃ c ∈ classInfo.ctorInfos, isBoolCtor M c := by
  obtain ⟨N, hN, h1, hvalid, hmin⟩ := findNumBools_spec classInfo.ctorInfos
  obtain ⟨n, hn1, hn2, hnvalid⟩ := exists_valid_signature classInfo.ctorInfos
  have hle : N ≤ classInfo.ctorInfos.length + 1 := by
    by_contra hcon
    have := hmin n hn1 (by omega)
    rw [hnvalid] at this
    exact absurd this (by decide)
  have hres : findUnusedCtorSignature classInfo =
      some { sourceName := classInfo.name, interopName := "", scriptName := classInfo.name,
             visibility := .Private,
             returnInfo := { name := "", type := "", defaultValue := "", flags := 0 },
             paramInfos := (List.range N).map dummyParam,
             documentation := { brief := [], params := [], returns := [] },
             externalClass := "", flags := MethodFlags.Constructor } := by
    simp only [findUnusedCtorSignature, hN]
  refine ⟨_, N, hres, rfl, by simp [isCtor, MethodFlags.Constructor], h1, hle, ?_, ?_,
    (isSignatureValid_iff _ _).1 hvalid, ?_⟩
  · simp only [List.map_map]
    rfl
  · intro p hp
    simp only [List.mem_map] at hp
    obtain ⟨i, -, rfl⟩ := hp
    rfl
  · intro M hM1 hM2
    have hf := hmin M hM1 hM2
    by_contra hcon
    rw [(isSignatureValid_iff _ _).2 hcon] at hf
    exact absurd hf (by decide)

/-! ## The frame of external-method rebinding -/

theorem rebindMethods_filterMap (className : String) (methods : List MethodInfo) :
    (rebindMethods className methods).1 = methods.filterMap (rebindMethod className) := by
  induction methods with
  | nil => rfl
  | cons m rest ih =>
    simp only [rebindMethods, List.filterMap_cons]
    cases rebindMethod className m with
    | none => simpa using ih
    | some m1 => simpa using ih

/-- C27: the methods appended to the target class are the accepted external methods in their
order within the external-class entry (the results of the loop body, one per accepted
method); an accepted non-constructor is appended as the original method with exactly its
first parameter removed, the remaining parameters in order and every other field unchanged,
and an accepted constructor is appended unchanged, parameter list included. -/
theorem rebindEntry_frame (outputFileInfos : List (String × FileInfo)) (name : String)
    (externalInfo : ExternalClassInfos) (classInfo : ClassInfo)
    (hfind : findClassInfo outputFileInfos name = some classInfo) :
    findClassInfo (rebindEntry outputFileInfos (name, externalInfo)).1 name =
        some { classInfo with
          methodInfos := classInfo.methodInfos ++
            externalInfo.methods.filterMap (rebindMethod name) } ∧
      ∀ method pushed : MethodInfo, rebindMethod name method = some pushed →
        (isCtor method = true → pushed = method) ∧
        (isCtor method = false →
          ∃ receiver, method.paramInfos = receiver :: pushed.paramInfos ∧
            receiver.type = name ∧
            pushed = { method with paramInfos := pushed.paramInfos }) := by
  constructor
  · simp only [rebindEntry, hfind]
    rw [findClassInfo_modifyClassInfo name
      (fun c : ClassInfo =>
        { c with methodInfos := c.methodInfos ++ (rebindMethods name externalInfo.methods).1 })
      (fun c => rfl) outputFileInfos, hfind, rebindMethods_filterMap]
    rfl
  · intro method pushed h
    unfold rebindMethod at h
    by_cases hc : isCtor method = true
    · simp only [hc, if_true] at h
      refine ⟨fun _ => ?_, fun hf => by simp [hf] at hc⟩
      by_cases h0 : (method.returnInfo.type.length == 0) = true
      · simp [h0] at h
      · by_cases h1 : (method.returnInfo.type != name) = true
        · simp [h0, h1] at h
        · simp only [h0, h1, if_false, Bool.false_eq_true, Option.some.injEq] at h
          exact h.symm
    · simp only [hc, if_false, Bool.false_eq_true] at h
      refine ⟨fun ht => absurd ht hc, fun _ => ?_⟩
      cases hp : method.paramInfos with
      | nil => simp [hp] at h
      | cons p ps =>
        simp only [hp] at h
        by_cases h1 : (p.type != name) = true
        · simp [h1] at h
        · simp only [h1, if_false, Bool.false_eq_true, Option.some.injEq] at h
          subst h
          exact ⟨p, rfl, by simpa using h1, rfl⟩

/-- C27 on the external entry of `Mesh` with the constructor `create`, the method `scale` and
the stray method `reset`: `create` is appended unchanged, `scale` without its receiver, and
`reset` is not appended. -/
theorem rebindEntry_frame_witness :
    findClassInfo (rebindEntry meshFiles
        ("Mesh", { methods := [externalCtor, externalMethod, externalStray] })).1 "Mesh" =
      some { meshClass with
        methodInfos := meshClass.methodInfos ++
          [externalCtor, { externalMethod with paramInfos := [sampleVar "int"] }] } :=
  (rebindEntry_frame meshFiles "Mesh"
    { methods := [externalCtor, externalMethod, externalStray] } meshClass (by decide)).1.trans
    (by decide)

/-! ## The enum-default pass -/

theorem digitChar_isDigit (k : Nat) (h : k < 10) : (Nat.digitChar k).isDigit = true := by
  interval_cases k <;> rfl

theorem atoiDigits_toDigitsCore (fuel : Nat) :
    ∀ (n : Nat) (ds : List Char), n < fuel →
      atoiDigits (Nat.toDigitsCore 10 fuel n ds) 0 = atoiDigits ds n := by
  induction fuel with
  | zero => intro n ds h; omega
  | succ fuel ih =>
    intro n ds h
    unfold Nat.toDigitsCore
    simp only
    split
    · rename_i h0
      have hn : n < 10 := by
        by_contra hc
        have : 1 ≤ n / 10 := (Nat.one_le_div_iff (by decide)).2 (by omega)
        omega
      simp [atoiDigits, digitChar_isDigit _ hn, digitChar_toNat n hn, Nat.mod_eq_of_lt hn]
    · rename_i h0
      have hlt : n / 10 < fuel := by
        have : n / 10 < n := Nat.div_lt_self (by
          rcases Nat.eq_zero_or_pos n with h1 | h1
          · subst h1; simp at h0
          · exact h1) (by decide)
        omega
      rw [ih (n / 10) _ hlt]
      have hd := Nat.mod_lt n (show 0 < 10 by decide)
      simp only [atoiDigits, digitChar_isDigit _ hd, if_true, digitChar_toNat _ hd]
      congr 1
      omega

theorem toDigitsCore_head (fuel : Nat) :
    ∀ (n : Nat) (ds : List Char), n < fuel →
      ∃ k rest, k < 10 ∧ Nat.toDigitsCore 10 fuel n ds = Nat.digitChar k :: rest := by
  induction fuel with
  | zero => intro n ds h; omega
  | succ fuel ih =>
    intro n ds h
    unfold Nat.toDigitsCore
    simp only
    split
    · exact ⟨n % 10, ds, Nat.mod_lt _ (by decide), rfl⟩
    · rename_i h0
      have hlt : n / 10 < fuel := by
        have : n / 10 < n := Nat.div_lt_self (by
          rcases Nat.eq_zero_or_pos n with h1 | h1
          · subst h1; simp at h0
          · exact h1) (by decide)
        omega
      exact ih (n / 10) _ hlt

/-- The value that `strtol` reads from the decimal digits of a natural number in the range
of `int`. -/
theorem strtol_to_string (v : Nat) (h : v < 2 ^ 31) : strtol (to_string v) = (v : Int) := by
  have hdata : (to_string v).data = Nat.toDigits 10 v := rfl
  have hval : atoiDigits (Nat.toDigits 10 v) 0 = v := by
    unfold Nat.toDigits
    rw [atoiDigits_toDigitsCore (v + 1) v [] (Nat.lt_succ_self v)]
    rfl
  obtain ⟨k, rest, hk, hhead⟩ := toDigitsCore_head (v + 1) v [] (Nat.lt_succ_self v)
  have hhead' : Nat.toDigits 10 v = Nat.digitChar k :: rest := hhead
  have hclamp : clampLong (v : Int) = (v : Int) := by
    unfold clampLong
    have a : ¬ (v : Int) < -(2 ^ 63) := by omega
    have b : ¬ (2 ^ 63 - 1 < (v : Int)) := by omega
    simp only [a, b, if_false]
  unfold strtol
  rw [hdata]
  rw [hhead'] at hval ⊢
  rw [← hclamp]
  interval_cases k <;>
    simp only [List.dropWhile, whitespaceChars, Nat.digitChar] <;>
    exact congrArg (fun x : Nat => clampLong (x : Int)) hval

theorem strtol_neg_to_string (v : Nat) (h : v ≤ 2 ^ 31) :
    strtol ("-" ++ to_string v) = -(v : Int) := by
  have hval : atoiDigits (Nat.toDigits 10 v) 0 = v := by
    unfold Nat.toDigits
    rw [atoiDigits_toDigitsCore (v + 1) v [] (Nat.lt_succ_self v)]
    rfl
  have hdata : ("-" ++ to_string v).data = '-' :: Nat.toDigits 10 v := rfl
  have hclamp : clampLong (-(v : Int)) = -(v : Int) := by
    unfold clampLong
    have a : ¬ -(v : Int) < -(2 ^ 63) := by omega
    have b : ¬ (2 ^ 63 - 1 < -(v : Int)) := by omega
    simp only [a, b, if_false]
  unfold strtol
  rw [hdata]
  have hws : (List.contains whitespaceChars '-') = false := by decide
  simp only [List.dropWhile, hws]
  rw [hval, hclamp]

theorem wrapInt32_of_range (v : Int) (h1 : -(2 ^ 31) ≤ v) (h2 : v < 2 ^ 31) :
    wrapInt32 v = v := by
  unfold wrapInt32
  omega

theorem atoi_decimalLiteral (v : Int) (h1 : -(2 ^ 31) ≤ v) (h2 : v < 2 ^ 31) :
    atoi (decimalLiteral v) = v := by
  unfold atoi decimalLiteral
  by_cases hneg : v < 0
  · simp only [hneg, if_true]
    rw [strtol_neg_to_string v.natAbs (by omega)]
    have : -(v.natAbs : Int) = v := by omega
    rw [this]
    exact wrapInt32_of_range v h1 h2
  · simp only [hneg, if_false]
    rw [strtol_to_string v.toNat (by omega)]
    have : (v.toNat : Int) = v := by omega
    rw [this]
    exact wrapInt32_of_range v h1 h2

theorem to_string_ne_empty (v : Nat) : to_string v ≠ "" := by
  obtain ⟨k, rest, -, hhead⟩ := toDigitsCore_head (v + 1) v [] (Nat.lt_succ_self v)
  intro h
  have hdata : (to_string v).data = Nat.digitChar k :: rest := hhead
  rw [h] at hdata
  exact List.noConfusion hdata

theorem decimalLiteral_ne_empty (v : Int) : decimalLiteral v ≠ "" := by
  unfold decimalLiteral
  by_cases hneg : v < 0
  · simp only [hneg, if_true]
    intro h
    have hdata : ("-" ++ to_string v.natAbs).data = '-' :: (to_string v.natAbs).data := rfl
    rw [h] at hdata
    exact List.noConfusion hdata
  · simp only [hneg, if_false]
    exact to_string_ne_empty _

theorem atoi_range (s : String) : -(2 ^ 31) ≤ atoi s ∧ atoi s < 2 ^ 31 := by
  unfold atoi wrapInt32
  omega

/-- C22, amended: the enum-default pass applies `parseDefaultValue` to every parameter of every class
method and class constructor and to every field and constructor parameter of every struct, and
changes nothing else. On a variable `p`, `parseDefaultValue` keeps name, type and flags. When
`p` is of category Enum with a non-empty default, the value looked up is what `atoi` reads
into an `int`; for the decimal literal of a value `v` in the range of `int` that is `v`
itself. When the value is a key of the entries of the first enum named `p.type`, the default
becomes the script name of the enum, a dot and the script name of that entry; when there is
no such enum or no such key it becomes empty. A variable that is not of category Enum, or
whose default is empty, keeps its default. -/
theorem rewriteDefaultValues_spec (getTypeInfo : String → Nat → UserTypeInfo)
    (F : List (String × FileInfo)) :
    rewriteDefaultValues getTypeInfo F =
      F.map (fun fileInfo => (fileInfo.1,
        { classInfos := fileInfo.2.classInfos.map (fun classInfo =>
            { classInfo with
              methodInfos := classInfo.methodInfos.map (fun methodInfo =>
                { methodInfo with
                  paramInfos := methodInfo.paramInfos.map (parseDefaultValue getTypeInfo F) })
              ctorInfos := classInfo.ctorInfos.map (fun ctorInfo =>
                { ctorInfo with
                  paramInfos := ctorInfo.paramInfos.map (parseDefaultValue getTypeInfo F) }) }),
          structInfos := fileInfo.2.structInfos.map (fun structInfo =>
            { structInfo with
              fields := structInfo.fields.map (parseDefaultValue getTypeInfo F)
              ctors := structInfo.ctors.map (fun ctorInfo =>
                { ctorInfo with
                  params := ctorInfo.params.map (parseDefaultValue getTypeInfo F) }) }),
          enumInfos := fileInfo.2.enumInfos,
          inEditor := fileInfo.2.inEditor })) ∧
    (∀ p : VarInfo,
      (parseDefaultValue getTypeInfo F p).name = p.name ∧
      (parseDefaultValue getTypeInfo F p).type = p.type ∧
      (parseDefaultValue getTypeInfo F p).flags = p.flags ∧
      ((getTypeInfo p.type p.flags).type = ParsedType.Enum → p.defaultValue ≠ "" →
        (∀ enumInfo entry, findEnumInfo F p.type = some enumInfo →
          enumInfo.entries.lookup (atoi p.defaultValue) = some entry →
          (parseDefaultValue getTypeInfo F p).defaultValue =
            enumInfo.scriptName ++ "." ++ entry.scriptName) ∧
        (findEnumInfo F p.type = none →
          (parseDefaultValue getTypeInfo F p).defaultValue = "") ∧
        (∀ enumInfo, findEnumInfo F p.type = some enumInfo →
          enumInfo.entries.lookup (atoi p.defaultValue) = none →
          (parseDefaultValue getTypeInfo F p).defaultValue = "")) ∧
      ((getTypeInfo p.type p.flags).type ≠ ParsedType.Enum ∨ p.defaultValue = "" →
        (parseDefaultValue getTypeInfo F p).defaultValue = p.defaultValue)) ∧
    (∀ (p : VarInfo) (v : Int), -(2 ^ 31) ≤ v → v < 2 ^ 31 →
      (getTypeInfo p.type p.flags).type = ParsedType.Enum →
      p.defaultValue = decimalLiteral v →
      (∀ enumInfo entry, findEnumInfo F p.type = some enumInfo →
        enumInfo.entries.lookup v = some entry →
        (parseDefaultValue getTypeInfo F p).defaultValue =
          enumInfo.scriptName ++ "." ++ entry.scriptName) ∧
      (findEnumInfo F p.type = none →
        (parseDefaultValue getTypeInfo F p).defaultValue = "") ∧
      (∀ enumInfo, findEnumInfo F p.type = some enumInfo →
        enumInfo.entries.lookup v = none →
        (parseDefaultValue getTypeInfo F p).defaultValue = "")) ∧
    (∀ s : String, -(2 ^ 31) ≤ atoi s ∧ atoi s < 2 ^ 31) := by
  have hgen : ∀ p : VarInfo,
      (getTypeInfo p.type p.flags).type = ParsedType.Enum → p.defaultValue ≠ "" →
        (∀ enumInfo entry, findEnumInfo F p.type = some enumInfo →
          enumInfo.entries.lookup (atoi p.defaultValue) = some entry →
          (parseDefaultValue getTypeInfo F p).defaultValue =
            enumInfo.scriptName ++ "." ++ entry.scriptName) ∧
        (findEnumInfo F p.type = none →
          (parseDefaultValue getTypeInfo F p).defaultValue = "") ∧
        (∀ enumInfo, findEnumInfo F p.type = some enumInfo →
          enumInfo.entries.lookup (atoi p.defaultValue) = none →
          (parseDefaultValue getTypeInfo F p).defaultValue = "") := by
    intro p hEnum hne
    have hne' : ¬ p.defaultValue.isEmpty = true :=
      fun h => hne ((String.isEmpty_iff _).1 h)
    refine ⟨?_, ?_, ?_⟩
    · intro enumInfo entry hfind hlook
      simp [parseDefaultValue, hne', hEnum, hfind, hlook]
    · intro hfind
      simp [parseDefaultValue, hne', hEnum, hfind]
    · intro enumInfo hfind hlook
      simp [parseDefaultValue, hne', hEnum, hfind, hlook]
  refine ⟨rfl, fun p => ?_, ?_, atoi_range⟩
  · obtain ⟨h1, h2, h3⟩ := parseDefaultValue_fields getTypeInfo F p
    refine ⟨h1, h2, h3, hgen p, ?_⟩
    rintro (hEnum | hempty)
    · by_cases he : p.defaultValue.isEmpty = true
      · simp [parseDefaultValue, he]
      · simp [parseDefaultValue, he, hEnum]
    · simp [parseDefaultValue, (String.isEmpty_iff _).2 hempty]
  · intro p v hv1 hv2 hEnum hlit
    have hne : p.defaultValue ≠ "" := by
      rw [hlit]
      exact decimalLiteral_ne_empty v
    have hat : atoi p.defaultValue = v := by
      rw [hlit]
      exact atoi_decimalLiteral v hv1 hv2
    have := hgen p hEnum hne
    rw [hat] at this
    exact this

/-- C22, amended, on the module with the enum `Mode { Off = 0, On = 1 }` and the method
`setMode(Mode mode = 1)`: the default becomes `Mode.On`. -/
theorem rewriteDefaultValues_spec_witness :
    (parseDefaultValue enumTypeInfo modeModel.outputFileInfos
      { name := "mode", type := "Mode", defaultValue := "1", flags := 0 }).defaultValue =
        "Mode" ++ "." ++ "On" :=
  ((rewriteDefaultValues_spec enumTypeInfo modeModel.outputFileInfos).2.2.1
    { name := "mode", type := "Mode", defaultValue := "1", flags := 0 } 1
    (by decide) (by decide) (by decide) (by decide)).1 modeEnum
      { name := "On", scriptName := "On", documentation := CommentEntry.empty }
      (by decide) (by decide)

/-- C22, as stated, fails for a literal beyond the range of `int`: the integer value of
`4294967297` is no key of the entries of `Mode { Off = 0, On = 1 }`, but `atoi` reads it into
an `int` as 1, and the default becomes `Mode.On` instead of the empty string. -/
theorem parseDefaultValue_literal_out_of_range :
    modeEnum.entries.lookup 4294967297 = none ∧
    atoi "4294967297" = 1 ∧
    (parseDefaultValue enumTypeInfo modeModel.outputFileInfos
      { name := "mode", type := "Mode", defaultValue := "4294967297", flags := 0 }).defaultValue =
        "Mode.On" := by
  decide

/-! ## Properties of the marshaling engine -/

/-- Apart from a struct marked ComplexStruct, the block of an input parameter appends nothing
to `postCallActions`: this is what C28 says of every input parameter. -/
theorem generateMethodBodyBlockForParam_input_post (getTypeInfo : String → Nat → UserTypeInfo)
    (isHandleType : ParsedType → Bool) (underlyingCppType : String → Nat → String)
    (name typeName : String) (flags : Nat) ( isLast : Bool)
    (hin : isOutput flags = false)
    (hplain : isArray flags = true ∨ (getTypeInfo typeName flags).type ≠ ParsedType.Struct ∨
      isComplexStruct flags = false) :
    ∃ argName pre, generateMethodBodyBlockForParam getTypeInfo isHandleType underlyingCppType
      name typeName flags isLast false = some (argName, pre, "") := by
  unfold generateMethodBodyBlockForParam
  by_cases harr : isArray flags = true
  · simp only [harr, Bool.not_true, Bool.false_eq_true, if_false, methodBodyBlockArray, hin,
      Bool.not_false, Bool.and_self, if_true]
    exact ⟨_, _, rfl⟩
  · simp only [harr, Bool.not_false, if_true, Bool.not_eq_true] at hplain ⊢
    simp only [harr, Bool.false_eq_true, false_or] at hplain
    cases htype : (getTypeInfo typeName flags).type <;>
      simp only [methodBodyBlockScalar, hin, Bool.false_eq_true, if_false] <;>
      first
        | exact ⟨_, _, rfl⟩
        | (rcases hplain with h | h
           · exact absurd htype h
           · simp only [h, Bool.and_false, Bool.false_eq_true, if_false]
             exact ⟨_, _, rfl⟩)

/-- C28 at a failing input: for the input parameter `p` of the struct type `Vec` marked
ComplexStruct, `generateMethodBodyBlockForParam` only declares the temporary before the call
and appends the conversion `*tmpp = ScriptVec::toInterop(p);` to `postCallActions`. -/
theorem generateMethodBodyBlockForParam_input_struct_post :
    generateMethodBodyBlockForParam marshalTypeInfo sampleIsHandleType sampleUnderlyingCppType
        "p" "Vec" TypeFlags.ComplexStruct true false =
      some ("tmpp", "\t\t__VecInterop tmpp;\n", "\t\t*tmpp = ScriptVec::toInterop(p);\n") := by
  decide

/-- C29 at a failing input: for the input array parameter `p` of the struct type `Vec`,
without the ComplexStruct flag the element statement is the plain unbox call, and with the
flag the text closing the `fromInterop(` call is `ScriptVec)` instead of `)`. -/
theorem inputArrayElement_struct :
    inputArrayElement sampleIsHandleType "int32_t" ParsedType.Struct "p" "Vec"
        TypeFlags.Array =
      "\t\t\tvecp[i] = ScriptVec::unbox(arrayp.get<MonoObject*>(i));\n" ∧
    inputArrayElement sampleIsHandleType "int32_t" ParsedType.Struct "p" "Vec"
        (TypeFlags.Array ||| TypeFlags.ComplexStruct) =
      "\t\t\tvecp[i] = ScriptVec::fromInterop(ScriptVec::unbox(arrayp.get<MonoObject*>(i))ScriptVec);\n" ∧
    ∃ arg post, generateMethodBodyBlockForParam marshalTypeInfo sampleIsHandleType
        sampleUnderlyingCppType "p" "Vec" (TypeFlags.Array ||| TypeFlags.ComplexStruct)
        true false =
      some (arg,
        "\t\tScriptArray arrayp(p);\n" ++
        "\t\tVector<Vec> vecp(arrayp.size());\n" ++
        "\t\tfor(int i = 0; i < (int)arrayp.size(); i++)\n" ++
        "\t\t\x7b\n" ++
        "\t\t\tvecp[i] = ScriptVec::fromInterop(ScriptVec::unbox(arrayp.get<MonoObject*>(i))ScriptVec);\n" ++
        "\t\t\x7d\n", post) := by
  exact ⟨rfl, rfl, "vecp", "", rfl⟩

set_option maxRecDepth 8192 in
/-- C30 at a failing input: for the input array parameter `p` of the resource type `Texture`
and for the array field `p` of that type, the wrapper variable declared for the element is
`scriptp`, while the guard before the assignment tests the identifier `scriptName`. -/
theorem inputArrayElement_null_guard :
    generateMethodBodyBlockForParam marshalTypeInfo sampleIsHandleType
        sampleUnderlyingCppType "p" "Texture" TypeFlags.Array true false =
      some ("vecp",
        "\t\tScriptArray arrayp(p);\n" ++
        "\t\tVector<Texture> vecp(arrayp.size());\n" ++
        "\t\tfor(int i = 0; i < (int)arrayp.size(); i++)\n" ++
        "\t\t\x7b\n" ++
        "\t\t\tScriptTexture* scriptp;\n" ++
        "\t\t\tscriptp = ScriptTexture::toNative(arrayp.get<MonoObject*>(i));\n" ++
        "\t\t\tif(scriptName != nullptr)\n" ++
        "\t\t\t\tvecp[i] = scriptp->getHandle();\n" ++
        "\t\t\x7d\n", "") ∧
    generateFieldConvertBlock marshalTypeInfo sampleIsHandleType
        sampleUnderlyingCppType "p" "Texture" TypeFlags.Array false =
      some ("vecp",
        "\t\tScriptArray arrayp(value.p);\n" ++
        "\t\tVector<Texture> vecp(arrayp.size());\n" ++
        "\t\tfor(int i = 0; i < (int)arrayp.size(); i++)\n" ++
        "\t\t\x7b\n" ++
        "\t\t\tScriptTexture* scriptp;\n" ++
        "\t\t\tscriptp = ScriptTexture::toNative(arrayp.get<MonoObject*>(i));\n" ++
        "\t\t\tif(scriptName != nullptr)\n" ++
        "\t\t\t\tvecp[i] = scriptp->getHandle();\n" ++
        "\t\t\x7d\n") :=
  ⟨rfl, rfl⟩

/-! ## Properties of `generateCppMethodBody` -/

set_option maxRecDepth 8192 in
/-- C21, as stated, fails when the value is returned through `__output`: in the body of
`Vec getBounds(int& count)` the post-call fragment of the output parameter `count` comes
first and the fragment of the return value after it. -/
theorem generateCppMethodBody_return_after_output :
    returnAsParameter marshalTypeInfo sampleCanBeReturned getBoundsMethod = true ∧
    generateMethodBodyBlockForParam marshalTypeInfo sampleIsHandleType sampleUnderlyingCppType
        "__output" "Vec" 0 true true =
      some ("tmp__output", "\t\tVec tmp__output;\n", "\t\t*__output = tmp__output;\n") ∧
    generateMethodBodyBlockForParam marshalTypeInfo sampleIsHandleType sampleUnderlyingCppType
        "count" "int" TypeFlags.Output true false =
      some ("tmpcount", "\t\tint tmpcount;\n", "\t\t*count = tmpcount;\n") ∧
    generateCppMethodBody marshalTypeInfo sampleCanBeReturned sampleIsHandleType
        sampleUnderlyingCppType getBoundsMethod "Mesh" "ScriptMesh" ParsedType.Class false =
      some ("\t\x7b\n" ++
        "\t\tint tmpcount;\n" ++
        "\t\tVec tmp__output;\n" ++
        "\t\ttmp__output = thisPtr->getInternal()->getBounds(*tmpcount);\n" ++
        "\n" ++
        "\t\t*count = tmpcount;\n" ++
        "\t\t*__output = tmp__output;\n" ++
        "\t\x7d\n") :=
  ⟨rfl, rfl, rfl, rfl⟩

theorem methodBodyParams_post (getTypeInfo : String → Nat → UserTypeInfo)
    (isHandleType : ParsedType → Bool) (underlyingCppType : String → Nat → String) :
    ∀ (paramInfos : List VarInfo) (pre args post : String),
      methodBodyParams getTypeInfo isHandleType underlyingCppType paramInfos =
        some (pre, args, post) →
      ∃ posts : List String,
        List.Forall₂ (fun (p : VarInfo) (fragment : String) => ∃ isLast argName pre1,
          generateMethodBodyBlockForParam getTypeInfo isHandleType underlyingCppType
            p.name p.type p.flags isLast false = some (argName, pre1, fragment))
          paramInfos posts ∧
        post = posts.foldr (fun a b => a ++ b) "" := by
  intro paramInfos
  induction paramInfos with
  | nil =>
    intro pre args post h
    simp only [methodBodyParams, Option.some.injEq, Prod.mk.injEq] at h
    exact ⟨[], List.Forall₂.nil, h.2.2.symm⟩
  | cons p rest ih =>
    intro pre args post h
    unfold methodBodyParams at h
    simp only at h
    cases hb : generateMethodBodyBlockForParam getTypeInfo isHandleType underlyingCppType
        p.name p.type p.flags rest.isEmpty false with
    | none => simp [hb] at h
    | some r =>
      obtain ⟨argName, pre0, post0⟩ := r
      simp only [hb] at h
      split at h
      · simp at h
      · split at h
        · simp at h
        · rename_i pre1 args1 post1 hr
          simp only [Option.some.injEq, Prod.mk.injEq] at h
          obtain ⟨posts, hposts, hpost⟩ := ih pre1 args1 post1 hr
          refine ⟨post0 :: posts, List.Forall₂.cons ⟨_, _, _, hb⟩ hposts, ?_⟩
          rw [← h.2.2, hpost]
          rfl

/-- C21, amended: in the body `generateCppMethodBody` produces for a method that is no
constructor and has a return type, the post-call actions are, when the value is returned
directly, the declaration of `__output`, then the post-call fragment of the return value, then
the post-call fragments of the parameters in declaration order, and a return statement
follows; when the value is returned through the appended parameter `__output`, they are the
post-call fragments of the parameters in declaration order and then the fragment of the
return value, and there is no return statement. -/
theorem generateCppMethodBody_post_order (getTypeInfo : String → Nat → UserTypeInfo)
    (canBeReturned : ParsedType → Nat → Bool) (isHandleType : ParsedType → Bool)
    (underlyingCppType : String → Nat → String) (methodInfo : MethodInfo)
    (sourceClassName interopClassName : String) (classType : ParsedType) (isModule : Bool)
    (body : String)
    (hret : methodInfo.returnInfo.type.isEmpty = false) (hctor : isCtor methodInfo = false)
    (h : generateCppMethodBody getTypeInfo canBeReturned isHandleType underlyingCppType
      methodInfo sourceClassName interopClassName classType isModule = some body) :
    ∃ (parts : MethodBodyParts) (invocation argName returnPre returnPost : String)
      (posts : List String),
      body = "\t\x7b\n" ++ parts.preCallActions ++ invocation ++
        (if !parts.postCallActions.isEmpty then "\n" else "") ++
        parts.postCallActions ++
        (if !parts.returnStmt.isEmpty then "\n" ++ parts.returnStmt ++ "\n" else "") ++
        "\t\x7d\n" ∧
      generateMethodBodyBlockForParam getTypeInfo isHandleType underlyingCppType "__output"
        methodInfo.returnInfo.type methodInfo.returnInfo.flags true true =
          some (argName, returnPre, returnPost) ∧
      List.Forall₂ (fun (p : VarInfo) (fragment : String) => ∃ isLast argName pre1,
        generateMethodBodyBlockForParam getTypeInfo isHandleType underlyingCppType
          p.name p.type p.flags isLast false = some (argName, pre1, fragment))
        methodInfo.paramInfos posts ∧
      (if canBeReturned
          (getTypeInfo methodInfo.returnInfo.type methodInfo.returnInfo.flags).type
          methodInfo.returnInfo.flags then
        parts.postCallActions =
          "\t\t" ++ getInteropCppVarType methodInfo.returnInfo.type
            (getTypeInfo methodInfo.returnInfo.type methodInfo.returnInfo.flags).type
            methodInfo.returnInfo.flags false ++ " __output;\n" ++
          returnPost ++ posts.foldr (fun a b => a ++ b) "" ∧
        parts.returnStmt = "\t\treturn __output;"
      else
        parts.postCallActions = posts.foldr (fun a b => a ++ b) "" ++ returnPost ∧
        parts.returnStmt = "") := by
  unfold generateCppMethodBody at h
  cases hparts : methodBodyParts getTypeInfo canBeReturned isHandleType underlyingCppType
      methodInfo with
  | none => simp [hparts] at h
  | some parts =>
    simp only [hparts] at h
    cases hinv : methodInvocation isHandleType methodInfo sourceClassName interopClassName
        classType isModule parts.returnAssignment parts.methodArgs with
    | none => simp [hinv] at h
    | some invocation =>
      simp only [hinv, Option.some.injEq] at h
      unfold methodBodyParts at hparts
      simp only at hparts
      cases hp : methodBodyParams getTypeInfo isHandleType underlyingCppType
          methodInfo.paramInfos with
      | none => simp [hp] at hparts
      | some r =>
        obtain ⟨pre, args, post⟩ := r
        obtain ⟨posts, hposts, hpost⟩ := methodBodyParams_post getTypeInfo isHandleType
          underlyingCppType _ _ _ _ hp
        simp only [hp, hret, hctor, Bool.not_false, Bool.and_self, if_true] at hparts
        cases hb : generateMethodBodyBlockForParam getTypeInfo isHandleType underlyingCppType
            "__output" methodInfo.returnInfo.type methodInfo.returnInfo.flags true true with
        | none => simp [hb] at hparts
        | some r0 =>
          obtain ⟨argName, returnPre, returnPost⟩ := r0
          simp only [hb] at hparts
          refine ⟨parts, invocation, argName, returnPre, returnPost, posts, h.symm, rfl,
            hposts, ?_⟩
          cases hcan : canBeReturned
              (getTypeInfo methodInfo.returnInfo.type methodInfo.returnInfo.flags).type
              methodInfo.returnInfo.flags with
          | true =>
            simp only [hcan, Bool.not_true, Bool.false_eq_true, if_false,
              Option.some.injEq] at hparts
            subst hparts
            simp only [if_true, hpost, String.append_assoc, and_self]
          | false =>
            simp only [hcan, Bool.not_false, if_true, Option.some.injEq] at hparts
            subst hparts
            simp only [Bool.false_eq_true, if_false, hpost, and_self]

set_option maxRecDepth 8192 in
/-- C21, amended, on `int getCount(int& total)`, whose value is returned directly: the body
is generated, and its post-call actions start with the declaration of `__output` and the
fragment of the return value. -/
theorem generateCppMethodBody_post_order_witness :
    ∃ (body : String) (parts : MethodBodyParts) (returnPost : String) (posts : List String),
      generateCppMethodBody marshalTypeInfo sampleCanBeReturned sampleIsHandleType
        sampleUnderlyingCppType getCountMethod "Mesh" "ScriptMesh" ParsedType.Class false =
          some body ∧
      parts.postCallActions =
        "\t\t" ++ "int" ++ " __output;\n" ++ returnPost ++ posts.foldr (fun a b => a ++ b) "" ∧
      parts.returnStmt = "\t\treturn __output;" := by
  have hbody : ∃ body, generateCppMethodBody marshalTypeInfo sampleCanBeReturned
      sampleIsHandleType sampleUnderlyingCppType getCountMethod "Mesh" "ScriptMesh"
      ParsedType.Class false = some body := ⟨_, rfl⟩
  obtain ⟨body, hb⟩ := hbody
  obtain ⟨parts, _, _, _, returnPost, posts, -, -, -, hpost⟩ :=
    generateCppMethodBody_post_order marshalTypeInfo sampleCanBeReturned sampleIsHandleType
      sampleUnderlyingCppType getCountMethod "Mesh" "ScriptMesh" ParsedType.Class false body
      rfl rfl hb
  exact ⟨body, parts, returnPost, posts, hb, hpost⟩

/-! ## Properties of the managed constructors -/

set_option maxRecDepth 8192 in
/-- C26 at a failing input: the class `Mesh` declares no constructor and the external
constructor `Mesh create(bool value)` is rebound onto it. `findUnusedCtorSignature` looks at
`ctorInfos` only, so the private runtime constructor gets the parameter type list `bool`, the
same as the public constructor written for `create`. -/
theorem emittedCtors_external_collision :
    (∃ classInfo pvtCtor,
      findClassInfo (rebindEntry meshFiles ("Mesh", { methods := [externalBoolCtor] })).1
        "Mesh" = some classInfo ∧
      classInfo.ctorInfos = [] ∧
      emittedCtors classInfo = some [pvtCtor, externalBoolCtor] ∧
      csParamTypes csTypeInfo pvtCtor = ["bool"] ∧
      csParamTypes csTypeInfo externalBoolCtor = ["bool"] ∧
      generateCSClassCtorHeads csTypeInfo classInfo (csTypeInfo "Mesh" 0) =
        some ["\t\tprivate Mesh(bool __dummy0) \x7b \x7d\n", "\t\tpublic Mesh(bool value)\n"]) :=
  ⟨_, _, rfl, rfl, rfl, rfl, rfl, rfl⟩

/-! ## Properties of the event subscriptions -/

theorem foldl_static_eq (events : List MethodInfo) (init : Bool) :
    events.foldl (fun hasStaticEvents eventInfo =>
      if isStatic eventInfo then true else hasStaticEvents) init =
      (init || events.any isStatic) := by
  induction events generalizing init with
  | nil => simp
  | cons e rest ih =>
    simp only [List.foldl_cons, ih, List.any_cons]
    cases isStatic e <;> cases init <;> simp

theorem any_static_or_module (events : List MethodInfo) (isModule : Bool) :
    events.any (fun e => isStatic e || isModule) =
      ((isModule && !events.isEmpty) || events.any isStatic) := by
  induction events with
  | nil => simp
  | cons e rest ih =>
    simp only [List.any_cons, ih, List.isEmpty_cons, Bool.not_false, Bool.and_true]
    cases isStatic e <;> cases isModule <;> simp

theorem filterMap_eq_map_filter {α β : Type} (f : α → Option β) (p : α → Bool) (g : α → β)
    (h : ∀ a, f a = if p a then some (g a) else none) (l : List α) :
    l.filterMap f = (l.filter p).map g := by
  induction l with
  | nil => rfl
  | cons a rest ih =>
    by_cases hp : p a = true
    · simp only [List.filterMap_cons, h a, hp, if_true, List.filter_cons, List.map_cons, ih]
    · simp only [List.filterMap_cons, h a, hp, if_false, List.filter_cons, ih,
        Bool.false_eq_true]

/-- C23: the text that `generateCppSourceOutput` writes for a class consists of the
constructor of the wrapper, `initRuntimeData`, `create`, then `startUp` and `shutDown`, then
the event callbacks and the interop methods. The body of the constructor holds one
subscription for every event that is neither static nor of a singleton module, in order, and
nothing else; the body of `startUp` holds one subscription for every other event, the static
or module events, in order, and nothing else, and the body of `shutDown` one disconnection for
each of these. `startUp` and `shutDown` are written exactly when the class has a static or
module event, and the text of `generateCppHeaderOutput` holds their declarations, between its
public and its private part, under the same condition. -/
theorem generateCppSourceOutput_events (getTypeInfo : String → Nat → UserTypeInfo)
    (canBeReturned : ParsedType → Nat → Bool) (isHandleType : ParsedType → Bool)
    (underlyingCppType : String → Nat → String) (classInfo : ClassInfo)
    (typeInfo : UserTypeInfo) :
    (∀ output, generateCppSourceOutput getTypeInfo canBeReturned isHandleType underlyingCppType
        classInfo typeInfo = some output →
      ∃ create callbacks ctorHooks methodHooks,
        sourceCreate classInfo typeInfo = some create ∧
        sourceEventCallbacks getTypeInfo underlyingCppType classInfo classInfo.eventInfos =
          some callbacks ∧
        sourceHookMethods getTypeInfo canBeReturned isHandleType underlyingCppType classInfo
          typeInfo true classInfo.ctorInfos = some ctorHooks ∧
        sourceHookMethods getTypeInfo canBeReturned isHandleType underlyingCppType classInfo
          typeInfo false classInfo.methodInfos = some methodHooks ∧
        output =
          (if !classIsModule classInfo then
            "\t" ++ getScriptInteropType classInfo.name ++ "::" ++
              getScriptInteropType classInfo.name ++ "(MonoObject* managedInstance, const " ++
              getCppVarType classInfo.name typeInfo.type ++ "& value)\n"
           else
            "\t" ++ getScriptInteropType classInfo.name ++ "::" ++
              getScriptInteropType classInfo.name ++ "(MonoObject* managedInstance)\n") ++
          "\t\t:" ++
          (if typeInfo.type == ParsedType.Resource then "TScriptResource(managedInstance, value)"
           else if typeInfo.type == ParsedType.Component then
            "TScriptComponent(managedInstance, value)"
           else if !classIsModule classInfo then
            "ScriptObject(managedInstance), mInternal(value)"
           else "ScriptObject(managedInstance)") ++
          "\n" ++ "\t\x7b\n" ++
          String.join ((classInfo.eventInfos.filter
            (fun e => !(isStatic e || classIsModule classInfo))).map (fun e =>
              "\t\tvalue->" ++ e.sourceName ++ ".connect(std::bind(&" ++
                getScriptInteropType classInfo.name ++ "::" ++ e.interopName ++
                ", getManagedInstance()" ++
                String.join ((List.range e.paramInfos.length).map
                  (fun i => ", _" ++ to_string (i + 1))) ++
                ")); \n")) ++
          "\t\x7d\n" ++ "\n" ++
          sourceInitRuntimeData getTypeInfo classInfo ++
          create ++
          (if classInfo.eventInfos.any (fun e => isStatic e || classIsModule classInfo) then
            "\tvoid " ++ getScriptInteropType classInfo.name ++ "::startUp()\n" ++ "\t\x7b\n" ++
            String.join ((classInfo.eventInfos.filter
              (fun e => isStatic e || classIsModule classInfo)).map (fun e =>
                "\t\t" ++ e.sourceName ++ "Conn = " ++ classInfo.name ++
                  (if isStatic e then "::" else "::instance().") ++
                  e.sourceName ++ ".connect(&" ++ getScriptInteropType classInfo.name ++
                  "::" ++ e.interopName ++ ");\n")) ++
            "\t\x7d\n" ++
            "\tvoid " ++ getScriptInteropType classInfo.name ++ "::shutDown()\n" ++ "\t\x7b\n" ++
            String.join ((classInfo.eventInfos.filter
              (fun e => isStatic e || classIsModule classInfo)).map (fun e =>
                "\t\t" ++ e.sourceName ++ "Conn.disconnect();\n")) ++
            "\t\x7d\n" ++ "\n"
           else "") ++
          callbacks ++ ctorHooks ++ methodHooks) ∧
    generateCppHeaderOutput getTypeInfo canBeReturned classInfo typeInfo =
      headerPublic classInfo typeInfo ++
      (if classInfo.eventInfos.any (fun e => isStatic e || classIsModule classInfo) then
        "\t\tstatic void startUp();\n" ++ "\t\tstatic void shutDown();\n" ++ "\n"
       else "") ++
      headerPrivate getTypeInfo canBeReturned classInfo typeInfo := by
  have hany := any_static_or_module classInfo.eventInfos (classIsModule classInfo)
  have hctor : ctorEventConnects classInfo =
      (classInfo.eventInfos.filter
        (fun e => !(isStatic e || classIsModule classInfo))).map (fun e =>
          "\t\tvalue->" ++ e.sourceName ++ ".connect(std::bind(&" ++
            getScriptInteropType classInfo.name ++ "::" ++ e.interopName ++
            ", getManagedInstance()" ++
            String.join ((List.range e.paramInfos.length).map
              (fun i => ", _" ++ to_string (i + 1))) ++
            ")); \n") := by
    unfold ctorEventConnects
    cases hm : classIsModule classInfo with
    | true => simp
    | false =>
      simp only [Bool.not_false, if_true, Bool.or_false]
      refine filterMap_eq_map_filter _ _ _ ?_ _
      intro e
      cases isStatic e <;> rfl
  have hstart : startUpConnects classInfo =
      (classInfo.eventInfos.filter
        (fun e => isStatic e || classIsModule classInfo)).map (fun e =>
          "\t\t" ++ e.sourceName ++ "Conn = " ++ classInfo.name ++
            (if isStatic e then "::" else "::instance().") ++
            e.sourceName ++ ".connect(&" ++ getScriptInteropType classInfo.name ++
            "::" ++ e.interopName ++ ");\n") := by
    unfold startUpConnects
    refine filterMap_eq_map_filter _ _ _ ?_ _
    intro e
    unfold startUpEventConnect
    cases isStatic e <;> cases classIsModule classInfo <;>
      simp [String.append_assoc]
  have hshut : shutDownDisconnects classInfo =
      (classInfo.eventInfos.filter
        (fun e => isStatic e || classIsModule classInfo)).map (fun e =>
          "\t\t" ++ e.sourceName ++ "Conn.disconnect();\n") := by
    unfold shutDownDisconnects
    refine filterMap_eq_map_filter _ _ _ ?_ _
    intro e
    rfl
  have hsrc : sourceHasStaticEvents classInfo =
      classInfo.eventInfos.any (fun e => isStatic e || classIsModule classInfo) := by
    rw [hany, sourceHasStaticEvents, foldl_static_eq]
  have hhdr : headerHasStaticEvents classInfo =
      classInfo.eventInfos.any (fun e => isStatic e || classIsModule classInfo) := by
    rw [hany, headerHasStaticEvents]
    cases classIsModule classInfo && !classInfo.eventInfos.isEmpty <;> simp
  constructor
  · intro output h
    unfold generateCppSourceOutput at h
    split at h
    · simp at h
    · rename_i create hcreate
      split at h
      · simp at h
      · rename_i callbacks hcallbacks
        split at h
        · simp at h
        · rename_i ctorHooks hctorHooks
          split at h
          · simp at h
          · rename_i methodHooks hmethodHooks
            simp only [Option.some.injEq] at h
            refine ⟨create, callbacks, ctorHooks, methodHooks, hcreate, hcallbacks,
              hctorHooks, hmethodHooks, ?_⟩
            rw [← h, ← hctor, ← hstart, ← hshut, ← hsrc]
            simp only [sourceConstructor, sourceStartUpShutDown, String.append_assoc]
  · unfold generateCppHeaderOutput headerStartUpDecl
    rw [hhdr]

set_option maxRecDepth 8192 in
/-- C23 on the class `Mesh` with the instance event `onChange` and the static event
`onReset`: the source is generated, `onChange` is subscribed in the constructor only and
`onReset` in `startUp` only, and the header declares `startUp` and `shutDown`. -/
theorem generateCppSourceOutput_events_witness :
    ctorEventConnects eventClass =
      ["\t\tvalue->onChange.connect(std::bind(&ScriptMesh::onChange, getManagedInstance(), _1)); \n"] ∧
    startUpConnects eventClass =
      ["\t\tonResetConn = Mesh::onReset.connect(&ScriptMesh::onReset);\n"] ∧
    shutDownDisconnects eventClass = ["\t\tonResetConn.disconnect();\n"] ∧
    eventClass.eventInfos.any (fun e => isStatic e || classIsModule eventClass) = true ∧
    (∃ output, generateCppSourceOutput marshalTypeInfo sampleCanBeReturned sampleIsHandleType sampleUnderlyingCppType
        eventClass (marshalTypeInfo "Mesh" 0) = some output ∧
      ∃ create callbacks ctorHooks methodHooks,
        sourceCreate eventClass (marshalTypeInfo "Mesh" 0) = some create ∧
        sourceEventCallbacks marshalTypeInfo sampleUnderlyingCppType eventClass eventClass.eventInfos =
          some callbacks ∧
        sourceHookMethods marshalTypeInfo sampleCanBeReturned sampleIsHandleType sampleUnderlyingCppType eventClass
          (marshalTypeInfo "Mesh" 0) true eventClass.ctorInfos = some ctorHooks ∧
        sourceHookMethods marshalTypeInfo sampleCanBeReturned sampleIsHandleType sampleUnderlyingCppType eventClass
          (marshalTypeInfo "Mesh" 0) false eventClass.methodInfos = some methodHooks ∧
        output =
          (if !classIsModule eventClass then
            "\t" ++ getScriptInteropType eventClass.name ++ "::" ++
              getScriptInteropType eventClass.name ++ "(MonoObject* managedInstance, const " ++
              getCppVarType eventClass.name (marshalTypeInfo "Mesh" 0).type ++ "& value)\n"
           else
            "\t" ++ getScriptInteropType eventClass.name ++ "::" ++
              getScriptInteropType eventClass.name ++ "(MonoObject* managedInstance)\n") ++
          "\t\t:" ++
          (if (marshalTypeInfo "Mesh" 0).type == ParsedType.Resource then "TScriptResource(managedInstance, value)"
           else if (marshalTypeInfo "Mesh" 0).type == ParsedType.Component then
            "TScriptComponent(managedInstance, value)"
           else if !classIsModule eventClass then
            "ScriptObject(managedInstance), mInternal(value)"
           else "ScriptObject(managedInstance)") ++
          "\n" ++ "\t\x7b\n" ++
          String.join ((eventClass.eventInfos.filter
            (fun e => !(isStatic e || classIsModule eventClass))).map (fun e =>
              "\t\tvalue->" ++ e.sourceName ++ ".connect(std::bind(&" ++
                getScriptInteropType eventClass.name ++ "::" ++ e.interopName ++
                ", getManagedInstance()" ++
                String.join ((List.range e.paramInfos.length).map
                  (fun i => ", _" ++ to_string (i + 1))) ++
                ")); \n")) ++
          "\t\x7d\n" ++ "\n" ++
          sourceInitRuntimeData marshalTypeInfo eventClass ++
          create ++
          (if eventClass.eventInfos.any (fun e => isStatic e || classIsModule eventClass) then
            "\tvoid " ++ getScriptInteropType eventClass.name ++ "::startUp()\n" ++ "\t\x7b\n" ++
            String.join ((eventClass.eventInfos.filter
              (fun e => isStatic e || classIsModule eventClass)).map (fun e =>
                "\t\t" ++ e.sourceName ++ "Conn = " ++ eventClass.name ++
                  (if isStatic e then "::" else "::instance().") ++
                  e.sourceName ++ ".connect(&" ++ getScriptInteropType eventClass.name ++
                  "::" ++ e.interopName ++ ");\n")) ++
            "\t\x7d\n" ++
            "\tvoid " ++ getScriptInteropType eventClass.name ++ "::shutDown()\n" ++ "\t\x7b\n" ++
            String.join ((eventClass.eventInfos.filter
              (fun e => isStatic e || classIsModule eventClass)).map (fun e =>
                "\t\t" ++ e.sourceName ++ "Conn.disconnect();\n")) ++
            "\t\x7d\n" ++ "\n"
           else "") ++
          callbacks ++ ctorHooks ++ methodHooks) ∧
    generateCppHeaderOutput marshalTypeInfo sampleCanBeReturned eventClass (marshalTypeInfo "Mesh" 0) =
      headerPublic eventClass (marshalTypeInfo "Mesh" 0) ++
      (if eventClass.eventInfos.any (fun e => isStatic e || classIsModule eventClass) then
        "\t\tstatic void startUp();\n" ++ "\t\tstatic void shutDown();\n" ++ "\n"
       else "") ++
      headerPrivate marshalTypeInfo sampleCanBeReturned eventClass (marshalTypeInfo "Mesh" 0) := by
  have hspec := generateCppSourceOutput_events marshalTypeInfo sampleCanBeReturned
    sampleIsHandleType sampleUnderlyingCppType eventClass (marshalTypeInfo "Mesh" 0)
  have hout : ∃ output, generateCppSourceOutput marshalTypeInfo sampleCanBeReturned
      sampleIsHandleType sampleUnderlyingCppType eventClass (marshalTypeInfo "Mesh" 0) =
        some output := ⟨_, rfl⟩
  obtain ⟨output, hout⟩ := hout
  exact ⟨rfl, rfl, rfl, rfl, ⟨output, hout, hspec.1 output hout⟩, hspec.2⟩

/-! ## Properties of the event callbacks and of the managed class -/

set_option maxRecDepth 8192 in
/-- C31 at a failing input: for the callback parameter `p` of the resource type `Texture`,
`generateEventCallbackBodyBlockForParam` returns `tmpp`, but the lookup it writes takes the
unassigned temporary `tmpp` as its argument and the managed instance is assigned to the
native parameter `p`. -/
theorem generateEventCallbackBodyBlockForParam_resource :
    generateEventCallbackBodyBlockForParam marshalTypeInfo sampleUnderlyingCppType "p"
        "Texture" 0 =
      some ("tmpp",
        "\t\tMonoObject* tmpp;\n" ++
        "\t\tScriptResourceBase* scriptp;\n" ++
        "\t\tscriptp = ScriptResourceManager::instance().getScriptResource(tmpp, true);\n" ++
        "\t\tp = scriptp->getManagedInstance();\n") :=
  rfl

set_option maxRecDepth 8192 in
/-- C34 at a failing input: for the constructor `Mesh()` without parameters, the extern
declaration ends in `(Mesh managedInstance, );`, with a separator before the closing
parenthesis. -/
theorem csCtorExtern_no_params :
    csCtorExtern csTypeInfo "Mesh" defaultCtor =
      "\t\t[MethodImpl(MethodImplOptions.InternalCall)]\n" ++
      "\t\tprivate static extern void Internal_Mesh(Mesh managedInstance, );\n" :=
  rfl

set_option maxRecDepth 8192 in
/-- C35 at a failing input: for the static method `reset(int value)` the extern declared is
`void Internal_reset(int value)`, with one parameter, while the call written into the managed
method body is `Internal_reset(, value);`, with a leading separator. -/
theorem csMethodBodyCall_static :
    generateCSInteropMethodSignature csTypeInfo sampleCanBeReturned staticResetMethod "Mesh"
        false = "void Internal_reset(int value)" ∧
    csMethodBodyCall csTypeInfo sampleCanBeReturned false staticResetMethod =
      "\t\t\tInternal_reset(, value);\n" :=
  ⟨rfl, rfl⟩

set_option maxRecDepth 8192 in
/-- C36 at a failing input: the property `Count` synthesized from the static getter
`getCount` is static and of the directly returnable type `int`; the extern declared for the
getter is `int Internal_getCount()`, without receiver, while the read accessor passes
`mCachedPtr`. -/
theorem csPropertyGetter_static :
    generatePropertyInfos [] [staticGetCount] = some [staticCountProperty] ∧
    sampleCanBeReturned (csTypeInfo "int" 0).type 0 = true ∧
    generateCSInteropMethodSignature csTypeInfo sampleCanBeReturned staticGetCount "Mesh"
        false = "int Internal_getCount()" ∧
    csPropertyGetter csTypeInfo sampleCanBeReturned false staticCountProperty =
      "\t\t\tget \x7b return Internal_getCount(mCachedPtr); \x7d\n" :=
  ⟨rfl, rfl, rfl, rfl⟩

/-- C37 at a failing input: the external setter `markDirty(Mesh)` is rebound onto `Mesh`
without its receiver, so it reaches property synthesis with no parameter; the copydoc and
interop-name passes complete on the class, and property synthesis then reads `paramInfos[0]`
of the setter, which is out of range. -/
theorem synthesizeProperties_setter_without_params :
    ∃ classInfo c1 c2,
      findClassInfo (rebindEntry meshFiles ("Mesh", { methods := [externalSetter] })).1
        "Mesh" = some classInfo ∧
      classInfo.methodInfos = [setBoundsMethod, { externalSetter with paramInfos := [] }] ∧
      resolveClassDocs sampleIndex 1 classInfo = some c1 ∧
      assignInteropNames c1 = some c2 ∧
      c2.methodInfos.map (fun m => (isSetter m, m.paramInfos.length)) =
        [(false, 1), (true, 0)] ∧
      synthesizeProperties c2 = none ∧
      postProcessFileInfos sampleIndex modelTypeInfo 1
        { outputFileInfos := meshFiles,
          externalClassInfos := [("Mesh", { methods := [externalSetter] })] } = none :=
  ⟨_, _, _, rfl, rfl, rfl, rfl, rfl, rfl, rfl⟩

/-! ## Chains of `@copydoc` references -/

theorem docTerminal_iff (comment : CommentEntry) :
    DocTerminal comment ↔ IsTerminalComment comment := by
  unfold DocTerminal IsTerminalComment
  generalize comment.brief = brief
  induction brief with
  | nil =>
    simp only [findCopydocArg, List.not_mem_nil, false_implies, implies_true, true_or, iff_true]
    decide
  | cons entry rest ih =>
    unfold findCopydocArg
    by_cases hstart : ("@copydoc".data.isPrefixOf entry.data) = true
    · simp only [hstart, if_true]
      constructor
      · intro h
        exact Or.inr ⟨[], entry, rest, rfl, by simp, hstart, (String.isEmpty_iff _).1 h⟩
      · rintro (h | ⟨before, line, after, hsplit, hbefore, hline, hempty⟩)
        · have := h entry (List.mem_cons_self _ _)
          rw [startsWithCopydoc, hstart] at this
          exact absurd this (by decide)
        · cases before with
          | nil =>
            simp only [List.nil_append, List.cons.injEq] at hsplit
            rw [hsplit.1, hempty]
            decide
          | cons b bs =>
            simp only [List.cons_append, List.cons.injEq] at hsplit
            have := hbefore b (List.mem_cons_self _ _)
            rw [← hsplit.1, startsWithCopydoc, hstart] at this
            exact absurd this (by decide)
    · simp only [hstart, if_false, Bool.false_eq_true]
      have hfalse : startsWithCopydoc entry = false := by
        unfold startsWithCopydoc
        exact Bool.eq_false_iff.2 hstart
      rw [ih]
      constructor
      · rintro (h | ⟨before, line, after, hsplit, hbefore, hline, hempty⟩)
        · left
          intro line hline
          rcases List.mem_cons.1 hline with rfl | hmem
          · exact hfalse
          · exact h line hmem
        · right
          refine ⟨entry :: before, line, after, by rw [hsplit]; rfl, ?_, hline, hempty⟩
          intro l hl
          rcases List.mem_cons.1 hl with rfl | hmem
          · exact hfalse
          · exact hbefore l hmem
      · rintro (h | ⟨before, line, after, hsplit, hbefore, hline, hempty⟩)
        · exact Or.inl (fun line hline => h line (List.mem_cons_of_mem _ hline))
        · cases before with
          | nil =>
            simp only [List.nil_append, List.cons.injEq] at hsplit
            rw [← hsplit.1, hfalse] at hline
            exact absurd hline (by decide)
          | cons b bs =>
            simp only [List.cons_append, List.cons.injEq] at hsplit
            exact Or.inr ⟨bs, line, after, hsplit.2,
              fun l hl => hbefore l (List.mem_cons_of_mem _ hl), hline, hempty⟩

theorem resolveCopydocComment_step (index : CommentIndex) (curNS : List String) (fuel : Nat)
    (comment next : CommentEntry) (h : copydocStep index curNS comment next) :
    resolveCopydocComment index curNS (fuel + 1) comment =
      resolveCopydocComment index curNS fuel next := by
  obtain ⟨harg, ok, hparse, rfl⟩ := h
  simp [resolveCopydocComment, harg, hparse]

/-- The resolver follows a chain of resolved references to its end. -/
theorem resolveCopydocComment_chain (index : CommentIndex) (curNS : List String) :
    ∀ (chain : List CommentEntry) (comment : CommentEntry),
      List.Chain (copydocStep index curNS) comment chain →
      (DocTerminal (lastOf comment chain) →
        resolveCopydocComment index curNS (chain.length + 1) comment =
          some (lastOf comment chain)) ∧
      (copydocUnresolvable index curNS (lastOf comment chain) →
        resolveCopydocComment index curNS (chain.length + 1) comment =
          some CommentEntry.empty) := by
  intro chain
  induction chain with
  | nil =>
    intro comment _
    constructor
    · intro ht
      exact resolveCopydocComment_of_terminal index curNS 0 comment ht
    · rintro ⟨harg, leftover, hparse⟩
      simp [lastOf] at harg hparse
      simp [resolveCopydocComment, harg, hparse]
  | cons next rest ih =>
    intro comment hchain
    obtain ⟨hstep, hrest⟩ := List.chain_cons.1 hchain
    have h := ih next hrest
    simp only [lastOf, List.length_cons]
    rw [resolveCopydocComment_step index curNS _ comment next hstep]
    exact h

/-- Whenever the resolver returns, a chain of resolved references leads from the comment to
a terminal comment, which is the result, or to an unresolvable reference, and then the result
is the empty comment. -/
theorem resolveCopydocComment_some (index : CommentIndex) (curNS : List String) :
    ∀ (fuel : Nat) (comment result : CommentEntry),
      resolveCopydocComment index curNS fuel comment = some result →
      ∃ chain, chain.length < fuel ∧ List.Chain (copydocStep index curNS) comment chain ∧
        ((DocTerminal (lastOf comment chain) ∧ result = lastOf comment chain) ∨
         (copydocUnresolvable index curNS (lastOf comment chain) ∧
          result = CommentEntry.empty)) := by
  intro fuel
  induction fuel with
  | zero => intro comment result h; simp [resolveCopydocComment] at h
  | succ fuel ih =>
    intro comment result h
    unfold resolveCopydocComment at h
    simp only at h
    by_cases harg : (findCopydocArg comment.brief).isEmpty = true
    · simp only [harg, if_true, Option.some.injEq] at h
      exact ⟨[], Nat.succ_pos _, List.Chain.nil, Or.inl ⟨harg, h.symm⟩⟩
    · simp only [harg, if_false, Bool.false_eq_true] at h
      have harg' : (findCopydocArg comment.brief).isEmpty = false := by
        simpa using harg
      cases hparse : parseCopydocString index (findCopydocArg comment.brief) curNS
          CommentEntry.empty with
      | none => simp [hparse] at h
      | some r =>
        obtain ⟨ok, out⟩ := r
        cases ok with
        | false =>
          simp only [hparse, Option.some.injEq] at h
          exact ⟨[], Nat.succ_pos _, List.Chain.nil,
            Or.inr ⟨⟨harg', out, hparse⟩, h.symm⟩⟩
        | true =>
          simp only [hparse] at h
          obtain ⟨chain, hlen, hchain, hend⟩ := ih out result h
          exact ⟨out :: chain, by simpa using hlen,
            List.Chain.cons ⟨harg', true, hparse, rfl⟩ hchain, hend⟩

/-- C32: whenever `resolveCopydocComment` returns, its result is terminal: no brief line
starts with `@copydoc`, or the first such line has no text after its first space. A comment
that is terminal already is returned unchanged, and a chain of resolved references that ends
in a terminal comment is followed to that last comment. -/
theorem resolveCopydocComment_result_terminal (index : CommentIndex) (curNS : List String) :
    (∀ fuel comment result, resolveCopydocComment index curNS fuel comment = some result →
      IsTerminalComment result) ∧
    (∀ fuel comment, IsTerminalComment comment →
      resolveCopydocComment index curNS (fuel + 1) comment = some comment) ∧
    (∀ comment chain, List.Chain (copydocStep index curNS) comment chain →
      IsTerminalComment (lastOf comment chain) →
      resolveCopydocComment index curNS (chain.length + 1) comment =
        some (lastOf comment chain)) := by
  refine ⟨?_, ?_, ?_⟩
  · intro fuel comment result h
    exact (docTerminal_iff result).1 (resolveCopydocComment_terminal index curNS fuel _ _ h)
  · intro fuel comment h
    exact resolveCopydocComment_of_terminal index curNS fuel comment
      ((docTerminal_iff comment).2 h)
  · intro comment chain hchain hlast
    exact (resolveCopydocComment_chain index curNS chain comment hchain).1
      ((docTerminal_iff _).2 hlast)

/-- C32 on the index in which the comment of `A` references `B` and the comment of `B` is
plain text: the reference is followed and the comment of `B` is the result. -/
theorem resolveCopydocComment_result_terminal_witness :
    resolveCopydocComment chainIndex [] (1 + 1) (sampleComment "@copydoc B") =
      some (sampleComment "The class B.") :=
  (resolveCopydocComment_result_terminal chainIndex []).2.2 (sampleComment "@copydoc B")
    [sampleComment "The class B."]
    (List.Chain.cons ⟨by decide, true, by decide, rfl⟩ List.Chain.nil)
    (Or.inl (by decide))

/-- C33: `resolveCopydocComment` has no cycle guard. It returns, for some number of calls
allowed, exactly when a finite chain of resolved references leads from the comment to a
terminal comment or to an unresolvable reference. For the two index entries `A` and `B`
whose comments reference each other, every step is resolved and the resolution of either
comment returns for no number of calls. -/
theorem resolveCopydocComment_terminates_iff :
    (∀ (index : CommentIndex) (curNS : List String) (comment : CommentEntry),
      (∃ fuel result, resolveCopydocComment index curNS fuel comment = some result) ↔
        ∃ chain, List.Chain (copydocStep index curNS) comment chain ∧
          (IsTerminalComment (lastOf comment chain) ∨
            copydocUnresolvable index curNS (lastOf comment chain))) ∧
    copydocStep cyclicIndex [] (sampleComment "@copydoc B") (sampleComment "@copydoc A") ∧
    copydocStep cyclicIndex [] (sampleComment "@copydoc A") (sampleComment "@copydoc B") ∧
    ∀ fuel,
      resolveCopydocComment cyclicIndex [] fuel (sampleComment "@copydoc B") = none ∧
      resolveCopydocComment cyclicIndex [] fuel (sampleComment "@copydoc A") = none := by
  have hBA : copydocStep cyclicIndex [] (sampleComment "@copydoc B")
      (sampleComment "@copydoc A") := ⟨by decide, true, by decide, rfl⟩
  have hAB : copydocStep cyclicIndex [] (sampleComment "@copydoc A")
      (sampleComment "@copydoc B") := ⟨by decide, true, by decide, rfl⟩
  refine ⟨?_, hBA, hAB, ?_⟩
  · intro index curNS comment
    constructor
    · rintro ⟨fuel, result, h⟩
      obtain ⟨chain, -, hchain, hend⟩ := resolveCopydocComment_some index curNS fuel _ _ h
      refine ⟨chain, hchain, ?_⟩
      rcases hend with ⟨ht, -⟩ | ⟨hu, -⟩
      · exact Or.inl ((docTerminal_iff _).1 ht)
      · exact Or.inr hu
    · rintro ⟨chain, hchain, ht | hu⟩
      · exact ⟨_, _, (resolveCopydocComment_chain index curNS chain comment hchain).1
          ((docTerminal_iff _).2 ht)⟩
      · exact ⟨_, _, (resolveCopydocComment_chain index curNS chain comment hchain).2 hu⟩
  · intro fuel
    induction fuel with
    | zero => exact ⟨rfl, rfl⟩
    | succ fuel ih =>
      exact ⟨(resolveCopydocComment_step cyclicIndex [] fuel _ _ hBA).trans ih.2,
        (resolveCopydocComment_step cyclicIndex [] fuel _ _ hAB).trans ih.1⟩

/-! ## The frame of `postProcessFileInfos` -/

theorem classKept_refl (c : ClassInfo) : ClassKept c c :=
  ⟨List.forall₂_same.2 (fun _ _ => rfl), List.forall₂_same.2 (fun _ _ => rfl),
    List.forall₂_same.2 (fun _ _ => ⟨rfl, rfl⟩)⟩

theorem classKept_trans (a b c : ClassInfo) (h1 : ClassKept a b) (h2 : ClassKept b c) :
    ClassKept a c := by
  obtain ⟨m1, c1, e1⟩ := h1
  obtain ⟨m2, c2, e2⟩ := h2
  refine ⟨(forall₂_comp _ _ _ _ m1 _ m2).imp ?_, (forall₂_comp _ _ _ _ c1 _ c2).imp ?_,
    (forall₂_comp _ _ _ _ e1 _ e2).imp ?_⟩
  · rintro x z ⟨y, hxy, hyz⟩; exact hyz.trans hxy
  · rintro x z ⟨y, hxy, hyz⟩; exact hyz.trans hxy
  · rintro x z ⟨y, hxy, hyz⟩; exact ⟨hyz.1.trans hxy.1, hyz.2.trans hxy.2⟩

theorem classPushed_refl (c : ClassInfo) : ClassPushed c c :=
  ⟨[], by simp⟩

theorem classPushed_trans (a b c : ClassInfo) (h1 : ClassPushed a b) (h2 : ClassPushed b c) :
    ClassPushed a c := by
  obtain ⟨p1, rfl⟩ := h1
  obtain ⟨p2, rfl⟩ := h2
  exact ⟨p1 ++ p2, by simp⟩

theorem modifyFirstClass_rel_of (R : ClassInfo → ClassInfo → Prop) (hrefl : ∀ c, R c c)
    (name : String) (f : ClassInfo → ClassInfo) (hf : ∀ c, R c (f c)) (l : List ClassInfo) :
    List.Forall₂ R l (modifyFirstClass name f l) := by
  induction l with
  | nil => exact List.Forall₂.nil
  | cons c rest ih =>
    by_cases hc : (c.name == name) = true
    · simp only [modifyFirstClass, hc, if_true]
      exact List.Forall₂.cons (hf c) (List.forall₂_same.2 (fun x _ => hrefl x))
    · simp only [modifyFirstClass, hc, if_false, Bool.false_eq_true]
      exact List.Forall₂.cons (hrefl c) ih

theorem modifyClassInfo_rel_of (R : ClassInfo → ClassInfo → Prop) (hrefl : ∀ c, R c c)
    (name : String) (f : ClassInfo → ClassInfo) (hf : ∀ c, R c (f c))
    (F : List (String × FileInfo)) :
    FilesRel R (fun s s' => s' = s) (fun e e' => e' = e) F (modifyClassInfo name f F) := by
  induction F with
  | nil => exact List.Forall₂.nil
  | cons file rest ih =>
    by_cases hany : file.2.classInfos.any (fun c => c.name == name) = true
    · simp only [modifyClassInfo, hany, if_true]
      exact List.Forall₂.cons
        ⟨rfl, rfl, modifyFirstClass_rel_of R hrefl name f hf _, forall₂_eq_refl _,
          forall₂_eq_refl _⟩
        (@filesRel_refl R (fun s s' => s' = s) (fun e e' => e' = e) hrefl
          (fun _ => rfl) (fun _ => rfl) rest)
    · simp only [modifyClassInfo, hany, if_false, Bool.false_eq_true]
      exact List.Forall₂.cons
        ⟨rfl, rfl, List.forall₂_same.2 (fun x _ => hrefl x), forall₂_eq_refl _,
          forall₂_eq_refl _⟩ ih

/-- External-method rebinding only pushes methods at the back of method lists. -/
theorem rebindEntries_rel (entries : List (String × ExternalClassInfos)) :
    ∀ F : List (String × FileInfo),
      FilesRel ClassPushed (fun s s' => s' = s) (fun e e' => e' = e) F
        (rebindEntries F entries).1 := by
  induction entries with
  | nil =>
    intro F
    exact @filesRel_refl ClassPushed (fun s s' => s' = s) (fun e e' => e' = e)
      classPushed_refl (fun _ => rfl) (fun _ => rfl) F
  | cons entry rest ih =>
    intro F
    have h1 : FilesRel ClassPushed (fun s s' => s' = s) (fun e e' => e' = e) F
        (rebindEntry F entry).1 := by
      unfold rebindEntry
      cases findClassInfo F entry.1 with
      | none =>
        exact @filesRel_refl ClassPushed (fun s s' => s' = s) (fun e e' => e' = e)
          classPushed_refl (fun _ => rfl) (fun _ => rfl) F
      | some c =>
        exact modifyClassInfo_rel_of ClassPushed classPushed_refl _ _ (fun c => ⟨_, rfl⟩) F
    have h2 := ih (rebindEntry F entry).1
    have h3 : (rebindEntries F (entry :: rest)).1 =
        (rebindEntries (rebindEntry F entry).1 rest).1 := rfl
    rw [h3]
    refine (h1.comp h2).imp ?_ ?_ ?_
    · rintro a c ⟨b, hab, hbc⟩; exact classPushed_trans a b c hab hbc
    · rintro a c ⟨b, hab, hbc⟩; rw [hbc, hab]
    · rintro a c ⟨b, hab, hbc⟩; rw [hbc, hab]

theorem resolveMethodDoc_kept (index : CommentIndex) (fuel : Nat) (ns : List String)
    (ms ms' : List MethodInfo)
    (h : mapOption (resolveMethodDoc index fuel ns) ms = some ms') :
    List.Forall₂ EventKept ms ms' := by
  refine (mapOption_forall₂ _ ms ms' h).imp ?_
  intro m m' hm
  unfold resolveMethodDoc at hm
  cases hd : resolveCopydocComment index ns fuel m.documentation with
  | none => simp [hd] at hm
  | some d =>
    simp only [hd, Option.some.injEq] at hm
    subst hm
    exact ⟨rfl, rfl⟩

theorem resolveClassDocs_kept (index : CommentIndex) (fuel : Nat) (c c' : ClassInfo)
    (h : resolveClassDocs index fuel c = some c') : ClassKept c c' := by
  unfold resolveClassDocs at h
  cases hd : resolveCopydocComment index c.ns fuel c.documentation with
  | none => simp [hd] at h
  | some d =>
    cases hm : mapOption (resolveMethodDoc index fuel c.ns) c.methodInfos with
    | none => simp [hd, hm] at h
    | some ms =>
      cases hc : mapOption (resolveMethodDoc index fuel c.ns) c.ctorInfos with
      | none => simp [hd, hm, hc] at h
      | some cs =>
        cases he : mapOption (resolveMethodDoc index fuel c.ns) c.eventInfos with
        | none => simp [hd, hm, hc, he] at h
        | some es =>
          simp only [hd, hm, hc, he, Option.some.injEq] at h
          subst h
          exact ⟨(resolveMethodDoc_kept index fuel c.ns _ _ hm).imp (fun _ _ h => h.1),
            (resolveMethodDoc_kept index fuel c.ns _ _ hc).imp (fun _ _ h => h.1),
            resolveMethodDoc_kept index fuel c.ns _ _ he⟩

theorem generateInteropNames_kept (ms : List MethodInfo) :
    ∀ (used used' : List String) (ms' : List MethodInfo),
      generateInteropNames used ms = some (used', ms') → List.Forall₂ EventKept ms ms' := by
  induction ms with
  | nil =>
    intro used used' ms' h
    simp only [generateInteropNames, Option.some.injEq, Prod.mk.injEq] at h
    rw [← h.2]
    exact List.Forall₂.nil
  | cons m rest ih =>
    intro used used' ms' h
    obtain ⟨r, hr, -⟩ := generateInteropName_isSome used m
    simp only [generateInteropNames, hr] at h
    cases hrest : generateInteropNames (r :: used) rest with
    | none => simp [hrest] at h
    | some p =>
      obtain ⟨u2, rest'⟩ := p
      simp only [hrest, Option.some.injEq, Prod.mk.injEq] at h
      rw [← h.2]
      exact List.Forall₂.cons ⟨rfl, rfl⟩ (ih _ _ _ hrest)

theorem assignInteropNames_kept (c c' : ClassInfo) (h : assignInteropNames c = some c') :
    ClassKept c c' := by
  unfold assignInteropNames at h
  cases hm : generateInteropNames [] c.methodInfos with
  | none => simp [hm] at h
  | some p1 =>
    obtain ⟨u1, ms⟩ := p1
    cases hc : generateInteropNames u1 c.ctorInfos with
    | none => simp [hm, hc] at h
    | some p2 =>
      obtain ⟨u2, cs⟩ := p2
      cases he : generateInteropNames u2 c.eventInfos with
      | none => simp [hm, hc, he] at h
      | some p3 =>
        obtain ⟨u3, es⟩ := p3
        simp only [hm, hc, he, Option.some.injEq] at h
        subst h
        exact ⟨(generateInteropNames_kept _ _ _ _ hm).imp (fun _ _ h => h.1),
          (generateInteropNames_kept _ _ _ _ hc).imp (fun _ _ h => h.1),
          generateInteropNames_kept _ _ _ _ he⟩

theorem synthesizeProperties_kept (c c' : ClassInfo) (h : synthesizeProperties c = some c') :
    ClassKept c c' := by
  unfold synthesizeProperties at h
  cases hp : generatePropertyInfos c.propertyInfos c.methodInfos with
  | none => simp [hp] at h
  | some ps =>
    simp only [hp, Option.some.injEq] at h
    subst h
    exact classKept_refl c

theorem tailClass_kept (getTypeInfo : String → Nat → UserTypeInfo)
    (F : List (String × FileInfo)) (c : ClassInfo) :
    ClassKept c (tailClass getTypeInfo F c) := by
  refine ⟨?_, ?_, List.forall₂_same.2 (fun _ _ => ⟨rfl, rfl⟩)⟩
  · simp only [tailClass, markComplexClass, defaultValuesClass, List.map_map]
    refine forall₂_map_self ReturnKept _ ?_ _
    intro m
    rfl
  · simp only [tailClass, markComplexClass, defaultValuesClass, List.map_map]
    refine forall₂_map_self ReturnKept _ ?_ _
    intro m
    rfl

/-- C40: when `postProcessFileInfos` completes, every class of the result corresponds to the
class at the same place before the pass; its method list is the list before the pass,
followed by the external methods that were rebound, with every return value as it was, its
constructors have their return values as they were, and its events have their return values
and parameters as they were. So the flags of return values and of event parameters are never
written, the ComplexStruct flag included. -/
theorem postProcessFileInfos_return_flags (index : CommentIndex)
    (getTypeInfo : String → Nat → UserTypeInfo) (fuel : Nat) (model model1 : Model)
    (h : postProcessFileInfos index getTypeInfo fuel model = some model1) :
    List.Forall₂ (fun (fileInfo fileInfo' : String × FileInfo) =>
      List.Forall₂ (fun (classInfo classInfo' : ClassInfo) =>
        (∃ pushed, List.Forall₂
          (fun (m m' : MethodInfo) => m'.returnInfo.flags = m.returnInfo.flags)
          (classInfo.methodInfos ++ pushed) classInfo'.methodInfos) ∧
        List.Forall₂ (fun (m m' : MethodInfo) => m'.returnInfo.flags = m.returnInfo.flags)
          classInfo.ctorInfos classInfo'.ctorInfos ∧
        List.Forall₂ (fun (e e' : MethodInfo) =>
          e'.returnInfo.flags = e.returnInfo.flags ∧
          e'.paramInfos.map (fun p => p.flags) = e.paramInfos.map (fun p => p.flags))
          classInfo.eventInfos classInfo'.eventInfos)
        fileInfo.2.classInfos fileInfo'.2.classInfos)
      model.outputFileInfos model1.outputFileInfos := by
  unfold postProcessFileInfos at h
  simp only at h
  have hrebind := rebindEntries_rel model.externalClassInfos model.outputFileInfos
  have hfiles : (rebindExternalMethods model).outputFileInfos =
      (rebindEntries model.outputFileInfos model.externalClassInfos).1 := rfl
  rw [← hfiles] at hrebind
  cases hR : mapOption (resolveFileDocs index fuel) (rebindExternalMethods model).outputFileInfos
    with
  | none => simp [hR] at h
  | some F1 =>
    cases hN : mapOption (fun fileInfo : String × FileInfo =>
        (fileInfo.2.mapClassesOption assignInteropNames).map (fun f => (fileInfo.1, f)))
        F1 with
    | none => simp [hR, hN] at h
    | some F2 =>
      cases hP : mapOption (fun fileInfo : String × FileInfo =>
          (fileInfo.2.mapClassesOption synthesizeProperties).map (fun f => (fileInfo.1, f)))
          F2 with
      | none => simp [hR, hN, hP] at h
      | some F3 =>
        cases hB : flagBaseClasses F3 (baseClassNames F3) with
        | none => simp [hR, hN, hP, hB] at h
        | some F4 =>
          simp only [hR, hN, hP, hB, Option.some.injEq] at h
          have h7 : model1.outputFileInfos = F4.map (tailFile getTypeInfo F4) := by
            rw [← h]
            exact tail_eq_map getTypeInfo F4
          rw [h7]
          have r01 := filesRel_resolve index fuel _ F1 hR
          have r12 := filesRel_mapClassesOption _ F1 F2 hN
          have r23 := filesRel_mapClassesOption _ F2 F3 hP
          have r34 := flagBaseClasses_rel _ F3 F4 hB
          have r47 : FilesRel (fun c c' => c' = tailClass getTypeInfo F4 c)
              (fun s s' => s' = tailStruct getTypeInfo F4 s) (fun e e' => e' = e)
              F4 (F4.map (tailFile getTypeInfo F4)) :=
            forall₂_map_self _ _ (fun f => ⟨rfl, rfl,
              forall₂_map_self (fun c c' => c' = tailClass getTypeInfo F4 c) _
                (fun _ => rfl) _,
              forall₂_map_self (fun s s' => s' = tailStruct getTypeInfo F4 s) _
                (fun _ => rfl) _,
              forall₂_eq_refl _⟩) F4
          have hall := (((hrebind.comp r01).comp (r12.comp r23)).comp (r34.comp r47))
          refine List.Forall₂.imp ?_ hall
          rintro f f' ⟨-, -, hclasses, -, -⟩
          refine hclasses.imp ?_
          rintro c c7 ⟨c2', ⟨c1, ⟨c0, hpush, hdocs⟩, ⟨c2, hnames, hprops⟩⟩,
            ⟨c4, hflags, htail⟩⟩
          obtain ⟨pushed, rfl⟩ := hpush
          obtain ⟨flags, rfl⟩ := hflags
          subst htail
          have hk : ClassKept { c with methodInfos := c.methodInfos ++ pushed }
              (tailClass getTypeInfo F4 { c2' with flags := flags }) :=
            classKept_trans _ _ _ (resolveClassDocs_kept index fuel _ _ hdocs)
              (classKept_trans _ _ _ (assignInteropNames_kept _ _ hnames)
                (classKept_trans _ _ _ (synthesizeProperties_kept _ _ hprops)
                  (classKept_trans _ { c2' with flags := flags } _
                    ⟨List.forall₂_same.2 (fun _ _ => rfl),
                      List.forall₂_same.2 (fun _ _ => rfl),
                      List.forall₂_same.2 (fun _ _ => ⟨rfl, rfl⟩)⟩
                    (tailClass_kept getTypeInfo F4 _))))
          obtain ⟨km, kc, ke⟩ := hk
          refine ⟨⟨pushed, km.imp ?_⟩, kc.imp ?_, ke.imp ?_⟩
          · intro m m' hm; rw [hm]
          · intro m m' hm; rw [hm]
          · rintro e e' ⟨he1, he2⟩; rw [he1, he2]; exact ⟨rfl, rfl⟩

/-- C40 on the module with the class `Mesh` and one external constructor: the pass
completes, and the classes of the result correspond to the classes before it as the theorem
says. -/
theorem postProcessFileInfos_return_flags_witness :
    ∃ model1, postProcessFileInfos sampleIndex modelTypeInfo 1 meshModel = some model1 ∧
      List.Forall₂ (fun (fileInfo fileInfo' : String × FileInfo) =>
        List.Forall₂ (fun (classInfo classInfo' : ClassInfo) =>
          (∃ pushed, List.Forall₂
            (fun (m m' : MethodInfo) => m'.returnInfo.flags = m.returnInfo.flags)
            (classInfo.methodInfos ++ pushed) classInfo'.methodInfos) ∧
          List.Forall₂ (fun (m m' : MethodInfo) => m'.returnInfo.flags = m.returnInfo.flags)
            classInfo.ctorInfos classInfo'.ctorInfos ∧
          List.Forall₂ (fun (e e' : MethodInfo) =>
            e'.returnInfo.flags = e.returnInfo.flags ∧
            e'.paramInfos.map (fun p => p.flags) = e.paramInfos.map (fun p => p.flags))
            classInfo.eventInfos classInfo'.eventInfos)
          fileInfo.2.classInfos fileInfo'.2.classInfos)
        meshModel.outputFileInfos model1.outputFileInfos := by
  have hsome : ∃ model1, postProcessFileInfos sampleIndex modelTypeInfo 1 meshModel =
      some model1 := ⟨_, rfl⟩
  obtain ⟨model1, h1⟩ := hsome
  exact ⟨model1, h1,
    postProcessFileInfos_return_flags sampleIndex modelTypeInfo 1 meshModel model1 h1⟩

/-! ## Properties of `wordWrap` -/

theorem clampIndex_natCast (k n : Nat) : clampIndex (k : Int) n = min k n := by
  unfold clampIndex
  have : ¬ ((k : Int) < 0) := by omega
  simp [this]

theorem substr_natCast (s : List UInt8) (k len : Nat) (hk : k ≤ s.length)
    (hlen : k + len ≤ s.length) :
    substr s (k : Int) (len : Int) = (s.drop k).take len := by
  unfold substr
  rw [clampIndex_natCast, clampIndex_natCast, Nat.min_eq_left hk,
    Nat.min_eq_left (by omega)]

/-- The backward search returns -1 when no index below its bound holds the byte, and
otherwise the greatest index strictly below the bound that holds it. -/
theorem rfindBelow_range (s : List UInt8) (c : UInt8) (bound : Nat) :
    (rfindBelow s c bound = -1 ∧ ∀ i, i < bound → s[i]? ≠ some c) ∨
      ∃ j, j < bound ∧ s[j]? = some c ∧ rfindBelow s c bound = (j : Int) ∧
        ∀ i, j < i → i < bound → s[i]? ≠ some c := by
  induction bound with
  | zero => exact Or.inl ⟨rfl, fun i hi => absurd hi (Nat.not_lt_zero i)⟩
  | succ b ih =>
    unfold rfindBelow
    by_cases h : s[b]? = some c
    · simp only [h, if_true]
      exact Or.inr ⟨b, Nat.lt_succ_self b, h, rfl, fun i h1 h2 => by omega⟩
    · simp only [h, if_false]
      rcases ih with ⟨h1, h2⟩ | ⟨j, hj, hc, hr, hmax⟩
      · refine Or.inl ⟨h1, fun i hi => ?_⟩
        rcases Nat.lt_succ_iff_lt_or_eq.1 hi with hlt | rfl
        · exact h2 i hlt
        · exact h
      · refine Or.inr ⟨j, Nat.lt_succ_of_lt hj, hc, hr, fun i h1 h2 => ?_⟩
        rcases Nat.lt_succ_iff_lt_or_eq.1 h2 with hlt | rfl
        · exact hmax i h1 hlt
        · exact h

theorem getElem?_beyond (s : List UInt8) (c : UInt8) (i : Nat) (h : s.length ≤ i) :
    s[i]? ≠ some c := by
  rw [List.getElem?_eq_none h]
  exact fun h1 => Option.noConfusion h1

theorem find_last_of_range (s : List UInt8) (c : UInt8) (start : Nat) :
    (find_last_of s c (start : Int) = -1 ∧ ∀ i, i < start → s[i]? ≠ some c) ∨
      ∃ j, j < start ∧ j < s.length ∧ s[j]? = some c ∧
        find_last_of s c (start : Int) = (j : Int) ∧
        ∀ i, j < i → i < start → s[i]? ≠ some c := by
  unfold find_last_of
  rw [clampIndex_natCast]
  rcases rfindBelow_range s c (min start s.length) with ⟨h, hno⟩ | ⟨j, hj, hc, hr, hmax⟩
  · refine Or.inl ⟨h, fun i hi => ?_⟩
    by_cases hlen : i < s.length
    · exact hno i (lt_min hi hlen)
    · exact getElem?_beyond s c i (by omega)
  · refine Or.inr ⟨j, lt_of_lt_of_le hj (Nat.min_le_left _ _),
      lt_of_lt_of_le hj (Nat.min_le_right _ _), hc, hr, fun i h1 h2 => ?_⟩
    by_cases hlen : i < s.length
    · exact hmax i h1 (lt_min h2 hlen)
    · exact getElem?_beyond s c i (by omega)

theorem not_mem_tail_take_drop (s : List UInt8) (c : UInt8) (k L : Nat)
    (h : ∀ i, k < i → i < k + L → s[i]? ≠ some c) : c ∉ ((s.drop k).take L).tail := by
  intro hmem
  obtain ⟨n, hn⟩ := List.mem_iff_getElem?.1 hmem
  rw [List.getElem?_tail] at hn
  by_cases hlt : n + 1 < L
  · rw [List.getElem?_take_of_lt hlt, List.getElem?_drop] at hn
    exact h (k + (n + 1)) (by omega) (by omega) hn
  · rw [List.getElem?_eq_none (by simp only [List.length_take]; omega)] at hn
    exact Option.noConfusion hn

theorem take_drop_getLast (s : List UInt8) (k j : Nat) (hkj : k ≤ j) (c : UInt8)
    (hc : s[j]? = some c) : ((s.drop k).take (j - k + 1)).getLast? = some c := by
  have hj : j < s.length := by
    rcases List.getElem?_eq_some_iff.1 hc with ⟨h, _⟩
    exact h
  rw [List.getLast?_eq_getElem?]
  have hlen : ((s.drop k).take (j - k + 1)).length = j - k + 1 := by
    simp only [List.length_take, List.length_drop]; omega
  rw [hlen, Nat.add_sub_cancel, List.getElem?_take_of_lt (Nat.lt_succ_self _),
    List.getElem?_drop]
  have : k + (j - k) = j := by omega
  rw [this, hc]

theorem mem_dropLast_cons {α : Type} (a p : α) (l : List α)
    (h : p ∈ (a :: l).dropLast) : p = a ∨ p ∈ l.dropLast := by
  cases l with
  | nil => simp at h
  | cons b t =>
    simp only [List.dropLast_cons₂, List.mem_cons] at h
    rcases h with h | h
    · exact Or.inl h
    · exact Or.inr h

/-- The loop of `wordWrap` ends when the line length is positive and the length of the input
fits into an `int`. The pieces it writes make up the rest of the input, none is longer than
the line length, and every piece but the last ends in a space or fills the line with no space
after its first byte. -/
theorem wordWrapLoop_spec (input : List UInt8) (L : Nat) (hL : 0 < L)
    (hfit : input.length < 2 ^ 31) :
    ∀ (fuel k : Nat), k ≤ input.length → input.length - k < fuel →
      ∃ pieces, wordWrapLoop input (input.length : Int) (L : Int) fuel (k : Int) =
          some pieces ∧
        pieces.flatten = input.drop k ∧ (∀ p ∈ pieces, p.length ≤ L) ∧
        ∀ p ∈ pieces.dropLast, p.getLast? = some 32 ∨ (p.length = L ∧ (32 : UInt8) ∉ p.tail) := by
  intro fuel
  induction fuel with
  | zero => intro k _ hfuel; omega
  | succ fuel ih =>
    intro k hk hfuel
    unfold wordWrapLoop
    by_cases hlt : (k : Int) < (input.length : Int)
    · have hkn : k < input.length := by omega
      have hremaining : wrapInt32 ((input.length : Int) - (k : Int)) =
          ((input.length - k : Nat) : Int) := by
        rw [wrapInt32_of_range _ (by omega) (by omega)]
        omega
      simp only [hlt, if_true, hremaining]
      by_cases hrem : ((input.length - k : Nat) : Int) ≤ (L : Int)
      · simp only [hrem, if_true]
        rw [substr_natCast input k (input.length - k) hk (by omega)]
        refine ⟨_, rfl, ?_, ?_, ?_⟩
        · simp [List.take_of_length_le]
        · intro p hp
          simp only [List.mem_singleton] at hp
          subst hp
          simp only [List.length_take, List.length_drop]
          omega
        · intro p hp
          simp at hp
      · simp only [hrem, if_false]
        have hbig : k + L < input.length := by omega
        have hsum : wrapInt32 ((k : Int) + (L : Int)) = ((k + L : Nat) : Int) := by
          rw [wrapInt32_of_range _ (by omega) (by omega)]
          push_cast
          rfl
        rw [hsum]
        have hbreak : (∀ i, k < i → i < k + L → input[i]? ≠ some 32) → ∃ pieces,
            (wordWrapLoop input (input.length : Int) (L : Int) fuel ((k + L : Nat) : Int)).map
              (fun rest => substr input (k : Int) (L : Int) :: rest) = some pieces ∧
            pieces.flatten = input.drop k ∧ (∀ p ∈ pieces, p.length ≤ L) ∧
            ∀ p ∈ pieces.dropLast,
              p.getLast? = some 32 ∨ (p.length = L ∧ (32 : UInt8) ∉ p.tail) := by
          intro hno
          obtain ⟨rest, hrest, hjoin, hlen, hend⟩ := ih (k + L) (by omega) (by omega)
          rw [hrest, substr_natCast input k L hk (by omega)]
          have hfull : ((input.drop k).take L).length = L := by
            simp only [List.length_take, List.length_drop]; omega
          refine ⟨_, rfl, ?_, ?_, ?_⟩
          · rw [List.flatten_cons, hjoin, ← List.drop_drop, List.take_append_drop]
          · intro p hp
            rcases List.mem_cons.1 hp with rfl | hmem
            · exact le_of_eq hfull
            · exact hlen p hmem
          · intro p hp
            rcases mem_dropLast_cons _ _ _ hp with rfl | hmem
            · exact Or.inr ⟨hfull, not_mem_tail_take_drop input 32 k L hno⟩
            · exact hend p hmem
        rcases find_last_of_range input 32 (k + L) with
          ⟨hnone, hno⟩ | ⟨j, hj, hjlen, hc, hr, hmax⟩
        · -- no space below the limit: the word is broken
          have hw : wrapInt32 (-1) = -1 := by decide
          simp only [hnone, hw, beq_self_eq_true, Bool.true_or, if_true]
          exact hbreak (fun i _ h2 => hno i h2)
        · have hw : wrapInt32 (j : Int) = (j : Int) :=
            wrapInt32_of_range _ (by omega) (by omega)
          rw [hr, hw]
          by_cases hjk : j ≤ k
          · have hcond : ((j : Int) == -1 || decide ((j : Int) ≤ (k : Int))) = true := by
              simp only [Bool.or_eq_true, decide_eq_true_eq]
              right; omega
            simp only [hcond, if_true]
            exact hbreak (fun i h1 h2 => hmax i (by omega) h2)
          · have hkj : k < j := by omega
            have hnextle : k + (j - k + 1) ≤ input.length := by omega
            have hnextfuel : input.length - (k + (j - k + 1)) < fuel := by omega
            have hpiece : k + (j - k + 1) ≤ input.length := hnextle
            have hshortlen : j - k + 1 ≤ L := by omega
            have hjint : (j : Int) < 2 ^ 31 := by omega
            have hcond : ((j : Int) == -1 || decide ((j : Int) ≤ (k : Int))) = false := by
              simp only [Bool.or_eq_false_iff, beq_eq_false_iff_ne, ne_eq,
                decide_eq_false_iff_not]
              constructor <;> omega
            simp only [hcond, Bool.false_eq_true, if_false]
            have hdiff : wrapInt32 ((j : Int) - (k : Int)) = (j : Int) - (k : Int) :=
              wrapInt32_of_range _ (by omega) (by omega)
            have hlen1 : wrapInt32 (wrapInt32 ((j : Int) - (k : Int)) + 1) =
                ((j - k + 1 : Nat) : Int) := by
              rw [hdiff]
              have : wrapInt32 ((j : Int) - (k : Int) + 1) = (j : Int) - (k : Int) + 1 :=
                wrapInt32_of_range _ (by omega) (by omega)
              rw [this]
              omega
            have hnext : wrapInt32 ((k : Int) + ((j - k + 1 : Nat) : Int)) =
                ((k + (j - k + 1) : Nat) : Int) := by
              have : wrapInt32 ((k : Int) + ((j - k + 1 : Nat) : Int)) =
                  (k : Int) + ((j - k + 1 : Nat) : Int) :=
                wrapInt32_of_range _ (by omega) (by omega)
              rw [this]
              push_cast
              rfl
            obtain ⟨rest, hrest, hjoin, hlen, hend⟩ :=
              ih (k + (j - k + 1)) hnextle hnextfuel
            rw [hlen1, hnext, hrest, substr_natCast input k (j - k + 1) hk hpiece]
            have hshort : ((input.drop k).take (j - k + 1)).length ≤ L := by
              simp only [List.length_take, List.length_drop]
              exact le_trans (Nat.min_le_left _ _) hshortlen
            refine ⟨_, rfl, ?_, ?_, ?_⟩
            · rw [List.flatten_cons, hjoin, ← List.drop_drop, List.take_append_drop]
            · intro p hp
              rcases List.mem_cons.1 hp with rfl | hmem
              · exact hshort
              · exact hlen p hmem
            · intro p hp
              rcases mem_dropLast_cons _ _ _ hp with rfl | hmem
              · exact Or.inl (take_drop_getLast input k j (le_of_lt hkj) 32 hc)
              · exact hend p hmem
    · have hkn : k = input.length := by omega
      simp only [hlt, if_false]
      exact ⟨[], rfl, by simp [hkn], by simp, by simp⟩
/-- The lines of `wordWrap` for a prefix shorter than the column length of 124 and lengths
that fit into an `int`: the prefix followed by pieces that make up the input, each line within
the column length, every piece but the last ending in a space or filling its line with no
space after its first byte. -/
theorem wordWrapLines_pieces (input linePrefix : List UInt8) (hp : linePrefix.length < 124)
    (hfit : input.length + linePrefix.length < 2 ^ 31) :
    ∃ pieces : List (List UInt8),
      wordWrapLines input linePrefix 124 = some (pieces.map (fun p => linePrefix ++ p)) ∧
      pieces.flatten = input ∧
      (∀ p ∈ pieces, linePrefix.length + p.length ≤ 124) ∧
      (∀ p ∈ pieces.dropLast,
        p.getLast? = some 32 ∨
          (linePrefix.length + p.length = 124 ∧ (32 : UInt8) ∉ p.tail)) ∧
      (input.length + linePrefix.length ≤ 124 → pieces = [input]) := by
  have hwp : wrapInt32 (linePrefix.length : Int) = (linePrefix.length : Int) :=
    wrapInt32_of_range _ (by omega) (by omega)
  have hwi : wrapInt32 (input.length : Int) = (input.length : Int) :=
    wrapInt32_of_range _ (by omega) (by omega)
  have hws : wrapInt32 ((input.length : Int) + (linePrefix.length : Int)) =
      (input.length : Int) + (linePrefix.length : Int) :=
    wrapInt32_of_range _ (by omega) (by omega)
  have hwl : wrapInt32 ((124 : Int) - (linePrefix.length : Int)) =
      ((124 - linePrefix.length : Nat) : Int) := by
    rw [wrapInt32_of_range _ (by omega) (by omega)]
    omega
  by_cases hfits : (input.length : Int) + (linePrefix.length : Int) ≤ 124
  · refine ⟨[input], ?_, ?_, ?_, ?_, fun _ => rfl⟩
    · unfold wordWrapLines
      simp only [hwp, hwi, hws, hfits, if_true, List.map_cons, List.map_nil]
    · simp
    · intro p hmem
      simp only [List.mem_singleton] at hmem
      subst hmem
      omega
    · intro p hmem
      simp at hmem
  · obtain ⟨cs, hcs, hjoin, hlen, hend⟩ :=
      wordWrapLoop_spec input (124 - linePrefix.length) (by omega) (by omega)
        (input.length + 1) 0 (Nat.zero_le _) (by omega)
    refine ⟨cs, ?_, ?_, ?_, ?_, ?_⟩
    · unfold wordWrapLines
      simp only [hwp, hwi, hws, hwl, hfits, if_false]
      have h0 : ((0 : Nat) : Int) = 0 := rfl
      rw [← h0, hcs]
      rfl
    · rw [hjoin, List.drop_zero]
    · intro p hmem
      have := hlen p hmem
      omega
    · intro p hmem
      rcases hend p hmem with h | h
      · exact Or.inl h
      · refine Or.inr ⟨?_, h.2⟩
        have := h.1
        omega
    · intro h
      omega

/-- C38, as stated, fails for an input whose length does not fit into an `int`: for an input
of 2^31 bytes `a` the length converts to a negative `int`, the test for a short input
succeeds, and the one line written is the prefix followed by the whole input. -/
theorem wordWrapLines_input_beyond_int :
    wordWrapLines (List.replicate (2 ^ 31) 97) (stringBytes "/// ") 124 =
      some [stringBytes "/// " ++ List.replicate (2 ^ 31) 97] ∧
    (stringBytes "/// " ++ List.replicate (2 ^ 31) 97).length = 2 ^ 31 + 4 ∧
    (stringBytes "/// ").length < 124 := by
  have hp : stringBytes "/// " = [47, 47, 47, 32] := by decide
  refine ⟨?_, ?_, ?_⟩
  · unfold wordWrapLines
    simp only [List.length_replicate, hp, List.length_cons, List.length_nil]
    have h1 : wrapInt32 (wrapInt32 ((2 ^ 31 : Nat) : Int) +
        wrapInt32 ((0 + 1 + 1 + 1 + 1 : Nat) : Int)) ≤ 124 := by decide
    simp only [h1, if_true]
  · rw [List.length_append, List.length_replicate, hp]
    simp only [List.length_cons, List.length_nil]
    omega
  · rw [hp]
    decide

/-- The loop of `wordWrap` told that the input has 125 bytes, on an input without space that
has at least 125 bytes, for lines of 120 bytes: it writes the first 120 bytes and the 5 bytes
after them. -/
theorem wordWrapLoop_two_lines (input : List UInt8) (hno : ∀ i : Nat, input[i]? ≠ some 32)
    (hlen : 125 ≤ input.length) (fuel : Nat) :
    wordWrapLoop input 125 120 (fuel + 1 + 1) 0 =
      some [input.take 120, (input.drop 120).take 5] := by
  have e1 : wrapInt32 ((125 : Int) - 0) = 125 := by decide
  have e2 : wrapInt32 ((0 : Int) + 120) = 120 := by decide
  have e3 : wrapInt32 ((125 : Int) - 120) = 5 := by decide
  have e4 : wrapInt32 (-1) = -1 := by decide
  have hfind : find_last_of input 32 120 = -1 := by
    rcases find_last_of_range input 32 120 with ⟨h, -⟩ | ⟨j, -, -, hc, -, -⟩
    · exact h
    · exact absurd hc (hno j)
  have hs1 : substr input 0 120 = input.take 120 := by
    have := substr_natCast input 0 120 (Nat.zero_le _) (by omega)
    rw [List.drop_zero] at this
    exact this
  have hs2 : substr input 120 5 = (input.drop 120).take 5 :=
    substr_natCast input 120 5 (by omega) (by omega)
  unfold wordWrapLoop
  have c1 : ((0 : Int) < 125) := by decide
  have c2 : ¬ ((125 : Int) ≤ 120) := by decide
  simp only [c1, if_true, e1, c2, if_false, e2, hfind, e4, beq_self_eq_true, Bool.true_or,
    hs1]
  unfold wordWrapLoop
  have c3 : ((120 : Int) < 125) := by decide
  have c4 : ((5 : Int) ≤ 120) := by decide
  simp only [c3, if_true, e3, c4, hs2, Option.map_some']

/-- The lines of `wordWrap` for the prefix `/// ` on an input without space whose length is
2^32 + 125: the length converts to the `int` 125, and the loop writes the first 125 bytes
only. -/
theorem wordWrapLines_beyond_int (input : List UInt8) (hno : ∀ i : Nat, input[i]? ≠ some 32)
    (hlen : input.length = 2 ^ 32 + 125) :
    wordWrapLines input [47, 47, 47, 32] 124 =
      some [[47, 47, 47, 32] ++ input.take 120,
        [47, 47, 47, 32] ++ (input.drop 120).take 5] := by
  unfold wordWrapLines
  simp only [hlen, List.length_cons, List.length_nil]
  have hin : wrapInt32 ((2 ^ 32 + 125 : Nat) : Int) = 125 := by decide
  have hpre : wrapInt32 ((0 + 1 + 1 + 1 + 1 : Nat) : Int) = 4 := by decide
  have h1 : ¬ (wrapInt32 ((125 : Int) + 4) ≤ 124) := by decide
  have hline : wrapInt32 ((124 : Int) - 4) = 120 := by decide
  simp only [hin, hpre, h1, if_false, hline]
  rw [show (2 ^ 32 + 125 + 1 : Nat) = (2 ^ 32 + 124) + 1 + 1 from by omega,
    wordWrapLoop_two_lines input hno (by omega)]
  rfl

/-- C39, as stated, fails for an input whose length does not fit into an `int`: for an input
of 2^32 + 125 bytes `a` the length converts to 125, so the loop writes the first 125 bytes in
two lines and the rest of the input is lost. -/
theorem wordWrapLines_input_lost :
    stringBytes "/// " = [47, 47, 47, 32] ∧
    wordWrapLines (List.replicate (2 ^ 32 + 125) 97) [47, 47, 47, 32] 124 =
      some [[47, 47, 47, 32] ++ List.replicate 120 97,
        [47, 47, 47, 32] ++ List.replicate 5 97] ∧
    (List.replicate 120 (97 : UInt8) ++ List.replicate 5 97).length = 125 ∧
    (List.replicate (2 ^ 32 + 125) (97 : UInt8)).length = 2 ^ 32 + 125 := by
  refine ⟨by decide, ?_, by simp, List.length_replicate _ _⟩
  have hno : ∀ i : Nat, (List.replicate (2 ^ 32 + 125) (97 : UInt8))[i]? ≠ some 32 := by
    intro i h
    rw [List.getElem?_replicate] at h
    split at h
    · exact absurd (Option.some.inj h) (by decide)
    · exact Option.noConfusion h
  rw [wordWrapLines_beyond_int _ hno (List.length_replicate _ _)]
  have h1 : min 120 (2 ^ 32 + 125) = 120 := by omega
  have h2 : min 5 (2 ^ 32 + 125 - 120) = 5 := by omega
  simp only [List.take_replicate, List.drop_replicate, h1, h2]
set_option maxRecDepth 16384 in
/-- A run of `wordWrap` with a column length of 14: the space at index 10 is not below the
position 10 from which the first search starts, so the first line is cut after ten bytes and
the space opens the second line. -/
theorem wordWrapLines_sample :
    wordWrapLines (stringBytes "aaaaaaaaaa bbbbbbbbbbbbbbbbbbbbbbbb") (stringBytes "/// ") 14 =
      some [stringBytes "/// aaaaaaaaaa", stringBytes "///  bbbbbbbbb",
        stringBytes "/// bbbbbbbbbb", stringBytes "/// bbbbb"] := by
  decide

set_option maxRecDepth 16384 in
/-- A run of `wordWrap` on text that is not ASCII: one hundred letters `é` are two hundred
bytes, which do not fit into 124 columns, and the loop writes them in two lines of 120 and of
80 bytes. -/
theorem wordWrapLines_bytes :
    wordWrapLines (stringBytes (String.mk (List.replicate 100 'é'))) (stringBytes "/// ") 124 =
      some [stringBytes "/// " ++ stringBytes (String.mk (List.replicate 60 'é')),
        stringBytes "/// " ++ stringBytes (String.mk (List.replicate 40 'é'))] := by
  decide

set_option maxRecDepth 16384 in
theorem wordWrap_sample :
    wordWrap (stringBytes "a bb ccc") (stringBytes "// ") 6 =
      some (stringBytes "// a \n// bb \n// ccc\n") := by
  decide

/-- C38, amended: for every input and every line prefix shorter than 124 bytes whose lengths
together are below 2^31, `wordWrap` returns, and every line it writes, taken without its line
end, starts with the prefix and is at most 124 bytes long. The backward search for a space
from a position returns -1 or an index strictly below that position at which the input holds
a space. -/
theorem wordWrap_lines_within_column (input linePrefix : List UInt8)
    (hp : linePrefix.length < 124) (hfit : input.length + linePrefix.length < 2 ^ 31) :
    (∃ lines, wordWrapLines input linePrefix 124 = some lines ∧
      wordWrap input linePrefix 124 = some (lines.flatMap (fun line => line ++ [10])) ∧
      ∀ line ∈ lines, (∃ rest, line = linePrefix ++ rest) ∧ line.length ≤ 124) ∧
    ∀ position : Nat, find_last_of input 32 (position : Int) = -1 ∨
      ∃ j : Nat, j < position ∧ input[j]? = some 32 ∧
        find_last_of input 32 (position : Int) = (j : Int) := by
  constructor
  · obtain ⟨pieces, hlines, _, hlen, _, _⟩ := wordWrapLines_pieces input linePrefix hp hfit
    refine ⟨_, hlines, ?_, ?_⟩
    · unfold wordWrap
      rw [hlines]
      rfl
    · intro line hmem
      obtain ⟨p, hpmem, rfl⟩ := List.mem_map.1 hmem
      refine ⟨⟨p, rfl⟩, ?_⟩
      rw [List.length_append]
      exact hlen p hpmem
  · intro position
    rcases find_last_of_range input 32 position with ⟨h, _⟩ | ⟨j, hj, _, hc, hr, _⟩
    · exact Or.inl h
    · exact Or.inr ⟨j, hj, hc, hr⟩

set_option maxRecDepth 16384 in
theorem wordWrap_lines_within_column_witness :
    (stringBytes "/// ").length < 124 ∧
    (stringBytes longComment).length + (stringBytes "/// ").length < 2 ^ 31 ∧
    ((∃ lines, wordWrapLines (stringBytes longComment) (stringBytes "/// ") 124 = some lines ∧
      wordWrap (stringBytes longComment) (stringBytes "/// ") 124 =
        some (lines.flatMap (fun line => line ++ [10])) ∧
      ∀ line ∈ lines, (∃ rest, line = stringBytes "/// " ++ rest) ∧ line.length ≤ 124) ∧
    ∀ position : Nat, find_last_of (stringBytes longComment) 32 (position : Int) = -1 ∨
      ∃ j : Nat, j < position ∧ (stringBytes longComment)[j]? = some 32 ∧
        find_last_of (stringBytes longComment) 32 (position : Int) = (j : Int)) :=
  ⟨by decide, by decide,
    wordWrap_lines_within_column (stringBytes longComment) (stringBytes "/// ") (by decide)
      (by decide)⟩

/-- C39, amended: for every input and every line prefix shorter than 124 bytes whose lengths
together are below 2^31, `wordWrap` returns, and the lines it writes are the prefix followed
by pieces whose concatenation in order is the input. Every piece but the last ends in a
space, or fills its line and holds no space after its first byte. An input that fits in 124
columns together with the prefix is written as the single line of prefix and input. -/
theorem wordWrap_keeps_input (input linePrefix : List UInt8) (hp : linePrefix.length < 124)
    (hfit : input.length + linePrefix.length < 2 ^ 31) :
    ∃ pieces : List (List UInt8),
      wordWrapLines input linePrefix 124 = some (pieces.map (fun p => linePrefix ++ p)) ∧
      wordWrap input linePrefix 124 =
        some ((pieces.map (fun p => linePrefix ++ p ++ [10])).flatten) ∧
      pieces.flatten = input ∧
      (∀ p ∈ pieces.dropLast,
        p.getLast? = some 32 ∨
          (linePrefix.length + p.length = 124 ∧ (32 : UInt8) ∉ p.tail)) ∧
      (input.length + linePrefix.length ≤ 124 →
        pieces = [input] ∧ wordWrap input linePrefix 124 = some (linePrefix ++ input ++ [10])) := by
  obtain ⟨pieces, hlines, hjoin, _, hend, hfits⟩ :=
    wordWrapLines_pieces input linePrefix hp hfit
  have htext : wordWrap input linePrefix 124 =
      some ((pieces.map (fun p => linePrefix ++ p ++ [10])).flatten) := by
    unfold wordWrap
    rw [hlines]
    simp only [Option.map_some', List.flatMap, List.map_map]
    rfl
  refine ⟨pieces, hlines, htext, hjoin, hend, fun h => ?_⟩
  have hone := hfits h
  refine ⟨hone, ?_⟩
  rw [htext, hone]
  simp

set_option maxRecDepth 16384 in
theorem wordWrap_keeps_input_witness :
    (stringBytes "/// ").length < 124 ∧
    (stringBytes longComment).length + (stringBytes "/// ").length < 2 ^ 31 ∧
    ∃ pieces : List (List UInt8),
      wordWrapLines (stringBytes longComment) (stringBytes "/// ") 124 =
        some (pieces.map (fun p => stringBytes "/// " ++ p)) ∧
      wordWrap (stringBytes longComment) (stringBytes "/// ") 124 =
        some ((pieces.map (fun p => stringBytes "/// " ++ p ++ [10])).flatten) ∧
      pieces.flatten = stringBytes longComment ∧
      (∀ p ∈ pieces.dropLast,
        p.getLast? = some 32 ∨
          ((stringBytes "/// ").length + p.length = 124 ∧ (32 : UInt8) ∉ p.tail)) ∧
      ((stringBytes longComment).length + (stringBytes "/// ").length ≤ 124 →
        pieces = [stringBytes longComment] ∧
          wordWrap (stringBytes longComment) (stringBytes "/// ") 124 =
            some (stringBytes "/// " ++ stringBytes longComment ++ [10])) :=
  ⟨by decide, by decide,
    wordWrap_keeps_input (stringBytes longComment) (stringBytes "/// ") (by decide)
      (by decide)⟩

end BansheeSBGen
